import Mathlib

/-!
Tag store, device-definition loading and device models of go-opcua-sim.

Shallow embedding of `internal/plc/tag.go`, `internal/plc/tag_generator.go`,
`internal/plc/lua_engine.go`, `internal/config/config.go`, the device models of
`internal/sim/sensors` and the registry and manager of `internal/sim`, followed by the
properties proved about them.

Conventions of the embedding

* Go machine integers are mathematical integers carried together with their range
  (`GoInt32`, `GoInt`); a conversion that can overflow wraps explicitly.
* A `float64` is its IEEE-754 binary64 bit pattern (`GoFloat64`); the conversions the
  tag store performs on it (`float64(n)`, `int32(f)`, `f != 0`) are defined on the bits.
* A Go `string` is a Lean `String` (valid UTF-8, as every string decoded from the JSON
  configuration is); `len` is the UTF-8 byte size.
* `interface{}` is the sum type `GoValue`.
* A method that mutates its receiver returns the new receiver together with the error
  (`none` for Go's `nil` error).  `time.Now()` is an explicit argument.
* Mutexes are not modelled: every method is taken as one atomic step.  The goroutines of
  one tick of the sensor manager are independent up to their writes to the store; the order
  of these writes is a parameter of the tick (`sim.Tick`).
* The Lua script is a parameter: a call of one of its functions is the tree of the calls it
  makes of the functions the engine registers (`plc.Script`).
* The arithmetic of the device models is over a carrier with the operations of
  `Float64Arith`, of which nothing is assumed.  Numeric properties are proved for every
  carrier that satisfies the laws of `float64` they need (`Float64Arith.OrderLaws`,
  `Float64Arith.RoundingLaws`); these laws are proved for the reading of `float64` as
  IEEE 754 binary64 on bit patterns (`Float64Arith.ieee`), in which the models are
  evaluated on concrete inputs.  The formulas of the specification are compared with the
  code in the exact reading over an ordered field (`Float64Arith.exact`).  A generator of
  package `rand` is the sequence of its coming draws (`GoRand`); seeding is a parameter.
  A run-time panic is the result `none`.
* Behaviour that belongs to the Go toolchain and not to this repository
  (`fmt.Sprintf("%v", ·)`, the implementation-dependent result of an out-of-range
  `int32(f)`) is a parameter, collected in `GoEnv`.
-/

set_option autoImplicit false

/-! ## Go primitives -/

/-- Floor of the base-2 logarithm (0 for inputs below 2), by halving at most `fuel` times. -/
def floorLog2 : Nat → Nat → Nat
  | 0, _ => 0
  | fuel + 1, n => if n < 2 then 0 else floorLog2 fuel (n / 2) + 1

/-- Go `int32`: an integer in `[-2^31, 2^31)`. -/
structure GoInt32 where
  val : Int
  lo : -2147483648 ≤ val
  hi : val < 2147483648
deriving DecidableEq

/-- Go `int` (64-bit platforms): an integer in `[-2^63, 2^63)`. -/
structure GoInt where
  val : Int
  lo : -9223372036854775808 ≤ val
  hi : val < 9223372036854775808
deriving DecidableEq

/-- Two's-complement reduction of an integer to 32 bits: Go `int32(n)` for an integer `n`. -/
def GoInt32.wrap (n : Int) : GoInt32 :=
  ⟨(n + 2147483648) % 4294967296 - 2147483648, by omega, by omega⟩

/-- Two's-complement reduction of an integer to 64 bits. -/
def GoInt.wrap (n : Int) : GoInt :=
  ⟨(n + 9223372036854775808) % 18446744073709551616 - 9223372036854775808, by omega, by omega⟩

/-- Go `a + b` on two values of `int`: the sum, reduced to 64 bits. -/
def GoInt.add (a b : Int) : Int := (GoInt.wrap (a + b)).val

/-- Go `a - b` on two values of `int`: the difference, reduced to 64 bits. -/
def GoInt.sub (a b : Int) : Int := (GoInt.wrap (a - b)).val

/-- Go `float64`: an IEEE-754 binary64 bit pattern. -/
structure GoFloat64 where
  bits : Nat
  isLt : bits < 18446744073709551616
deriving DecidableEq

namespace GoFloat64

/-- The float with the given bit pattern (reduced to 64 bits). -/
def ofBits (b : Nat) : GoFloat64 :=
  ⟨b % 18446744073709551616, Nat.mod_lt _ (by decide)⟩

/-- Sign bit: 1 for negative. -/
def sign (f : GoFloat64) : Nat := f.bits / 2 ^ 63

/-- Biased exponent field (11 bits). -/
def expField (f : GoFloat64) : Nat := f.bits / 2 ^ 52 % 2 ^ 11

/-- Fraction field (52 bits). -/
def frac (f : GoFloat64) : Nat := f.bits % 2 ^ 52

/-- Neither an infinity nor a NaN. -/
def isFinite (f : GoFloat64) : Bool := f.expField != 2047

/-- Not a number. -/
def isNaN (f : GoFloat64) : Bool := f.expField == 2047 && f.frac != 0

/-- Integer significand `m` of a finite float, whose magnitude is `m * 2^(exponent - 1075)`. -/
def significand (f : GoFloat64) : Nat :=
  if f.expField = 0 then f.frac else 2 ^ 52 + f.frac

/-- Effective biased exponent of a finite float (subnormals share the exponent of field 1). -/
def exponent (f : GoFloat64) : Nat :=
  if f.expField = 0 then 1 else f.expField

/-- Go `f == 0`: true exactly for `+0` and `-0`. -/
def isZero (f : GoFloat64) : Bool := f.expField == 0 && f.frac == 0

/-- Magnitude of a finite float with the fraction discarded. -/
def truncMag (f : GoFloat64) : Nat :=
  if 1075 ≤ f.exponent then f.significand * 2 ^ (f.exponent - 1075)
  else f.significand / 2 ^ (1075 - f.exponent)

/-- A finite float truncated toward zero. -/
def trunc (f : GoFloat64) : Int :=
  if f.sign = 1 then -(f.truncMag : Int) else (f.truncMag : Int)

/-- The float is finite and its numeric value is exactly the integer `n`. -/
def EqualsInt (f : GoFloat64) (n : Int) : Prop :=
  f.isFinite = true ∧
    (if 1075 ≤ f.exponent then
       (if f.sign = 1 then -((f.significand * 2 ^ (f.exponent - 1075) : Nat) : Int)
        else ((f.significand * 2 ^ (f.exponent - 1075) : Nat) : Int)) = n
     else
       (if f.sign = 1 then -(f.significand : Int) else (f.significand : Int))
         = n * ((2 ^ (1075 - f.exponent) : Nat) : Int))

instance (f : GoFloat64) (n : Int) : Decidable (f.EqualsInt n) := by
  unfold EqualsInt; infer_instance

/-- Go `float64(n)` for an integer `n` with `|n| < 2^64`: the nearest binary64 value,
ties to the even significand.  A carry out of the rounded significand moves into the
exponent field by plain addition. -/
def ofInt (n : Int) : GoFloat64 :=
  let s := if n < 0 then 1 else 0
  let a := n.natAbs
  if a = 0 then ofBits 0
  else
    let e := floorLog2 64 a
    if e ≤ 52 then
      ofBits (s * 2 ^ 63 + (e + 1023) * 2 ^ 52 + (a * 2 ^ (52 - e) - 2 ^ 52))
    else
      let sh := e - 52
      let q := a / 2 ^ sh
      let r := a % 2 ^ sh
      let half := 2 ^ (sh - 1)
      let q1 := if half < r ∨ (r = half ∧ q % 2 = 1) then q + 1 else q
      ofBits (s * 2 ^ 63 + (e + 1023) * 2 ^ 52 + (q1 - 2 ^ 52))

/-- The truncation of the float is a value of `int32`. -/
def fitsInt32 (f : GoFloat64) : Prop :=
  f.isFinite = true ∧ -2147483648 ≤ f.trunc ∧ f.trunc < 2147483648

instance (f : GoFloat64) : Decidable f.fitsInt32 := by
  unfold fitsInt32; infer_instance

/-- The integer `t` is the numeric value of the finite float `f` with its fraction
discarded: `t` has the sign of `f` or is zero, and `|t| ≤ |f| < |t| + 1`. -/
def TruncatesTo (f : GoFloat64) (t : Int) : Prop :=
  (t < 0 → f.sign = 1) ∧ (0 < t → f.sign = 0) ∧
    (if 1075 ≤ f.exponent then t.natAbs = f.significand * 2 ^ (f.exponent - 1075)
     else t.natAbs * 2 ^ (1075 - f.exponent) ≤ f.significand ∧
       f.significand < (t.natAbs + 1) * 2 ^ (1075 - f.exponent))

instance (f : GoFloat64) (t : Int) : Decidable (f.TruncatesTo t) := by
  unfold TruncatesTo; infer_instance

/-- Go `int32(f)`: the fraction is discarded; when the result is not representable the
conversion still succeeds with an implementation-dependent `int32`, here `outOfRange f`. -/
def toInt32 (outOfRange : GoFloat64 → GoInt32) (f : GoFloat64) : GoInt32 :=
  if h : f.fitsInt32 then ⟨f.trunc, h.2.1, h.2.2⟩ else outOfRange f

end GoFloat64

/-- A Go `interface{}` value: the dynamic types the code distinguishes in its type
switches, the `nil` interface, and `other typ dat` for a value of any further dynamic type
`typ`. -/
inductive GoValue where
  | nil
  | float64 (v : GoFloat64)
  | int32 (v : GoInt32)
  | int (v : GoInt)
  | int64 (v : GoInt)
  | bool (v : Bool)
  | string (v : String)
  | other (typ : String) (dat : String)
deriving DecidableEq

/-- Behaviour of the Go toolchain the embedding takes as given. -/
structure GoEnv where
  /-- The result of `fmt.Sprintf("%v", v)`. -/
  sprintfV : GoValue → String
  /-- The result of `int32(f)` when the truncation of `f` is not an `int32`. -/
  cvtOutOfRange : GoFloat64 → GoInt32

/-- The float `+0.0`. -/
def GoFloat64.zero : GoFloat64 := GoFloat64.ofBits 0

/-- Equality of Go results `(value, error)` is decidable. -/
instance (ε α : Type) [DecidableEq ε] [DecidableEq α] : DecidableEq (Except ε α) :=
  fun a b =>
    match a, b with
    | Except.ok x, Except.ok y =>
      if h : x = y then isTrue (by rw [h]) else isFalse (fun e => h (Except.ok.inj e))
    | Except.error x, Except.error y =>
      if h : x = y then isTrue (by rw [h]) else isFalse (fun e => h (Except.error.inj e))
    | Except.ok _, Except.error _ => isFalse (fun e => Except.noConfusion e)
    | Except.error _, Except.ok _ => isFalse (fun e => Except.noConfusion e)

/-! ## Go maps keyed by strings -/

/-- Go: `m[k] = v` on the entry list of a map: overwrite the entry of `k`, or add one. -/
def putEntries {V : Type} (k : String) (v : V) : List (String × V) → List (String × V)
  | [] => [(k, v)]
  | (k1, v1) :: rest => if k1 = k then (k, v) :: rest else (k1, v1) :: putEntries k v rest

/-- Go: `v, exists := m[k]` on the entry list of a map. -/
def lookupEntries {V : Type} (k : String) : List (String × V) → Option V
  | [] => none
  | (k1, v1) :: rest => if k1 = k then some v1 else lookupEntries k rest

/-- Go `map[string]V`: a list of entries with pairwise distinct keys. -/
structure StrMap (V : Type) where
  entries : List (String × V)
  nodup : (entries.map Prod.fst).Nodup

namespace StrMap

variable {V : Type}

instance [DecidableEq V] : DecidableEq (StrMap V) := fun a b =>
  match a, b with
  | ⟨ea, _⟩, ⟨eb, _⟩ =>
    if h : ea = eb then isTrue (by subst h; rfl)
    else isFalse (fun e => h (congrArg StrMap.entries e))

/-- Go: `make(map[string]V)`. -/
def empty : StrMap V := ⟨[], List.nodup_nil⟩

/-- Go: `v, exists := m[k]`. -/
def get? (m : StrMap V) (k : String) : Option V := lookupEntries k m.entries

/-- Go: `m[k] = v`. -/
def put (m : StrMap V) (k : String) (v : V) : StrMap V :=
  ⟨putEntries k v m.entries, by
    have keys : ∀ l : List (String × V), (putEntries k v l).map Prod.fst =
        if k ∈ l.map Prod.fst then l.map Prod.fst else l.map Prod.fst ++ [k] := by
      intro l
      induction l with
      | nil => simp [putEntries]
      | cons p rest ih =>
        obtain ⟨k1, v1⟩ := p
        by_cases h : k1 = k
        · subst h; simp [putEntries]
        · have h2 : ¬ k = k1 := fun e => h e.symm
          simp only [putEntries, h, if_false, List.map_cons, ih, List.mem_cons, h2, false_or]
          split <;> simp
    rw [keys]
    split
    · exact m.nodup
    · rename_i hk
      exact List.Nodup.append m.nodup (List.nodup_singleton k) (by simpa using hk)⟩

/-- Go: `len(m)`. -/
def len (m : StrMap V) : Nat := m.entries.length

end StrMap

/-! ## internal/plc/tag.go -/

namespace plc

/-- Go: `time.Time`, as a count of clock units. -/
abbrev Time := Int

/-- Go: `type TagType int`. -/
abbrev TagType := Int

/-- Go: `TagTypeFloat64 TagType = iota`. -/
def TagTypeFloat64 : TagType := 0
/-- Go: `TagTypeInt32`. -/
def TagTypeInt32 : TagType := 1
/-- Go: `TagTypeBool`. -/
def TagTypeBool : TagType := 2
/-- Go: `TagTypeString`. -/
def TagTypeString : TagType := 3

/-- Go: `type Tag struct` (the mutex apart). -/
structure Tag where
  Name : String
  Typ : TagType
  Value : GoValue
  Address : String
  Description : String
  Quality : Bool
  Timestamp : Time
deriving DecidableEq

/-- The errors built with `fmt.Errorf` in the package, one constructor per message. -/
inductive TagError where
  /-- Message "tag %s: invalid type %T for Float64|Int32|Bool tag". -/
  | invalidType (tagName : String) (value : GoValue) (kind : TagType)
  /-- Message "tag '%s' already exists". -/
  | alreadyExists (name : String)
  /-- Message "tag '%s' not found". -/
  | notFound (name : String)
  /-- Message "failed to add tag '%s': %w". -/
  | failedToAdd (name : String) (cause : TagError)
deriving DecidableEq

/-- Go: `func NewTag(name, address, description string, tagType TagType) *Tag`. -/
def NewTag (name address description : String) (tagType : TagType) (now : Time) : Tag :=
  let defaultValue : GoValue :=
    if tagType = TagTypeFloat64 then GoValue.float64 GoFloat64.zero
    else if tagType = TagTypeInt32 then GoValue.int32 (GoInt32.wrap 0)
    else if tagType = TagTypeBool then GoValue.bool false
    else if tagType = TagTypeString then GoValue.string ""
    else GoValue.nil
  { Name := name, Typ := tagType, Value := defaultValue, Address := address,
    Description := description, Quality := true, Timestamp := now }

/-- Go: `func (t *Tag) GetValue() interface{}`. -/
def Tag.GetValue (t : Tag) : GoValue := t.Value

/-- Go: `func (t *Tag) SetValue(value interface{}) error`.  The result is the tag after the
call and the returned error. -/
def Tag.SetValue (env : GoEnv) (t : Tag) (value : GoValue) (now : Time) :
    Tag × Option TagError :=
  let assign (v : GoValue) : Tag × Option TagError :=
    ({ t with Value := v, Timestamp := now }, none)
  let reject : Tag × Option TagError :=
    (t, some (TagError.invalidType t.Name value t.Typ))
  if t.Typ = TagTypeFloat64 then
    match value with
    | GoValue.float64 v => assign (GoValue.float64 v)
    | GoValue.int v => assign (GoValue.float64 (GoFloat64.ofInt v.val))
    | GoValue.int32 v => assign (GoValue.float64 (GoFloat64.ofInt v.val))
    | _ => reject
  else if t.Typ = TagTypeInt32 then
    match value with
    | GoValue.int32 v => assign (GoValue.int32 v)
    | GoValue.int v => assign (GoValue.int32 (GoInt32.wrap v.val))
    | GoValue.float64 v => assign (GoValue.int32 (GoFloat64.toInt32 env.cvtOutOfRange v))
    | _ => reject
  else if t.Typ = TagTypeBool then
    match value with
    | GoValue.bool v => assign (GoValue.bool v)
    | GoValue.int v => assign (GoValue.bool (decide (v.val ≠ 0)))
    | GoValue.int32 v => assign (GoValue.bool (decide (v.val ≠ 0)))
    | GoValue.float64 v => assign (GoValue.bool (!v.isZero))
    | _ => reject
  else if t.Typ = TagTypeString then
    assign (GoValue.string (env.sprintfV value))
  else
    ({ t with Timestamp := now }, none)

/-- Go: `type TagManager struct`.  The map holds the tags themselves: a stored tag is
reached only through the map, so the pointer is replaced by its target. -/
structure TagManager where
  tags : StrMap Tag
deriving DecidableEq

/-- Go: `func NewTagManager() *TagManager`. -/
def NewTagManager : TagManager := { tags := StrMap.empty }

/-- Go: `func (tm *TagManager) AddTag(tag *Tag) error`. -/
def TagManager.AddTag (tm : TagManager) (tag : Tag) : TagManager × Option TagError :=
  match tm.tags.get? tag.Name with
  | some _ => (tm, some (TagError.alreadyExists tag.Name))
  | none => ({ tm with tags := tm.tags.put tag.Name tag }, none)

/-- Go: `func (tm *TagManager) GetTag(name string) (*Tag, error)`. -/
def TagManager.GetTag (tm : TagManager) (name : String) : Except TagError Tag :=
  match tm.tags.get? name with
  | none => Except.error (TagError.notFound name)
  | some tag => Except.ok tag

/-- Go: `func (tm *TagManager) TagExists(name string) bool`. -/
def TagManager.TagExists (tm : TagManager) (name : String) : Bool :=
  (tm.tags.get? name).isSome

/-- Go: `func (tm *TagManager) GetTagValue(name string) (interface{}, error)`. -/
def TagManager.GetTagValue (tm : TagManager) (name : String) : Except TagError GoValue :=
  match tm.GetTag name with
  | Except.error err => Except.error err
  | Except.ok tag => Except.ok tag.GetValue

/-- Go: `func (tm *TagManager) SetTagValue(name string, value interface{}) error`.  The
write goes to the tag the map holds under `name`. -/
def TagManager.SetTagValue (env : GoEnv) (tm : TagManager) (name : String) (value : GoValue)
    (now : Time) : TagManager × Option TagError :=
  match tm.GetTag name with
  | Except.error err => (tm, some err)
  | Except.ok tag =>
    let r := tag.SetValue env value now
    ({ tm with tags := tm.tags.put name r.1 }, r.2)

/-- Go: `func (tm *TagManager) GetTagCount() int`. -/
def TagManager.GetTagCount (tm : TagManager) : Nat := tm.tags.len

end plc

/-! ## internal/config/config.go -/

namespace config

/-- Go: `type SensorDefinition struct`. -/
structure SensorDefinition where
  Name : String
  Typ : String
  Enabled : Bool
  Address : String
  UpdateIntervalMs : GoInt
  Parameters : StrMap GoValue
  Description : String

/-- Go: `type SensorConfig struct`. -/
structure SensorConfig where
  Sensors : List SensorDefinition

/-- The errors `validateConfig` builds with `fmt.Errorf`, one constructor per message. -/
inductive ConfigError where
  /-- Message "no sensors defined in configuration". -/
  | noSensors
  /-- Message "sensor at index %d has empty name". -/
  | emptyName (index : Nat)
  /-- Message "sensor '%s' has empty type". -/
  | emptyType (name : String)
  /-- Message "sensor '%s' has empty address". -/
  | emptyAddress (name : String)
  /-- Message "sensor '%s' has invalid updateIntervalMs: %d". -/
  | invalidUpdateInterval (name : String) (ms : GoInt)
  /-- Message "duplicate sensor name: %s". -/
  | duplicateName (name : String)
  /-- Message "duplicate sensor address: %s (used by %s)". -/
  | duplicateAddress (address : String) (name : String)
  /-- Message "sensor '%s' has invalid address format: %s (...)". -/
  | invalidAddressFormat (name : String) (address : String)
deriving DecidableEq

/-- Go: `m[k]` on a `map[string]bool`: the zero value `false` for a missing key. -/
def boolAt (m : StrMap Bool) (k : String) : Bool := (m.get? k).getD false

/-- The `for i, sensor := range config.Sensors` loop of `validateConfig`, from index `i`
on, with the two maps as they stand. -/
def validateSensors : List SensorDefinition → Nat → StrMap Bool → StrMap Bool →
    Option ConfigError
  | [], _, _, _ => none
  | sensor :: rest, i, addressMap, nameMap =>
    if sensor.Name = "" then some (ConfigError.emptyName i)
    else if sensor.Typ = "" then some (ConfigError.emptyType sensor.Name)
    else if sensor.Address = "" then some (ConfigError.emptyAddress sensor.Name)
    else if sensor.UpdateIntervalMs.val ≤ 0 then
      some (ConfigError.invalidUpdateInterval sensor.Name sensor.UpdateIntervalMs)
    else if boolAt nameMap sensor.Name = true then
      some (ConfigError.duplicateName sensor.Name)
    else
      let nameMap1 := nameMap.put sensor.Name true
      if boolAt addressMap sensor.Address = true then
        some (ConfigError.duplicateAddress sensor.Address sensor.Name)
      else
        let addressMap1 := addressMap.put sensor.Address true
        if sensor.Address.utf8ByteSize < 4 ∨ sensor.Address.toList.head? ≠ some '%' then
          some (ConfigError.invalidAddressFormat sensor.Name sensor.Address)
        else validateSensors rest (i + 1) addressMap1 nameMap1

/-- Go: `func validateConfig(config *SensorConfig) error`. -/
def validateConfig (config : SensorConfig) : Option ConfigError :=
  if config.Sensors.length = 0 then some ConfigError.noSensors
  else validateSensors config.Sensors 0 StrMap.empty StrMap.empty

end config

/-! ## internal/plc/tag_generator.go -/

namespace plc

/-- Go: `strings.HasPrefix(s, prefix)`. -/
def HasPrefix (s pre : String) : Bool := pre.toList.isPrefixOf s.toList

/-- Go: `func determineTagType(address, sensorType string) TagType`. -/
def determineTagType (address sensorType : String) : TagType :=
  if HasPrefix address "%DF" = true then TagTypeFloat64
  else if HasPrefix address "%MW" = true then TagTypeBool
  else if HasPrefix address "%DW" = true then TagTypeInt32
  else if sensorType = "temperature" ∨ sensorType = "pressure" ∨ sensorType = "sine" ∨
      sensorType = "random" ∨ sensorType = "vibration" ∨ sensorType = "noise" then
    TagTypeFloat64
  else if sensorType = "stepmotor" ∨ sensorType = "servomotor" then TagTypeFloat64
  else if sensorType = "digital" ∨ sensorType = "relay" then TagTypeBool
  else if sensorType = "integer" then TagTypeInt32
  else TagTypeFloat64

/-- The `for _, sensor := range sensorDefs` loop of `GenerateTagsFromSensors`, from the
`i`-th definition on; `clock i` is the reading of `time.Now()` in the `i`-th `NewTag`. -/
def generateTags (clock : Nat → Time) : List config.SensorDefinition → Nat → TagManager →
    Except TagError TagManager
  | [], _, tagManager => Except.ok tagManager
  | sensor :: rest, i, tagManager =>
    let tagType := determineTagType sensor.Address sensor.Typ
    let tag := NewTag sensor.Name sensor.Address sensor.Description tagType (clock i)
    match tagManager.AddTag tag with
    | (_, some err) => Except.error (TagError.failedToAdd sensor.Name err)
    | (tagManager1, none) => generateTags clock rest (i + 1) tagManager1

/-- Go: `func GenerateTagsFromSensors(sensorDefs []config.SensorDefinition)
(*TagManager, error)` (the log line apart). -/
def GenerateTagsFromSensors (clock : Nat → Time)
    (sensorDefs : List config.SensorDefinition) : Except TagError TagManager :=
  generateTags clock sensorDefs 0 NewTagManager

end plc

/-- A sample of the toolchain parameters, for evaluating the model on concrete inputs:
`%v` of a string, boolean, integer and `nil` as Go prints them (floats and other types
are not reproduced), and the amd64 result `-2^31` of an out-of-range `int32(f)`. -/
def GoEnv.sample : GoEnv where
  sprintfV := fun v =>
    match v with
    | GoValue.nil => "<nil>"
    | GoValue.string s => s
    | GoValue.bool b => if b then "true" else "false"
    | GoValue.int n => toString n.val
    | GoValue.int32 n => toString n.val
    | GoValue.int64 n => toString n.val
    | GoValue.float64 _ => "?"
    | GoValue.other _ dat => dat
  cvtOutOfRange := fun _ => GoInt32.wrap (-2147483648)

/-! ## Vocabulary of the specification -/

namespace plc

/-- One of the four kinds of the data model: Float, Integer, Boolean, Text. -/
def validKind (kind : TagType) : Prop :=
  kind = TagTypeFloat64 ∨ kind = TagTypeInt32 ∨ kind = TagTypeBool ∨ kind = TagTypeString

instance (kind : TagType) : Decidable (validKind kind) := by
  unfold validKind; infer_instance

/-- The specification's acceptance table: Float accepts float64, int and int32; Integer
accepts int32, int and float64; Boolean accepts bool, int, int32 and float64; Text accepts
every value. -/
def accepts (kind : TagType) (v : GoValue) : Bool :=
  if kind = TagTypeFloat64 then
    match v with
    | GoValue.float64 _ => true
    | GoValue.int _ => true
    | GoValue.int32 _ => true
    | _ => false
  else if kind = TagTypeInt32 then
    match v with
    | GoValue.int32 _ => true
    | GoValue.int _ => true
    | GoValue.float64 _ => true
    | _ => false
  else if kind = TagTypeBool then
    match v with
    | GoValue.bool _ => true
    | GoValue.int _ => true
    | GoValue.int32 _ => true
    | GoValue.float64 _ => true
    | _ => false
  else if kind = TagTypeString then true
  else false

/-- The runtime type of a value matches a kind: float64 for Float, int32 for Integer,
bool for Boolean, string for Text. -/
def kindMatches (kind : TagType) (v : GoValue) : Bool :=
  match v with
  | GoValue.float64 _ => decide (kind = TagTypeFloat64)
  | GoValue.int32 _ => decide (kind = TagTypeInt32)
  | GoValue.bool _ => decide (kind = TagTypeBool)
  | GoValue.string _ => decide (kind = TagTypeString)
  | _ => false

/-- A sequence of `SetValue` calls on one tag, each with its value and the clock reading
at the call; the result is the tag after the last call. -/
def Tag.setValues (env : GoEnv) (t : Tag) : List (GoValue × Time) → Tag
  | [] => t
  | call :: rest => Tag.setValues env (t.SetValue env call.1 call.2).1 rest

/-- The coercion table of the specification, with the rule for an `int` written to a
Float tag left open (`intRule n g`: the float `g` is what the `int` `n` is mapped to).
`coerced intRule env kind v r` holds when `r` is what the table maps `v` to on a tag of kind
`kind`: a Float tag maps float64 to itself and int32 to the equal float64; an Integer tag
maps int32 to itself, int to the int32 congruent to it modulo `2^32`, and a float64 whose
truncation is an int32 to that truncation; a Boolean tag maps bool to itself and a number
to whether it differs from zero; a Text tag maps any value to its `%v` string. -/
def coerced (intRule : GoInt → GoFloat64 → Bool) (env : GoEnv) (kind : TagType)
    (v r : GoValue) : Bool :=
  if kind = TagTypeFloat64 then
    match v, r with
    | GoValue.float64 f, GoValue.float64 g => decide (g = f)
    | GoValue.int n, GoValue.float64 g => intRule n g
    | GoValue.int32 n, GoValue.float64 g => decide (g.EqualsInt n.val)
    | _, _ => false
  else if kind = TagTypeInt32 then
    match v, r with
    | GoValue.int32 n, GoValue.int32 m => decide (m = n)
    | GoValue.int n, GoValue.int32 m => decide ((m.val - n.val) % 4294967296 = 0)
    | GoValue.float64 f, GoValue.int32 m => decide (f.fitsInt32 → f.TruncatesTo m.val)
    | _, _ => false
  else if kind = TagTypeBool then
    match v, r with
    | GoValue.bool b, GoValue.bool c => decide (c = b)
    | GoValue.int n, GoValue.bool c => decide (c = true ↔ n.val ≠ 0)
    | GoValue.int32 n, GoValue.bool c => decide (c = true ↔ n.val ≠ 0)
    | GoValue.float64 f, GoValue.bool c => decide (c = true ↔ ¬ f.EqualsInt 0)
    | _, _ => false
  else if kind = TagTypeString then decide (r = GoValue.string (env.sprintfV v))
  else false

/-- The coercion table as the specification states it: an `int` written to a Float tag is
mapped to the float64 equal to it. -/
def coercedAsStated (env : GoEnv) (kind : TagType) (v r : GoValue) : Bool :=
  coerced (fun n g => decide (g.EqualsInt n.val)) env kind v r

/-- The coercion table as the code has it: an `int` written to a Float tag is mapped to
Go's `float64(n)`, which is equal to it when its magnitude is at most `2^53` and has in
every case an integer value within `|n| / 2^53` of it. -/
def coercedAsBuilt (env : GoEnv) (kind : TagType) (v r : GoValue) : Bool :=
  coerced (fun n g => decide (g = GoFloat64.ofInt n.val ∧
    (n.val.natAbs ≤ 9007199254740992 → g.EqualsInt n.val) ∧
    g.EqualsInt g.trunc ∧
    (g.trunc - n.val).natAbs * 9007199254740992 ≤ n.val.natAbs)) env kind v r

/-- The error is a not-found error. -/
def TagError.isNotFound : TagError → Bool
  | TagError.notFound _ => true
  | _ => false

/-- An operation on the tag store that can change it: `AddTag` or `SetTagValue`. -/
inductive StoreOp where
  | add (tag : Tag)
  | set (name : String) (value : GoValue) (now : Time)

/-- The store after one operation (the returned error is dropped). -/
def TagManager.step (env : GoEnv) (tm : TagManager) : StoreOp → TagManager
  | StoreOp.add tag => (tm.AddTag tag).1
  | StoreOp.set name value now => (tm.SetTagValue env name value now).1

/-- The store after a sequence of operations. -/
def TagManager.run (env : GoEnv) (tm : TagManager) : List StoreOp → TagManager
  | [] => tm
  | op :: rest => TagManager.run env (tm.step env op) rest

/-- The names of the tags a sequence of operations passes to `AddTag`. -/
def addedNames : List StoreOp → List String
  | [] => []
  | StoreOp.add tag :: rest => tag.Name :: addedNames rest
  | StoreOp.set _ _ _ :: rest => addedNames rest

/-- The address begins with one of the three prefixes `determineTagType` looks for. -/
def hasKindPrefix (address : String) : Prop :=
  HasPrefix address "%DF" = true ∨ HasPrefix address "%MW" = true ∨
    HasPrefix address "%DW" = true

instance (address : String) : Decidable (hasKindPrefix address) := by
  unfold hasKindPrefix; infer_instance

/-- The zero value of a kind: `0.0`, `int32(0)`, `false`, `""`. -/
def zeroValue (kind : TagType) : GoValue :=
  if kind = TagTypeFloat64 then GoValue.float64 (GoFloat64.ofBits 0)
  else if kind = TagTypeInt32 then GoValue.int32 ⟨0, by decide, by decide⟩
  else if kind = TagTypeBool then GoValue.bool false
  else if kind = TagTypeString then GoValue.string ""
  else GoValue.nil

end plc

/-! ## Go float64 arithmetic, durations and random generators

The device models compute on `float64`.  They are embedded over a carrier `F` with the
operations of `Float64Arith F`, about which the definitions assume nothing: `F` can be read
as the IEEE doubles with the operations of the target machine and of Go's `math` package.
`Float64Arith.exact` is the reading in exact arithmetic, over an ordered field, in which the
numeric properties are proved: rounding, infinities and NaN are outside it.  The `int`
values of the device models are integers without overflow. -/

/-- The operations on `float64` the device models use: `+ - * /`, negation, `<` and `≤`
(Go's `>` and `>=` are these with the sides exchanged), the value `lit q` of a decimal
literal, `float64(n)`, `int(f)`, the passage from and to the bit pattern of a tag value,
and the functions and the constant of package `math`. -/
class Float64Arith (F : Type) extends Add F, Sub F, Mul F, Div F, Neg F, LT F, LE F where
  decLt : ∀ a b : F, Decidable (a < b)
  decLe : ∀ a b : F, Decidable (a ≤ b)
  lit : ℚ → F
  ofInt : Int → F
  toInt : F → Int
  ofGo : GoFloat64 → F
  toGo : F → GoFloat64
  pi : F
  abs : F → F
  sqrt : F → F
  sin : F → F
  cos : F → F
  exp : F → F
  log : F → F
  log10 : F → F
  pow : F → F → F
  mod : F → F → F

instance Float64Arith.instDecLt (F : Type) [Float64Arith F] (a b : F) : Decidable (a < b) :=
  Float64Arith.decLt a b

instance Float64Arith.instDecLe (F : Type) [Float64Arith F] (a b : F) : Decidable (a ≤ b) :=
  Float64Arith.decLe a b

instance Float64Arith.instOfNat (F : Type) [Float64Arith F] (n : Nat) : OfNat F n :=
  ⟨Float64Arith.lit n⟩

instance Float64Arith.instOfScientific (F : Type) [Float64Arith F] : OfScientific F :=
  ⟨fun m s e => Float64Arith.lit (OfScientific.ofScientific m s e)⟩

/-- The functions of package `math` that have no closed form in an ordered field, for the
reading in exact arithmetic, and the rounding of a number to a `float64` bit pattern. -/
structure MathFns (α : Type) where
  pi : α
  sqrt : α → α
  sin : α → α
  cos : α → α
  exp : α → α
  log : α → α
  log10 : α → α
  pow : α → α → α
  toFloat64 : α → GoFloat64

/-- The integer part of a number, toward zero: Go `int(f)` in exact arithmetic, without
the 64-bit range of `int` (`GoFloat64.toInt` is the conversion of a `float64`). -/
def truncToInt {α : Type} [LinearOrderedField α] [FloorRing α] (x : α) : Int :=
  if 0 ≤ x then ⌊x⌋ else ⌈x⌉

/-- The rational value of a finite `float64` bit pattern (0 for an infinity or a NaN). -/
def GoFloat64.toRat (f : GoFloat64) : ℚ :=
  if f.isFinite = true then
    (if f.sign = 1 then -1 else 1) * (f.significand : ℚ) * (2 : ℚ) ^ ((f.exponent : Int) - 1075)
  else 0

/-- The reading of `float64` arithmetic in exact arithmetic over an ordered field:
`math.Mod x y` is `x - y * trunc (x / y)`, which has the sign of `x`.  It is the
arithmetic of the formulas of the specification: it has no rounding, no NaN and no
infinity, and a quotient by zero is zero.  The arithmetic of the code is
`Float64Arith.ieee`. -/
@[reducible] def Float64Arith.exact {α : Type} [LinearOrderedField α] [FloorRing α]
    (m : MathFns α) : Float64Arith α where
  decLt := fun _ _ => inferInstance
  decLe := fun _ _ => inferInstance
  lit := fun q => (q : α)
  ofInt := fun n => (n : α)
  toInt := truncToInt
  ofGo := fun f => (f.toRat : α)
  toGo := m.toFloat64
  pi := m.pi
  abs := fun x => |x|
  sqrt := m.sqrt
  sin := m.sin
  cos := m.cos
  exp := m.exp
  log := m.log
  log10 := m.log10
  pow := m.pow
  mod := fun x y => x - y * (truncToInt (x / y) : α)

/-- Go: `time.Duration`, a count of nanoseconds. -/
abbrev Duration := Int

/-- Go: `func (d Duration) Seconds() float64` of package `time`:
`float64(d / Second) + float64(d % Second) / 1e9`. -/
def Duration.Seconds {F : Type} [Float64Arith F] (d : Duration) : F :=
  Float64Arith.ofInt (Int.tdiv d 1000000000) + Float64Arith.ofInt (Int.tmod d 1000000000) / 1e9

/-- Go: `*rand.Rand`, as the sequence of the values its coming `Float64()` calls return. -/
structure GoRand (F : Type) where
  draws : Nat → F

/-- Go: `func (r *Rand) Float64() float64`: the next value, and the generator after it. -/
def GoRand.Float64 {F : Type} (r : GoRand F) : F × GoRand F :=
  (r.draws 0, { draws := fun i => r.draws (i + 1) })

/-! ## internal/sim/sensors -/

namespace sensors

/-- Go: `type BaseSensor struct` (the mutex apart). -/
structure BaseSensor (F : Type) where
  Name : String
  Address : String
  Enabled : Bool
  UpdateIntervalMs : GoInt
  Description : String
  ElapsedTime : F
deriving DecidableEq

/-- Go: `func (b *BaseSensor) GetName() string`. -/
def BaseSensor.GetName {F : Type} (b : BaseSensor F) : String := b.Name

/-- Go: `func (b *BaseSensor) GetAddress() string`. -/
def BaseSensor.GetAddress {F : Type} (b : BaseSensor F) : String := b.Address

/-- Go: `func (b *BaseSensor) IsEnabled() bool`. -/
def BaseSensor.IsEnabled {F : Type} (b : BaseSensor F) : Bool := b.Enabled

/-- Go: `func (b *BaseSensor) AddElapsedTime(deltaTime time.Duration)`. -/
def BaseSensor.AddElapsedTime {F : Type} [Float64Arith F] (b : BaseSensor F)
    (deltaTime : Duration) : BaseSensor F :=
  { b with ElapsedTime := b.ElapsedTime + Duration.Seconds deltaTime }

/-- Go: `func (b *BaseSensor) GetElapsedTime() float64`. -/
def BaseSensor.GetElapsedTime {F : Type} (b : BaseSensor F) : F := b.ElapsedTime

/-- Go: `func (b *BaseSensor) Reset()`. -/
def BaseSensor.Reset {F : Type} [Float64Arith F] (b : BaseSensor F) : BaseSensor F :=
  { b with ElapsedTime := 0 }

/-- Go: `func gaussianNoise(mean, stdDev float64) float64`, drawing from the generator
`g` of package `rand`; the result comes with the generator after the two draws. -/
def gaussianNoise {F : Type} [Float64Arith F] (mean stdDev : F) (g : GoRand F) : F × GoRand F :=
  let d1 := g.Float64
  let d2 := d1.2.Float64
  let u1 := if d1.1 < 1e-10 then 1e-10 else d1.1
  let u2 := d2.1
  let z0 := Float64Arith.sqrt (-2.0 * Float64Arith.log u1) *
    Float64Arith.cos (2.0 * Float64Arith.pi * u2)
  (mean + z0 * stdDev, d2.2)

/-! ### sine.go -/

/-- Go: `type SineSensor struct`. -/
structure SineSensor (F : Type) where
  BaseSensor : BaseSensor F
  Offset : F
  Amplitude : F
  Frequency : F
  Phase : F
deriving DecidableEq

/-- Go: `func NewSineSensor(...) *SineSensor`. -/
def NewSineSensor {F : Type} [Float64Arith F] (name address : String) (enabled : Bool)
    (updateIntervalMs : GoInt) (offset amplitude frequency phase : F)
    (description : String) : SineSensor F :=
  { BaseSensor := { Name := name, Address := address, Enabled := enabled,
                    UpdateIntervalMs := updateIntervalMs, Description := description,
                    ElapsedTime := 0 },
    Offset := offset, Amplitude := amplitude, Frequency := frequency, Phase := phase }

/-- Go: `func (s *SineSensor) Update(deltaTime time.Duration) float64`: the value returned
and the sensor after the call. -/
def SineSensor.Update {F : Type} [Float64Arith F] (s : SineSensor F) (deltaTime : Duration) :
    F × SineSensor F :=
  if !s.BaseSensor.IsEnabled then (s.Offset, s)
  else
    let s1 := { s with BaseSensor := s.BaseSensor.AddElapsedTime deltaTime }
    let elapsed := s1.BaseSensor.GetElapsedTime
    let value := s1.Offset + s1.Amplitude *
      Float64Arith.sin (2.0 * Float64Arith.pi * s1.Frequency * elapsed + s1.Phase)
    (value, s1)

/-- Go: `func (s *SineSensor) Reset()`. -/
def SineSensor.Reset {F : Type} [Float64Arith F] (s : SineSensor F) : SineSensor F :=
  { s with BaseSensor := s.BaseSensor.Reset }

/-! ### relay.go -/

/-- Go: `type RelayActuator struct`. -/
structure RelayActuator (F : Type) where
  BaseSensor : BaseSensor F
  DefaultState : Bool
  AutoToggle : Bool
  TogglePeriod : F
  CurrentState : Bool
  LastToggle : F
deriving DecidableEq

/-- Go: `func NewRelayActuator(...) *RelayActuator`. -/
def NewRelayActuator {F : Type} [Float64Arith F] (name address : String) (enabled : Bool)
    (updateIntervalMs : GoInt) (defaultState autoToggle : Bool) (togglePeriod : F)
    (description : String) : RelayActuator F :=
  { BaseSensor := { Name := name, Address := address, Enabled := enabled,
                    UpdateIntervalMs := updateIntervalMs, Description := description,
                    ElapsedTime := 0 },
    DefaultState := defaultState, AutoToggle := autoToggle, TogglePeriod := togglePeriod,
    CurrentState := defaultState, LastToggle := 0 }

/-- Go: `func (r *RelayActuator) Update(deltaTime time.Duration) float64`. -/
def RelayActuator.Update {F : Type} [Float64Arith F] (r : RelayActuator F)
    (deltaTime : Duration) : F × RelayActuator F :=
  if !r.BaseSensor.IsEnabled then (0.0, r)
  else
    let r1 := { r with BaseSensor := r.BaseSensor.AddElapsedTime deltaTime }
    let elapsed := r1.BaseSensor.GetElapsedTime
    let r2 :=
      if r1.AutoToggle = true ∧ r1.TogglePeriod > 0 then
        if elapsed - r1.LastToggle ≥ r1.TogglePeriod then
          { r1 with CurrentState := !r1.CurrentState, LastToggle := elapsed }
        else r1
      else r1
    if r2.CurrentState then (1.0, r2) else (0.0, r2)

/-- Go: `func (r *RelayActuator) SetState(state bool)`. -/
def RelayActuator.SetState {F : Type} (r : RelayActuator F) (state : Bool) : RelayActuator F :=
  { r with CurrentState := state }

/-- Go: `func (r *RelayActuator) Reset()`. -/
def RelayActuator.Reset {F : Type} [Float64Arith F] (r : RelayActuator F) : RelayActuator F :=
  { r with BaseSensor := r.BaseSensor.Reset, CurrentState := r.DefaultState, LastToggle := 0 }

/-! ### integer_actuator.go -/

/-- Go: `type IntegerActuator struct`. -/
structure IntegerActuator (F : Type) where
  BaseSensor : BaseSensor F
  MinValue : Int
  MaxValue : Int
  DefaultValue : Int
  AutoMode : Bool
  AutoPattern : String
  RampRate : F
  StepPeriod : F
  CurrentValue : Int
  TargetValue : Int
deriving DecidableEq

/-- Go: `func NewIntegerActuator(...) *IntegerActuator`. -/
def NewIntegerActuator {F : Type} [Float64Arith F] (name address : String) (enabled : Bool)
    (updateIntervalMs : GoInt) (minValue maxValue defaultValue : Int) (autoMode : Bool)
    (autoPattern : String) (rampRate stepPeriod : F) (description : String) :
    IntegerActuator F :=
  { BaseSensor := { Name := name, Address := address, Enabled := enabled,
                    UpdateIntervalMs := updateIntervalMs, Description := description,
                    ElapsedTime := 0 },
    MinValue := minValue, MaxValue := maxValue, DefaultValue := defaultValue,
    AutoMode := autoMode, AutoPattern := autoPattern, RampRate := rampRate,
    StepPeriod := stepPeriod, CurrentValue := defaultValue, TargetValue := defaultValue }

/-- The `if i.AutoMode { switch i.AutoPattern ... }` block of `IntegerActuator.Update`:
the current value it leaves, at elapsed time `elapsed`.  The sums and differences of
values of `int` are reduced to 64 bits (`GoInt.add`, `GoInt.sub`). -/
def IntegerActuator.autoValue {F : Type} [Float64Arith F] (i : IntegerActuator F)
    (elapsed : F) : Int :=
  if i.AutoMode then
    if i.AutoPattern = "ramp" then
      let rampPeriod : F := Float64Arith.ofInt (GoInt.sub i.MaxValue i.MinValue) / i.RampRate
      let totalPeriod := rampPeriod * 2
      let cycleTime := Float64Arith.mod elapsed totalPeriod
      if cycleTime < rampPeriod then
        let progress := cycleTime / rampPeriod
        GoInt.add i.MinValue
          (Float64Arith.toInt (Float64Arith.ofInt (GoInt.sub i.MaxValue i.MinValue) * progress))
      else
        let progress := (cycleTime - rampPeriod) / rampPeriod
        GoInt.sub i.MaxValue
          (Float64Arith.toInt (Float64Arith.ofInt (GoInt.sub i.MaxValue i.MinValue) * progress))
    else if i.AutoPattern = "sine" then
      let period := i.StepPeriod
      let midValue := Int.tdiv (GoInt.add i.MaxValue i.MinValue) 2
      let amplitude := Int.tdiv (GoInt.sub i.MaxValue i.MinValue) 2
      let value : F := Float64Arith.ofInt midValue + Float64Arith.ofInt amplitude *
        Float64Arith.sin (2.0 * Float64Arith.pi * elapsed / period)
      Float64Arith.toInt value
    else if i.AutoPattern = "step" then
      let cycleTime := Float64Arith.mod elapsed (i.StepPeriod * 2)
      if cycleTime < i.StepPeriod then i.MaxValue else i.MinValue
    else i.CurrentValue
  else i.CurrentValue

/-- Go: `func (i *IntegerActuator) Update(deltaTime time.Duration) float64`. -/
def IntegerActuator.Update {F : Type} [Float64Arith F] (i : IntegerActuator F)
    (deltaTime : Duration) : F × IntegerActuator F :=
  if !i.BaseSensor.IsEnabled then (Float64Arith.ofInt i.DefaultValue, i)
  else
    let i1 := { i with BaseSensor := i.BaseSensor.AddElapsedTime deltaTime }
    let elapsed := i1.BaseSensor.GetElapsedTime
    let i2 := { i1 with CurrentValue := i1.autoValue elapsed }
    let i3 := if i2.CurrentValue < i2.MinValue then { i2 with CurrentValue := i2.MinValue }
      else i2
    let i4 := if i3.CurrentValue > i3.MaxValue then { i3 with CurrentValue := i3.MaxValue }
      else i3
    (Float64Arith.ofInt i4.CurrentValue, i4)

/-- Go: `func (i *IntegerActuator) SetValue(value int)`. -/
def IntegerActuator.SetValue {F : Type} (i : IntegerActuator F) (value : Int) :
    IntegerActuator F :=
  let value1 := if value < i.MinValue then i.MinValue else value
  let value2 := if value1 > i.MaxValue then i.MaxValue else value1
  { i with CurrentValue := value2, TargetValue := value2 }

/-- Go: `func (i *IntegerActuator) Reset()`. -/
def IntegerActuator.Reset {F : Type} [Float64Arith F] (i : IntegerActuator F) :
    IntegerActuator F :=
  { i with BaseSensor := i.BaseSensor.Reset, CurrentValue := i.DefaultValue,
           TargetValue := i.DefaultValue }

/-! ### temperature.go -/

/-- Go: `type TemperatureSensor struct`. -/
structure TemperatureSensor (F : Type) where
  BaseSensor : BaseSensor F
  BaseTemp : F
  Amplitude : F
  Period : F
  NoiseStdDev : F
  MinValue : F
  MaxValue : F
  rng : GoRand F

/-- Go: `func NewTemperatureSensor(...) *TemperatureSensor`; `newRand seed` is
`rand.New(rand.NewSource(seed))` and `now` is the reading of `time.Now().UnixNano()`. -/
def NewTemperatureSensor {F : Type} [Float64Arith F] (newRand : Int → GoRand F) (now : Int)
    (name address : String) (enabled : Bool) (updateIntervalMs : GoInt)
    (baseTemp amplitude period noiseStdDev minValue maxValue : F) (description : String) :
    TemperatureSensor F :=
  { BaseSensor := { Name := name, Address := address, Enabled := enabled,
                    UpdateIntervalMs := updateIntervalMs, Description := description,
                    ElapsedTime := 0 },
    BaseTemp := baseTemp, Amplitude := amplitude, Period := period,
    NoiseStdDev := noiseStdDev, MinValue := minValue, MaxValue := maxValue,
    rng := newRand now }

/-- Go: `func (t *TemperatureSensor) generateGaussianNoise() float64`: the noise and the
sensor after the two draws. -/
def TemperatureSensor.generateGaussianNoise {F : Type} [Float64Arith F]
    (t : TemperatureSensor F) : F × TemperatureSensor F :=
  let d1 := t.rng.Float64
  let d2 := d1.2.Float64
  let u1 := if d1.1 < 1e-10 then 1e-10 else d1.1
  let u2 := d2.1
  let z0 := Float64Arith.sqrt (-2.0 * Float64Arith.log u1) *
    Float64Arith.cos (2.0 * Float64Arith.pi * u2)
  (z0 * t.NoiseStdDev, { t with rng := d2.2 })

/-- Go: `func (t *TemperatureSensor) Update(deltaTime time.Duration) float64`. -/
def TemperatureSensor.Update {F : Type} [Float64Arith F] (t : TemperatureSensor F)
    (deltaTime : Duration) : F × TemperatureSensor F :=
  if !t.BaseSensor.IsEnabled then (t.BaseTemp, t)
  else
    let t1 := { t with BaseSensor := t.BaseSensor.AddElapsedTime deltaTime }
    let elapsed := t1.BaseSensor.GetElapsedTime
    let angularFrequency := 2.0 * Float64Arith.pi / t1.Period
    let sineValue := Float64Arith.sin (angularFrequency * elapsed)
    let temperature := t1.BaseTemp + t1.Amplitude * sineValue
    let n := t1.generateGaussianNoise
    let t2 := n.2
    let temperature1 := temperature + n.1
    let temperature2 := if temperature1 < t2.MinValue then t2.MinValue else temperature1
    let temperature3 := if temperature2 > t2.MaxValue then t2.MaxValue else temperature2
    (temperature3, t2)

/-- Go: `func (t *TemperatureSensor) Reset()`. -/
def TemperatureSensor.Reset {F : Type} [Float64Arith F] (newRand : Int → GoRand F) (now : Int)
    (t : TemperatureSensor F) : TemperatureSensor F :=
  { t with BaseSensor := t.BaseSensor.Reset, rng := newRand now }

/-! ### pressure.go -/

/-- Go: `type PressureSensor struct`. -/
structure PressureSensor (F : Type) where
  BaseSensor : BaseSensor F
  MinPressure : F
  MaxPressure : F
  RampUpTime : F
  HoldTime : F
  RampDownTime : F
  NoiseStdDev : F
  CyclePeriod : F
  rng : GoRand F

/-- Go: `func NewPressureSensor(...) *PressureSensor`. -/
def NewPressureSensor {F : Type} [Float64Arith F] (newRand : Int → GoRand F) (now : Int)
    (name address : String) (enabled : Bool) (updateIntervalMs : GoInt)
    (minPressure maxPressure rampUpTime holdTime rampDownTime noiseStdDev : F)
    (description : String) : PressureSensor F :=
  { BaseSensor := { Name := name, Address := address, Enabled := enabled,
                    UpdateIntervalMs := updateIntervalMs, Description := description,
                    ElapsedTime := 0 },
    MinPressure := minPressure, MaxPressure := maxPressure, RampUpTime := rampUpTime,
    HoldTime := holdTime, RampDownTime := rampDownTime, NoiseStdDev := noiseStdDev,
    CyclePeriod := rampUpTime + holdTime + rampDownTime,
    rng := newRand now }

/-- Go: `func (p *PressureSensor) generateGaussianNoise() float64`. -/
def PressureSensor.generateGaussianNoise {F : Type} [Float64Arith F]
    (p : PressureSensor F) : F × PressureSensor F :=
  let d1 := p.rng.Float64
  let d2 := d1.2.Float64
  let u1 := if d1.1 < 1e-10 then 1e-10 else d1.1
  let u2 := d2.1
  let z0 := Float64Arith.sqrt (-2.0 * Float64Arith.log u1) *
    Float64Arith.cos (2.0 * Float64Arith.pi * u2)
  (z0 * p.NoiseStdDev, { p with rng := d2.2 })

/-- Go: `func (p *PressureSensor) Update(deltaTime time.Duration) float64`. -/
def PressureSensor.Update {F : Type} [Float64Arith F] (p : PressureSensor F)
    (deltaTime : Duration) : F × PressureSensor F :=
  if !p.BaseSensor.IsEnabled then (p.MinPressure, p)
  else
    let p1 := { p with BaseSensor := p.BaseSensor.AddElapsedTime deltaTime }
    let elapsed := p1.BaseSensor.GetElapsedTime
    let cycleTime := Float64Arith.mod elapsed p1.CyclePeriod
    let pressure : F :=
      if cycleTime < p1.RampUpTime then
        let progress := cycleTime / p1.RampUpTime
        p1.MinPressure + (p1.MaxPressure - p1.MinPressure) * progress
      else if cycleTime < p1.RampUpTime + p1.HoldTime then
        p1.MaxPressure
      else
        let rampDownStart := p1.RampUpTime + p1.HoldTime
        let timeInRampDown := cycleTime - rampDownStart
        let progress := timeInRampDown / p1.RampDownTime
        p1.MaxPressure - (p1.MaxPressure - p1.MinPressure) * progress
    let n := p1.generateGaussianNoise
    let p2 := n.2
    let pressure1 := pressure + n.1
    let pressure2 := if pressure1 < p2.MinPressure then p2.MinPressure else pressure1
    let pressure3 := if pressure2 > p2.MaxPressure then p2.MaxPressure else pressure2
    (pressure3, p2)

/-- Go: `func (p *PressureSensor) Reset()`. -/
def PressureSensor.Reset {F : Type} [Float64Arith F] (newRand : Int → GoRand F) (now : Int)
    (p : PressureSensor F) : PressureSensor F :=
  { p with BaseSensor := p.BaseSensor.Reset, rng := newRand now }

/-! ### random.go -/

/-- Go: `type RandomSensor struct`. -/
structure RandomSensor (F : Type) where
  BaseSensor : BaseSensor F
  MinValue : F
  MaxValue : F
  ChangeRate : F
  CurrentValue : F
  rng : GoRand F

/-- Go: `func NewRandomSensor(...) *RandomSensor`: the initial value is drawn from the new
generator, which the sensor keeps. -/
def NewRandomSensor {F : Type} [Float64Arith F] (newRand : Int → GoRand F) (now : Int)
    (name address : String) (enabled : Bool) (updateIntervalMs : GoInt)
    (minValue maxValue changeRate : F) (description : String) : RandomSensor F :=
  let rng := newRand now
  let d := rng.Float64
  let initialValue := minValue + d.1 * (maxValue - minValue)
  { BaseSensor := { Name := name, Address := address, Enabled := enabled,
                    UpdateIntervalMs := updateIntervalMs, Description := description,
                    ElapsedTime := 0 },
    MinValue := minValue, MaxValue := maxValue, ChangeRate := changeRate,
    CurrentValue := initialValue, rng := d.2 }

/-- Go: `func (r *RandomSensor) Update(deltaTime time.Duration) float64`. -/
def RandomSensor.Update {F : Type} [Float64Arith F] (r : RandomSensor F)
    (deltaTime : Duration) : F × RandomSensor F :=
  if !r.BaseSensor.IsEnabled then (r.CurrentValue, r)
  else
    let r1 := { r with BaseSensor := r.BaseSensor.AddElapsedTime deltaTime }
    let maxChange := r1.ChangeRate * Duration.Seconds deltaTime
    let d := r1.rng.Float64
    let change := (d.1 * 2.0 - 1.0) * maxChange
    let r2 := { r1 with rng := d.2, CurrentValue := r1.CurrentValue + change }
    let r3 := if r2.CurrentValue < r2.MinValue then { r2 with CurrentValue := r2.MinValue }
      else r2
    let r4 := if r3.CurrentValue > r3.MaxValue then { r3 with CurrentValue := r3.MaxValue }
      else r3
    (r4.CurrentValue, r4)

/-- Go: `func (r *RandomSensor) Reset()`: the new current value is drawn from the
generator the sensor has, and then the generator is replaced. -/
def RandomSensor.Reset {F : Type} [Float64Arith F] (newRand : Int → GoRand F) (now : Int)
    (r : RandomSensor F) : RandomSensor F :=
  let r1 := { r with BaseSensor := r.BaseSensor.Reset }
  let d := r1.rng.Float64
  let r2 := { r1 with rng := d.2,
                      CurrentValue := r1.MinValue + d.1 * (r1.MaxValue - r1.MinValue) }
  { r2 with rng := newRand now }

/-! ### digital.go -/

/-- Go: `type DigitalSensor struct`. -/
structure DigitalSensor (F : Type) where
  BaseSensor : BaseSensor F
  Pattern : String
  TogglePeriod : F
  PulseWidth : F
  PulsePeriod : F
  RandomProb : F
  AlarmThreshold : F
  CurrentState : Bool
  LastToggle : F
  rng : GoRand F

/-- Go: `func NewDigitalSensor(...) *DigitalSensor`; `AlarmThreshold` is left at its zero
value. -/
def NewDigitalSensor {F : Type} [Float64Arith F] (newRand : Int → GoRand F) (now : Int)
    (name address : String) (enabled : Bool) (updateIntervalMs : GoInt) (pattern : String)
    (togglePeriod pulseWidth pulsePeriod randomProb : F) (description : String) :
    DigitalSensor F :=
  { BaseSensor := { Name := name, Address := address, Enabled := enabled,
                    UpdateIntervalMs := updateIntervalMs, Description := description,
                    ElapsedTime := 0 },
    Pattern := pattern, TogglePeriod := togglePeriod, PulseWidth := pulseWidth,
    PulsePeriod := pulsePeriod, RandomProb := randomProb, AlarmThreshold := 0,
    CurrentState := false, LastToggle := 0, rng := newRand now }

/-- Go: `func (d *DigitalSensor) Update(deltaTime time.Duration) float64`. -/
def DigitalSensor.Update {F : Type} [Float64Arith F] (d : DigitalSensor F)
    (deltaTime : Duration) : F × DigitalSensor F :=
  if !d.BaseSensor.IsEnabled then (0.0, d)
  else
    let d1 := { d with BaseSensor := d.BaseSensor.AddElapsedTime deltaTime }
    let elapsed := d1.BaseSensor.GetElapsedTime
    let d2 :=
      if d1.Pattern = "toggle" then
        if elapsed - d1.LastToggle ≥ d1.TogglePeriod then
          { d1 with CurrentState := !d1.CurrentState, LastToggle := elapsed }
        else d1
      else if d1.Pattern = "pulse" then
        let cycleTime := Float64Arith.mod elapsed d1.PulsePeriod
        { d1 with CurrentState := decide (cycleTime < d1.PulseWidth) }
      else if d1.Pattern = "random" then
        let u := d1.rng.Float64
        { d1 with rng := u.2, CurrentState := decide (u.1 < d1.RandomProb) }
      else if d1.Pattern = "alarm" then
        let cycleTime := Float64Arith.mod elapsed 1.0
        { d1 with CurrentState := decide (cycleTime < 0.5) }
      else
        { d1 with CurrentState := false }
    if d2.CurrentState then (1.0, d2) else (0.0, d2)

/-- Go: `func (d *DigitalSensor) Reset()`. -/
def DigitalSensor.Reset {F : Type} [Float64Arith F] (newRand : Int → GoRand F) (now : Int)
    (d : DigitalSensor F) : DigitalSensor F :=
  { d with BaseSensor := d.BaseSensor.Reset, CurrentState := false, LastToggle := 0,
           rng := newRand now }

/-! ### vibration.go -/

/-- Go: `type VibrationSensor struct`. -/
structure VibrationSensor (F : Type) where
  BaseSensor : BaseSensor F
  BaseLevel : F
  Amplitude : F
  Frequency : F
  Harmonics : Int
  SpikeProb : F
  SpikeAmp : F
  NoiseStdDev : F
  MinValue : F
  MaxValue : F
  lastSpikeTime : F
  spikeDecay : F
deriving DecidableEq

/-- Go: `func NewVibrationSensor(...) *VibrationSensor`. -/
def NewVibrationSensor {F : Type} [Float64Arith F] (name address : String) (enabled : Bool)
    (updateIntervalMs : GoInt) (baseLevel amplitude frequency : F) (harmonics : Int)
    (spikeProb spikeAmp noiseStdDev minValue maxValue : F) (description : String) :
    VibrationSensor F :=
  { BaseSensor := { Name := name, Address := address, Enabled := enabled,
                    UpdateIntervalMs := updateIntervalMs, Description := description,
                    ElapsedTime := 0 },
    BaseLevel := baseLevel, Amplitude := amplitude, Frequency := frequency,
    Harmonics := harmonics, SpikeProb := spikeProb, SpikeAmp := spikeAmp,
    NoiseStdDev := noiseStdDev, MinValue := minValue, MaxValue := maxValue,
    lastSpikeTime := 0, spikeDecay := 0 }

/-- The loop `for i := 1; i <= v.Harmonics; i++` of `VibrationSensor.Update`, started
from `vibration`. -/
def VibrationSensor.addHarmonics {F : Type} [Float64Arith F] (v : VibrationSensor F)
    (elapsed vibration : F) : F :=
  (List.range v.Harmonics.toNat).foldl
    (fun vib k =>
      let i : Int := (k : Int) + 1
      let harmonicFreq := v.Frequency * Float64Arith.ofInt i
      let harmonicAmp := v.Amplitude / Float64Arith.ofInt i
      vib + harmonicAmp * Float64Arith.sin (2.0 * Float64Arith.pi * harmonicFreq * elapsed))
    vibration

/-- Go: `func (v *VibrationSensor) Update(deltaTime time.Duration) float64`, with the
generator `g` of package `rand`: the value, the sensor and the generator after the call. -/
def VibrationSensor.Update {F : Type} [Float64Arith F] (v : VibrationSensor F)
    (deltaTime : Duration) (g : GoRand F) : F × VibrationSensor F × GoRand F :=
  if !v.BaseSensor.IsEnabled then (0.0, v, g)
  else
    let v1 := { v with BaseSensor := v.BaseSensor.AddElapsedTime deltaTime }
    let elapsed := v1.BaseSensor.GetElapsedTime
    let vibration := v1.addHarmonics elapsed v1.BaseLevel
    let u := g.Float64
    let v2 := if u.1 < v1.SpikeProb then
        { v1 with lastSpikeTime := elapsed, spikeDecay := v1.SpikeAmp }
      else v1
    let timeSinceSpike := elapsed - v2.lastSpikeTime
    let v3 := if v2.spikeDecay > 0.01 then
        { v2 with spikeDecay := v2.SpikeAmp * Float64Arith.exp (-timeSinceSpike * 5.0) }
      else v2
    let vibration1 := if v2.spikeDecay > 0.01 then vibration + v3.spikeDecay else vibration
    let n := gaussianNoise 0 v3.NoiseStdDev u.2
    let vibration2 := if v3.NoiseStdDev > 0 then vibration1 + n.1 else vibration1
    let g1 := if v3.NoiseStdDev > 0 then n.2 else u.2
    let vibration3 := if vibration2 < 0 then 0 else vibration2
    let vibration4 := if vibration3 < v3.MinValue then v3.MinValue else vibration3
    let vibration5 := if vibration4 > v3.MaxValue then v3.MaxValue else vibration4
    (vibration5, v3, g1)

/-- Go: `func (v *VibrationSensor) Reset()`. -/
def VibrationSensor.Reset {F : Type} [Float64Arith F] (v : VibrationSensor F) :
    VibrationSensor F :=
  { v with BaseSensor := v.BaseSensor.Reset, lastSpikeTime := 0, spikeDecay := 0 }

/-! ### noise.go -/

/-- Go: `type NoiseSensor struct`. -/
structure NoiseSensor (F : Type) where
  BaseSensor : BaseSensor F
  AmbientLevel : F
  PeakLevel : F
  CyclePeriod : F
  DutyCycle : F
  NoiseStdDev : F
  SpikeProb : F
  SpikeLevel : F
  MinValue : F
  MaxValue : F
  lastSpikeTime : F
  spikeActive : Bool
deriving DecidableEq

/-- Go: `func NewNoiseSensor(...) *NoiseSensor`. -/
def NewNoiseSensor {F : Type} [Float64Arith F] (name address : String) (enabled : Bool)
    (updateIntervalMs : GoInt) (ambientLevel peakLevel cyclePeriod dutyCycle noiseStdDev
      spikeProb spikeLevel minValue maxValue : F) (description : String) : NoiseSensor F :=
  { BaseSensor := { Name := name, Address := address, Enabled := enabled,
                    UpdateIntervalMs := updateIntervalMs, Description := description,
                    ElapsedTime := 0 },
    AmbientLevel := ambientLevel, PeakLevel := peakLevel, CyclePeriod := cyclePeriod,
    DutyCycle := dutyCycle, NoiseStdDev := noiseStdDev, SpikeProb := spikeProb,
    SpikeLevel := spikeLevel, MinValue := minValue, MaxValue := maxValue,
    lastSpikeTime := 0, spikeActive := false }

/-- Go: `func (n *NoiseSensor) Update(deltaTime time.Duration) float64`, with the
generator `g` of package `rand`. -/
def NoiseSensor.Update {F : Type} [Float64Arith F] (n : NoiseSensor F)
    (deltaTime : Duration) (g : GoRand F) : F × NoiseSensor F × GoRand F :=
  if !n.BaseSensor.IsEnabled then (n.AmbientLevel, n, g)
  else
    let n1 := { n with BaseSensor := n.BaseSensor.AddElapsedTime deltaTime }
    let elapsed := n1.BaseSensor.GetElapsedTime
    let cyclePosition := Float64Arith.mod elapsed n1.CyclePeriod / n1.CyclePeriod
    let baseNoise : F :=
      if cyclePosition < n1.DutyCycle then
        let progress := cyclePosition / n1.DutyCycle
        let transitionFactor := (1.0 - Float64Arith.cos (progress * Float64Arith.pi)) / 2.0
        n1.AmbientLevel + (n1.PeakLevel - n1.AmbientLevel) * transitionFactor
      else
        let progress := (cyclePosition - n1.DutyCycle) / (1.0 - n1.DutyCycle)
        let transitionFactor := (1.0 - Float64Arith.cos (progress * Float64Arith.pi)) / 2.0
        n1.PeakLevel - (n1.PeakLevel - n1.AmbientLevel) * transitionFactor
    let u := g.Float64
    let n2 := if u.1 < n1.SpikeProb then
        { n1 with lastSpikeTime := elapsed, spikeActive := true }
      else n1
    let timeSinceSpike := elapsed - n2.lastSpikeTime
    let n3 := if n2.spikeActive = true ∧ ¬ (timeSinceSpike < 0.3) then
        { n2 with spikeActive := false }
      else n2
    let baseNoise1 : F :=
      if n2.spikeActive = true ∧ timeSinceSpike < 0.3 then
        let spikeDecay := Float64Arith.exp (-timeSinceSpike * 10.0)
        let spikeContribution := n2.SpikeLevel * spikeDecay
        10.0 * Float64Arith.log10 (Float64Arith.pow 10.0 (baseNoise / 10.0) +
          Float64Arith.pow 10.0 (spikeContribution / 10.0))
      else baseNoise
    let z := gaussianNoise 0 n3.NoiseStdDev u.2
    let baseNoise2 := if n3.NoiseStdDev > 0 then baseNoise1 + z.1 else baseNoise1
    let g1 := if n3.NoiseStdDev > 0 then z.2 else u.2
    let baseNoise3 := if baseNoise2 < n3.MinValue then n3.MinValue else baseNoise2
    let baseNoise4 := if baseNoise3 > n3.MaxValue then n3.MaxValue else baseNoise3
    (baseNoise4, n3, g1)

/-- Go: `func (n *NoiseSensor) Reset()`. -/
def NoiseSensor.Reset {F : Type} [Float64Arith F] (n : NoiseSensor F) : NoiseSensor F :=
  { n with BaseSensor := n.BaseSensor.Reset, lastSpikeTime := 0, spikeActive := false }

/-! ### step_motor.go -/

/-- Go: `xs[i]` on a slice: `none` stands for the run-time panic of an index out of
range. -/
def sliceAt {F : Type} (xs : List F) (i : Int) : Option F :=
  if i < 0 then none else xs.get? i.toNat

/-- Go: `type StepMotor struct`.  The field `Enabled` of the motor hides the field of the
same name of the embedded `BaseSensor`; the method `IsEnabled`, promoted from
`BaseSensor`, reads the hidden one. -/
structure StepMotor (F : Type) where
  BaseSensor : BaseSensor F
  MaxSpeed : F
  Acceleration : F
  StepsPerRev : Int
  CurrentPosition : F
  CurrentVelocity : F
  TargetPosition : F
  AutoMode : Bool
  AutoPattern : String
  AutoPeriod : F
  Enabled : Bool
deriving DecidableEq

/-- Go: `func NewStepMotor(...) *StepMotor`; the field `Enabled` of the motor is left at
its zero value. -/
def NewStepMotor {F : Type} [Float64Arith F] (name address : String) (enabled : Bool)
    (updateIntervalMs : GoInt) (maxSpeed acceleration : F) (stepsPerRev : Int)
    (autoMode : Bool) (autoPattern : String) (autoPeriod : F) (description : String) :
    StepMotor F :=
  { BaseSensor := { Name := name, Address := address, Enabled := enabled,
                    UpdateIntervalMs := updateIntervalMs, Description := description,
                    ElapsedTime := 0 },
    MaxSpeed := maxSpeed, Acceleration := acceleration, StepsPerRev := stepsPerRev,
    CurrentPosition := 0, CurrentVelocity := 0, TargetPosition := 0,
    AutoMode := autoMode, AutoPattern := autoPattern, AutoPeriod := autoPeriod,
    Enabled := false }

/-- The `if s.AutoMode { switch s.AutoPattern ... }` block of `StepMotor.Update`: the
target position it leaves at elapsed time `elapsed`, or `none` when the table lookup of the
"step" pattern panics. -/
def StepMotor.autoTarget {F : Type} [Float64Arith F] (s : StepMotor F) (elapsed : F) :
    Option F :=
  if s.AutoMode then
    if s.AutoPattern = "oscillate" then
      let progress := Float64Arith.mod elapsed s.AutoPeriod / s.AutoPeriod
      if progress < 0.5 then
        some (Float64Arith.ofInt s.StepsPerRev * (progress * 2.0))
      else
        some (Float64Arith.ofInt s.StepsPerRev * (2.0 - progress * 2.0))
    else if s.AutoPattern = "rotate" then
      let rotationsPerSec : F := 1.0 / s.AutoPeriod
      some (rotationsPerSec * Float64Arith.ofInt s.StepsPerRev * elapsed)
    else if s.AutoPattern = "step" then
      let stepIndex := Int.tmod (Float64Arith.toInt (elapsed / s.AutoPeriod)) 4
      let positions : List F := [0, Float64Arith.ofInt s.StepsPerRev / 4,
        Float64Arith.ofInt s.StepsPerRev / 2, Float64Arith.ofInt s.StepsPerRev * 3 / 4]
      sliceAt positions stepIndex
    else some s.TargetPosition
  else some s.TargetPosition

/-- The block "Calculate desired velocity using trapezoidal profile" of
`StepMotor.Update`. -/
def StepMotor.desiredVelocity {F : Type} [Float64Arith F] (s : StepMotor F) : F :=
  let posError := s.TargetPosition - s.CurrentPosition
  if Float64Arith.abs posError < 0.01 then 0
  else
    let direction : F := if posError < 0 then -1.0 else 1.0
    let decelDist := (s.CurrentVelocity * s.CurrentVelocity) / (2.0 * s.Acceleration)
    if Float64Arith.abs posError ≤ decelDist then
      direction * Float64Arith.sqrt (2.0 * s.Acceleration * Float64Arith.abs posError)
    else
      direction * s.MaxSpeed

/-- The block "Update velocity with acceleration limit" of `StepMotor.Update`. -/
def StepMotor.updateVelocity {F : Type} [Float64Arith F] (s : StepMotor F) (dt : F) :
    StepMotor F :=
  let desiredVelocity := s.desiredVelocity
  let velError := desiredVelocity - s.CurrentVelocity
  let maxVelChange := s.Acceleration * dt
  if Float64Arith.abs velError ≤ maxVelChange then
    { s with CurrentVelocity := desiredVelocity }
  else if velError > 0 then
    { s with CurrentVelocity := s.CurrentVelocity + maxVelChange }
  else
    { s with CurrentVelocity := s.CurrentVelocity - maxVelChange }

/-- The block "Clamp velocity to max speed" of `StepMotor.Update`. -/
def StepMotor.clampVelocity {F : Type} [Float64Arith F] (s : StepMotor F) : StepMotor F :=
  if s.CurrentVelocity > s.MaxSpeed then { s with CurrentVelocity := s.MaxSpeed }
  else if s.CurrentVelocity < -s.MaxSpeed then { s with CurrentVelocity := -s.MaxSpeed }
  else s

/-- The blocks "Update position" and "Wrap position for continuous rotation mode" of
`StepMotor.Update`. -/
def StepMotor.updatePosition {F : Type} [Float64Arith F] (s : StepMotor F) (dt : F) :
    StepMotor F :=
  let s1 := { s with CurrentPosition := s.CurrentPosition + s.CurrentVelocity * dt }
  if s1.AutoPattern = "rotate" then
    let wrapped := Float64Arith.mod s1.CurrentPosition (Float64Arith.ofInt s1.StepsPerRev)
    let s2 := { s1 with CurrentPosition := wrapped }
    if s2.CurrentPosition < 0 then
      { s2 with CurrentPosition := s2.CurrentPosition + Float64Arith.ofInt s2.StepsPerRev }
    else s2
  else s1

/-- The part of `StepMotor.Update` after the target position is set: the velocity and
position step over `dt` seconds, block by block. -/
def StepMotor.move {F : Type} [Float64Arith F] (s : StepMotor F) (dt : F) : StepMotor F :=
  ((s.updateVelocity dt).clampVelocity).updatePosition dt

/-- Go: `func (s *StepMotor) Update(deltaTime time.Duration) float64`: the value returned
and the motor after the call, or `none` when the call panics. -/
def StepMotor.Update {F : Type} [Float64Arith F] (s : StepMotor F) (deltaTime : Duration) :
    Option (F × StepMotor F) :=
  if !s.BaseSensor.IsEnabled then
    let s1 := { s with CurrentVelocity := 0 }
    some (s1.CurrentPosition, s1)
  else
    let s1 := { s with BaseSensor := s.BaseSensor.AddElapsedTime deltaTime }
    let elapsed := s1.BaseSensor.GetElapsedTime
    let dt : F := Duration.Seconds deltaTime
    match s1.autoTarget elapsed with
    | none => none
    | some target =>
      let s2 := ({ s1 with TargetPosition := target }).move dt
      some (s2.CurrentPosition, s2)

/-- Go: `func (s *StepMotor) GetVelocity() float64`. -/
def StepMotor.GetVelocity {F : Type} (s : StepMotor F) : F := s.CurrentVelocity

/-- Go: `func (s *StepMotor) SetTargetPosition(position float64)`. -/
def StepMotor.SetTargetPosition {F : Type} (s : StepMotor F) (position : F) : StepMotor F :=
  { s with TargetPosition := position }

/-- Go: `func (s *StepMotor) SetEnabled(enabled bool)`. -/
def StepMotor.SetEnabled {F : Type} (s : StepMotor F) (enabled : Bool) : StepMotor F :=
  { s with Enabled := enabled }

/-- Go: `func (s *StepMotor) Reset()`. -/
def StepMotor.Reset {F : Type} [Float64Arith F] (s : StepMotor F) : StepMotor F :=
  { s with BaseSensor := s.BaseSensor.Reset, CurrentPosition := 0, CurrentVelocity := 0,
           TargetPosition := 0 }

/-! ### servo_motor.go -/

/-- Go: `type ServoMotor struct`.  As in `StepMotor`, the field `Enabled` of the motor
hides the one of the embedded `BaseSensor`, which `IsEnabled` reads. -/
structure ServoMotor (F : Type) where
  BaseSensor : BaseSensor F
  MaxVelocity : F
  MaxTorque : F
  Inertia : F
  Damping : F
  CurrentPosition : F
  CurrentVelocity : F
  CurrentTorque : F
  TargetVelocity : F
  LoadTorque : F
  OutputMode : String
  AutoMode : Bool
  AutoPattern : String
  AutoPeriod : F
  Enabled : Bool
  Kp : F
  Ki : F
  Kd : F
  integralError : F
  lastError : F
deriving DecidableEq

/-- Go: `func NewServoMotor(...) *ServoMotor`. -/
def NewServoMotor {F : Type} [Float64Arith F] (name address : String) (enabled : Bool)
    (updateIntervalMs : GoInt) (maxVelocity maxTorque inertia damping : F)
    (outputMode : String) (autoMode : Bool) (autoPattern : String) (autoPeriod : F)
    (kp ki kd : F) (description : String) : ServoMotor F :=
  { BaseSensor := { Name := name, Address := address, Enabled := enabled,
                    UpdateIntervalMs := updateIntervalMs, Description := description,
                    ElapsedTime := 0 },
    MaxVelocity := maxVelocity, MaxTorque := maxTorque, Inertia := inertia,
    Damping := damping, CurrentPosition := 0, CurrentVelocity := 0, CurrentTorque := 0,
    TargetVelocity := 0, LoadTorque := 0, OutputMode := outputMode, AutoMode := autoMode,
    AutoPattern := autoPattern, AutoPeriod := autoPeriod, Enabled := false,
    Kp := kp, Ki := ki, Kd := kd, integralError := 0, lastError := 0 }

/-- Go: `func (s *ServoMotor) ApplyDynamics(dt float64)`. -/
def ServoMotor.ApplyDynamics {F : Type} [Float64Arith F] (s : ServoMotor F) (dt : F) :
    ServoMotor F :=
  let netTorque := s.CurrentTorque - s.LoadTorque - s.Damping * s.CurrentVelocity
  let omegaRadPerSec := s.CurrentVelocity * 2.0 * Float64Arith.pi / 60.0
  let s1 : ServoMotor F :=
    if s.Inertia > 0 then
      let angularAccel := netTorque / s.Inertia
      let omegaRadPerSec1 := omegaRadPerSec + angularAccel * dt
      { s with CurrentVelocity := omegaRadPerSec1 * 60.0 / (2.0 * Float64Arith.pi) }
    else s
  let s2 : ServoMotor F :=
    if s1.CurrentVelocity > s1.MaxVelocity then { s1 with CurrentVelocity := s1.MaxVelocity }
    else if s1.CurrentVelocity < -s1.MaxVelocity then
      { s1 with CurrentVelocity := -s1.MaxVelocity }
    else s1
  let s3 : ServoMotor F := { s2 with CurrentPosition := s2.CurrentPosition + s2.CurrentVelocity * 6.0 * dt }
  let wrapped : F := Float64Arith.mod s3.CurrentPosition 360.0
  let s4 : ServoMotor F := { s3 with CurrentPosition := wrapped }
  if s4.CurrentPosition < 0 then { s4 with CurrentPosition := s4.CurrentPosition + 360.0 }
  else s4

/-- The value `ServoMotor.Update` returns: the position in output mode "position", the
velocity otherwise. -/
def ServoMotor.output {F : Type} (s : ServoMotor F) : F :=
  if s.OutputMode = "position" then s.CurrentPosition else s.CurrentVelocity

/-- The `if s.AutoMode { switch s.AutoPattern ... }` block of `ServoMotor.Update`: the
target velocity it leaves at elapsed time `elapsed`, or `none` when the table lookup of
the "step" pattern panics. -/
def ServoMotor.autoTarget {F : Type} [Float64Arith F] (s : ServoMotor F) (elapsed : F) :
    Option F :=
  if s.AutoMode then
    if s.AutoPattern = "sine" then
      some (s.MaxVelocity * 0.7 *
        Float64Arith.sin (2.0 * Float64Arith.pi * elapsed / s.AutoPeriod))
    else if s.AutoPattern = "ramp" then
      let progress := Float64Arith.mod elapsed s.AutoPeriod / s.AutoPeriod
      if progress < 0.5 then some (s.MaxVelocity * (progress * 2.0))
      else some (s.MaxVelocity * (2.0 - progress * 2.0))
    else if s.AutoPattern = "step" then
      let stepIndex := Int.tmod (Float64Arith.toInt (elapsed / s.AutoPeriod)) 3
      let velocities : List F := [0, s.MaxVelocity * 0.5, s.MaxVelocity * 0.8]
      sliceAt velocities stepIndex
    else some s.TargetVelocity
  else some s.TargetVelocity

/-- The PID step of `ServoMotor.Update`, from the velocity error to the clamped torque. -/
def ServoMotor.control {F : Type} [Float64Arith F] (s : ServoMotor F) (dt : F) :
    ServoMotor F :=
  let velocityError := s.TargetVelocity - s.CurrentVelocity
  let pTerm := s.Kp * velocityError
  let s1 := { s with integralError := s.integralError + velocityError * dt }
  let maxIntegral := s1.MaxTorque / s1.Ki
  let s2 :=
    if s1.integralError > maxIntegral then { s1 with integralError := maxIntegral }
    else if s1.integralError < -maxIntegral then { s1 with integralError := -maxIntegral }
    else s1
  let iTerm := s2.Ki * s2.integralError
  let dTerm : F := if dt > 0 then s2.Kd * (velocityError - s2.lastError) / dt else 0.0
  let s3 := { s2 with lastError := velocityError }
  let s4 := { s3 with CurrentTorque := pTerm + iTerm + dTerm }
  if s4.CurrentTorque > s4.MaxTorque then { s4 with CurrentTorque := s4.MaxTorque }
  else if s4.CurrentTorque < -s4.MaxTorque then { s4 with CurrentTorque := -s4.MaxTorque }
  else s4

/-- Go: `func (s *ServoMotor) Update(deltaTime time.Duration) float64`: the value returned
and the motor after the call, or `none` when the call panics. -/
def ServoMotor.Update {F : Type} [Float64Arith F] (s : ServoMotor F) (deltaTime : Duration) :
    Option (F × ServoMotor F) :=
  if !s.BaseSensor.IsEnabled then
    let s1 := { s with CurrentTorque := 0 }
    let s2 := s1.ApplyDynamics (Duration.Seconds deltaTime)
    some (s2.output, s2)
  else
    let s1 := { s with BaseSensor := s.BaseSensor.AddElapsedTime deltaTime }
    let elapsed := s1.BaseSensor.GetElapsedTime
    let dt : F := Duration.Seconds deltaTime
    match s1.autoTarget elapsed with
    | none => none
    | some target =>
      let s2 := ({ s1 with TargetVelocity := target }).control dt
      let s3 := s2.ApplyDynamics dt
      some (s3.output, s3)

/-- Go: `func (s *ServoMotor) GetPosition() float64`. -/
def ServoMotor.GetPosition {F : Type} (s : ServoMotor F) : F := s.CurrentPosition

/-- Go: `func (s *ServoMotor) GetVelocity() float64`. -/
def ServoMotor.GetVelocity {F : Type} (s : ServoMotor F) : F := s.CurrentVelocity

/-- Go: `func (s *ServoMotor) GetTorque() float64`. -/
def ServoMotor.GetTorque {F : Type} (s : ServoMotor F) : F := s.CurrentTorque

/-- Go: `func (s *ServoMotor) SetTargetVelocity(velocity float64)`. -/
def ServoMotor.SetTargetVelocity {F : Type} (s : ServoMotor F) (velocity : F) : ServoMotor F :=
  { s with TargetVelocity := velocity }

/-- Go: `func (s *ServoMotor) SetLoadTorque(torque float64)`. -/
def ServoMotor.SetLoadTorque {F : Type} (s : ServoMotor F) (torque : F) : ServoMotor F :=
  { s with LoadTorque := torque }

/-- Go: `func (s *ServoMotor) SetEnabled(enabled bool)`. -/
def ServoMotor.SetEnabled {F : Type} (s : ServoMotor F) (enabled : Bool) : ServoMotor F :=
  { s with Enabled := enabled }

/-- Go: `func (s *ServoMotor) Reset()`. -/
def ServoMotor.Reset {F : Type} [Float64Arith F] (s : ServoMotor F) : ServoMotor F :=
  { s with BaseSensor := s.BaseSensor.Reset, CurrentPosition := 0, CurrentVelocity := 0,
           CurrentTorque := 0, TargetVelocity := 0, integralError := 0, lastError := 0 }

/-! ### The interface `Sensor` -/

/-- Go: `type Sensor interface`, as the sum of the eleven types that implement it. -/
inductive Sensor (F : Type) where
  | temperature (s : TemperatureSensor F)
  | pressure (s : PressureSensor F)
  | sine (s : SineSensor F)
  | random (s : RandomSensor F)
  | digital (s : DigitalSensor F)
  | vibration (s : VibrationSensor F)
  | noise (s : NoiseSensor F)
  | relay (s : RelayActuator F)
  | integer (s : IntegerActuator F)
  | stepMotor (s : StepMotor F)
  | servoMotor (s : ServoMotor F)

/-- The embedded `BaseSensor` of a sensor. -/
def Sensor.base {F : Type} : Sensor F → BaseSensor F
  | Sensor.temperature s => s.BaseSensor
  | Sensor.pressure s => s.BaseSensor
  | Sensor.sine s => s.BaseSensor
  | Sensor.random s => s.BaseSensor
  | Sensor.digital s => s.BaseSensor
  | Sensor.vibration s => s.BaseSensor
  | Sensor.noise s => s.BaseSensor
  | Sensor.relay s => s.BaseSensor
  | Sensor.integer s => s.BaseSensor
  | Sensor.stepMotor s => s.BaseSensor
  | Sensor.servoMotor s => s.BaseSensor

/-- Go: `GetName() string` of the interface. -/
def Sensor.GetName {F : Type} (s : Sensor F) : String := s.base.GetName

/-- Go: `GetAddress() string` of the interface. -/
def Sensor.GetAddress {F : Type} (s : Sensor F) : String := s.base.GetAddress

/-- Go: `IsEnabled() bool` of the interface. -/
def Sensor.IsEnabled {F : Type} (s : Sensor F) : Bool := s.base.IsEnabled

/-- Go: `Update(deltaTime time.Duration) float64` of the interface, with the generator
`g` of package `rand`: the value returned, the sensor and the generator after the call, or
`none` when the call panics. -/
def Sensor.Update {F : Type} [Float64Arith F] (s : Sensor F) (deltaTime : Duration)
    (g : GoRand F) : Option (F × Sensor F × GoRand F) :=
  match s with
  | Sensor.temperature s =>
    some ((s.Update deltaTime).1, Sensor.temperature (s.Update deltaTime).2, g)
  | Sensor.pressure s =>
    some ((s.Update deltaTime).1, Sensor.pressure (s.Update deltaTime).2, g)
  | Sensor.sine s => some ((s.Update deltaTime).1, Sensor.sine (s.Update deltaTime).2, g)
  | Sensor.random s => some ((s.Update deltaTime).1, Sensor.random (s.Update deltaTime).2, g)
  | Sensor.digital s =>
    some ((s.Update deltaTime).1, Sensor.digital (s.Update deltaTime).2, g)
  | Sensor.vibration s =>
    some ((s.Update deltaTime g).1, Sensor.vibration (s.Update deltaTime g).2.1,
      (s.Update deltaTime g).2.2)
  | Sensor.noise s =>
    some ((s.Update deltaTime g).1, Sensor.noise (s.Update deltaTime g).2.1,
      (s.Update deltaTime g).2.2)
  | Sensor.relay s => some ((s.Update deltaTime).1, Sensor.relay (s.Update deltaTime).2, g)
  | Sensor.integer s =>
    some ((s.Update deltaTime).1, Sensor.integer (s.Update deltaTime).2, g)
  | Sensor.stepMotor s =>
    match s.Update deltaTime with
    | none => none
    | some r => some (r.1, Sensor.stepMotor r.2, g)
  | Sensor.servoMotor s =>
    match s.Update deltaTime with
    | none => none
    | some r => some (r.1, Sensor.servoMotor r.2, g)

/-- Go: `Reset()` of the interface. -/
def Sensor.Reset {F : Type} [Float64Arith F] (newRand : Int → GoRand F) (now : Int) :
    Sensor F → Sensor F
  | Sensor.temperature s => Sensor.temperature (s.Reset newRand now)
  | Sensor.pressure s => Sensor.pressure (s.Reset newRand now)
  | Sensor.sine s => Sensor.sine s.Reset
  | Sensor.random s => Sensor.random (s.Reset newRand now)
  | Sensor.digital s => Sensor.digital (s.Reset newRand now)
  | Sensor.vibration s => Sensor.vibration s.Reset
  | Sensor.noise s => Sensor.noise s.Reset
  | Sensor.relay s => Sensor.relay s.Reset
  | Sensor.integer s => Sensor.integer s.Reset
  | Sensor.stepMotor s => Sensor.stepMotor s.Reset
  | Sensor.servoMotor s => Sensor.servoMotor s.Reset

end sensors

/-! ## internal/config/config.go: parameter access -/

namespace config

/-- Go: `func GetFloat64Param(params map[string]interface{}, key string,
defaultValue float64) float64`. -/
def GetFloat64Param {F : Type} [Float64Arith F] (params : StrMap GoValue) (key : String)
    (defaultValue : F) : F :=
  match params.get? key with
  | some (GoValue.float64 v) => Float64Arith.ofGo v
  | some (GoValue.int v) => Float64Arith.ofInt v.val
  | some (GoValue.int64 v) => Float64Arith.ofInt v.val
  | _ => defaultValue

/-- Go: `func GetBoolParam(params map[string]interface{}, key string,
defaultValue bool) bool`. -/
def GetBoolParam (params : StrMap GoValue) (key : String) (defaultValue : Bool) : Bool :=
  match params.get? key with
  | some (GoValue.bool b) => b
  | _ => defaultValue

/-- Go: `if p, ok := def.Parameters[key].(string); ok { x = p }` after `x := defaultValue`,
as the registered factories read a string parameter. -/
def stringParam (params : StrMap GoValue) (key : String) (defaultValue : String) : String :=
  match params.get? key with
  | some (GoValue.string p) => p
  | _ => defaultValue

end config

/-! ## internal/sim/registry.go and internal/sim/manager.go -/

namespace sim

open sensors

/-- The errors built with `fmt.Errorf` in the package, one constructor per message. -/
inductive SimError where
  /-- Message "unknown sensor type: %s". -/
  | unknownSensorType (typ : String)
  /-- Message "failed to create sensor '%s': %w". -/
  | failedToCreate (name : String) (cause : SimError)
  /-- Message "no sensors created". -/
  | noSensorsCreated
deriving DecidableEq

/-- Go: `type SensorFactory func(def config.SensorDefinition) (sensors.Sensor, error)`;
the second argument is the reading of `time.Now().UnixNano()` inside the constructor. -/
abbrev SensorFactory (F : Type) := config.SensorDefinition → Int → Except SimError (Sensor F)

/-- Go: `func RegisterSensor(sensorType string, factory SensorFactory)`, on the registry
`reg`. -/
def RegisterSensor {F : Type} (reg : StrMap (SensorFactory F)) (sensorType : String)
    (factory : SensorFactory F) : StrMap (SensorFactory F) :=
  reg.put sensorType factory

/-- Go: `func CreateSensor(def config.SensorDefinition) (sensors.Sensor, error)`, on the
registry `reg`. -/
def CreateSensor {F : Type} (reg : StrMap (SensorFactory F)) (d : config.SensorDefinition)
    (now : Int) : Except SimError (Sensor F) :=
  match reg.get? d.Typ with
  | none => Except.error (SimError.unknownSensorType d.Typ)
  | some factory =>
    match factory d now with
    | Except.error err => Except.error (SimError.failedToCreate d.Name err)
    | Except.ok sensor => Except.ok sensor

/-- The factory registered for "temperature". -/
def temperatureFactory {F : Type} [Float64Arith F] (newRand : Int → GoRand F) :
    SensorFactory F := fun d now =>
  let baseTemp : F := config.GetFloat64Param d.Parameters "baseTemp" 25.0
  let amplitude : F := config.GetFloat64Param d.Parameters "amplitude" 10.0
  let period : F := config.GetFloat64Param d.Parameters "period" 30.0
  let noiseStdDev : F := config.GetFloat64Param d.Parameters "noiseStdDev" 0.5
  let minValue : F := config.GetFloat64Param d.Parameters "minValue" 0.0
  let maxValue : F := config.GetFloat64Param d.Parameters "maxValue" 100.0
  Except.ok (Sensor.temperature (NewTemperatureSensor newRand now d.Name d.Address d.Enabled
    d.UpdateIntervalMs baseTemp amplitude period noiseStdDev minValue maxValue d.Description))

/-- The factory registered for "pressure". -/
def pressureFactory {F : Type} [Float64Arith F] (newRand : Int → GoRand F) :
    SensorFactory F := fun d now =>
  let minPressure : F := config.GetFloat64Param d.Parameters "minPressure" 0.0
  let maxPressure : F := config.GetFloat64Param d.Parameters "maxPressure" 10.0
  let rampUpTime : F := config.GetFloat64Param d.Parameters "rampUpTime" 20.0
  let holdTime : F := config.GetFloat64Param d.Parameters "holdTime" 10.0
  let rampDownTime : F := config.GetFloat64Param d.Parameters "rampDownTime" 15.0
  let noiseStdDev : F := config.GetFloat64Param d.Parameters "noiseStdDev" 0.1
  Except.ok (Sensor.pressure (NewPressureSensor newRand now d.Name d.Address d.Enabled
    d.UpdateIntervalMs minPressure maxPressure rampUpTime holdTime rampDownTime noiseStdDev
    d.Description))

/-- The factory registered for "sine". -/
def sineFactory {F : Type} [Float64Arith F] : SensorFactory F := fun d _ =>
  let offset : F := config.GetFloat64Param d.Parameters "offset" 0.0
  let amplitude : F := config.GetFloat64Param d.Parameters "amplitude" 1.0
  let frequency : F := config.GetFloat64Param d.Parameters "frequency" 1.0
  let phase : F := config.GetFloat64Param d.Parameters "phase" 0.0
  Except.ok (Sensor.sine (NewSineSensor d.Name d.Address d.Enabled d.UpdateIntervalMs
    offset amplitude frequency phase d.Description))

/-- The factory registered for "random". -/
def randomFactory {F : Type} [Float64Arith F] (newRand : Int → GoRand F) :
    SensorFactory F := fun d now =>
  let minValue : F := config.GetFloat64Param d.Parameters "minValue" 0.0
  let maxValue : F := config.GetFloat64Param d.Parameters "maxValue" 100.0
  let changeRate : F := config.GetFloat64Param d.Parameters "changeRate" 1.0
  Except.ok (Sensor.random (NewRandomSensor newRand now d.Name d.Address d.Enabled
    d.UpdateIntervalMs minValue maxValue changeRate d.Description))

/-- The factory registered for "digital". -/
def digitalFactory {F : Type} [Float64Arith F] (newRand : Int → GoRand F) :
    SensorFactory F := fun d now =>
  let pattern := config.stringParam d.Parameters "pattern" "toggle"
  let togglePeriod : F := config.GetFloat64Param d.Parameters "togglePeriod" 5.0
  let pulseWidth : F := config.GetFloat64Param d.Parameters "pulseWidth" 1.0
  let pulsePeriod : F := config.GetFloat64Param d.Parameters "pulsePeriod" 5.0
  let randomProb : F := config.GetFloat64Param d.Parameters "randomProb" 0.5
  Except.ok (Sensor.digital (NewDigitalSensor newRand now d.Name d.Address d.Enabled
    d.UpdateIntervalMs pattern togglePeriod pulseWidth pulsePeriod randomProb d.Description))

/-- The factory registered for "vibration". -/
def vibrationFactory {F : Type} [Float64Arith F] : SensorFactory F := fun d _ =>
  let baseLevel : F := config.GetFloat64Param d.Parameters "baseLevel" 2.0
  let amplitude : F := config.GetFloat64Param d.Parameters "amplitude" 1.0
  let frequency : F := config.GetFloat64Param d.Parameters "frequency" 50.0
  let harmonics : Int :=
    Float64Arith.toInt (config.GetFloat64Param d.Parameters "harmonics" (3 : F))
  let spikeProb : F := config.GetFloat64Param d.Parameters "spikeProb" 0.01
  let spikeAmp : F := config.GetFloat64Param d.Parameters "spikeAmp" 5.0
  let noiseStdDev : F := config.GetFloat64Param d.Parameters "noiseStdDev" 0.2
  let minValue : F := config.GetFloat64Param d.Parameters "minValue" 0.0
  let maxValue : F := config.GetFloat64Param d.Parameters "maxValue" 50.0
  Except.ok (Sensor.vibration (NewVibrationSensor d.Name d.Address d.Enabled
    d.UpdateIntervalMs baseLevel amplitude frequency harmonics spikeProb spikeAmp noiseStdDev
    minValue maxValue d.Description))

/-- The factory registered for "noise". -/
def noiseFactory {F : Type} [Float64Arith F] : SensorFactory F := fun d _ =>
  let ambientLevel : F := config.GetFloat64Param d.Parameters "ambientLevel" 55.0
  let peakLevel : F := config.GetFloat64Param d.Parameters "peakLevel" 85.0
  let cyclePeriod : F := config.GetFloat64Param d.Parameters "cyclePeriod" 30.0
  let dutyCycle : F := config.GetFloat64Param d.Parameters "dutyCycle" 0.6
  let noiseStdDev : F := config.GetFloat64Param d.Parameters "noiseStdDev" 2.0
  let spikeProb : F := config.GetFloat64Param d.Parameters "spikeProb" 0.02
  let spikeLevel : F := config.GetFloat64Param d.Parameters "spikeLevel" 95.0
  let minValue : F := config.GetFloat64Param d.Parameters "minValue" 30.0
  let maxValue : F := config.GetFloat64Param d.Parameters "maxValue" 120.0
  Except.ok (Sensor.noise (NewNoiseSensor d.Name d.Address d.Enabled d.UpdateIntervalMs
    ambientLevel peakLevel cyclePeriod dutyCycle noiseStdDev spikeProb spikeLevel minValue
    maxValue d.Description))

/-- The factory registered for "relay". -/
def relayFactory {F : Type} [Float64Arith F] : SensorFactory F := fun d _ =>
  let defaultState := config.GetBoolParam d.Parameters "defaultState" false
  let autoToggle := config.GetBoolParam d.Parameters "autoToggle" false
  let togglePeriod : F := config.GetFloat64Param d.Parameters "togglePeriod" 10.0
  Except.ok (Sensor.relay (NewRelayActuator d.Name d.Address d.Enabled d.UpdateIntervalMs
    defaultState autoToggle togglePeriod d.Description))

/-- The factory registered for "integer". -/
def integerFactory {F : Type} [Float64Arith F] : SensorFactory F := fun d _ =>
  let minValue : Int :=
    Float64Arith.toInt (config.GetFloat64Param d.Parameters "minValue" (0 : F))
  let maxValue : Int :=
    Float64Arith.toInt (config.GetFloat64Param d.Parameters "maxValue" (100 : F))
  let defaultValue : Int :=
    Float64Arith.toInt (config.GetFloat64Param d.Parameters "defaultValue" (0 : F))
  let autoMode := config.GetBoolParam d.Parameters "autoMode" false
  let autoPattern := config.stringParam d.Parameters "autoPattern" "ramp"
  let rampRate : F := config.GetFloat64Param d.Parameters "rampRate" 1.0
  let stepPeriod : F := config.GetFloat64Param d.Parameters "stepPeriod" 10.0
  Except.ok (Sensor.integer (NewIntegerActuator d.Name d.Address d.Enabled
    d.UpdateIntervalMs minValue maxValue defaultValue autoMode autoPattern rampRate stepPeriod
    d.Description))

/-- The factory registered for "stepmotor". -/
def stepMotorFactory {F : Type} [Float64Arith F] : SensorFactory F := fun d _ =>
  let maxSpeed : F := config.GetFloat64Param d.Parameters "maxSpeed" 1000.0
  let acceleration : F := config.GetFloat64Param d.Parameters "acceleration" 5000.0
  let stepsPerRev : Int :=
    Float64Arith.toInt (config.GetFloat64Param d.Parameters "stepsPerRev" (200 : F))
  let autoMode := config.GetBoolParam d.Parameters "autoMode" true
  let autoPattern := config.stringParam d.Parameters "autoPattern" "oscillate"
  let autoPeriod : F := config.GetFloat64Param d.Parameters "autoPeriod" 20.0
  Except.ok (Sensor.stepMotor (NewStepMotor d.Name d.Address d.Enabled d.UpdateIntervalMs
    maxSpeed acceleration stepsPerRev autoMode autoPattern autoPeriod d.Description))

/-- The factory registered for "servomotor". -/
def servoMotorFactory {F : Type} [Float64Arith F] : SensorFactory F := fun d _ =>
  let maxVelocity : F := config.GetFloat64Param d.Parameters "maxVelocity" 3000.0
  let maxTorque : F := config.GetFloat64Param d.Parameters "maxTorque" 10.0
  let inertia : F := config.GetFloat64Param d.Parameters "inertia" 0.001
  let damping : F := config.GetFloat64Param d.Parameters "damping" 0.01
  let outputMode := config.stringParam d.Parameters "outputMode" "velocity"
  let autoMode := config.GetBoolParam d.Parameters "autoMode" true
  let autoPattern := config.stringParam d.Parameters "autoPattern" "sine"
  let autoPeriod : F := config.GetFloat64Param d.Parameters "autoPeriod" 30.0
  let kp : F := config.GetFloat64Param d.Parameters "kp" 0.5
  let ki : F := config.GetFloat64Param d.Parameters "ki" 0.1
  let kd : F := config.GetFloat64Param d.Parameters "kd" 0.01
  Except.ok (Sensor.servoMotor (NewServoMotor d.Name d.Address d.Enabled d.UpdateIntervalMs
    maxVelocity maxTorque inertia damping outputMode autoMode autoPattern autoPeriod
    kp ki kd d.Description))

/-- Go: `var sensorRegistry = make(map[string]SensorFactory)` after `func init()` has
run: the eleven `RegisterSensor` calls, in the order of the source. -/
def sensorRegistry {F : Type} [Float64Arith F] (newRand : Int → GoRand F) :
    StrMap (SensorFactory F) :=
  let r0 : StrMap (SensorFactory F) := StrMap.empty
  let r1 := RegisterSensor r0 "temperature" (temperatureFactory newRand)
  let r2 := RegisterSensor r1 "pressure" (pressureFactory newRand)
  let r3 := RegisterSensor r2 "sine" sineFactory
  let r4 := RegisterSensor r3 "random" (randomFactory newRand)
  let r5 := RegisterSensor r4 "digital" (digitalFactory newRand)
  let r6 := RegisterSensor r5 "vibration" vibrationFactory
  let r7 := RegisterSensor r6 "noise" noiseFactory
  let r8 := RegisterSensor r7 "relay" relayFactory
  let r9 := RegisterSensor r8 "integer" integerFactory
  let r10 := RegisterSensor r9 "stepmotor" stepMotorFactory
  RegisterSensor r10 "servomotor" servoMotorFactory

/-- Go: `type SensorManager struct` (the mutex apart): `ticker` is `none` for the nil
ticker and holds the interval otherwise, `stopChanClosed` tells whether `stopChan` has
been closed. -/
structure SensorManager (F : Type) where
  sensors : List (Sensor F)
  tagManager : plc.TagManager
  ticker : Option Duration
  stopChanClosed : Bool
  lastUpdate : plc.Time
  updateCount : Nat

/-- The loop `for _, def := range cfg.Sensors` of `NewSensorManager`, from the `i`-th
definition on, with the sensors created so far; `clock i` is the reading of
`time.Now().UnixNano()` in the `i`-th constructor. -/
def createSensors {F : Type} (reg : StrMap (SensorFactory F)) (clock : Nat → Int) :
    List config.SensorDefinition → Nat → List (Sensor F) → Except SimError (List (Sensor F))
  | [], _, sensors => Except.ok sensors
  | d :: rest, i, sensors =>
    match CreateSensor reg d (clock i) with
    | Except.error err => Except.error (SimError.failedToCreate d.Name err)
    | Except.ok sensor => createSensors reg clock rest (i + 1) (sensors ++ [sensor])

/-- Go: `func NewSensorManager(tagManager *plc.TagManager, cfg *config.SensorConfig)
(*SensorManager, error)` (the log lines apart), on the registry `reg`; `now` is the reading
of `time.Now()` for `lastUpdate`. -/
def NewSensorManager {F : Type} (reg : StrMap (SensorFactory F)) (now : plc.Time)
    (clock : Nat → Int) (tagManager : plc.TagManager) (cfg : config.SensorConfig) :
    Except SimError (SensorManager F) :=
  match createSensors reg clock cfg.Sensors 0 [] with
  | Except.error err => Except.error err
  | Except.ok sensors =>
    if sensors.length = 0 then Except.error SimError.noSensorsCreated
    else Except.ok { sensors := sensors, tagManager := tagManager, ticker := none,
                     stopChanClosed := false, lastUpdate := now, updateCount := 0 }

end sim

/-! ## Vocabulary of the specification: device models -/

namespace sim

/-- The eleven sensor types the specification names as registered. -/
def registeredTypes : List String :=
  ["temperature", "pressure", "sine", "random", "digital", "vibration", "noise", "relay",
   "integer", "stepmotor", "servomotor"]

end sim

namespace sensors

/-- The elapsed time of a sensor, the field `ElapsedTime` of its `BaseSensor`. -/
def Sensor.ElapsedTime {F : Type} (s : Sensor F) : F := s.base.ElapsedTime

end sensors

namespace sensors

/-- The sensor is one of the two motors. -/
def Sensor.isMotor {F : Type} : Sensor F → Bool
  | Sensor.stepMotor _ => true
  | Sensor.servoMotor _ => true
  | _ => false

end sensors

/-! ## Vocabulary of the specification: the ramp of the integer actuator -/

namespace sensors

/-- The ramp of the specification for the integer actuator, at elapsed time `t`: with
`P = (max - min) / rampRate` and `c = t mod 2P` (the remainder of `math.Mod`, which is the
usual one from 0 on), the value `min + trunc ((max - min) * c / P)` when `c < P` and
`max - trunc ((max - min) * (c - P) / P)` otherwise. -/
def IntegerActuator.rampValue {α : Type} [LinearOrderedField α] [FloorRing α]
    (min max : Int) (rampRate t : α) : Int :=
  let P : α := ((max - min : Int) : α) / rampRate
  let c : α := t - 2 * P * (truncToInt (t / (2 * P)) : α)
  if c < P then min + truncToInt (((max - min : Int) : α) * c / P)
  else max - truncToInt (((max - min : Int) : α) * (c - P) / P)

end sensors

/-! ## Vocabulary of the specification: histories of calls -/

namespace sensors

/-- A call that changes a sine sensor. -/
inductive SineSensor.Call where
  | update (dt : Duration)
  | reset

/-- The sine sensor after one call. -/
def SineSensor.call {F : Type} [Float64Arith F] (s : SineSensor F) :
    SineSensor.Call → SineSensor F
  | SineSensor.Call.update dt => (s.Update dt).2
  | SineSensor.Call.reset => s.Reset

/-- The sine sensor after a history of calls. -/
def SineSensor.run {F : Type} [Float64Arith F] (s : SineSensor F)
    (cs : List SineSensor.Call) : SineSensor F :=
  cs.foldl SineSensor.call s

/-- The values a sequence of `Update` calls returns on a sine sensor. -/
def SineSensor.outputs {F : Type} [Float64Arith F] (s : SineSensor F) : List Duration → List F
  | [] => []
  | dt :: rest => (s.Update dt).1 :: SineSensor.outputs (s.Update dt).2 rest

/-- A call that changes a relay. -/
inductive RelayActuator.Call where
  | update (dt : Duration)
  | setState (state : Bool)
  | reset

/-- The relay after one call. -/
def RelayActuator.call {F : Type} [Float64Arith F] (r : RelayActuator F) :
    RelayActuator.Call → RelayActuator F
  | RelayActuator.Call.update dt => (r.Update dt).2
  | RelayActuator.Call.setState state => r.SetState state
  | RelayActuator.Call.reset => r.Reset

/-- The relay after a history of calls. -/
def RelayActuator.run {F : Type} [Float64Arith F] (r : RelayActuator F)
    (cs : List RelayActuator.Call) : RelayActuator F :=
  cs.foldl RelayActuator.call r

/-- The values a sequence of `Update` calls returns on a relay. -/
def RelayActuator.outputs {F : Type} [Float64Arith F] (r : RelayActuator F) :
    List Duration → List F
  | [] => []
  | dt :: rest => (r.Update dt).1 :: RelayActuator.outputs (r.Update dt).2 rest

/-- A call that changes an integer actuator. -/
inductive IntegerActuator.Call where
  | update (dt : Duration)
  | setValue (value : Int)
  | reset

/-- The integer actuator after one call. -/
def IntegerActuator.call {F : Type} [Float64Arith F] (i : IntegerActuator F) :
    IntegerActuator.Call → IntegerActuator F
  | IntegerActuator.Call.update dt => (i.Update dt).2
  | IntegerActuator.Call.setValue value => i.SetValue value
  | IntegerActuator.Call.reset => i.Reset

/-- The integer actuator after a history of calls. -/
def IntegerActuator.run {F : Type} [Float64Arith F] (i : IntegerActuator F)
    (cs : List IntegerActuator.Call) : IntegerActuator F :=
  cs.foldl IntegerActuator.call i

/-- The values a sequence of `Update` calls returns on an integer actuator. -/
def IntegerActuator.outputs {F : Type} [Float64Arith F] (i : IntegerActuator F) :
    List Duration → List F
  | [] => []
  | dt :: rest => (i.Update dt).1 :: IntegerActuator.outputs (i.Update dt).2 rest

/-- A call that changes a step motor. -/
inductive StepMotor.Call (F : Type) where
  | update (dt : Duration)
  | setTargetPosition (position : F)
  | setEnabled (enabled : Bool)
  | reset

/-- The step motor after one call, or `none` when the call panics. -/
def StepMotor.call {F : Type} [Float64Arith F] (s : StepMotor F) :
    StepMotor.Call F → Option (StepMotor F)
  | StepMotor.Call.update dt => (s.Update dt).map (fun r => r.2)
  | StepMotor.Call.setTargetPosition position => some (s.SetTargetPosition position)
  | StepMotor.Call.setEnabled enabled => some (s.SetEnabled enabled)
  | StepMotor.Call.reset => some s.Reset

/-- The step motor after a history of calls, or `none` when one of them panics. -/
def StepMotor.run {F : Type} [Float64Arith F] (s : StepMotor F) :
    List (StepMotor.Call F) → Option (StepMotor F)
  | [] => some s
  | c :: cs =>
    match s.call c with
    | none => none
    | some s1 => StepMotor.run s1 cs

/-- The values a sequence of `Update` calls returns on a step motor; the sequence ends
with `none` at a call that panics. -/
def StepMotor.outputs {F : Type} [Float64Arith F] (s : StepMotor F) :
    List Duration → List (Option F)
  | [] => []
  | dt :: rest =>
    match s.Update dt with
    | none => [none]
    | some r => some r.1 :: StepMotor.outputs r.2 rest

end sensors

/-! ## Sample models, for evaluating the device models on concrete inputs -/

/-- A sample of the functions of package `math` over the rationals, for evaluating the
models on concrete inputs: `pi` is 355/113, the sine is Bhaskara's rational approximation
(exact at 0, `pi/2` and `pi`), the cosine is the sine shifted by `pi/2`, and the other
functions and the rounding to a bit pattern are coarse stand-ins. -/
def MathFns.sample : MathFns ℚ where
  pi := 355 / 113
  sqrt := fun x => x
  sin := fun x => 16 * x * (355 / 113 - x) / (5 * (355 / 113) ^ 2 - 4 * x * (355 / 113 - x))
  cos := fun x =>
    16 * (x + 355 / 226) * (355 / 226 - x) /
      (5 * (355 / 113) ^ 2 - 4 * (x + 355 / 226) * (355 / 226 - x))
  exp := fun x => 1 + x
  log := fun x => x - 1
  log10 := fun x => (x - 1) / 2
  pow := fun x y => 1 + (x - 1) * y
  toFloat64 := fun x => GoFloat64.ofInt ⌊x⌋

/-- The sample arithmetic: exact arithmetic over the rationals with `MathFns.sample`. -/
@[reducible] def Float64Arith.sample : Float64Arith ℚ := Float64Arith.exact MathFns.sample

/-- A sample generator source, for evaluating the models on concrete inputs: the
generator of seed `n` returns `(n + i) mod 10 / 10` at its `i`-th draw. -/
def GoRand.sample (seed : Int) : GoRand ℚ where
  draws := fun i => (((seed.toNat + i) % 10 : Nat) : ℚ) / 10

namespace sensors

/-- A sine sensor of offset 0, amplitude 10, frequency 1/30 Hz and phase 0, fresh from its
constructor, over the sample arithmetic. -/
def SineSensor.sample (enabled : Bool) : SineSensor ℚ :=
  @NewSineSensor ℚ Float64Arith.sample "S1" "%DF10" enabled (GoInt.wrap 100) 0 10 (1 / 30) 0 ""

/-- A servo motor in output mode "velocity" with an integral controller only (gains 0, 1, 0),
inertia 1, no damping, torque limit 10 and velocity limit 3000, fresh from its constructor,
over the sample arithmetic. -/
def ServoMotor.sample (enabled : Bool) : ServoMotor ℚ :=
  @NewServoMotor ℚ Float64Arith.sample "M2" "%DF20" enabled (GoInt.wrap 100) 3000 10 1 0
    "velocity" false "sine" 10 0 1 0 ""

/-- A temperature sensor of base temperature 25 and range [30, 40], fresh from its
constructor, over the sample arithmetic. -/
def TemperatureSensor.sample (enabled : Bool) : TemperatureSensor ℚ :=
  @NewTemperatureSensor ℚ Float64Arith.sample GoRand.sample 1 "T1" "%DF30" enabled
    (GoInt.wrap 100) 25 5 60 0 30 40 ""

/-- A state of a disabled step motor at position 7 with velocity 5, over the sample
arithmetic. -/
def StepMotor.sampleMoving : StepMotor ℚ :=
  { @NewStepMotor ℚ Float64Arith.sample "M1" "%DF40" false (GoInt.wrap 100) 1000 500 200
      false "oscillate" 10 "" with CurrentPosition := 7, CurrentVelocity := 5 }

end sensors

namespace sensors

/-- A relay with default state off that toggles itself every 2 s, fresh from its
constructor, over the sample arithmetic. -/
def RelayActuator.sample (enabled : Bool) : RelayActuator ℚ :=
  @NewRelayActuator ℚ Float64Arith.sample "R1" "%MX10" enabled (GoInt.wrap 100) false true 2 ""

end sensors

namespace sensors

/-- A step motor of 200 steps per revolution, fresh from its constructor, over the sample
arithmetic. -/
def StepMotor.sample (enabled : Bool) : StepMotor ℚ :=
  @NewStepMotor ℚ Float64Arith.sample "M1" "%DF40" enabled (GoInt.wrap 100) 1000 500 200
    false "oscillate" 10 ""

end sensors

namespace sensors

/-- A random-walk sensor of range [0, 10] and change rate 1, enabled, fresh from its
constructor with the sample generator of seed `seed`, over the sample arithmetic. -/
def RandomSensor.sample (seed : Int) : RandomSensor ℚ :=
  @NewRandomSensor ℚ Float64Arith.sample GoRand.sample seed "X1" "%DF50" true (GoInt.wrap 100)
    0 10 1 ""

end sensors

/-! ## Vocabulary of the specification: clamping, the pressure cycle, toggle edges -/

namespace sensors

/-- The flips of a relay over a sequence of `Update` calls, from the second on: for each
call that changes the state, the elapsed time since the flip before it (`lastFlip`, when
there was one) and the duration of the call in seconds. -/
def RelayActuator.flipGaps {F : Type} [Float64Arith F] (r : RelayActuator F)
    (lastFlip : Option F) : List Duration → List (F × F)
  | [] => []
  | dt :: rest =>
    let r1 := (r.Update dt).2
    if r1.CurrentState ≠ r.CurrentState then
      match lastFlip with
      | some e =>
        (r1.BaseSensor.ElapsedTime - e, Duration.Seconds dt) ::
          RelayActuator.flipGaps r1 (some r1.BaseSensor.ElapsedTime) rest
      | none => RelayActuator.flipGaps r1 (some r1.BaseSensor.ElapsedTime) rest
    else RelayActuator.flipGaps r1 lastFlip rest

/-- The flips of a digital sensor over a sequence of `Update` calls, from the second on:
as `RelayActuator.flipGaps`. -/
def DigitalSensor.flipGaps {F : Type} [Float64Arith F] (d : DigitalSensor F)
    (lastFlip : Option F) : List Duration → List (F × F)
  | [] => []
  | dt :: rest =>
    let d1 := (d.Update dt).2
    if d1.CurrentState ≠ d.CurrentState then
      match lastFlip with
      | some e =>
        (d1.BaseSensor.ElapsedTime - e, Duration.Seconds dt) ::
          DigitalSensor.flipGaps d1 (some d1.BaseSensor.ElapsedTime) rest
      | none => DigitalSensor.flipGaps d1 (some d1.BaseSensor.ElapsedTime) rest
    else DigitalSensor.flipGaps d1 lastFlip rest

end sensors

namespace sim

open sensors

/-- Go: `func (t Time) Sub(u Time) Duration`, with the clock counted in nanoseconds: the
difference, saturated to the range of `time.Duration`. -/
def Time.Sub (t u : plc.Time) : Duration :=
  if t - u > 9223372036854775807 then 9223372036854775807
  else if t - u < -9223372036854775808 then -9223372036854775808
  else t - u

/-- What the run time decides in one call of `update`: the reading `now` of `time.Now()`
at its start; for the goroutine of the `i`-th sensor the generator `rand i` of package
`rand` as that goroutine finds it and the reading `stamp i` of `time.Now()` in its write;
and the order `order` in which the goroutines reach their write, a permutation of the
indices of the sensors (every goroutine has run when `wg.Wait()` returns). -/
structure Tick (F : Type) where
  now : plc.Time
  rand : Nat → GoRand F
  stamp : Nat → plc.Time
  order : List Nat

/-- The goroutine of `update` for one sensor, up to the write: a disabled sensor is left as
it is and nothing is written; an enabled one is updated and its value is to be written.
The result is the sensor after the call and the value to write, or `none` when `Update`
panics. -/
def updateSensor {F : Type} [Float64Arith F] (deltaTime : Duration) (g : GoRand F)
    (s : Sensor F) : Option (Sensor F × Option F) :=
  if !s.IsEnabled then some (s, none)
  else
    match s.Update deltaTime g with
    | none => none
    | some r => some (r.2.1, some r.1)

/-- The goroutines of `update` up to their writes, for the sensors from index `i` on. -/
def updateSensors {F : Type} [Float64Arith F] (deltaTime : Duration) (rand : Nat → GoRand F) :
    List (Sensor F) → Nat → Option (List (Sensor F × Option F))
  | [], _ => some []
  | s :: rest, i =>
    match updateSensor deltaTime (rand i) s, updateSensors deltaTime rand rest (i + 1) with
    | some r, some rs => some (r :: rs)
    | _, _ => none

/-- The writes `sm.tagManager.SetTagValue(s.GetName(), value)` of the goroutines of
`update`, in the order in which they happen: the store after them and the errors logged
("Error writing sensor %s to tag: %v"), each with the name of its sensor. -/
def writeTags {F : Type} [Float64Arith F] (env : GoEnv) (stamp : Nat → plc.Time)
    (results : List (Sensor F × Option F)) :
    List Nat → plc.TagManager → List (String × plc.TagError) →
      plc.TagManager × List (String × plc.TagError)
  | [], tm, log => (tm, log)
  | i :: rest, tm, log =>
    match results[i]? with
    | some (s, some value) =>
      let r := tm.SetTagValue env s.GetName (GoValue.float64 (Float64Arith.toGo value)) (stamp i)
      match r.2 with
      | some err => writeTags env stamp results rest r.1 (log ++ [(s.GetName, err)])
      | none => writeTags env stamp results rest r.1 log
    | _ => writeTags env stamp results rest tm log

/-- Go: `func (sm *SensorManager) update()` (the periodic log of the values apart): the
manager after the call and the errors logged, or `none` when an `Update` panics. -/
def SensorManager.update {F : Type} [Float64Arith F] (env : GoEnv) (sm : SensorManager F)
    (tick : Tick F) : Option (SensorManager F × List (String × plc.TagError)) :=
  let deltaTime := Time.Sub tick.now sm.lastUpdate
  match updateSensors deltaTime tick.rand sm.sensors 0 with
  | none => none
  | some results =>
    let w := writeTags env tick.stamp results tick.order sm.tagManager []
    some ({ sm with sensors := results.map Prod.fst, tagManager := w.1,
                    lastUpdate := tick.now,
                    updateCount := (sm.updateCount + 1) % 18446744073709551616 }, w.2)

/-- Go: `func (sm *SensorManager) Start(updateInterval time.Duration)`, on the fields of
the manager: a new ticker and the reading `now` of `time.Now()`; `none` is the panic of
`time.NewTicker` on an interval that is not positive.  The goroutine the call starts is
counted in `Scheduler`. -/
def SensorManager.Start {F : Type} (sm : SensorManager F) (updateInterval : Duration)
    (now : plc.Time) : Option (SensorManager F) :=
  if updateInterval ≤ 0 then none
  else some { sm with ticker := some updateInterval, lastUpdate := now }

/-- Go: `func (sm *SensorManager) Stop()`: the ticker is stopped when there is one, and the
stop channel is closed; `none` is the panic of `close` on a channel that is closed. -/
def SensorManager.Stop {F : Type} (sm : SensorManager F) : Option (SensorManager F) :=
  if sm.stopChanClosed then none
  else some { sm with stopChanClosed := true }

/-- The scheduler at run time: the manager and the number of goroutines `Start` has
started to run the update loop. -/
structure Scheduler (F : Type) where
  manager : SensorManager F
  started : Nat

/-- The number of update loops running: every loop started, until the stop channel is
closed, when each of them returns. -/
def Scheduler.loops {F : Type} (s : Scheduler F) : Nat :=
  if s.manager.stopChanClosed then 0 else s.started

/-- A call of `Start` on the scheduler: the fields of the manager as `SensorManager.Start`
leaves them, and one more goroutine running the update loop (`go func() { for { select ...
} } }()`). -/
def Scheduler.Start {F : Type} (s : Scheduler F) (updateInterval : Duration)
    (now : plc.Time) : Option (Scheduler F) :=
  (s.manager.Start updateInterval now).map
    (fun m => { manager := m, started := s.started + 1 })

/-- A call of `Stop` on the scheduler. -/
def Scheduler.Stop {F : Type} (s : Scheduler F) : Option (Scheduler F) :=
  s.manager.Stop.map (fun m => { s with manager := m })

end sim

namespace sim

open sensors

/-- A sample store: the Float tags "S1" and "T1", fresh from `NewTag` at time 0. -/
def sampleStore : plc.TagManager :=
  ((plc.NewTagManager.AddTag (plc.NewTag "S1" "%DF10" "" plc.TagTypeFloat64 0)).1.AddTag
    (plc.NewTag "T1" "%DF30" "" plc.TagTypeFloat64 0)).1

/-- A sample manager over the sample arithmetic: an enabled sine sensor "S1", a disabled
temperature sensor "T1" and an enabled relay "R1", on the sample store, which has no tag
"R1". -/
def SensorManager.sample : SensorManager ℚ :=
  { sensors := [Sensor.sine (SineSensor.sample true),
                Sensor.temperature (TemperatureSensor.sample false),
                Sensor.relay (RelayActuator.sample true)],
    tagManager := sampleStore, ticker := none, stopChanClosed := false, lastUpdate := 0,
    updateCount := 0 }

/-- A sample manager with the disabled temperature sensor "T1" alone, on the sample
store. -/
def SensorManager.sampleDisabled : SensorManager ℚ :=
  { sensors := [Sensor.temperature (TemperatureSensor.sample false)],
    tagManager := sampleStore, ticker := none, stopChanClosed := false, lastUpdate := 0,
    updateCount := 0 }

/-- A sample tick, 100 ms after time 0: the relay writes first, then the sine sensor, then
the temperature sensor. -/
def Tick.sample : Tick ℚ :=
  { now := 100000000, rand := fun i => GoRand.sample i, stamp := fun i => 100000000 + i,
    order := [2, 0, 1] }

end sim

/-! ## internal/plc/lua_engine.go -/

/-- The entries of a Go map with each value replaced by a function of its key and itself. -/
def StrMap.mapValues {V : Type} (m : StrMap V) (f : String → V → V) : StrMap V :=
  ⟨m.entries.map (fun p => (p.1, f p.1 p.2)), by
    have h : (m.entries.map (fun p => (p.1, f p.1 p.2))).map Prod.fst =
        m.entries.map Prod.fst := by
      rw [List.map_map]
      rfl
    rw [h]
    exact m.nodup⟩

namespace plc

/-- A Lua value, as the engine tells them apart with `Type()`: nil, a boolean, a number, a
string, and `other` for a table, a function or any further value. -/
inductive LValue where
  | nil
  | bool (b : Bool)
  | number (n : GoFloat64)
  | string (s : String)
  | other
deriving DecidableEq

/-- A Lua table as the engine reads and writes it, by string keys: the value under each
key, `LNil` under a key that is not set. -/
structure LTable where
  get : String → LValue

/-- Lua: `L.NewTable()`. -/
def LTable.empty : LTable := { get := fun _ => LValue.nil }

/-- Lua: `table.RawGetString(key)`. -/
def LTable.RawGetString (t : LTable) (key : String) : LValue := t.get key

/-- Lua: `table.RawSetString(key, value)`. -/
def LTable.RawSetString (t : LTable) (key : String) (value : LValue) : LTable :=
  { get := fun k => if k = key then value else t.get k }

/-- The `switch v := value.(type)` of `get_tag`, `createDataTable` and `UpdateDataTable`:
the Lua value of a tag value, `none` for a value of another type than `float64`, `int32`,
`bool` and `string`. -/
def toLValue : GoValue → Option LValue
  | GoValue.float64 v => some (LValue.number v)
  | GoValue.int32 v => some (LValue.number (GoFloat64.ofInt v.val))
  | GoValue.bool v => some (LValue.bool v)
  | GoValue.string v => some (LValue.string v)
  | _ => none

/-- The `switch luaValue.Type()` of `set_tag` and `SyncDataTableToTags`: the Go value of a
Lua number, boolean or string, `none` for nil and for the other types. -/
def toGoValue : LValue → Option GoValue
  | LValue.number n => some (GoValue.float64 n)
  | LValue.bool b => some (GoValue.bool b)
  | LValue.string s => some (GoValue.string s)
  | _ => none

/-- The errors `set_tag` hands to the script: the error of `GetTag` or `SetValue`, or the
message "unsupported value type". -/
inductive HostError where
  | tag (err : TagError)
  | unsupportedValueType
deriving DecidableEq

/-- The errors `RunLogic` and `SyncDataTableToTags` build with `fmt.Errorf`, one
constructor per message. -/
inductive LuaError where
  /-- Message "Lua engine not initialized". -/
  | notInitialized
  /-- Message "run_logic function not found". -/
  | runLogicNotFound
  /-- Message "run_logic execution error: %w". -/
  | runLogicExecution (cause : String)
  /-- Message "Data table not found". -/
  | dataTableNotFound
  /-- Message "failed to sync tags: %w". -/
  | failedToSync (cause : LuaError)
deriving DecidableEq

/-- One call of a Lua function of the script that comes to an end, as the host sees it:
the calls of `get_tag` and `set_tag` it makes, each continued on what the host function
returns, until it returns (`ret`) or raises a runtime error (`err`), with the global `Data`
as the call leaves it (`none` when it is not a table).  The calls of `plc_log`, `get_time`
and `sleep` touch neither the store nor what the engine reads of the Lua state; the choice
of the tree stands for what the script makes of them. -/
inductive Script where
  | ret (data : Option LTable)
  | err (message : String) (data : Option LTable)
  | getTag (name : String) (k : LValue → Option TagError → Script)
  | setTag (name : String) (value : LValue) (k : Option HostError → Script)

/-- The part of a `*lua.LState` the engine reads: the global `Data` when it is a table, and
the global `run_logic` when it is a function, as the behaviour of a call of it on the global
`Data` it finds. -/
structure LState where
  Data : Option LTable
  run_logic : Option (Option LTable → Script)

/-- Go: `type LuaEngine struct`: `L` is `none` for the nil state before `Initialize`,
`stopChanClosed` tells whether `stopChan` has been closed. -/
structure LuaEngine where
  L : Option LState
  tagManager : TagManager
  scriptPath : String
  scanTime : Duration
  running : Bool
  stopChanClosed : Bool
  initialized : Bool

/-- Go: `func (tm *TagManager) GetAllTags() []*Tag`.  Go leaves the order of the range over
the map open; the order here is that of the entry list. -/
def TagManager.GetAllTags (tm : TagManager) : List Tag := tm.tags.entries.map Prod.snd

/-- The function `get_tag` registered by `registerPLCFunctions`: the value and the error
handed to the script. -/
def get_tag (tm : TagManager) (tagName : String) : LValue × Option TagError :=
  match tm.GetTag tagName with
  | Except.error err => (LValue.nil, some err)
  | Except.ok tag => ((toLValue tag.GetValue).getD LValue.nil, none)

/-- The function `set_tag` registered by `registerPLCFunctions`: the store after the call
and the error handed to the script (`none` for the result `true, nil`). -/
def set_tag (env : GoEnv) (tm : TagManager) (tagName : String) (value : LValue) (now : Time) :
    TagManager × Option HostError :=
  match tm.GetTag tagName with
  | Except.error err => (tm, some (HostError.tag err))
  | Except.ok tag =>
    match toGoValue value with
    | none => (tm, some HostError.unsupportedValueType)
    | some goValue =>
      let r := tag.SetValue env goValue now
      ({ tm with tags := tm.tags.put tagName r.1 }, r.2.map HostError.tag)

/-- What a call of a Lua function leaves: the store, the global `Data`, the runtime error
it raised if any, and the calls of `set_tag` it made, in order. -/
structure ScriptRun where
  tagManager : TagManager
  data : Option LTable
  error : Option String
  sets : List (String × LValue)

/-- Lua: `L.CallByParam(lua.P{Fn: fn, NRet: 0, Protect: true})` on a function with the
behaviour `script`, on the store `tm`; `clock n` is the reading of `time.Now()` in the
`n`-th call of `set_tag`. -/
def Script.run (env : GoEnv) (clock : Nat → Time) : Script → TagManager → Nat → ScriptRun
  | Script.ret data, tm, _ => { tagManager := tm, data := data, error := none, sets := [] }
  | Script.err message data, tm, _ =>
    { tagManager := tm, data := data, error := some message, sets := [] }
  | Script.getTag name k, tm, n =>
    Script.run env clock (k (get_tag tm name).1 (get_tag tm name).2) tm n
  | Script.setTag name value k, tm, n =>
    let r := set_tag env tm name value (clock n)
    let rest := Script.run env clock (k r.2) r.1 (n + 1)
    { rest with sets := (name, value) :: rest.sets }

/-- The loop `for _, tag := range tags` of `createDataTable` and `UpdateDataTable`. -/
def setDataEntries (table : LTable) : List Tag → LTable
  | [] => table
  | tag :: rest =>
    match toLValue tag.GetValue with
    | some v => setDataEntries (table.RawSetString tag.Name v) rest
    | none => setDataEntries table rest

/-- Go: `func (le *LuaEngine) createDataTable()`; `none` is the panic on the nil state. -/
def LuaEngine.createDataTable (le : LuaEngine) : Option LuaEngine :=
  match le.L with
  | none => none
  | some st =>
    some { le with
      L := some { st with Data := some (setDataEntries LTable.empty le.tagManager.GetAllTags) } }

/-- Go: `func (le *LuaEngine) UpdateDataTable()`; `none` is the panic on the nil state. -/
def LuaEngine.UpdateDataTable (le : LuaEngine) : Option LuaEngine :=
  match le.L with
  | none => none
  | some st =>
    match st.Data with
    | none => le.createDataTable
    | some table =>
      some { le with
        L := some { st with Data := some (setDataEntries table le.tagManager.GetAllTags) } }

/-- The body of the loop of `SyncDataTableToTags` for one tag: the tag after it and the
error logged, if any. -/
def syncTag (env : GoEnv) (table : LTable) (now : Time) (tag : Tag) : Tag × Option TagError :=
  match toGoValue (table.RawGetString tag.Name) with
  | none => (tag, none)
  | some goValue => tag.SetValue env goValue now

/-- Go: `func (le *LuaEngine) SyncDataTableToTags() error` (the log lines apart); `none`
is the panic on the nil state.  Each tag of the store is written through its pointer, once,
whatever the order of the range; `clock key` is the reading of `time.Now()` in the write of
the tag stored under `key`. -/
def LuaEngine.SyncDataTableToTags (env : GoEnv) (le : LuaEngine) (clock : String → Time) :
    Option (LuaEngine × Option LuaError) :=
  match le.L with
  | none => none
  | some st =>
    match st.Data with
    | none => some (le, some LuaError.dataTableNotFound)
    | some table =>
      let tags := le.tagManager.tags.mapValues
        (fun key tag => (syncTag env table (clock key) tag).1)
      some ({ le with tagManager := TagManager.mk tags }, none)

/-- Go: `func (le *LuaEngine) RunLogic() error`, for a call of `run_logic` that comes to an
end; `none` is a panic.  `clock` gives the readings of `time.Now()` in the calls of
`set_tag`, `syncClock` those in the write-back. -/
def LuaEngine.RunLogic (env : GoEnv) (le : LuaEngine) (clock : Nat → Time)
    (syncClock : String → Time) : Option (LuaEngine × Option LuaError) :=
  if !le.initialized then some (le, some LuaError.notInitialized)
  else
    match le.UpdateDataTable with
    | none => none
    | some le1 =>
      match le1.L with
      | none => none
      | some st =>
        match st.run_logic with
        | none => some (le1, some LuaError.runLogicNotFound)
        | some runLogic =>
          let r := (runLogic st.Data).run env clock le1.tagManager 0
          let le2 := { le1 with L := some { st with Data := r.data },
                                tagManager := r.tagManager }
          match r.error with
          | some message => some (le2, some (LuaError.runLogicExecution message))
          | none =>
            match le2.SyncDataTableToTags env syncClock with
            | none => none
            | some (le3, none) => some (le3, none)
            | some (le3, some err) => some (le3, some (LuaError.failedToSync err))

end plc

namespace plc

/-- A sample store for the script engine: a Float tag "speed" and a Boolean tag "alarm",
fresh from `NewTag` at time 0. -/
def sampleTags : TagManager :=
  ((NewTagManager.AddTag (NewTag "speed" "%DF1" "" TagTypeFloat64 0)).1.AddTag
    (NewTag "alarm" "%MW1" "" TagTypeBool 0)).1

/-- A Data table with the string "fast" under "speed" (which a Float tag rejects), the
boolean `true` under "alarm", and nil elsewhere. -/
def sampleTable : LTable :=
  (LTable.empty.RawSetString "speed" (LValue.string "fast")).RawSetString "alarm"
    (LValue.bool true)

/-- A sample `run_logic`: it reads the tag "speed", assigns `true` to `Data.alarm` and
raises a runtime error. -/
def sampleRunLogic (data : Option LTable) : Script :=
  Script.getTag "speed" (fun _ _ =>
    Script.err "attempt to index a nil value"
      (data.map (fun t => t.RawSetString "alarm" (LValue.bool true))))

/-- A sample engine, initialized, on the sample store, with the Data table `table` and the
sample `run_logic`. -/
def LuaEngine.sample (table : LTable) : LuaEngine :=
  { L := some { Data := some table, run_logic := some sampleRunLogic },
    tagManager := sampleTags, scriptPath := "logic.lua", scanTime := 100000000,
    running := false, stopChanClosed := false, initialized := true }

end plc

/-! ## Vocabulary and samples for the motors, the noise sensor and the script engine -/

namespace sensors

/-- The values a sequence of `Update` calls returns on a servo motor; the sequence ends
with `none` at a call that panics. -/
def ServoMotor.outputs {F : Type} [Float64Arith F] (s : ServoMotor F) :
    List Duration → List (Option F)
  | [] => []
  | dt :: rest =>
    match s.Update dt with
    | none => [none]
    | some r => some r.1 :: ServoMotor.outputs r.2 rest

end sensors

namespace sensors

/-- The position in the machinery cycle that `NoiseSensor.Update` computes at the elapsed
time `elapsed`: `math.Mod(elapsed, n.CyclePeriod) / n.CyclePeriod`. -/
def NoiseSensor.cyclePosition {F : Type} [Float64Arith F] (n : NoiseSensor F) (elapsed : F) :
    F :=
  Float64Arith.mod elapsed n.CyclePeriod / n.CyclePeriod

/-- The block "Calculate base noise level based on machinery cycle" of
`NoiseSensor.Update`: the base level at the elapsed time `elapsed`, before spike and
noise. -/
def NoiseSensor.baseNoise {F : Type} [Float64Arith F] (n : NoiseSensor F) (elapsed : F) : F :=
  let cyclePosition := n.cyclePosition elapsed
  if cyclePosition < n.DutyCycle then
    let progress := cyclePosition / n.DutyCycle
    let transitionFactor := (1.0 - Float64Arith.cos (progress * Float64Arith.pi)) / 2.0
    n.AmbientLevel + (n.PeakLevel - n.AmbientLevel) * transitionFactor
  else
    let progress := (cyclePosition - n.DutyCycle) / (1.0 - n.DutyCycle)
    let transitionFactor := (1.0 - Float64Arith.cos (progress * Float64Arith.pi)) / 2.0
    n.PeakLevel - (n.PeakLevel - n.AmbientLevel) * transitionFactor

end sensors

namespace plc

/-- A sample store with a tag of each kind: the Float tag "speed", the Integer tag "count",
the Boolean tag "alarm" and the Text tag "mode", fresh from `NewTag` at time 0, with -7
then written to "count" and "auto" to "mode" at time 1. -/
def sampleKinds : TagManager :=
  ((((((NewTagManager.AddTag (NewTag "speed" "%DF1" "" TagTypeFloat64 0)).1.AddTag
    (NewTag "count" "%MW2" "" TagTypeInt32 0)).1.AddTag
    (NewTag "alarm" "%MW1" "" TagTypeBool 0)).1.AddTag
    (NewTag "mode" "%MW3" "" TagTypeString 0)).1.SetTagValue GoEnv.sample "count"
      (GoValue.int32 (GoInt32.wrap (-7))) 1).1.SetTagValue GoEnv.sample "mode"
      (GoValue.string "auto") 1).1

/-- A sample engine on the store `sampleKinds`, initialized, before the first refresh of
the Data table. -/
def LuaEngine.sampleKinds : LuaEngine :=
  { L := some { Data := none, run_logic := some sampleRunLogic },
    tagManager := plc.sampleKinds, scriptPath := "logic.lua", scanTime := 100000000,
    running := false, stopChanClosed := false, initialized := true }

end plc

/-! ## IEEE 754 binary64 arithmetic on bit patterns -/

namespace GoFloat64

/-- The bits of the float without the sign bit. -/
def mag (f : GoFloat64) : Nat := f.bits % 2 ^ 63

/-- An infinity. -/
def isInf (f : GoFloat64) : Bool := f.expField == 2047 && f.frac == 0

/-- The NaN of Go's arithmetic, `math.NaN()`. -/
def nan : GoFloat64 := ofBits 9221120237041090561

/-- The infinity of the given sign. -/
def inf (negative : Bool) : GoFloat64 :=
  ofBits ((if negative then 2 ^ 63 else 0) + 2047 * 2 ^ 52)

/-- The zero of the given sign. -/
def signedZero (negative : Bool) : GoFloat64 := ofBits (if negative then 2 ^ 63 else 0)

/-- Go `-f`: the sign bit is flipped. -/
def neg (f : GoFloat64) : GoFloat64 := ofBits (f.bits + 2 ^ 63)

/-- Go `math.Abs(f)`: the sign bit is cleared. -/
def abs (f : GoFloat64) : GoFloat64 := ofBits f.mag

/-- The place of a float that is not a NaN in the order of the floats: the bits without
the sign for a positive float, their opposite for a negative one (both zeros at 0). -/
def key (f : GoFloat64) : Int := if f.sign = 1 then -(f.mag : Int) else (f.mag : Int)

/-- Go `a < b`: false when either side is a NaN. -/
def lt (a b : GoFloat64) : Prop := a.isNaN = false ∧ b.isNaN = false ∧ a.key < b.key

/-- Go `a <= b`: false when either side is a NaN. -/
def le (a b : GoFloat64) : Prop := a.isNaN = false ∧ b.isNaN = false ∧ a.key ≤ b.key

instance (a b : GoFloat64) : Decidable (a.lt b) := by
  unfold lt; infer_instance

instance (a b : GoFloat64) : Decidable (a.le b) := by
  unfold le; infer_instance

/-- The magnitude of a finite float, in units of `2^-1074`. -/
def scaled (f : GoFloat64) : Nat := f.significand * 2 ^ (f.exponent - 1)

/-- The value of a finite float, in units of `2^-1074`. -/
def signedScaled (f : GoFloat64) : Int :=
  if f.sign = 1 then -(f.scaled : Int) else (f.scaled : Int)

/-- One step of the search of `bitLog2`. -/
def bitLog2Step (p : Nat × Nat) (k : Nat) : Nat × Nat :=
  if p.1 / 2 ^ k = 0 then p else (p.1 / 2 ^ k, p.2 + k)

/-- Floor of the base-2 logarithm of a number below `2^8192` (0 for 0), by binary
search. -/
def bitLog2 (n : Nat) : Nat :=
  ([4096, 2048, 1024, 512, 256, 128, 64, 32, 16, 8, 4, 2, 1].foldl bitLog2Step (n, 0)).2

/-- The integer nearest to `n / 2^t`, ties to the even one. -/
def roundShift (n t : Nat) : Nat :=
  if t = 0 then n
  else
    let q := n / 2 ^ t
    let r := n % 2 ^ t
    let half := 2 ^ (t - 1)
    if half < r ∨ (r = half ∧ q % 2 = 1) then q + 1 else q

/-- The bits, without the sign, of the float nearest to `n * 2^(-1074-k)`, ties to the
even significand; the bits of the infinity when the rounded value is out of range.  A carry
out of the significand moves into the exponent field by plain addition. -/
def roundMag (n k : Nat) : Nat :=
  let t := max (bitLog2 n - 52) k
  min ((t - k) * 2 ^ 52 + roundShift n t) (2047 * 2 ^ 52)

/-- The place in the order of the floats of the float nearest to `s * 2^-1074`. -/
def roundKey (s : Int) : Int :=
  if s < 0 then -((roundMag s.natAbs 0 : Nat) : Int) else ((roundMag s.natAbs 0 : Nat) : Int)

/-- The float of the given sign nearest to `n * 2^(-1074-k)`. -/
def ofScaled (negative : Bool) (n k : Nat) : GoFloat64 :=
  ofBits ((if negative then 2 ^ 63 else 0) + roundMag n k)

/-- The float of the given sign nearest to `num / den`, for `den > 0`: the quotient to
1075 binary places, with one more bit that tells whether the division is exact. -/
def ofRatio (negative : Bool) (num den : Nat) : GoFloat64 :=
  ofScaled negative
    (2 * (num * 2 ^ 1075 / den) + (if num * 2 ^ 1075 % den = 0 then 0 else 1)) 2

/-- Go `a + b` on `float64`. -/
def add (a b : GoFloat64) : GoFloat64 :=
  if a.isNaN || b.isNaN then nan
  else if a.isInf then (if b.isInf && a.sign != b.sign then nan else a)
  else if b.isInf then b
  else
    let s := a.signedScaled + b.signedScaled
    if s = 0 then signedZero (a.sign == 1 && b.sign == 1)
    else ofScaled (decide (s < 0)) s.natAbs 0

/-- Go `a - b` on `float64`. -/
def sub (a b : GoFloat64) : GoFloat64 := add a b.neg

/-- Go `a * b` on `float64`. -/
def mul (a b : GoFloat64) : GoFloat64 :=
  if a.isNaN || b.isNaN then nan
  else if a.isInf || b.isInf then
    (if a.mag = 0 ∨ b.mag = 0 then nan else inf (a.sign != b.sign))
  else ofScaled (a.sign != b.sign) (a.scaled * b.scaled) 1074

/-- Go `a / b` on `float64`. -/
def div (a b : GoFloat64) : GoFloat64 :=
  if a.isNaN || b.isNaN then nan
  else if a.isInf then (if b.isInf then nan else inf (a.sign != b.sign))
  else if b.isInf then signedZero (a.sign != b.sign)
  else if b.mag = 0 then (if a.mag = 0 then nan else inf (a.sign != b.sign))
  else ofRatio (a.sign != b.sign) a.scaled b.scaled

/-- Go `math.Mod(x, y)`: the remainder of the magnitudes, which is a float, with the
sign of `x`; NaN when `x` is an infinity or `y` is zero. -/
def mod (x y : GoFloat64) : GoFloat64 :=
  if x.isNaN || y.isNaN || x.isInf || y.mag == 0 then nan
  else if y.isInf then x
  else ofScaled (x.sign == 1) (x.scaled % y.scaled) 0

/-- The float nearest to a rational number: the value of a decimal literal. -/
def ofRat (q : ℚ) : GoFloat64 := ofRatio (decide (q < 0)) q.num.natAbs q.den

/-- Go `int(f)`: the fraction is discarded; when the result is not an `int` (of 64 bits)
the conversion still succeeds with an implementation-dependent value, here
`outOfRange f`. -/
def toInt (outOfRange : GoFloat64 → Int) (f : GoFloat64) : Int :=
  if f.isFinite = true ∧ -9223372036854775808 ≤ f.trunc ∧ f.trunc < 9223372036854775808
  then f.trunc else outOfRange f

end GoFloat64

/-- The reading of `float64` arithmetic on bit patterns, as IEEE 754 binary64 with
rounding to nearest, ties to even: `m` gives the functions and the constant of package
`math`, `intOutOfRange` the result of `int(f)` out of range. -/
@[reducible] def Float64Arith.ieee (m : MathFns GoFloat64)
    (intOutOfRange : GoFloat64 → Int) : Float64Arith GoFloat64 where
  add := GoFloat64.add
  sub := GoFloat64.sub
  mul := GoFloat64.mul
  div := GoFloat64.div
  neg := GoFloat64.neg
  lt := GoFloat64.lt
  le := GoFloat64.le
  decLt := fun a b => (inferInstance : Decidable (GoFloat64.lt a b))
  decLe := fun a b => (inferInstance : Decidable (GoFloat64.le a b))
  lit := GoFloat64.ofRat
  ofInt := GoFloat64.ofInt
  toInt := GoFloat64.toInt intOutOfRange
  ofGo := fun f => f
  toGo := fun f => f
  pi := m.pi
  abs := GoFloat64.abs
  sqrt := m.sqrt
  sin := m.sin
  cos := m.cos
  exp := m.exp
  log := m.log
  log10 := m.log10
  pow := m.pow
  mod := GoFloat64.mod

/-- A sample of the functions of package `math` on bit patterns, for evaluating the models
in `float64` arithmetic on concrete inputs.  `pi` is `math.Pi`.  The sine and the cosine are
NaN at the infinities and at a NaN, as `math.Sin` and `math.Cos` are; the sine of a zero is
that zero; the cosine is 1 within `2^-27` of 0 and -1 within `2^-27` of `pi` or `-pi`, the
values to which the cosine rounds there.  At every other argument, and for the other
functions, the value is a finite stand-in (a zero for the sine and the cosine, the argument
itself for the others): the evaluations below use the models only where their result does
not depend on a stand-in. -/
def MathFns.ieeeSample : MathFns GoFloat64 where
  pi := GoFloat64.ofBits 4614256656552045848
  sqrt := fun x => x
  sin := fun x =>
    if x.isFinite = true then GoFloat64.signedZero (x.sign == 1) else GoFloat64.nan
  cos := fun x =>
    if x.isFinite = true then
      (if decide ((x.abs.sub (GoFloat64.ofBits 4614256656552045848)).abs.le
          (GoFloat64.ofBits 4485585228861014016)) then GoFloat64.ofBits 13830554455654793216
       else if decide (x.abs.le (GoFloat64.ofBits 4485585228861014016)) then
        GoFloat64.ofBits 4607182418800017408
       else GoFloat64.ofBits 0)
    else GoFloat64.nan
  exp := fun x => x
  log := fun x => x
  log10 := fun x => x
  pow := fun x _ => x
  toFloat64 := fun x => x

/-- The arithmetic of `float64` on amd64, with the sample functions of package `math`:
`int(f)` of a value out of the range of `int` is `-2^63`. -/
@[reducible] def Float64Arith.amd64 : Float64Arith GoFloat64 :=
  Float64Arith.ieee MathFns.ieeeSample (fun _ => -9223372036854775808)

/-- The laws of the comparisons of `float64` that the clamping steps of the models rest
on, for a reading `F` of the arithmetic and its notion `nan` of a value that is not a
number: a comparison with a NaN is false, two numbers are comparable, and the order of the
numbers is reflexive and transitive, with the negation of a number not below zero not
above it nor above zero.  They hold for IEEE 754 and for exact arithmetic. -/
structure Float64Arith.OrderLaws (F : Type) [Float64Arith F] (nan : F → Prop) : Prop where
  lt_not_nan : ∀ a b : F, a < b → ¬ nan a ∧ ¬ nan b
  le_not_nan : ∀ a b : F, a ≤ b → ¬ nan a ∧ ¬ nan b
  le_of_not_lt : ∀ a b : F, ¬ nan a → ¬ nan b → ¬ a < b → b ≤ a
  not_lt_of_le : ∀ a b : F, a ≤ b → ¬ b < a
  le_refl : ∀ a : F, ¬ nan a → a ≤ a
  le_trans : ∀ a b c : F, a ≤ b → b ≤ c → a ≤ c
  le_of_lt : ∀ a b : F, a < b → a ≤ b
  lt_of_le_of_lt : ∀ a b c : F, a ≤ b → b < c → a < c
  lt_of_lt_of_le : ∀ a b c : F, a < b → b ≤ c → a < c
  neg_le_self : ∀ a : F, (0 : F) ≤ a → -a ≤ a
  neg_nonpos : ∀ a : F, (0 : F) ≤ a → -a ≤ 0

/-- The laws of the rounded operations of `float64` that the wrapping of an angle, the
position in a cycle, the sign of a quotient or a product, the conversion of a quotient to
`int`, a step of length zero and the bound of a random step rest on, for a reading `F` of
the arithmetic and its notion `nan` of a value that is not a number.  They hold for
IEEE 754: every operation returns the float nearest to the exact result, which makes it
monotone, and `math.Mod` is exact. -/
structure Float64Arith.RoundingLaws (F : Type) [Float64Arith F] (nan : F → Prop) : Prop where
  mod_le : ∀ x y : F, (0 : F) < y → ¬ nan (Float64Arith.mod x y) → Float64Arith.mod x y ≤ y
  mod_wrap : ∀ x y : F, (0 : F) < y → Float64Arith.mod x y < 0 →
    (0 : F) ≤ Float64Arith.mod x y + y ∧ Float64Arith.mod x y + y ≤ y
  sub_pos : ∀ a b : F, a < b → (0 : F) < b - a
  sub_self_lt : ∀ x p : F, (0 : F) < p → ¬ p ≤ x - x
  div_nonneg : ∀ a b : F, (0 : F) ≤ a → (0 : F) < b → nan (a / b) ∨ (0 : F) ≤ a / b
  mul_zero : ∀ c z : F, (0 : F) ≤ z → z ≤ 0 → ¬ nan (c * z) → (0 : F) ≤ c * z ∧ c * z ≤ 0
  add_zero : ∀ x z : F, ¬ nan x → (0 : F) ≤ z → z ≤ 0 → x ≤ x + z ∧ x + z ≤ x
  toInt_nonneg : ∀ q : F, (0 : F) ≤ q → q < 9223372036854775808 →
    0 ≤ Float64Arith.toInt q
  seconds_zero : (0 : F) ≤ Duration.Seconds 0 ∧ (Duration.Seconds 0 : F) ≤ 0
  degrees_pos : (0 : F) < 360.0
  mod_div_range : ∀ x y : F, (0 : F) ≤ x → (0 : F) < y → ¬ nan (Float64Arith.mod x y) →
    (0 : F) ≤ Float64Arith.mod x y / y ∧ Float64Arith.mod x y / y < 1.0
  ofInt_pos : ∀ n : Int, 0 < n → n < 9223372036854775808 → (0 : F) < Float64Arith.ofInt n
  sub_eq_add_neg : ∀ x y : F, x - y = x + -y
  add_le_add : ∀ x a b : F, a ≤ b → ¬ nan (x + a) → ¬ nan (x + b) → x + a ≤ x + b
  mul_nonneg : ∀ a b : F, (0 : F) ≤ a → (0 : F) ≤ b → ¬ nan (a * b) → (0 : F) ≤ a * b
  mul_unit : ∀ a b : F, -1.0 ≤ a → a ≤ 1.0 → (0 : F) ≤ b → ¬ nan (a * b) →
    -b ≤ a * b ∧ a * b ≤ b
  draw_unit : ∀ u : F, (0 : F) ≤ u → u < 1.0 → -1.0 ≤ u * 2.0 - 1.0 ∧ u * 2.0 - 1.0 ≤ 1.0

/-- A sample generator source on bit patterns: the generator of seed `n` returns
`(n + i) mod 10 / 10` at its `i`-th draw. -/
def GoRand.sample64 (seed : Int) : GoRand GoFloat64 where
  draws := fun i => GoFloat64.ofRatio false ((seed.toNat + i) % 10) 10

namespace sensors

/-- The value `v` is in the range of a model that clamps its value, as far as the clamp
decides it: for the five models that clamp a `float64`, `v` is a NaN (which passes both
comparisons of the clamp) or lies between min and max; for the integer actuator, `v` is the
`float64` of an integer between min and max. -/
def Sensor.inRangeOrNaN {F : Type} [Float64Arith F] (nan : F → Prop) : Sensor F → F → Prop
  | Sensor.temperature s, v => nan v ∨ (s.MinValue ≤ v ∧ v ≤ s.MaxValue)
  | Sensor.pressure s, v => nan v ∨ (s.MinPressure ≤ v ∧ v ≤ s.MaxPressure)
  | Sensor.random s, v => nan v ∨ (s.MinValue ≤ v ∧ v ≤ s.MaxValue)
  | Sensor.vibration s, v => nan v ∨ (s.MinValue ≤ v ∧ v ≤ s.MaxValue)
  | Sensor.noise s, v => nan v ∨ (s.MinValue ≤ v ∧ v ≤ s.MaxValue)
  | Sensor.integer s, v =>
    ∃ n : Int, v = Float64Arith.ofInt n ∧ s.MinValue ≤ n ∧ n ≤ s.MaxValue
  | _, _ => False

/-- The model clamps its value, and its min is at most its max. -/
def Sensor.rangeOrdered {F : Type} [Float64Arith F] : Sensor F → Prop
  | Sensor.temperature s => s.MinValue ≤ s.MaxValue
  | Sensor.pressure s => s.MinPressure ≤ s.MaxPressure
  | Sensor.random s => s.MinValue ≤ s.MaxValue
  | Sensor.vibration s => s.MinValue ≤ s.MaxValue
  | Sensor.noise s => s.MinValue ≤ s.MaxValue
  | Sensor.integer s => s.MinValue ≤ s.MaxValue
  | _ => False

/-- A temperature sensor of base temperature 25, amplitude 5 and range [30, 40], without
noise, with the given period, fresh from its constructor, in `float64` arithmetic. -/
def TemperatureSensor.sample64 (enabled : Bool) (period : GoFloat64) :
    TemperatureSensor GoFloat64 :=
  @NewTemperatureSensor GoFloat64 Float64Arith.amd64 GoRand.sample64 1 "T1" "%DF30" enabled
    (GoInt.wrap 100) (GoFloat64.ofInt 25) (GoFloat64.ofInt 5) period (GoFloat64.ofInt 0)
    (GoFloat64.ofInt 30) (GoFloat64.ofInt 40) ""

/-- A pressure sensor of range [0, 10], without noise, with the given ramp-up, hold and
ramp-down times, fresh from its constructor, in `float64` arithmetic. -/
def PressureSensor.sample64 (enabled : Bool) (rampUp hold rampDown : GoFloat64) :
    PressureSensor GoFloat64 :=
  @NewPressureSensor GoFloat64 Float64Arith.amd64 GoRand.sample64 1 "P1" "%DF31" enabled
    (GoInt.wrap 100) (GoFloat64.ofInt 0) (GoFloat64.ofInt 10) rampUp hold rampDown
    (GoFloat64.ofInt 0) ""

end sensors

namespace sensors

/-- A random-walk sensor of range [0, 10] and change rate 1, enabled, fresh from its
constructor with the sample generator of seed `seed`, in `float64` arithmetic. -/
def RandomSensor.sample64 (seed : Int) : RandomSensor GoFloat64 :=
  @NewRandomSensor GoFloat64 Float64Arith.amd64 GoRand.sample64 seed "X1" "%DF50" true
    (GoInt.wrap 100) (GoFloat64.ofInt 0) (GoFloat64.ofInt 10) (GoFloat64.ofInt 1) ""

end sensors

namespace sensors

/-- An integer actuator on the ramp from 0 to 100 at rate 10 in `float64` arithmetic,
enabled and fresh from its constructor. -/
def IntegerActuator.sample64 : IntegerActuator GoFloat64 :=
  @NewIntegerActuator GoFloat64 Float64Arith.amd64 "A1" "%MW10" true (GoInt.wrap 100) 0 100 0
    true "ramp" (GoFloat64.ofInt 10) (GoFloat64.ofInt 5) ""

end sensors

namespace sensors

/-- The relay of the toggle scenario in `float64` arithmetic: default state off, auto-toggle
on, with the given toggle period, enabled and fresh from its constructor. -/
def RelayActuator.sample64 (period : GoFloat64) : RelayActuator GoFloat64 :=
  @NewRelayActuator GoFloat64 Float64Arith.amd64 "R1" "%MX10" true (GoInt.wrap 100) false true
    period ""

/-- The relay after a sequence of `Update` calls. -/
def RelayActuator.after {F : Type} [Float64Arith F] (r : RelayActuator F) :
    List Duration → RelayActuator F
  | [] => r
  | dt :: rest => RelayActuator.after (r.Update dt).2 rest

end sensors

/-- A generator on bit patterns that returns the given values in turn, and 0 after them. -/
def GoRand.ofList (l : List GoFloat64) : GoRand GoFloat64 where
  draws := fun i => l.getD i (GoFloat64.ofBits 0)

namespace sensors

/-- A random-walk sensor of range [0, 2e15] and change rate 2 in `float64` arithmetic,
enabled and fresh from its constructor with a generator whose first two values are 0.5 and
0.975: the constructor draws the first and sets the current value to 1e15. -/
def RandomSensor.sampleLarge : RandomSensor GoFloat64 :=
  @NewRandomSensor GoFloat64 Float64Arith.amd64
    (fun _ => GoRand.ofList [GoFloat64.ofRatio false 1 2, GoFloat64.ofRatio false 975 1000]) 0
    "X2" "%DF51" true (GoInt.wrap 100) (GoFloat64.ofInt 0) (GoFloat64.ofInt 2000000000000000)
    (GoFloat64.ofInt 2) ""

end sensors

namespace sensors

/-- A step motor of 200 steps per revolution with the given speed limit, acceleration, mode
and pattern and the period 10 s, in `float64` arithmetic, enabled and fresh from its
constructor. -/
def StepMotor.sample64 (maxSpeed acceleration : GoFloat64) (autoMode : Bool)
    (autoPattern : String) : StepMotor GoFloat64 :=
  @NewStepMotor GoFloat64 Float64Arith.amd64 "M1" "%DF40" true (GoInt.wrap 100) maxSpeed
    acceleration 200 autoMode autoPattern (GoFloat64.ofInt 10) ""

/-- The step motor after a sequence of `Update` calls, or `none` when one of them
panics. -/
def StepMotor.after {F : Type} [Float64Arith F] (s : StepMotor F) :
    List Duration → Option (StepMotor F)
  | [] => some s
  | dt :: rest =>
    match s.Update dt with
    | none => none
    | some r => StepMotor.after r.2 rest

end sensors

namespace sensors

/-- A servo motor with an integral controller only (gains 0, 1, 0), inertia 1, no damping,
torque limit 10 and velocity limit 3000, with the given output mode, auto mode, pattern and
period, in `float64` arithmetic, enabled and fresh from its constructor. -/
def ServoMotor.sample64 (outputMode : String) (autoMode : Bool) (autoPattern : String)
    (autoPeriod : GoFloat64) : ServoMotor GoFloat64 :=
  @NewServoMotor GoFloat64 Float64Arith.amd64 "M2" "%DF20" true (GoInt.wrap 100)
    (GoFloat64.ofInt 3000) (GoFloat64.ofInt 10) (GoFloat64.ofInt 1) (GoFloat64.ofInt 0)
    outputMode autoMode autoPattern autoPeriod (GoFloat64.ofInt 0) (GoFloat64.ofInt 1)
    (GoFloat64.ofInt 0) ""

end sensors

namespace sensors

/-- The divisor of the duty-cycle interpolation of `NoiseSensor.Update` at the elapsed time
`elapsed`: the branch taken when the cycle position is below the duty cycle divides by
`n.DutyCycle`, the other branch by `1.0 - n.DutyCycle`. -/
def NoiseSensor.progressDivisor {F : Type} [Float64Arith F] (n : NoiseSensor F)
    (elapsed : F) : F :=
  if n.cyclePosition elapsed < n.DutyCycle then n.DutyCycle else 1.0 - n.DutyCycle

/-- A noise sensor of ambient level 0.3 and peak level 0.9 over a cycle of 10 s with duty
cycle 0.5, without spikes and without noise, with the range [0, 120], in `float64`
arithmetic, enabled and fresh from its constructor. -/
def NoiseSensor.sample64 : NoiseSensor GoFloat64 :=
  @NewNoiseSensor GoFloat64 Float64Arith.amd64 "N1" "%DF50" true (GoInt.wrap 100)
    (GoFloat64.ofRatio false 3 10) (GoFloat64.ofRatio false 9 10) (GoFloat64.ofInt 10)
    (GoFloat64.ofRatio false 1 2) (GoFloat64.ofInt 0) (GoFloat64.ofInt 0) (GoFloat64.ofInt 0)
    (GoFloat64.ofInt 0) (GoFloat64.ofInt 120) ""

end sensors

namespace sensors

/-- The values a sequence of `Update` calls returns on a pressure sensor. -/
def PressureSensor.outputs {F : Type} [Float64Arith F] (p : PressureSensor F) :
    List Duration → List F
  | [] => []
  | dt :: rest => (p.Update dt).1 :: PressureSensor.outputs (p.Update dt).2 rest

end sensors

/-! ## Go maps: lookup after assignment -/

theorem lookupEntries_putEntries_same {V : Type} (k : String) (v : V)
    (l : List (String × V)) : lookupEntries k (putEntries k v l) = some v := by
  induction l with
  | nil => simp [putEntries, lookupEntries]
  | cons p rest ih =>
    obtain ⟨k1, v1⟩ := p
    by_cases h : k1 = k
    · simp [putEntries, lookupEntries, h]
    · simp [putEntries, lookupEntries, h, ih]

theorem lookupEntries_putEntries_other {V : Type} (k k2 : String) (v : V)
    (l : List (String × V)) (hne : k2 ≠ k) :
    lookupEntries k2 (putEntries k v l) = lookupEntries k2 l := by
  induction l with
  | nil =>
    have h : ¬ k = k2 := fun e => hne e.symm
    simp [putEntries, lookupEntries, h]
  | cons p rest ih =>
    obtain ⟨k1, v1⟩ := p
    by_cases h : k1 = k
    · have h2 : ¬ k = k2 := fun e => hne e.symm
      have h3 : ¬ k1 = k2 := fun e => h2 (h ▸ e)
      simp [putEntries, lookupEntries, h, h2]
    · by_cases h4 : k1 = k2
      · subst h4
        simp [putEntries, lookupEntries, h]
      · simp [putEntries, lookupEntries, h, h4, ih]

theorem length_putEntries_absent {V : Type} (k : String) (v : V) (l : List (String × V))
    (habs : lookupEntries k l = none) : (putEntries k v l).length = l.length + 1 := by
  induction l with
  | nil => simp [putEntries]
  | cons p rest ih =>
    obtain ⟨k1, v1⟩ := p
    by_cases h : k1 = k
    · simp [lookupEntries, h] at habs
    · simp only [lookupEntries, h, if_false] at habs
      simp [putEntries, h, ih habs]

theorem StrMap.get_put_same {V : Type} (m : StrMap V) (k : String) (v : V) :
    (m.put k v).get? k = some v :=
  lookupEntries_putEntries_same k v m.entries

theorem StrMap.get_put_other {V : Type} (m : StrMap V) (k k2 : String) (v : V)
    (hne : k2 ≠ k) : (m.put k v).get? k2 = m.get? k2 :=
  lookupEntries_putEntries_other k k2 v m.entries hne

theorem StrMap.len_put_absent {V : Type} (m : StrMap V) (k : String) (v : V)
    (habs : m.get? k = none) : (m.put k v).len = m.len + 1 :=
  length_putEntries_absent k v m.entries habs

theorem StrMap.isSome_get_put {V : Type} (m : StrMap V) (k k2 : String) (v : V) :
    ((m.put k v).get? k2).isSome = ((m.get? k2).isSome || decide (k2 = k)) := by
  by_cases h : k2 = k
  · subst h; simp [StrMap.get_put_same]
  · simp [StrMap.get_put_other m k k2 v h, h]

/-! ## Go primitives: conversions -/

theorem floorLog2_spec (fuel n : Nat) (hpos : 0 < n) (hlt : n < 2 ^ fuel) :
    2 ^ floorLog2 fuel n ≤ n ∧ n < 2 ^ (floorLog2 fuel n + 1) := by
  induction fuel generalizing n with
  | zero => simp at hlt; omega
  | succ fuel ih =>
    unfold floorLog2
    split_ifs with h
    · simp; omega
    · have h2 : n / 2 < 2 ^ fuel := by
        rw [pow_succ] at hlt
        omega
      have := ih (n / 2) (by omega) h2
      rw [pow_succ, pow_succ]
      omega

namespace GoFloat64

theorem decode_fields (s E F : Nat) (hs : s ≤ 1) (hE : E < 2048) (hF : F < 2 ^ 52) :
    (ofBits (s * 2 ^ 63 + E * 2 ^ 52 + F)).sign = s ∧
    (ofBits (s * 2 ^ 63 + E * 2 ^ 52 + F)).expField = E ∧
    (ofBits (s * 2 ^ 63 + E * 2 ^ 52 + F)).frac = F := by
  simp only [ofBits, sign, expField, frac]
  norm_num at *
  omega

/-- A finite float with significand `m` and exponent `1075 - k` has the integer value `n`
when `m = n * 2^k`, signs included. -/
theorem equalsInt_of_fields (f : GoFloat64) (n : Int) (s E m k : Nat) (hsign : f.sign = s)
    (hexpo : f.exponent = E) (hsig : f.significand = m) (hfin : f.isFinite = true)
    (hk : E + k = 1075)
    (hval : (if s = 1 then -(m : Int) else (m : Int)) = n * ((2 ^ k : Nat) : Int)) :
    f.EqualsInt n := by
  unfold EqualsInt
  rw [hsign, hexpo, hsig]
  refine ⟨hfin, ?_⟩
  by_cases hE : 1075 ≤ E
  · have hk0 : k = 0 := by omega
    have hE0 : E - 1075 = 0 := by omega
    rw [if_pos hE, hE0]
    rw [hk0] at hval
    simpa using hval
  · have hk1 : 1075 - E = k := by omega
    rw [if_neg hE, hk1]
    exact hval

theorem ofInt_equalsInt_small (n : Int) (hpos : n.natAbs ≠ 0) (h : n.natAbs < 2 ^ 53) :
    (ofInt n).EqualsInt n := by
  have hlog := floorLog2_spec 64 n.natAbs (by omega)
    (lt_trans h (by norm_num))
  generalize he : floorLog2 64 n.natAbs = e at hlog
  have he52 : e ≤ 52 := by
    by_contra hc
    have : 2 ^ 53 ≤ 2 ^ e := Nat.pow_le_pow_right (by norm_num) (by omega)
    omega
  have hX1 : 2 ^ 52 ≤ n.natAbs * 2 ^ (52 - e) := by
    calc 2 ^ 52 = 2 ^ e * 2 ^ (52 - e) := by rw [← pow_add]; congr 1; omega
      _ ≤ n.natAbs * 2 ^ (52 - e) := Nat.mul_le_mul_right _ hlog.1
  have hX2 : n.natAbs * 2 ^ (52 - e) < 2 ^ 53 := by
    calc n.natAbs * 2 ^ (52 - e) < 2 ^ (e + 1) * 2 ^ (52 - e) :=
          Nat.mul_lt_mul_of_pos_right hlog.2 (by positivity)
      _ = 2 ^ 53 := by rw [← pow_add]; congr 1; omega
  have hbits : ofInt n = ofBits ((if n < 0 then 1 else 0) * 2 ^ 63 + (e + 1023) * 2 ^ 52
      + (n.natAbs * 2 ^ (52 - e) - 2 ^ 52)) := by
    simp only [ofInt, hpos, if_false, he, he52, if_true]
  obtain ⟨hsign, hexp, hfrac⟩ := decode_fields (if n < 0 then 1 else 0) (e + 1023)
    (n.natAbs * 2 ^ (52 - e) - 2 ^ 52) (by split <;> omega) (by omega) (by omega)
  rw [← hbits] at hsign hexp hfrac
  have hsig : (ofInt n).significand = n.natAbs * 2 ^ (52 - e) := by
    simp only [significand, hexp, hfrac]
    rw [if_neg (by omega)]
    omega
  have hexpo : (ofInt n).exponent = e + 1023 := by
    simp only [exponent, hexp]
    rw [if_neg (by omega)]
  have hfin : (ofInt n).isFinite = true := by
    simp only [isFinite, hexp, bne_iff_ne]
    omega
  apply equalsInt_of_fields (ofInt n) n _ _ _ (52 - e) hsign hexpo hsig hfin (by omega)
  by_cases hneg : n < 0
  · simp only [hneg, if_true]
    push_cast
    rw [abs_of_neg hneg]
    ring
  · simp only [hneg, if_false]
    push_cast
    rw [abs_of_nonneg (by omega)]

/-- Go `float64(n)` is exact for every integer of magnitude at most `2^53`. -/
theorem ofInt_equalsInt (n : Int) (h : n.natAbs ≤ 2 ^ 53) : (ofInt n).EqualsInt n := by
  by_cases h0 : n.natAbs = 0
  · have : n = 0 := by omega
    subst this
    apply equalsInt_of_fields (ofInt 0) 0 0 1 0 1074 (by decide) (by decide) (by decide)
      (by decide) (by omega)
    rw [zero_mul]
    decide
  · by_cases h1 : n.natAbs < 2 ^ 53
    · exact ofInt_equalsInt_small n h0 h1
    · have h2 : n.natAbs = 2 ^ 53 := by omega
      have h3 : n = 9007199254740992 ∨ n = -9007199254740992 := by
        norm_num at h2
        omega
      rcases h3 with rfl | rfl <;> decide

/-- The bit-level test `f == 0` agrees with the numeric value of the float being zero. -/
theorem isZero_iff_equalsInt_zero (f : GoFloat64) : f.isZero = true ↔ f.EqualsInt 0 := by
  unfold isZero EqualsInt isFinite exponent significand
  simp only [zero_mul]
  by_cases h : f.expField = 0
  · rw [h]
    simp only [if_true]
    rw [if_neg (by omega)]
    constructor
    · intro hz
      have hf : f.frac = 0 := by simpa using hz
      rw [hf]
      simp
    · intro hz
      have hf : f.frac = 0 := by
        have := hz.2
        split at this <;> omega
      simp [hf]
  · simp only [if_neg h]
    constructor
    · intro hz
      simp [h] at hz
    · intro hz
      exfalso
      have hsig : 0 < 2 ^ 52 + f.frac := by positivity
      have hz2 := hz.2
      split at hz2
      · have hp : 0 < (2 ^ 52 + f.frac) * 2 ^ (f.expField - 1075) := by positivity
        split at hz2 <;> omega
      · split at hz2 <;> omega

theorem sign_le_one (f : GoFloat64) : f.sign = 0 ∨ f.sign = 1 := by
  have := f.isLt
  unfold sign
  omega

theorem truncatesTo_trunc (f : GoFloat64) : f.TruncatesTo f.trunc := by
  unfold TruncatesTo trunc
  have hs := sign_le_one f
  refine ⟨?_, ?_, ?_⟩
  · intro h
    by_contra hne
    rw [if_neg hne] at h
    omega
  · intro h
    rcases hs with hs | hs
    · exact hs
    · rw [if_pos hs] at h
      omega
  · have habs : (if f.sign = 1 then -(f.truncMag : Int) else (f.truncMag : Int)).natAbs
        = f.truncMag := by
      split <;> simp
    rw [habs]
    unfold truncMag
    by_cases hE : 1075 ≤ f.exponent
    · rw [if_pos hE, if_pos hE]
    · rw [if_neg hE, if_neg hE]
      have hp : 0 < 2 ^ (1075 - f.exponent) := by positivity
      constructor
      · exact Nat.div_mul_le_self _ _
      · exact (Nat.div_lt_iff_lt_mul hp).mp (Nat.lt_succ_self _)
/-- A finite float with significand `m` and exponent `1075 + k` has the integer value
`m * 2^k`, with its sign. -/
theorem equalsInt_of_fields_high (f : GoFloat64) (s E m k : Nat) (hsign : f.sign = s)
    (hexpo : f.exponent = E) (hsig : f.significand = m) (hfin : f.isFinite = true)
    (hk : E = 1075 + k) :
    f.EqualsInt (if s = 1 then -((m * 2 ^ k : Nat) : Int) else ((m * 2 ^ k : Nat) : Int)) ∧
    f.trunc = (if s = 1 then -((m * 2 ^ k : Nat) : Int) else ((m * 2 ^ k : Nat) : Int)) := by
  have hE : 1075 ≤ E := by omega
  have hEk : E - 1075 = k := by omega
  constructor
  · unfold EqualsInt
    rw [hsign, hexpo, hsig, if_pos hE, hEk]
    exact ⟨hfin, rfl⟩
  · unfold trunc truncMag
    rw [hsign, hexpo, hsig, if_pos hE, hEk]

/-- The truncation of a float with an integer value is that value. -/
theorem trunc_of_equalsInt (f : GoFloat64) (n : Int) (h : f.EqualsInt n) : f.trunc = n := by
  unfold EqualsInt at h
  unfold trunc truncMag
  obtain ⟨_, hv⟩ := h
  by_cases hE : 1075 ≤ f.exponent
  · rw [if_pos hE] at hv ⊢
    exact hv
  · rw [if_neg hE] at hv ⊢
    have hp : 0 < 2 ^ (1075 - f.exponent) := by positivity
    generalize 2 ^ (1075 - f.exponent) = p at hv hp
    generalize f.significand = m at hv
    by_cases hs : f.sign = 1
    · rw [if_pos hs] at hv ⊢
      have hm : m = (-n).toNat * p := by
        have h1 : (m : Int) = (-n) * (p : Int) := by rw [neg_mul, ← hv]; ring
        have hn : 0 ≤ -n := by
          by_contra hc
          have : (-n) * (p : Int) < 0 := Int.mul_neg_of_neg_of_pos (by omega) (by exact_mod_cast hp)
          omega
        have h2 : ((-n).toNat : Int) = -n := Int.toNat_of_nonneg hn
        have : (m : Int) = (((-n).toNat * p : Nat) : Int) := by
          push_cast
          rw [h2, h1]
        exact_mod_cast this
      rw [hm, Nat.mul_div_cancel _ hp]
      have hn : 0 ≤ -n := by
        by_contra hc
        have h1 : (m : Int) = (-n) * (p : Int) := by rw [neg_mul, ← hv]; ring
        have : (-n) * (p : Int) < 0 := Int.mul_neg_of_neg_of_pos (by omega) (by exact_mod_cast hp)
        omega
      rw [Int.toNat_of_nonneg hn]
      ring
    · rw [if_neg hs] at hv ⊢
      have hn : 0 ≤ n := by
        by_contra hc
        have : n * (p : Int) < 0 := Int.mul_neg_of_neg_of_pos (by omega) (by exact_mod_cast hp)
        omega
      have hm : m = n.toNat * p := by
        have h2 : (n.toNat : Int) = n := Int.toNat_of_nonneg hn
        have : (m : Int) = ((n.toNat * p : Nat) : Int) := by
          push_cast
          rw [h2, hv]
        exact_mod_cast this
      rw [hm, Nat.mul_div_cancel _ hp]
      exact Int.toNat_of_nonneg hn

/-- Go `float64(n)` of an integer of magnitude at least `2^53` (and below `2^64`) has an
integer value within `|n| / 2^53` of `n`. -/
theorem ofInt_rounds_large (n : Int) (hlo : 2 ^ 53 ≤ n.natAbs) (hhi : n.natAbs < 2 ^ 64) :
    (ofInt n).EqualsInt (ofInt n).trunc ∧
    ((ofInt n).trunc - n).natAbs * 2 ^ 53 ≤ n.natAbs := by
  have hpos : n.natAbs ≠ 0 := by
    have : 0 < 2 ^ 53 := by norm_num
    omega
  have hlog := floorLog2_spec 64 n.natAbs (by omega) hhi
  generalize he : floorLog2 64 n.natAbs = e at hlog
  have he53 : 53 ≤ e := by
    by_contra hc
    have : 2 ^ (e + 1) ≤ 2 ^ 53 := Nat.pow_le_pow_right (by norm_num) (by omega)
    omega
  have he63 : e ≤ 63 := by
    by_contra hc
    have : 2 ^ 64 ≤ 2 ^ e := Nat.pow_le_pow_right (by norm_num) (by omega)
    omega
  have hPH : 2 ^ (e - 52) = 2 * 2 ^ (e - 52 - 1) := by
    rw [← pow_succ']
    congr 1
    omega
  have hP1 : 2 ^ (e - 52) * 2 ^ 52 ≤ n.natAbs := by
    calc 2 ^ (e - 52) * 2 ^ 52 = 2 ^ e := by rw [← pow_add]; congr 1; omega
      _ ≤ n.natAbs := hlog.1
  have hP2 : n.natAbs < 2 ^ (e - 52) * 2 ^ 53 := by
    calc n.natAbs < 2 ^ (e + 1) := hlog.2
      _ = 2 ^ (e - 52) * 2 ^ 53 := by rw [← pow_add]; congr 1; omega
  have hbits : ofInt n = ofBits ((if n < 0 then 1 else 0) * 2 ^ 63 + (e + 1023) * 2 ^ 52
      + ((if 2 ^ (e - 52 - 1) < n.natAbs % 2 ^ (e - 52) ∨
            (n.natAbs % 2 ^ (e - 52) = 2 ^ (e - 52 - 1) ∧ n.natAbs / 2 ^ (e - 52) % 2 = 1)
          then n.natAbs / 2 ^ (e - 52) + 1 else n.natAbs / 2 ^ (e - 52)) - 2 ^ 52)) := by
    simp only [ofInt, hpos, if_false, he]
    rw [if_neg (by omega)]
  have hdm := Nat.div_add_mod n.natAbs (2 ^ (e - 52))
  have hmod : n.natAbs % 2 ^ (e - 52) < 2 ^ (e - 52) := Nat.mod_lt _ (by positivity)
  have hq1 : 2 ^ 52 ≤ n.natAbs / 2 ^ (e - 52) :=
    (Nat.le_div_iff_mul_le (by positivity)).mpr (by rw [Nat.mul_comm]; exact hP1)
  have hq2 : n.natAbs / 2 ^ (e - 52) < 2 ^ 53 :=
    (Nat.div_lt_iff_lt_mul (by positivity)).mpr (by rw [Nat.mul_comm]; exact hP2)
  have hPpos : 0 < 2 ^ (e - 52) := by positivity
  generalize hk : e - 52 = k at *
  generalize hq1def : (if 2 ^ (k - 1) < n.natAbs % 2 ^ k ∨
      (n.natAbs % 2 ^ k = 2 ^ (k - 1) ∧ n.natAbs / 2 ^ k % 2 = 1)
    then n.natAbs / 2 ^ k + 1 else n.natAbs / 2 ^ k) = q1 at hbits
  have hq1cases : (q1 = n.natAbs / 2 ^ k ∧ n.natAbs % 2 ^ k ≤ 2 ^ (k - 1)) ∨
      (q1 = n.natAbs / 2 ^ k + 1 ∧ 2 ^ (k - 1) ≤ n.natAbs % 2 ^ k) := by
    by_cases hc : 2 ^ (k - 1) < n.natAbs % 2 ^ k ∨
        (n.natAbs % 2 ^ k = 2 ^ (k - 1) ∧ n.natAbs / 2 ^ k % 2 = 1)
    · rw [if_pos hc] at hq1def
      right
      refine ⟨hq1def.symm, ?_⟩
      rcases hc with hc | hc <;> omega
    · rw [if_neg hc] at hq1def
      left
      refine ⟨hq1def.symm, ?_⟩
      by_contra hc2
      exact hc (Or.inl (by omega))
  have hq1lo : 2 ^ 52 ≤ q1 := by rcases hq1cases with h | h <;> omega
  have hq1hi : q1 ≤ 2 ^ 53 := by rcases hq1cases with h | h <;> omega
  -- the value of the result is `q1 * 2^k`, with the sign of `n`
  have hval : (ofInt n).EqualsInt
        (if (if n < 0 then 1 else 0) = 1 then -((q1 * 2 ^ k : Nat) : Int)
         else ((q1 * 2 ^ k : Nat) : Int)) ∧
      (ofInt n).trunc =
        (if (if n < 0 then 1 else 0) = 1 then -((q1 * 2 ^ k : Nat) : Int)
         else ((q1 * 2 ^ k : Nat) : Int)) := by
    by_cases hcarry : q1 = 2 ^ 53
    · have hbits2 : ofInt n = ofBits ((if n < 0 then 1 else 0) * 2 ^ 63
          + (e + 1024) * 2 ^ 52 + 0) := by
        rw [hbits, hcarry]
        refine congrArg ofBits ?_
        omega
      obtain ⟨hsign, hexp, hfrac⟩ := decode_fields (if n < 0 then 1 else 0) (e + 1024) 0
        (by split <;> omega) (by omega) (by norm_num)
      rw [← hbits2] at hsign hexp hfrac
      have hsig : (ofInt n).significand = 2 ^ 52 := by
        simp only [significand, hexp, hfrac]
        rw [if_neg (by omega)]
        rfl
      have hexpo : (ofInt n).exponent = e + 1024 := by
        simp only [exponent, hexp]
        rw [if_neg (by omega)]
      have hfin : (ofInt n).isFinite = true := by
        simp only [isFinite, hexp, bne_iff_ne]
        omega
      have h := equalsInt_of_fields_high (ofInt n) _ _ _ (k + 1) hsign hexpo hsig hfin (by omega)
      have hmul : 2 ^ 52 * 2 ^ (k + 1) = q1 * 2 ^ k := by
        rw [hcarry, pow_succ]
        ring
      rw [hmul] at h
      exact h
    · obtain ⟨hsign, hexp, hfrac⟩ := decode_fields (if n < 0 then 1 else 0) (e + 1023)
        (q1 - 2 ^ 52) (by split <;> omega) (by omega) (by omega)
      rw [← hbits] at hsign hexp hfrac
      have hsig : (ofInt n).significand = q1 := by
        simp only [significand, hexp, hfrac]
        rw [if_neg (by omega)]
        omega
      have hexpo : (ofInt n).exponent = e + 1023 := by
        simp only [exponent, hexp]
        rw [if_neg (by omega)]
      have hfin : (ofInt n).isFinite = true := by
        simp only [isFinite, hexp, bne_iff_ne]
        omega
      exact equalsInt_of_fields_high (ofInt n) _ _ _ k hsign hexpo hsig hfin (by omega)
  refine ⟨by rw [hval.2]; exact hval.1, ?_⟩
  rw [hval.2]
  have hdm2 : n.natAbs / 2 ^ k * 2 ^ k + n.natAbs % 2 ^ k = n.natAbs := by
    rw [Nat.mul_comm]; exact hdm
  generalize hX : n.natAbs / 2 ^ k * 2 ^ k = X at hdm2
  have hq1X : (q1 * 2 ^ k = X ∧ n.natAbs % 2 ^ k ≤ 2 ^ (k - 1)) ∨
      (q1 * 2 ^ k = X + 2 ^ k ∧ 2 ^ (k - 1) ≤ n.natAbs % 2 ^ k) := by
    rcases hq1cases with ⟨h1, h2⟩ | ⟨h1, h2⟩
    · left; rw [h1]; exact ⟨hX, h2⟩
    · right; rw [h1, Nat.add_mul, Nat.one_mul, hX]; exact ⟨rfl, h2⟩
  generalize q1 * 2 ^ k = M at hq1X ⊢
  by_cases hneg : n < 0
  · simp only [hneg, if_true]
    omega
  · simp only [hneg, if_false]
    have : ¬ ((0 : Nat) = 1) := by omega
    simp only [this, if_false]
    omega

/-- Go `float64(n)` of an integer below `2^64` in magnitude has an integer value within
`|n| / 2^53` of `n`. -/
theorem ofInt_rounds (n : Int) (hhi : n.natAbs < 2 ^ 64) :
    (ofInt n).EqualsInt (ofInt n).trunc ∧
    ((ofInt n).trunc - n).natAbs * 2 ^ 53 ≤ n.natAbs := by
  by_cases hlo : 2 ^ 53 ≤ n.natAbs
  · exact ofInt_rounds_large n hlo hhi
  · have heq := ofInt_equalsInt n (by omega)
    have ht := trunc_of_equalsInt (ofInt n) n heq
    rw [ht]
    exact ⟨heq, by simp⟩

end GoFloat64

theorem GoInt32.wrap_congruent (n : Int) : ((GoInt32.wrap n).val - n) % 4294967296 = 0 := by
  unfold GoInt32.wrap
  simp only
  omega

/-- The conversions on sample inputs: `float64(1)`, `float64(-2)`, the tie `2^53 + 1`
rounded down to even, `2^53 + 3` rounded up to even, the largest `int` rounded up to `2^63`,
and the truncations of `3.125`, `-3.125` and `0.5`. -/
theorem conversions_on_samples :
    GoFloat64.ofInt 1 = GoFloat64.ofBits 0x3FF0000000000000 ∧
    GoFloat64.ofInt (-2) = GoFloat64.ofBits 0xC000000000000000 ∧
    GoFloat64.ofInt 9007199254740993 = GoFloat64.ofBits 0x4340000000000000 ∧
    GoFloat64.ofInt 9007199254740995 = GoFloat64.ofBits 0x4340000000000002 ∧
    GoFloat64.ofInt 9223372036854775807 = GoFloat64.ofBits 0x43E0000000000000 ∧
    (GoFloat64.ofBits 0x4009000000000000).trunc = 3 ∧
    (GoFloat64.ofBits 0xC009000000000000).trunc = -3 ∧
    (GoFloat64.ofBits 0x3FE0000000000000).trunc = 0 := by
  decide

/-! ## Properties of `Tag.SetValue` -/

namespace plc

/-- C2. `Tag.SetValue` on a tag of one of the four kinds returns an error exactly when the
acceptance table rejects the value for the kind of the tag, the error is the invalid-type
error, and a failing call leaves the value and the timestamp of the tag as they were. -/
theorem setValue_fails_iff_not_accepted (env : GoEnv) (t : Tag) (v : GoValue) (now : Time)
    (hkind : validKind t.Typ) :
    ((t.SetValue env v now).2 ≠ none ↔ accepts t.Typ v = false) ∧
    ((t.SetValue env v now).2 ≠ none →
      (t.SetValue env v now).2 = some (TagError.invalidType t.Name v t.Typ) ∧
      (t.SetValue env v now).1.Value = t.Value ∧
      (t.SetValue env v now).1.Timestamp = t.Timestamp) := by
  rcases hkind with h | h | h | h <;> cases v <;>
    simp [Tag.SetValue, accepts, h, TagTypeFloat64, TagTypeInt32, TagTypeBool, TagTypeString]

/-- Instance of C2: an Integer tag rejects a string and keeps its value and timestamp;
the hypothesis of the theorem holds at this tag. -/
theorem setValue_fails_iff_not_accepted_witness :
    validKind (NewTag "Valve" "%DW1" "" TagTypeInt32 5).Typ ∧
    ((NewTag "Valve" "%DW1" "" TagTypeInt32 5).SetValue GoEnv.sample (GoValue.string "open") 9).2
      = some (TagError.invalidType "Valve" (GoValue.string "open") TagTypeInt32) ∧
    ((NewTag "Valve" "%DW1" "" TagTypeInt32 5).SetValue GoEnv.sample (GoValue.string "open") 9).1.Value
      = GoValue.int32 (GoInt32.wrap 0) ∧
    ((NewTag "Valve" "%DW1" "" TagTypeInt32 5).SetValue GoEnv.sample (GoValue.string "open") 9).1.Timestamp
      = 5 :=
  have h := setValue_fails_iff_not_accepted GoEnv.sample (NewTag "Valve" "%DW1" "" TagTypeInt32 5)
    (GoValue.string "open") 9 (by decide)
  ⟨by decide, (h.2 (h.1.2 (by decide))).1, (h.2 (h.1.2 (by decide))).2.1,
    (h.2 (h.1.2 (by decide))).2.2⟩

/-- The only error `SetValue` returns is the invalid-type error. -/
theorem setValue_error (env : GoEnv) (t : Tag) (v : GoValue) (now : Time) (err : TagError)
    (herr : (t.SetValue env v now).2 = some err) :
    err = TagError.invalidType t.Name v t.Typ := by
  unfold Tag.SetValue at herr
  dsimp only at herr
  split_ifs at herr <;> cases v <;> simp at herr <;> exact herr.symm

/-- The kind of a tag is the same after `SetValue`. -/
theorem setValue_typ (env : GoEnv) (t : Tag) (v : GoValue) (now : Time) :
    (t.SetValue env v now).1.Typ = t.Typ := by
  unfold Tag.SetValue
  dsimp only
  split_ifs <;> first | rfl | (split <;> rfl)

/-- One `SetValue` call keeps the kind invariant. -/
theorem setValue_kindMatches (env : GoEnv) (t : Tag) (v : GoValue) (now : Time)
    (hkind : validKind t.Typ) (hinv : kindMatches t.Typ t.Value = true) :
    kindMatches t.Typ (t.SetValue env v now).1.Value = true := by
  rcases hkind with h | h | h | h <;> cases v <;>
    simp_all [Tag.SetValue, kindMatches, TagTypeFloat64, TagTypeInt32, TagTypeBool,
      TagTypeString]

/-- A sequence of `SetValue` calls keeps the kind and the kind invariant. -/
theorem setValues_kindMatches (env : GoEnv) (calls : List (GoValue × Time)) (t : Tag)
    (hkind : validKind t.Typ) (hinv : kindMatches t.Typ t.Value = true) :
    (t.setValues env calls).Typ = t.Typ ∧
      kindMatches t.Typ (t.setValues env calls).Value = true := by
  induction calls generalizing t with
  | nil => exact ⟨rfl, hinv⟩
  | cons call rest ih =>
    have hty := setValue_typ env t call.1 call.2
    have hstep := setValue_kindMatches env t call.1 call.2 hkind hinv
    have := ih (t.SetValue env call.1 call.2).1 (by rw [hty]; exact hkind)
      (by rw [hty]; exact hstep)
    rw [hty] at this
    exact this

/-- C3. Kind invariant: a tag created by `NewTag` with one of the four kinds keeps its
kind, and the runtime type of its value matches the kind, after every sequence of
`SetValue` calls with arbitrary values. -/
theorem newTag_setValues_kindMatches (env : GoEnv) (name address description : String)
    (kind : TagType) (now : Time) (calls : List (GoValue × Time)) (hkind : validKind kind) :
    ((NewTag name address description kind now).setValues env calls).Typ = kind ∧
    kindMatches kind ((NewTag name address description kind now).setValues env calls).Value
      = true := by
  have h0 : kindMatches kind (NewTag name address description kind now).Value = true := by
    rcases hkind with h | h | h | h <;> subst h <;>
      simp [NewTag, kindMatches, TagTypeFloat64, TagTypeInt32, TagTypeBool, TagTypeString]
  exact setValues_kindMatches env calls (NewTag name address description kind now) hkind h0

/-- Instance of C3: a Boolean tag written with a float, a rejected string and an int
holds a bool. -/
theorem newTag_setValues_kindMatches_witness :
    validKind TagTypeBool ∧
    ((NewTag "Pump" "%MW0" "" TagTypeBool 0).setValues GoEnv.sample
      [(GoValue.float64 (GoFloat64.ofInt 3), 1), (GoValue.string "on", 2),
       (GoValue.int (GoInt.wrap 0), 3)]).Typ = TagTypeBool ∧
    kindMatches TagTypeBool ((NewTag "Pump" "%MW0" "" TagTypeBool 0).setValues GoEnv.sample
      [(GoValue.float64 (GoFloat64.ofInt 3), 1), (GoValue.string "on", 2),
       (GoValue.int (GoInt.wrap 0), 3)]).Value = true :=
  ⟨by decide, newTag_setValues_kindMatches GoEnv.sample "Pump" "%MW0" "" TagTypeBool 0
    [(GoValue.float64 (GoFloat64.ofInt 3), 1), (GoValue.string "on", 2),
     (GoValue.int (GoInt.wrap 0), 3)] (by decide)⟩

/-- C6. A `SetValue` call that returns no error leaves the timestamp at the time of the
write, and no `SetValue` call changes the name, the kind, the address, the description or
the quality of the tag. -/
theorem setValue_frame (env : GoEnv) (t : Tag) (v : GoValue) (now : Time) :
    ((t.SetValue env v now).2 = none → (t.SetValue env v now).1.Timestamp = now) ∧
    (t.SetValue env v now).1.Name = t.Name ∧
    (t.SetValue env v now).1.Typ = t.Typ ∧
    (t.SetValue env v now).1.Address = t.Address ∧
    (t.SetValue env v now).1.Description = t.Description ∧
    (t.SetValue env v now).1.Quality = t.Quality := by
  unfold Tag.SetValue
  dsimp only
  split_ifs <;> cases v <;> simp

/-- Instance of C6: a float written at time 9 to a Float tag created at time 5 succeeds,
moves the timestamp to 9 and leaves the quality as it was. -/
theorem setValue_frame_witness :
    ((NewTag "Temp1" "%DF100" "" TagTypeFloat64 5).SetValue GoEnv.sample
        (GoValue.float64 (GoFloat64.ofInt 21)) 9).2 = none ∧
    ((NewTag "Temp1" "%DF100" "" TagTypeFloat64 5).SetValue GoEnv.sample
        (GoValue.float64 (GoFloat64.ofInt 21)) 9).1.Timestamp = 9 ∧
    ((NewTag "Temp1" "%DF100" "" TagTypeFloat64 5).SetValue GoEnv.sample
        (GoValue.float64 (GoFloat64.ofInt 21)) 9).1.Quality = true :=
  have h := setValue_frame GoEnv.sample (NewTag "Temp1" "%DF100" "" TagTypeFloat64 5)
    (GoValue.float64 (GoFloat64.ofInt 21)) 9
  ⟨by decide, h.1 (by decide), h.2.2.2.2.2⟩

end plc

/-! ## Properties of the tag store -/

namespace plc

/-- The set of stored names is the same after `SetTagValue`. -/
theorem tagExists_setTagValue (env : GoEnv) (tm : TagManager) (name name2 : String)
    (v : GoValue) (now : Time) :
    (tm.SetTagValue env name v now).1.TagExists name2 = tm.TagExists name2 := by
  unfold TagManager.SetTagValue TagManager.GetTag TagManager.TagExists
  cases hget : tm.tags.get? name with
  | none => simp
  | some tag =>
    simp only [StrMap.isSome_get_put]
    by_cases h : name2 = name
    · subst h; simp [hget]
    · simp [h]

/-- After `AddTag` a name is stored when it was stored before or is the name added. -/
theorem tagExists_addTag (tm : TagManager) (tag : Tag) (name2 : String) :
    (tm.AddTag tag).1.TagExists name2 = (tm.TagExists name2 || decide (name2 = tag.Name)) := by
  unfold TagManager.AddTag TagManager.TagExists
  cases hget : tm.tags.get? tag.Name with
  | none => simp [StrMap.isSome_get_put]
  | some old =>
    by_cases h : name2 = tag.Name
    · subst h; simp [hget]
    · simp [h]

/-- The names stored after a sequence of operations are the names stored before and the
names passed to `AddTag`. -/
theorem tagExists_run (env : GoEnv) (ops : List StoreOp) (tm : TagManager) (name : String) :
    (tm.run env ops).TagExists name = (tm.TagExists name || decide (name ∈ addedNames ops)) := by
  induction ops generalizing tm with
  | nil => simp [TagManager.run, addedNames]
  | cons op rest ih =>
    cases op with
    | add tag =>
      simp only [TagManager.run, TagManager.step, addedNames, ih, tagExists_addTag,
        List.mem_cons]
      by_cases h1 : name = tag.Name <;> simp [h1]
    | set n v now =>
      simp only [TagManager.run, TagManager.step, addedNames, ih, tagExists_setTagValue]

/-- C4. `AddTag` returns an error exactly when a tag with the name of the new tag is
stored; the error is the duplicate-name error and the store is then unchanged, so `GetTag`
still returns the tag stored first and `GetTagCount` is the same; when it returns no error
`GetTagCount` has grown by one and `GetTag` of the name returns the added tag. -/
theorem addTag_duplicate_iff (tm : TagManager) (tag : Tag) :
    ((tm.AddTag tag).2 ≠ none ↔ tm.TagExists tag.Name = true) ∧
    ((tm.AddTag tag).2 ≠ none →
      (tm.AddTag tag).2 = some (TagError.alreadyExists tag.Name) ∧
      (tm.AddTag tag).1 = tm ∧
      (tm.AddTag tag).1.GetTag tag.Name = tm.GetTag tag.Name ∧
      (tm.AddTag tag).1.GetTagCount = tm.GetTagCount) ∧
    ((tm.AddTag tag).2 = none →
      (tm.AddTag tag).1.GetTagCount = tm.GetTagCount + 1 ∧
      (tm.AddTag tag).1.GetTag tag.Name = Except.ok tag) := by
  unfold TagManager.AddTag TagManager.TagExists
  cases hget : tm.tags.get? tag.Name with
  | some old => simp
  | none =>
    simp [TagManager.GetTagCount, TagManager.GetTag, StrMap.get_put_same,
      StrMap.len_put_absent tm.tags tag.Name tag hget]

/-- Scenario of C4: `Create("T1", Float, "%DF0", "")` twice.  The first call succeeds; the
second returns the duplicate-name error and leaves the store, its count and the stored tag
as the first call left them. -/
theorem addTag_duplicate_iff_witness :
    (NewTagManager.AddTag (NewTag "T1" "%DF0" "" TagTypeFloat64 0)).2 = none ∧
    ((NewTagManager.AddTag (NewTag "T1" "%DF0" "" TagTypeFloat64 0)).1.AddTag
        (NewTag "T1" "%DF0" "" TagTypeFloat64 1)).2 = some (TagError.alreadyExists "T1") ∧
    ((NewTagManager.AddTag (NewTag "T1" "%DF0" "" TagTypeFloat64 0)).1.AddTag
        (NewTag "T1" "%DF0" "" TagTypeFloat64 1)).1
      = (NewTagManager.AddTag (NewTag "T1" "%DF0" "" TagTypeFloat64 0)).1 ∧
    (NewTagManager.AddTag (NewTag "T1" "%DF0" "" TagTypeFloat64 0)).1.GetTagCount = 1 ∧
    (NewTagManager.AddTag (NewTag "T1" "%DF0" "" TagTypeFloat64 0)).1.GetTag "T1"
      = Except.ok (NewTag "T1" "%DF0" "" TagTypeFloat64 0) :=
  have h1 := addTag_duplicate_iff NewTagManager (NewTag "T1" "%DF0" "" TagTypeFloat64 0)
  have h2 := addTag_duplicate_iff (NewTagManager.AddTag (NewTag "T1" "%DF0" "" TagTypeFloat64 0)).1
    (NewTag "T1" "%DF0" "" TagTypeFloat64 1)
  have hdup := h2.2.1 (h2.1.2 (by decide))
  ⟨by decide, hdup.1, hdup.2.1, (h1.2.2 (by decide)).1, (h1.2.2 (by decide)).2⟩

/-- C5. For a name that is not stored (`TagExists` false), `GetTag` and `GetTagValue`
return the not-found error and `SetTagValue` returns it and leaves the store as it was;
for a stored name `GetTag` and `GetTagValue` return a result and an error of `SetTagValue`,
if any, is not a not-found error.  After any sequence of `AddTag` and `SetTagValue` calls
on a new store, a name is stored exactly when it was the name of a tag passed to `AddTag`. -/
theorem notFound_iff_not_stored (env : GoEnv) (tm : TagManager) (name : String)
    (v : GoValue) (now : Time) (ops : List StoreOp) :
    (tm.TagExists name = false →
      tm.GetTag name = Except.error (TagError.notFound name) ∧
      tm.GetTagValue name = Except.error (TagError.notFound name) ∧
      tm.SetTagValue env name v now = (tm, some (TagError.notFound name))) ∧
    (tm.TagExists name = true →
      (∃ tag, tm.GetTag name = Except.ok tag) ∧
      (∃ val, tm.GetTagValue name = Except.ok val) ∧
      (∀ err, (tm.SetTagValue env name v now).2 = some err → err.isNotFound = false)) ∧
    ((NewTagManager.run env ops).TagExists name = true ↔ name ∈ addedNames ops) := by
  refine ⟨?_, ?_, ?_⟩
  · intro h
    unfold TagManager.TagExists at h
    have hget : tm.tags.get? name = none := by
      cases hg : tm.tags.get? name with
      | none => rfl
      | some t => rw [hg] at h; simp at h
    simp [TagManager.GetTag, TagManager.GetTagValue, TagManager.SetTagValue, hget]
  · intro h
    unfold TagManager.TagExists at h
    cases hg : tm.tags.get? name with
    | none => rw [hg] at h; simp at h
    | some t =>
      refine ⟨⟨t, by simp [TagManager.GetTag, hg]⟩,
        ⟨t.GetValue, by simp [TagManager.GetTagValue, TagManager.GetTag, hg]⟩, ?_⟩
      intro err herr
      simp only [TagManager.SetTagValue, TagManager.GetTag, hg] at herr
      rw [setValue_error env t v now err herr]
      rfl
  · rw [tagExists_run]
    simp [NewTagManager, TagManager.TagExists, StrMap.get?, StrMap.empty, lookupEntries]

end plc

/-! ## Properties of `determineTagType` -/

namespace plc

theorem hasPrefix_append (pre rest : String) : HasPrefix (pre ++ rest) pre = true := by
  unfold HasPrefix
  rw [List.isPrefixOf_iff_prefix]
  simp [String.toList]

/-- Two different three-character prefixes exclude each other. -/
theorem hasPrefix_exclusive (s : String) (a b c a2 b2 c2 : Char)
    (h : HasPrefix s (String.mk [a, b, c]) = true) (hne : ¬ (a = a2 ∧ b = b2 ∧ c = c2)) :
    HasPrefix s (String.mk [a2, b2, c2]) = false := by
  unfold HasPrefix at *
  simp only [String.toList] at *
  generalize s.data = l at *
  rcases l with _ | ⟨x, _ | ⟨y, _ | ⟨z, rest⟩⟩⟩ <;> simp_all [List.isPrefixOf]
  intro h1 h2 h3
  rcases h with ⟨rfl, rfl, rfl⟩
  exact hne h1.symm h2.symm h3.symm

theorem determineTagType_DF (address sensorType : String)
    (h : HasPrefix address "%DF" = true) :
    determineTagType address sensorType = TagTypeFloat64 := by
  simp [determineTagType, h]

theorem determineTagType_MW (address sensorType : String)
    (h : HasPrefix address "%MW" = true) :
    determineTagType address sensorType = TagTypeBool := by
  have h1 : HasPrefix address "%DF" = false :=
    hasPrefix_exclusive address '%' 'M' 'W' '%' 'D' 'F' h (by decide)
  simp [determineTagType, h, h1]

theorem determineTagType_DW (address sensorType : String)
    (h : HasPrefix address "%DW" = true) :
    determineTagType address sensorType = TagTypeInt32 := by
  have h1 : HasPrefix address "%DF" = false :=
    hasPrefix_exclusive address '%' 'D' 'W' '%' 'D' 'F' h (by decide)
  have h2 : HasPrefix address "%MW" = false :=
    hasPrefix_exclusive address '%' 'D' 'W' '%' 'M' 'W' h (by decide)
  simp [determineTagType, h, h1, h2]

/-- C7. Whatever the sensor type, `determineTagType` gives Float for an address that
begins with "%DF", Boolean for one that begins with "%MW" and Integer for one that begins
with "%DW". -/
theorem determineTagType_by_prefix (rest sensorType : String) :
    determineTagType ("%DF" ++ rest) sensorType = TagTypeFloat64 ∧
    determineTagType ("%MW" ++ rest) sensorType = TagTypeBool ∧
    determineTagType ("%DW" ++ rest) sensorType = TagTypeInt32 :=
  ⟨determineTagType_DF _ _ (hasPrefix_append "%DF" rest),
   determineTagType_MW _ _ (hasPrefix_append "%MW" rest),
   determineTagType_DW _ _ (hasPrefix_append "%DW" rest)⟩

/-- C8, as stated, fails: the address "%MX0" passes the address check of `validateConfig`
and has none of the three prefixes, so the sensor type decides: "digital" gives Boolean and
"temperature" gives Float. -/
theorem determineTagType_depends_on_sensorType :
    config.validateConfig
      { Sensors := [{ Name := "Door", Typ := "digital", Enabled := true, Address := "%MX0",
                      UpdateIntervalMs := GoInt.wrap 100, Parameters := StrMap.empty,
                      Description := "" }] } = none ∧
    determineTagType "%MX0" "digital" = TagTypeBool ∧
    determineTagType "%MX0" "temperature" = TagTypeFloat64 ∧
    determineTagType "%MX0" "digital" ≠ determineTagType "%MX0" "temperature" := by
  decide

/-- C8, amended. For an address that begins with "%DF", "%MW" or "%DW" the kind does not
depend on the sensor type; for two addresses with none of these prefixes the kind does not
depend on the address, only on the sensor type. -/
theorem determineTagType_prefix_alone (address address2 t1 t2 : String) :
    (hasKindPrefix address → determineTagType address t1 = determineTagType address t2) ∧
    (¬ hasKindPrefix address → ¬ hasKindPrefix address2 →
      determineTagType address t1 = determineTagType address2 t1) := by
  constructor
  · intro h
    rcases h with h | h | h
    · rw [determineTagType_DF _ _ h, determineTagType_DF _ _ h]
    · rw [determineTagType_MW _ _ h, determineTagType_MW _ _ h]
    · rw [determineTagType_DW _ _ h, determineTagType_DW _ _ h]
  · intro h h2
    unfold hasKindPrefix at h h2
    simp only [not_or] at h h2
    simp [determineTagType, h.1, h.2.1, h.2.2, h2.1, h2.2.1, h2.2.2]

/-- Instance of C8, amended: the address "%DW7" is Integer for a "temperature" and for a
"relay" sensor alike. -/
theorem determineTagType_prefix_alone_witness :
    hasKindPrefix "%DW7" ∧
    determineTagType "%DW7" "temperature" = determineTagType "%DW7" "relay" :=
  ⟨by decide, (determineTagType_prefix_alone "%DW7" "%DW7" "temperature" "relay").1 (by decide)⟩

end plc

/-! ## Properties of `validateConfig` -/

namespace config

theorem boolAt_put_same (m : StrMap Bool) (k : String) : boolAt (m.put k true) k = true := by
  simp [boolAt, StrMap.get_put_same]

theorem boolAt_put_other (m : StrMap Bool) (k k2 : String) (hne : k2 ≠ k) :
    boolAt (m.put k true) k2 = boolAt m k2 := by
  simp [boolAt, StrMap.get_put_other m k k2 true hne]

/-- What the loop of `validateConfig` has checked when it ends without an error: the
names are pairwise distinct and none is in the name map it started from, and the same for
the addresses. -/
theorem validateSensors_distinct (sensors : List SensorDefinition) (i : Nat)
    (addressMap nameMap : StrMap Bool)
    (hok : validateSensors sensors i addressMap nameMap = none) :
    (sensors.Pairwise (fun a b => a.Name ≠ b.Name) ∧
      ∀ s ∈ sensors, boolAt nameMap s.Name = false) ∧
    (sensors.Pairwise (fun a b => a.Address ≠ b.Address) ∧
      ∀ s ∈ sensors, boolAt addressMap s.Address = false) := by
  induction sensors generalizing i addressMap nameMap with
  | nil => simp
  | cons sensor rest ih =>
    unfold validateSensors at hok
    split_ifs at hok with h1 h2 h3 h4 h5 h6 h7
    have hrest := ih (i + 1) (addressMap.put sensor.Address true)
      (nameMap.put sensor.Name true) hok
    obtain ⟨⟨hn1, hn2⟩, ⟨ha1, ha2⟩⟩ := hrest
    have hnameNe : ∀ s ∈ rest, sensor.Name ≠ s.Name := by
      intro s hs e
      have := hn2 s hs
      rw [← e, boolAt_put_same] at this
      exact Bool.noConfusion this
    have haddrNe : ∀ s ∈ rest, sensor.Address ≠ s.Address := by
      intro s hs e
      have := ha2 s hs
      rw [← e, boolAt_put_same] at this
      exact Bool.noConfusion this
    refine ⟨⟨List.pairwise_cons.mpr ⟨hnameNe, hn1⟩, ?_⟩,
      ⟨List.pairwise_cons.mpr ⟨haddrNe, ha1⟩, ?_⟩⟩
    · intro s hs
      rcases List.mem_cons.mp hs with rfl | hs
      · simpa using h5
      · have := hn2 s hs
        rwa [boolAt_put_other nameMap sensor.Name s.Name (fun e => hnameNe s hs e.symm)] at this
    · intro s hs
      rcases List.mem_cons.mp hs with rfl | hs
      · simpa using h6
      · have := ha2 s hs
        rwa [boolAt_put_other addressMap sensor.Address s.Address
          (fun e => haddrNe s hs e.symm)] at this

/-- C9. A configuration `validateConfig` accepts has pairwise distinct sensor names and
pairwise distinct sensor addresses. -/
theorem validateConfig_rejects_duplicates (cfg : SensorConfig)
    (hok : validateConfig cfg = none) :
    cfg.Sensors.Pairwise (fun a b => a.Name ≠ b.Name) ∧
    cfg.Sensors.Pairwise (fun a b => a.Address ≠ b.Address) := by
  unfold validateConfig at hok
  split_ifs at hok
  have h := validateSensors_distinct cfg.Sensors 0 StrMap.empty StrMap.empty hok
  exact ⟨h.1.1, h.2.1⟩

/-- Instance of C9: a configuration of two sensors that `validateConfig` accepts. -/
theorem validateConfig_rejects_duplicates_witness :
    validateConfig
      { Sensors := [{ Name := "Temp1", Typ := "temperature", Enabled := true,
                      Address := "%DF100", UpdateIntervalMs := GoInt.wrap 100,
                      Parameters := StrMap.empty, Description := "" },
                    { Name := "Relay1", Typ := "relay", Enabled := false,
                      Address := "%MW0", UpdateIntervalMs := GoInt.wrap 500,
                      Parameters := StrMap.empty, Description := "" }] } = none ∧
    List.Pairwise (fun a b => a.Name ≠ b.Name)
      [({ Name := "Temp1", Typ := "temperature", Enabled := true,
          Address := "%DF100", UpdateIntervalMs := GoInt.wrap 100,
          Parameters := StrMap.empty, Description := "" } : SensorDefinition),
       { Name := "Relay1", Typ := "relay", Enabled := false,
         Address := "%MW0", UpdateIntervalMs := GoInt.wrap 500,
         Parameters := StrMap.empty, Description := "" }] :=
  ⟨by decide,
   (validateConfig_rejects_duplicates
      { Sensors := [{ Name := "Temp1", Typ := "temperature", Enabled := true,
                      Address := "%DF100", UpdateIntervalMs := GoInt.wrap 100,
                      Parameters := StrMap.empty, Description := "" },
                    { Name := "Relay1", Typ := "relay", Enabled := false,
                      Address := "%MW0", UpdateIntervalMs := GoInt.wrap 500,
                      Parameters := StrMap.empty, Description := "" }] } (by decide)).1⟩

end config

/-! ## Properties of `GenerateTagsFromSensors` -/

namespace plc

theorem addTag_of_absent (tm : TagManager) (tag : Tag) (habs : tm.TagExists tag.Name = false) :
    tm.AddTag tag = ({ tm with tags := tm.tags.put tag.Name tag }, none) := by
  unfold TagManager.TagExists at habs
  unfold TagManager.AddTag
  cases hg : tm.tags.get? tag.Name with
  | none => rfl
  | some old => rw [hg] at habs; simp at habs

theorem addTag_of_stored (tm : TagManager) (tag : Tag) (hex : tm.TagExists tag.Name = true) :
    tm.AddTag tag = (tm, some (TagError.alreadyExists tag.Name)) := by
  unfold TagManager.TagExists at hex
  unfold TagManager.AddTag
  cases hg : tm.tags.get? tag.Name with
  | none => rw [hg] at hex; simp at hex
  | some old => rfl

theorem newTag_name (name address description : String) (kind : TagType) (now : Time) :
    (NewTag name address description kind now).Name = name := rfl

/-- The names stored after an assignment to the map of the store. -/
theorem tagExists_mk_put (tm : TagManager) (tag : Tag) (name name2 : String) :
    TagManager.TagExists (TagManager.mk (tm.tags.put name tag)) name2
      = (tm.TagExists name2 || decide (name2 = name)) := by
  simp [TagManager.TagExists, StrMap.isSome_get_put]

theorem generateTags_cons_absent (clock : Nat → Time) (d : config.SensorDefinition)
    (rest : List config.SensorDefinition) (i : Nat) (tm : TagManager)
    (habs : tm.TagExists d.Name = false) :
    generateTags clock (d :: rest) i tm = generateTags clock rest (i + 1)
      (TagManager.mk (tm.tags.put d.Name
        (NewTag d.Name d.Address d.Description (determineTagType d.Address d.Typ) (clock i)))) := by
  have hadd := addTag_of_absent tm
    (NewTag d.Name d.Address d.Description (determineTagType d.Address d.Typ) (clock i)) habs
  simp only [newTag_name] at hadd
  conv_lhs => rw [generateTags]
  simp only [hadd]

theorem generateTags_cons_stored (clock : Nat → Time) (d : config.SensorDefinition)
    (rest : List config.SensorDefinition) (i : Nat) (tm : TagManager)
    (hex : tm.TagExists d.Name = true) :
    generateTags clock (d :: rest) i tm
      = Except.error (TagError.failedToAdd d.Name (TagError.alreadyExists d.Name)) := by
  have hadd := addTag_of_stored tm
    (NewTag d.Name d.Address d.Description (determineTagType d.Address d.Typ) (clock i)) hex
  simp only [newTag_name] at hadd
  conv_lhs => rw [generateTags]
  simp only [hadd]

/-- The loop of `GenerateTagsFromSensors` on definitions with pairwise distinct names, none
of them stored yet: it ends with a store that has one more tag per definition, keeps the
tags it started with, and holds for every definition the tag `NewTag` makes of it. -/
theorem generateTags_ok (clock : Nat → Time) (defs : List config.SensorDefinition) (i : Nat)
    (tm : TagManager) (hnd : (defs.map (fun d => d.Name)).Nodup)
    (hfresh : ∀ d ∈ defs, tm.TagExists d.Name = false) :
    ∃ tm1, generateTags clock defs i tm = Except.ok tm1 ∧
      tm1.GetTagCount = tm.GetTagCount + defs.length ∧
      (∀ n t, tm.GetTag n = Except.ok t → tm1.GetTag n = Except.ok t) ∧
      (∀ d ∈ defs, ∃ ts, tm1.GetTag d.Name = Except.ok
        (NewTag d.Name d.Address d.Description (determineTagType d.Address d.Typ) ts)) := by
  induction defs generalizing i tm with
  | nil => exact ⟨tm, rfl, by simp, fun _ _ h => h, by simp⟩
  | cons d rest ih =>
    have hd : tm.TagExists d.Name = false := hfresh d (List.mem_cons_self _ _)
    have hnd2 := List.nodup_cons.mp hnd
    have hget : tm.tags.get? d.Name = none := by
      unfold TagManager.TagExists at hd
      cases hg : tm.tags.get? d.Name with
      | none => rfl
      | some old => rw [hg] at hd; simp at hd
    rw [generateTags_cons_absent clock d rest i tm hd]
    generalize htag : NewTag d.Name d.Address d.Description
      (determineTagType d.Address d.Typ) (clock i) = tag at *
    have hfresh2 : ∀ d2 ∈ rest,
        TagManager.TagExists (TagManager.mk (tm.tags.put d.Name tag)) d2.Name = false := by
      intro d2 hd2
      have hne : d2.Name ≠ d.Name := by
        intro e
        exact hnd2.1 (List.mem_map.mpr ⟨d2, hd2, e⟩)
      rw [tagExists_mk_put, hfresh d2 (List.mem_cons_of_mem _ hd2)]
      simp [hne]
    obtain ⟨tm1, hrun, hcount, hkeep, hall⟩ := ih (i + 1) _ hnd2.2 hfresh2
    refine ⟨tm1, hrun, ?_, ?_, ?_⟩
    · rw [hcount]
      simp only [TagManager.GetTagCount, StrMap.len_put_absent tm.tags d.Name _ hget,
        List.length_cons]
      omega
    · intro n t hn
      apply hkeep
      have hne : n ≠ d.Name := by
        intro e
        subst e
        simp [TagManager.GetTag, hget] at hn
      simpa [TagManager.GetTag, StrMap.get_put_other tm.tags d.Name n _ hne] using hn
    · intro d2 hd2
      rcases List.mem_cons.mp hd2 with rfl | hd2
      · exact ⟨clock i, by
          rw [htag]
          exact hkeep _ _ (by simp [TagManager.GetTag, StrMap.get_put_same])⟩
      · exact hall d2 hd2

/-- The loop of `GenerateTagsFromSensors` returns an error when a definition has a name
that is stored already or that an earlier definition of the list has. -/
theorem generateTags_error (clock : Nat → Time) (defs : List config.SensorDefinition)
    (i : Nat) (tm : TagManager)
    (hbad : ¬ (defs.map (fun d => d.Name)).Nodup ∨ ∃ d ∈ defs, tm.TagExists d.Name = true) :
    ∃ err, generateTags clock defs i tm = Except.error err := by
  induction defs generalizing i tm with
  | nil => simp at hbad
  | cons d rest ih =>
    by_cases hd : tm.TagExists d.Name = true
    · exact ⟨_, generateTags_cons_stored clock d rest i tm hd⟩
    · have hd2 : tm.TagExists d.Name = false := by simpa using hd
      rw [generateTags_cons_absent clock d rest i tm hd2]
      apply ih
      by_cases hnd : (rest.map (fun d => d.Name)).Nodup
      · right
        rcases hbad with hbad | ⟨d2, hmem, hex⟩
        · have hin : d.Name ∈ rest.map (fun d => d.Name) := by
            by_contra hnot
            exact hbad (List.nodup_cons.mpr ⟨hnot, hnd⟩)
          obtain ⟨d2, hmem, hname⟩ := List.mem_map.mp hin
          refine ⟨d2, hmem, ?_⟩
          have hname2 : d2.Name = d.Name := hname
          rw [tagExists_mk_put]
          simp [hname2]
        · rcases List.mem_cons.mp hmem with rfl | hmem
          · exact absurd hex hd
          · refine ⟨d2, hmem, ?_⟩
            rw [tagExists_mk_put, hex]
            rfl
      · exact Or.inl hnd

/-- C10. On definitions with pairwise distinct names `GenerateTagsFromSensors` returns a
store whose `GetTagCount` is the number of definitions and which holds, under the name of
every definition, a tag with that name, address and description, the kind
`determineTagType` gives, the zero value of that kind and good quality; on definitions two
of which share a name it returns an error. -/
theorem generateTagsFromSensors_spec (clock : Nat → Time)
    (defs : List config.SensorDefinition) :
    ((defs.map (fun d => d.Name)).Nodup →
      ∃ tm, GenerateTagsFromSensors clock defs = Except.ok tm ∧
        tm.GetTagCount = defs.length ∧
        ∀ d ∈ defs, ∃ tag, tm.GetTag d.Name = Except.ok tag ∧
          tag.Name = d.Name ∧ tag.Address = d.Address ∧ tag.Description = d.Description ∧
          tag.Typ = determineTagType d.Address d.Typ ∧
          tag.Value = zeroValue (determineTagType d.Address d.Typ) ∧
          tag.Quality = true) ∧
    (¬ (defs.map (fun d => d.Name)).Nodup →
      ∃ err, GenerateTagsFromSensors clock defs = Except.error err) := by
  constructor
  · intro hnd
    obtain ⟨tm, hrun, hcount, _, hall⟩ := generateTags_ok clock defs 0 NewTagManager hnd
      (by intro d _; rfl)
    refine ⟨tm, hrun, ?_, ?_⟩
    · rw [hcount]
      simp [NewTagManager, TagManager.GetTagCount, StrMap.len, StrMap.empty]
    · intro d hd
      obtain ⟨ts, hts⟩ := hall d hd
      refine ⟨_, hts, rfl, rfl, rfl, rfl, ?_, rfl⟩
      simp only [NewTag, zeroValue, GoFloat64.zero, GoInt32.wrap]
      rfl
  · intro hnd
    exact generateTags_error clock defs 0 NewTagManager (Or.inl hnd)

end plc

/-! ## Set followed by Get -/

namespace plc

/-- An accepted `SetValue` on a tag of one of the four kinds returns no error and leaves
the value the coercion table gives. -/
theorem setValue_coerced (env : GoEnv) (t : Tag) (v : GoValue) (now : Time)
    (hkind : validKind t.Typ) (hacc : accepts t.Typ v = true) :
    (t.SetValue env v now).2 = none ∧
    coercedAsBuilt env t.Typ v (t.SetValue env v now).1.Value = true := by
  rcases hkind with h | h | h | h
  · cases v <;>
      simp [accepts, h, TagTypeFloat64, TagTypeInt32, TagTypeBool, TagTypeString] at hacc <;>
      simp [Tag.SetValue, coercedAsBuilt, coerced, h, TagTypeFloat64, TagTypeInt32,
        TagTypeBool, TagTypeString]
    · rename_i n
      exact GoFloat64.ofInt_equalsInt n.val (by have := n.lo; have := n.hi; omega)
    · rename_i n
      have hr := GoFloat64.ofInt_rounds n.val (by
        have := n.lo; have := n.hi
        have : (2 : Nat) ^ 64 = 18446744073709551616 := by norm_num
        omega)
      have h53 : (2 : Nat) ^ 53 = 9007199254740992 := by norm_num
      rw [h53] at hr
      refine ⟨?_, hr.1, hr.2⟩
      by_cases hn : n.val.natAbs ≤ 9007199254740992
      · exact Or.inr (GoFloat64.ofInt_equalsInt n.val (by omega))
      · exact Or.inl (by omega)
  · cases v <;>
      simp [accepts, h, TagTypeFloat64, TagTypeInt32, TagTypeBool, TagTypeString] at hacc <;>
      simp [Tag.SetValue, coercedAsBuilt, coerced, h, TagTypeFloat64, TagTypeInt32,
        TagTypeBool, TagTypeString]
    · rename_i f
      by_cases hf : f.fitsInt32
      · refine Or.inr ?_
        simp only [GoFloat64.toInt32, hf, dif_pos]
        exact GoFloat64.truncatesTo_trunc f
      · exact Or.inl hf
    · rename_i n
      exact Int.dvd_of_emod_eq_zero (GoInt32.wrap_congruent n.val)
  · cases v <;>
      simp [accepts, h, TagTypeFloat64, TagTypeInt32, TagTypeBool, TagTypeString] at hacc <;>
      simp [Tag.SetValue, coercedAsBuilt, coerced, h, TagTypeFloat64, TagTypeInt32,
        TagTypeBool, TagTypeString]
    · rename_i f
      have hz := GoFloat64.isZero_iff_equalsInt_zero f
      by_cases hf : f.EqualsInt 0
      · simp [hf, hz.mpr hf]
      · have : f.isZero = false := by
          cases hb : f.isZero with
          | false => rfl
          | true => exact absurd (hz.mp hb) hf
        simp [hf, this]
  · simp [Tag.SetValue, coercedAsBuilt, coerced, h, TagTypeFloat64, TagTypeInt32,
      TagTypeBool, TagTypeString]

end plc

namespace plc

/-- C1, as stated, fails: the `int` 9007199254740993 (`2^53 + 1`) written to the Float tag
"T1" is accepted and read back as the float64 with bits `0x4340000000000000`, whose value
is 9007199254740992: not the float64 equal to the integer written, which the stated
coercion table asks for. -/
theorem setTagValue_int_rounded :
    accepts TagTypeFloat64 (GoValue.int (GoInt.wrap 9007199254740993)) = true ∧
    ((NewTagManager.AddTag (NewTag "T1" "%DF0" "" TagTypeFloat64 0)).1.SetTagValue
        GoEnv.sample "T1" (GoValue.int (GoInt.wrap 9007199254740993)) 1).2 = none ∧
    ((NewTagManager.AddTag (NewTag "T1" "%DF0" "" TagTypeFloat64 0)).1.SetTagValue
        GoEnv.sample "T1" (GoValue.int (GoInt.wrap 9007199254740993)) 1).1.GetTagValue "T1"
      = Except.ok (GoValue.float64 (GoFloat64.ofBits 0x4340000000000000)) ∧
    (GoFloat64.ofBits 0x4340000000000000).EqualsInt 9007199254740992 ∧
    ¬ (GoFloat64.ofBits 0x4340000000000000).EqualsInt 9007199254740993 ∧
    coercedAsStated GoEnv.sample TagTypeFloat64 (GoValue.int (GoInt.wrap 9007199254740993))
      (GoValue.float64 (GoFloat64.ofBits 0x4340000000000000)) = false := by
  decide

/-- C1, amended. For a tag stored under `name` with one of the four kinds and a value its
kind accepts, `SetTagValue` returns no error and the next `GetTagValue` returns the coerced
value: as the specification states it, except that an `int` written to a Float tag is
mapped to Go's `float64(v)`, which is the float64 equal to it when `|v| ≤ 2^53`. -/
theorem setTagValue_getTagValue (env : GoEnv) (tm : TagManager) (name : String) (tag : Tag)
    (v : GoValue) (now : Time) (hget : tm.GetTag name = Except.ok tag)
    (hkind : validKind tag.Typ) (hacc : accepts tag.Typ v = true) :
    (tm.SetTagValue env name v now).2 = none ∧
    ∃ r, (tm.SetTagValue env name v now).1.GetTagValue name = Except.ok r ∧
      coercedAsBuilt env tag.Typ v r = true := by
  have hset := setValue_coerced env tag v now hkind hacc
  unfold TagManager.SetTagValue
  rw [hget]
  refine ⟨hset.1, (tag.SetValue env v now).1.Value, ?_, hset.2⟩
  simp [TagManager.GetTagValue, TagManager.GetTag, StrMap.get_put_same, Tag.GetValue]

/-- Instance of C1, amended: the `int` 42 written to the Float tag "T1" is read back as
the float64 42.0 (bits `0x4045000000000000`). -/
theorem setTagValue_getTagValue_witness :
    (NewTagManager.AddTag (NewTag "T1" "%DF0" "" TagTypeFloat64 0)).1.GetTag "T1"
      = Except.ok (NewTag "T1" "%DF0" "" TagTypeFloat64 0) ∧
    validKind (NewTag "T1" "%DF0" "" TagTypeFloat64 0).Typ ∧
    accepts (NewTag "T1" "%DF0" "" TagTypeFloat64 0).Typ (GoValue.int (GoInt.wrap 42)) = true ∧
    ((NewTagManager.AddTag (NewTag "T1" "%DF0" "" TagTypeFloat64 0)).1.SetTagValue
        GoEnv.sample "T1" (GoValue.int (GoInt.wrap 42)) 1).2 = none ∧
    ((NewTagManager.AddTag (NewTag "T1" "%DF0" "" TagTypeFloat64 0)).1.SetTagValue
        GoEnv.sample "T1" (GoValue.int (GoInt.wrap 42)) 1).1.GetTagValue "T1"
      = Except.ok (GoValue.float64 (GoFloat64.ofBits 0x4045000000000000)) :=
  ⟨by decide, by decide, by decide,
   (setTagValue_getTagValue GoEnv.sample
      (NewTagManager.AddTag (NewTag "T1" "%DF0" "" TagTypeFloat64 0)).1 "T1"
      (NewTag "T1" "%DF0" "" TagTypeFloat64 0) (GoValue.int (GoInt.wrap 42)) 1
      (by decide) (by decide) (by decide)).1,
   by decide⟩

/-- Scenario of C5: after `Create("T1", Float, "%DF0", "")` the name "T2" is not stored,
`Get("T2")` returns the not-found error and a `Set` on it leaves the store as it was. -/
theorem notFound_iff_not_stored_witness :
    (NewTagManager.AddTag (NewTag "T1" "%DF0" "" TagTypeFloat64 0)).1.TagExists "T2" = false ∧
    (NewTagManager.AddTag (NewTag "T1" "%DF0" "" TagTypeFloat64 0)).1.GetTagValue "T2"
      = Except.error (TagError.notFound "T2") ∧
    (NewTagManager.AddTag (NewTag "T1" "%DF0" "" TagTypeFloat64 0)).1.SetTagValue
        GoEnv.sample "T2" (GoValue.bool true) 1
      = ((NewTagManager.AddTag (NewTag "T1" "%DF0" "" TagTypeFloat64 0)).1,
          some (TagError.notFound "T2")) :=
  have h := (notFound_iff_not_stored GoEnv.sample
    (NewTagManager.AddTag (NewTag "T1" "%DF0" "" TagTypeFloat64 0)).1 "T2"
    (GoValue.bool true) 1 []).1 (by decide)
  ⟨by decide, h.2.1, h.2.2⟩

/-- Instance of C10: two definitions with distinct names give a store of two tags. -/
theorem generateTagsFromSensors_spec_witness :
    ∃ tm, GenerateTagsFromSensors (fun i => (i : Int))
        [{ Name := "Temp1", Typ := "temperature", Enabled := true, Address := "%DF100",
           UpdateIntervalMs := GoInt.wrap 100, Parameters := StrMap.empty, Description := "" },
         { Name := "Relay1", Typ := "relay", Enabled := false, Address := "%MW0",
           UpdateIntervalMs := GoInt.wrap 500, Parameters := StrMap.empty,
           Description := "" }] = Except.ok tm ∧
      tm.GetTagCount = 2 :=
  have h := (generateTagsFromSensors_spec (fun i => (i : Int))
    [{ Name := "Temp1", Typ := "temperature", Enabled := true, Address := "%DF100",
       UpdateIntervalMs := GoInt.wrap 100, Parameters := StrMap.empty, Description := "" },
     { Name := "Relay1", Typ := "relay", Enabled := false, Address := "%MW0",
       UpdateIntervalMs := GoInt.wrap 500, Parameters := StrMap.empty,
       Description := "" }]).1 (by decide)
  h.elim (fun tm htm => ⟨tm, htm.1, htm.2.1⟩)

end plc

/-! ## Properties of the sensor registry -/

theorem StrMap.get_put {V : Type} (m : StrMap V) (k k2 : String) (v : V) :
    (m.put k v).get? k2 = if k2 = k then some v else m.get? k2 := by
  by_cases h : k2 = k
  · subst h
    simp [StrMap.get_put_same]
  · simp [h, StrMap.get_put_other m k k2 v h]

namespace sim

open sensors

/-- The factory the registry holds for a type name after `init`. -/
theorem sensorRegistry_get {F : Type} [Float64Arith F] (newRand : Int → GoRand F)
    (t : String) :
    (sensorRegistry newRand).get? t =
      if t = "servomotor" then some servoMotorFactory
      else if t = "stepmotor" then some stepMotorFactory
      else if t = "integer" then some integerFactory
      else if t = "relay" then some relayFactory
      else if t = "noise" then some noiseFactory
      else if t = "vibration" then some vibrationFactory
      else if t = "digital" then some (digitalFactory newRand)
      else if t = "random" then some (randomFactory newRand)
      else if t = "sine" then some sineFactory
      else if t = "pressure" then some (pressureFactory newRand)
      else if t = "temperature" then some (temperatureFactory newRand)
      else none := by
  simp only [sensorRegistry, RegisterSensor, StrMap.get_put]
  rfl

theorem createSensor_of_get {F : Type} (reg : StrMap (SensorFactory F))
    (d : config.SensorDefinition) (now : Int) (f : SensorFactory F) (s : Sensor F)
    (hget : reg.get? d.Typ = some f) (hf : f d now = Except.ok s) :
    CreateSensor reg d now = Except.ok s := by
  unfold CreateSensor
  rw [hget]
  simp only [hf]

theorem createSensor_of_none {F : Type} (reg : StrMap (SensorFactory F))
    (d : config.SensorDefinition) (now : Int) (hget : reg.get? d.Typ = none) :
    CreateSensor reg d now = Except.error (SimError.unknownSensorType d.Typ) := by
  unfold CreateSensor
  rw [hget]

/-- Every factory registered by `init` returns a sensor and no error. -/
theorem registered_factory_ok {F : Type} [Float64Arith F] (newRand : Int → GoRand F)
    (d : config.SensorDefinition) (now : Int) (f : SensorFactory F)
    (hget : (sensorRegistry newRand).get? d.Typ = some f) : ∃ s, f d now = Except.ok s := by
  rw [sensorRegistry_get] at hget
  by_cases h1 : d.Typ = "servomotor"
  · rw [if_pos h1] at hget; cases hget; exact ⟨_, rfl⟩
  rw [if_neg h1] at hget
  by_cases h2 : d.Typ = "stepmotor"
  · rw [if_pos h2] at hget; cases hget; exact ⟨_, rfl⟩
  rw [if_neg h2] at hget
  by_cases h3 : d.Typ = "integer"
  · rw [if_pos h3] at hget; cases hget; exact ⟨_, rfl⟩
  rw [if_neg h3] at hget
  by_cases h4 : d.Typ = "relay"
  · rw [if_pos h4] at hget; cases hget; exact ⟨_, rfl⟩
  rw [if_neg h4] at hget
  by_cases h5 : d.Typ = "noise"
  · rw [if_pos h5] at hget; cases hget; exact ⟨_, rfl⟩
  rw [if_neg h5] at hget
  by_cases h6 : d.Typ = "vibration"
  · rw [if_pos h6] at hget; cases hget; exact ⟨_, rfl⟩
  rw [if_neg h6] at hget
  by_cases h7 : d.Typ = "digital"
  · rw [if_pos h7] at hget; cases hget; exact ⟨_, rfl⟩
  rw [if_neg h7] at hget
  by_cases h8 : d.Typ = "random"
  · rw [if_pos h8] at hget; cases hget; exact ⟨_, rfl⟩
  rw [if_neg h8] at hget
  by_cases h9 : d.Typ = "sine"
  · rw [if_pos h9] at hget; cases hget; exact ⟨_, rfl⟩
  rw [if_neg h9] at hget
  by_cases h10 : d.Typ = "pressure"
  · rw [if_pos h10] at hget; cases hget; exact ⟨_, rfl⟩
  rw [if_neg h10] at hget
  by_cases h11 : d.Typ = "temperature"
  · rw [if_pos h11] at hget; cases hget; exact ⟨_, rfl⟩
  rw [if_neg h11] at hget
  exact Option.noConfusion hget

/-- The registry after `init` holds a factory exactly for the eleven registered types. -/
theorem sensorRegistry_isSome {F : Type} [Float64Arith F] (newRand : Int → GoRand F)
    (t : String) : ((sensorRegistry newRand).get? t).isSome = true ↔ t ∈ registeredTypes := by
  rw [sensorRegistry_get]
  simp only [registeredTypes, List.mem_cons, List.mem_singleton, List.not_mem_nil, or_false]
  by_cases h1 : t = "servomotor"
  · simp [h1]
  by_cases h2 : t = "stepmotor"
  · simp [h2]
  by_cases h3 : t = "integer"
  · simp [h3]
  by_cases h4 : t = "relay"
  · simp [h4]
  by_cases h5 : t = "noise"
  · simp [h5]
  by_cases h6 : t = "vibration"
  · simp [h6]
  by_cases h7 : t = "digital"
  · simp [h7]
  by_cases h8 : t = "random"
  · simp [h8]
  by_cases h9 : t = "sine"
  · simp [h9]
  by_cases h10 : t = "pressure"
  · simp [h10]
  by_cases h11 : t = "temperature"
  · simp [h11]
  simp [h1, h2, h3, h4, h5, h6, h7, h8, h9, h10, h11]

/-- On the registry after `init`, `CreateSensor` returns a sensor for a registered type and
the unknown-type error for every other type. -/
theorem createSensor_cases {F : Type} [Float64Arith F] (newRand : Int → GoRand F)
    (d : config.SensorDefinition) (now : Int) :
    (d.Typ ∈ registeredTypes ∧ ∃ s, CreateSensor (sensorRegistry newRand) d now = Except.ok s) ∨
    (d.Typ ∉ registeredTypes ∧
      CreateSensor (sensorRegistry newRand) d now
        = Except.error (SimError.unknownSensorType d.Typ)) := by
  have hiff := sensorRegistry_isSome newRand d.Typ
  cases hget : (sensorRegistry newRand).get? d.Typ with
  | none =>
    right
    rw [hget] at hiff
    exact ⟨fun h => by simpa using hiff.mpr h, createSensor_of_none _ d now hget⟩
  | some f =>
    left
    rw [hget] at hiff
    obtain ⟨s, hs⟩ := registered_factory_ok newRand d now f hget
    exact ⟨hiff.mp rfl, s, createSensor_of_get _ d now f s hget hs⟩

/-- The loop of `NewSensorManager` returns an error when a definition has a type that is
not registered. -/
theorem createSensors_unknown {F : Type} [Float64Arith F] (newRand : Int → GoRand F)
    (clock : Nat → Int) (defs : List config.SensorDefinition) (i : Nat)
    (acc : List (Sensor F)) (hbad : ∃ d ∈ defs, d.Typ ∉ registeredTypes) :
    ∃ err, createSensors (sensorRegistry newRand) clock defs i acc = Except.error err := by
  induction defs generalizing i acc with
  | nil => simp at hbad
  | cons d rest ih =>
    unfold createSensors
    rcases createSensor_cases newRand d (clock i) with ⟨hreg, s, hs⟩ | ⟨_, herr⟩
    · rw [hs]
      apply ih
      obtain ⟨d2, hmem, hd2⟩ := hbad
      rcases List.mem_cons.mp hmem with rfl | hmem
      · exact absurd hreg hd2
      · exact ⟨d2, hmem, hd2⟩
    · rw [herr]
      exact ⟨_, rfl⟩

/-- C11. On the registry after `init`, `CreateSensor` returns a sensor exactly when the
type of the definition is one of the eleven registered names; for any other type it returns
the unknown-sensor-type error, and `NewSensorManager` on a configuration that has such a
definition returns an error and no manager. -/
theorem createSensor_iff_registered {F : Type} [Float64Arith F] (newRand : Int → GoRand F)
    (d : config.SensorDefinition) (now : Int) (start : plc.Time) (clock : Nat → Int)
    (tagManager : plc.TagManager) (cfg : config.SensorConfig) :
    ((∃ s, CreateSensor (sensorRegistry newRand) d now = Except.ok s) ↔
      d.Typ ∈ registeredTypes) ∧
    (d.Typ ∉ registeredTypes →
      CreateSensor (sensorRegistry newRand) d now
        = Except.error (SimError.unknownSensorType d.Typ)) ∧
    ((∃ d2 ∈ cfg.Sensors, d2.Typ ∉ registeredTypes) →
      ∃ err, NewSensorManager (sensorRegistry newRand) start clock tagManager cfg
        = Except.error err) := by
  refine ⟨?_, ?_, ?_⟩
  · rcases createSensor_cases newRand d now with ⟨hreg, hs⟩ | ⟨hnot, herr⟩
    · exact ⟨fun _ => hreg, fun _ => hs⟩
    · constructor
      · rintro ⟨s, hs⟩
        rw [herr] at hs
        exact Except.noConfusion hs
      · intro h
        exact absurd h hnot
  · intro hnot
    rcases createSensor_cases newRand d now with ⟨hreg, _⟩ | ⟨_, herr⟩
    · exact absurd hreg hnot
    · exact herr
  · intro hbad
    obtain ⟨err, herr⟩ := createSensors_unknown newRand clock cfg.Sensors 0 [] hbad
    exact ⟨err, by unfold NewSensorManager; rw [herr]⟩

/-- Instance of C11: a configuration whose only definition has the type "thermocouple"
gives no manager. -/
theorem createSensor_iff_registered_witness :
    ∃ err, NewSensorManager (@sensorRegistry ℚ Float64Arith.sample GoRand.sample) 0
      (fun _ => 0) plc.NewTagManager
      { Sensors := [{ Name := "T9", Typ := "thermocouple", Enabled := true,
                      Address := "%DF9", UpdateIntervalMs := GoInt.wrap 100,
                      Parameters := StrMap.empty, Description := "" }] } = Except.error err :=
  (@createSensor_iff_registered ℚ Float64Arith.sample GoRand.sample
    { Name := "T9", Typ := "thermocouple", Enabled := true, Address := "%DF9",
      UpdateIntervalMs := GoInt.wrap 100, Parameters := StrMap.empty, Description := "" }
    0 0 (fun _ => 0) plc.NewTagManager
    { Sensors := [{ Name := "T9", Typ := "thermocouple", Enabled := true,
                    Address := "%DF9", UpdateIntervalMs := GoInt.wrap 100,
                    Parameters := StrMap.empty, Description := "" }] }).2.2
    ⟨_, List.mem_singleton.mpr rfl, by decide⟩

end sim

/-! ## Disabled device models -/

namespace sensors

theorem temperature_update_disabled {F : Type} [Float64Arith F]
    (s : TemperatureSensor F) (dt : Duration) (h : s.BaseSensor.IsEnabled = false) :
    s.Update dt = (s.BaseTemp, s) := by
  simp [TemperatureSensor.Update, h]

theorem pressure_update_disabled {F : Type} [Float64Arith F]
    (s : PressureSensor F) (dt : Duration) (h : s.BaseSensor.IsEnabled = false) :
    s.Update dt = (s.MinPressure, s) := by
  simp [PressureSensor.Update, h]

theorem sine_update_disabled {F : Type} [Float64Arith F]
    (s : SineSensor F) (dt : Duration) (h : s.BaseSensor.IsEnabled = false) :
    s.Update dt = (s.Offset, s) := by
  simp [SineSensor.Update, h]

theorem random_update_disabled {F : Type} [Float64Arith F]
    (s : RandomSensor F) (dt : Duration) (h : s.BaseSensor.IsEnabled = false) :
    s.Update dt = (s.CurrentValue, s) := by
  simp [RandomSensor.Update, h]

theorem digital_update_disabled {F : Type} [Float64Arith F]
    (s : DigitalSensor F) (dt : Duration) (h : s.BaseSensor.IsEnabled = false) :
    s.Update dt = (0.0, s) := by
  simp [DigitalSensor.Update, h]

theorem vibration_update_disabled {F : Type} [Float64Arith F]
    (s : VibrationSensor F) (dt : Duration) (g : GoRand F)
    (h : s.BaseSensor.IsEnabled = false) : s.Update dt g = (0.0, s, g) := by
  simp [VibrationSensor.Update, h]

theorem noise_update_disabled {F : Type} [Float64Arith F]
    (s : NoiseSensor F) (dt : Duration) (g : GoRand F)
    (h : s.BaseSensor.IsEnabled = false) : s.Update dt g = (s.AmbientLevel, s, g) := by
  simp [NoiseSensor.Update, h]

theorem relay_update_disabled {F : Type} [Float64Arith F]
    (s : RelayActuator F) (dt : Duration) (h : s.BaseSensor.IsEnabled = false) :
    s.Update dt = (0.0, s) := by
  simp [RelayActuator.Update, h]

theorem integer_update_disabled {F : Type} [Float64Arith F]
    (s : IntegerActuator F) (dt : Duration) (h : s.BaseSensor.IsEnabled = false) :
    s.Update dt = (Float64Arith.ofInt s.DefaultValue, s) := by
  simp [IntegerActuator.Update, h]

theorem stepMotor_update_disabled {F : Type} [Float64Arith F]
    (s : StepMotor F) (dt : Duration) (h : s.BaseSensor.IsEnabled = false) :
    s.Update dt = some (s.CurrentPosition, { s with CurrentVelocity := 0 }) := by
  simp [StepMotor.Update, h]

theorem servoMotor_update_disabled {F : Type} [Float64Arith F]
    (s : ServoMotor F) (dt : Duration) (h : s.BaseSensor.IsEnabled = false) :
    s.Update dt = some
      ((({ s with CurrentTorque := 0 }).ApplyDynamics (Duration.Seconds dt)).output,
        ({ s with CurrentTorque := 0 }).ApplyDynamics (Duration.Seconds dt)) := by
  simp [ServoMotor.Update, h]

/-- The fields `ApplyDynamics` leaves as they are: it writes the velocity and the
position only. -/
theorem ServoMotor.applyDynamics_frame {F : Type} [Float64Arith F] (s : ServoMotor F)
    (dt : F) :
    (s.ApplyDynamics dt).BaseSensor = s.BaseSensor ∧
    (s.ApplyDynamics dt).CurrentTorque = s.CurrentTorque ∧
    (s.ApplyDynamics dt).TargetVelocity = s.TargetVelocity ∧
    (s.ApplyDynamics dt).LoadTorque = s.LoadTorque ∧
    (s.ApplyDynamics dt).integralError = s.integralError ∧
    (s.ApplyDynamics dt).lastError = s.lastError := by
  unfold ServoMotor.ApplyDynamics
  dsimp only
  split_ifs <;> simp

theorem Sensor.update_stepMotor_disabled {F : Type} [Float64Arith F] (m : StepMotor F)
    (dt : Duration) (g : GoRand F) (h : m.BaseSensor.IsEnabled = false) :
    (Sensor.stepMotor m).Update dt g
      = some (m.CurrentPosition, Sensor.stepMotor { m with CurrentVelocity := 0 }, g) := by
  simp only [Sensor.Update, stepMotor_update_disabled m dt h]

theorem Sensor.update_servoMotor_disabled {F : Type} [Float64Arith F] (m : ServoMotor F)
    (dt : Duration) (g : GoRand F) (h : m.BaseSensor.IsEnabled = false) :
    (Sensor.servoMotor m).Update dt g
      = some ((({ m with CurrentTorque := 0 }).ApplyDynamics (Duration.Seconds dt)).output,
          Sensor.servoMotor (({ m with CurrentTorque := 0 }).ApplyDynamics (Duration.Seconds dt)),
          g) := by
  simp only [Sensor.Update, servoMotor_update_disabled m dt h]

/-- Models other than the motors: `Update` on a disabled model returns a value and leaves
the model and the generator of package `rand` as they were. -/
theorem Sensor.update_disabled_same {F : Type} [Float64Arith F] (s : Sensor F)
    (dt : Duration) (g : GoRand F) (h : s.IsEnabled = false) (hm : s.isMotor = false) :
    ∃ v, s.Update dt g = some (v, s, g) := by
  cases s with
  | temperature m => exact ⟨m.BaseTemp, by simp [Sensor.Update, temperature_update_disabled m dt h]⟩
  | pressure m => exact ⟨m.MinPressure, by simp [Sensor.Update, pressure_update_disabled m dt h]⟩
  | sine m => exact ⟨m.Offset, by simp [Sensor.Update, sine_update_disabled m dt h]⟩
  | random m => exact ⟨m.CurrentValue, by simp [Sensor.Update, random_update_disabled m dt h]⟩
  | digital m => exact ⟨0.0, by simp [Sensor.Update, digital_update_disabled m dt h]⟩
  | vibration m => exact ⟨0.0, by simp [Sensor.Update, vibration_update_disabled m dt g h]⟩
  | noise m => exact ⟨m.AmbientLevel, by simp [Sensor.Update, noise_update_disabled m dt g h]⟩
  | relay m => exact ⟨0.0, by simp [Sensor.Update, relay_update_disabled m dt h]⟩
  | integer m => exact ⟨Float64Arith.ofInt m.DefaultValue, by simp [Sensor.Update, integer_update_disabled m dt h]⟩
  | stepMotor m => simp [Sensor.isMotor] at hm
  | servoMotor m => simp [Sensor.isMotor] at hm

/-- C12. For every device model and every tick duration, `Update` on a disabled model
returns a value and leaves the elapsed time as it was. -/
theorem update_disabled_elapsedTime {F : Type} [Float64Arith F] (s : Sensor F)
    (dt : Duration) (g : GoRand F) (h : s.IsEnabled = false) :
    ∃ v s1 g1, s.Update dt g = some (v, s1, g1) ∧ s1.ElapsedTime = s.ElapsedTime := by
  by_cases hm : s.isMotor = false
  · obtain ⟨v, hv⟩ := Sensor.update_disabled_same s dt g h hm
    exact ⟨v, s, g, hv, rfl⟩
  · cases s with
    | stepMotor m => exact ⟨_, _, _, Sensor.update_stepMotor_disabled m dt g h, rfl⟩
    | servoMotor m =>
      refine ⟨_, _, _, Sensor.update_servoMotor_disabled m dt g h, ?_⟩
      simp only [Sensor.ElapsedTime, Sensor.base, (ServoMotor.applyDynamics_frame _ _).1]
    | _ => simp [Sensor.isMotor] at hm

end sensors

namespace sensors

/-- C13, amended. `Update` on a disabled model other than a motor leaves the whole model
state and the generator of package `rand` as they were.  On a disabled step motor it sets
the velocity to zero and leaves the rest; on a disabled servo motor it sets the torque to
zero and applies the dynamics, which write the velocity and the position only: the elapsed
time, the target velocity, the load torque and the integrator state stay as they were. -/
theorem update_disabled_state {F : Type} [Float64Arith F] (s : Sensor F) (dt : Duration)
    (g : GoRand F) (h : s.IsEnabled = false) :
    (s.isMotor = false → ∃ v, s.Update dt g = some (v, s, g)) ∧
    (∀ m, s = Sensor.stepMotor m →
      s.Update dt g
        = some (m.CurrentPosition, Sensor.stepMotor { m with CurrentVelocity := 0 }, g)) ∧
    (∀ m, s = Sensor.servoMotor m →
      ∃ m1, s.Update dt g = some (m1.output, Sensor.servoMotor m1, g) ∧
        m1 = ({ m with CurrentTorque := 0 }).ApplyDynamics (Duration.Seconds dt) ∧
        m1.BaseSensor = m.BaseSensor ∧ m1.CurrentTorque = 0 ∧
        m1.TargetVelocity = m.TargetVelocity ∧ m1.LoadTorque = m.LoadTorque ∧
        m1.integralError = m.integralError ∧ m1.lastError = m.lastError) := by
  refine ⟨fun hm => Sensor.update_disabled_same s dt g h hm, ?_, ?_⟩
  · intro m hs
    subst hs
    exact Sensor.update_stepMotor_disabled m dt g h
  · intro m hs
    subst hs
    have hf := ServoMotor.applyDynamics_frame ({ m with CurrentTorque := 0 })
      (Duration.Seconds dt)
    exact ⟨_, Sensor.update_servoMotor_disabled m dt g h, rfl, hf.1, hf.2.1, hf.2.2.1,
      hf.2.2.2.1, hf.2.2.2.2.1, hf.2.2.2.2.2⟩

end sensors

namespace sensors

/-- Instance of C12: a disabled sine sensor keeps its elapsed time over an `Update` of one
second. -/
theorem update_disabled_elapsedTime_witness :
    (Sensor.sine (SineSensor.sample false)).IsEnabled = false ∧
    ∃ v s1 g1, @Sensor.Update ℚ Float64Arith.sample (Sensor.sine (SineSensor.sample false))
        1000000000 (GoRand.sample 1) = some (v, s1, g1) ∧
      s1.ElapsedTime = (Sensor.sine (SineSensor.sample false)).ElapsedTime :=
  ⟨rfl, @update_disabled_elapsedTime ℚ Float64Arith.sample _ 1000000000 (GoRand.sample 1) rfl⟩

/-- The sample servo motor, disabled and under a load torque of 5, after an `Update` of one
second: the load torque has driven the velocity off zero (`pi` is 355/113 in the sample
arithmetic). -/
theorem ServoMotor.sample_disabled_update :
    (@ServoMotor.Update ℚ Float64Arith.sample ((ServoMotor.sample false).SetLoadTorque 5)
        1000000000).map (fun r => (r.1, r.2.CurrentVelocity, r.2.CurrentPosition))
      = some (-3390 / 71, -3390 / 71, 5220 / 71) := by
  have hc : ⌈(-(113 / 142) : ℚ)⌉ = 0 := by
    rw [Int.ceil_eq_iff]
    norm_num
  norm_num [hc, ServoMotor.Update, ServoMotor.sample, NewServoMotor, ServoMotor.SetLoadTorque,
    BaseSensor.IsEnabled, ServoMotor.ApplyDynamics, Duration.Seconds, ServoMotor.output,
    MathFns.sample, truncToInt, Float64Arith.sample, Float64Arith.exact]
  decide

/-- C13, as stated, fails.  A disabled servo motor fresh from its constructor, under a load
torque of 5: `Update` of one second moves the velocity from 0 to -3390/71 and the position
from 0 to 5220/71 (`pi` is 355/113 in the sample arithmetic).  A disabled step motor in a
state with velocity 5: `Update` sets the velocity to 0. -/
theorem update_disabled_motor_changes :
    (((ServoMotor.sample false).SetLoadTorque 5).BaseSensor.IsEnabled = false ∧
      ((ServoMotor.sample false).SetLoadTorque 5).CurrentVelocity = 0 ∧
      ((ServoMotor.sample false).SetLoadTorque 5).CurrentPosition = 0 ∧
      (@ServoMotor.Update ℚ Float64Arith.sample ((ServoMotor.sample false).SetLoadTorque 5)
          1000000000).map (fun r => (r.2.CurrentVelocity, r.2.CurrentPosition))
        = some (-3390 / 71, 5220 / 71)) ∧
    (StepMotor.sampleMoving.BaseSensor.IsEnabled = false ∧
      StepMotor.sampleMoving.CurrentVelocity = 5 ∧
      (@StepMotor.Update ℚ Float64Arith.sample StepMotor.sampleMoving 1000000000).map
          (fun r => r.2.CurrentVelocity) = some 0) := by
  refine ⟨⟨rfl, ?_, ?_, ?_⟩, rfl, rfl, ?_⟩
  · simp [ServoMotor.sample, NewServoMotor, ServoMotor.SetLoadTorque]
  · simp [ServoMotor.sample, NewServoMotor, ServoMotor.SetLoadTorque]
  · have h := ServoMotor.sample_disabled_update
    cases hu : @ServoMotor.Update ℚ Float64Arith.sample
        ((ServoMotor.sample false).SetLoadTorque 5) 1000000000 with
    | none => rw [hu] at h; simp at h
    | some r =>
      rw [hu] at h
      simp only [Option.map_some', Option.some.injEq, Prod.mk.injEq] at h ⊢
      exact ⟨h.2.1, h.2.2⟩
  · simp [StepMotor.Update, StepMotor.sampleMoving, NewStepMotor, BaseSensor.IsEnabled]

/-- Instance of C13, amended: a disabled sine sensor is left as it was. -/
theorem update_disabled_state_witness :
    (Sensor.sine (SineSensor.sample false)).IsEnabled = false ∧
    ∃ v, @Sensor.Update ℚ Float64Arith.sample (Sensor.sine (SineSensor.sample false))
        1000000000 (GoRand.sample 1)
      = some (v, Sensor.sine (SineSensor.sample false), GoRand.sample 1) :=
  ⟨rfl, (@update_disabled_state ℚ Float64Arith.sample (Sensor.sine (SineSensor.sample false))
    1000000000 (GoRand.sample 1) rfl).1 rfl⟩

end sensors

/-! ## Exact arithmetic: durations -/

theorem Duration.seconds_exact {α : Type} [LinearOrderedField α] [FloorRing α] (m : MathFns α)
    (d : Duration) :
    @Duration.Seconds α (Float64Arith.exact m) d = (d : α) / 1000000000 := by
  unfold Duration.Seconds
  show ((Int.tdiv d 1000000000 : Int) : α) + ((Int.tmod d 1000000000 : Int) : α) /
    ((1e9 : ℚ) : α) = _
  have h := Int.tdiv_add_tmod d 1000000000
  have h2 : (d : α) = (1000000000 : α) * ((Int.tdiv d 1000000000 : Int) : α) +
      ((Int.tmod d 1000000000 : Int) : α) := by
    exact_mod_cast h.symm
  rw [h2]
  norm_num
  field_simp
  ring

/-! ## The sine sensor -/

namespace sensors

end sensors

/-! ## The ramp of the integer actuator -/

theorem Float64Arith.exact_zero {α : Type} [LinearOrderedField α] [FloorRing α]
    (m : MathFns α) :
    @OfNat.ofNat α 0 (@Float64Arith.instOfNat α (Float64Arith.exact m) 0) = (0 : α) := by
  show ((((0 : Nat) : ℚ)) : α) = 0
  simp

namespace sensors

/-- The enabled integer actuator, for every reading of the arithmetic: `Update` adds the
tick to the elapsed time and returns the value of the pattern block, clamped. -/
theorem integer_update_enabled {F : Type} [Float64Arith F] (i : IntegerActuator F)
    (dt : Duration) (he : i.BaseSensor.IsEnabled = true) :
    (i.Update dt).2.BaseSensor = i.BaseSensor.AddElapsedTime dt ∧
    (i.Update dt).1 = Float64Arith.ofInt
      (if (if ({ i with BaseSensor := i.BaseSensor.AddElapsedTime dt }).autoValue
              (i.BaseSensor.AddElapsedTime dt).ElapsedTime < i.MinValue then i.MinValue
           else ({ i with BaseSensor := i.BaseSensor.AddElapsedTime dt }).autoValue
              (i.BaseSensor.AddElapsedTime dt).ElapsedTime) > i.MaxValue then i.MaxValue
       else (if ({ i with BaseSensor := i.BaseSensor.AddElapsedTime dt }).autoValue
              (i.BaseSensor.AddElapsedTime dt).ElapsedTime < i.MinValue then i.MinValue
           else ({ i with BaseSensor := i.BaseSensor.AddElapsedTime dt }).autoValue
              (i.BaseSensor.AddElapsedTime dt).ElapsedTime)) := by
  unfold IntegerActuator.Update
  simp only [he, Bool.not_true, Bool.false_eq_true, if_false, BaseSensor.GetElapsedTime]
  constructor
  · split_ifs <;> rfl
  · split_ifs <;> rfl

theorem clampInt_eq (lo hi x : Int) (h : lo ≤ hi) :
    (if (if x < lo then lo else x) > hi then hi else (if x < lo then lo else x))
      = max lo (min hi x) := by
  rw [max_def, min_def]
  split_ifs <;> omega

end sensors

/-! ## Reset after a history of calls -/

/-- A property that every call preserves holds after every history of calls. -/
theorem foldl_preserves {S C : Type} (P : S → Prop) (f : S → C → S)
    (h : ∀ s c, P s → P (f s c)) : ∀ (cs : List C) (s : S), P s → P (cs.foldl f s) := by
  intro cs
  induction cs with
  | nil => intro s hs; exact hs
  | cons c cs ih => intro s hs; exact ih (f s c) (h s c hs)

namespace sensors

theorem sine_reset_call {F : Type} [Float64Arith F] (s : SineSensor F)
    (c : SineSensor.Call) : (s.call c).Reset = s.Reset := by
  cases c with
  | update dt =>
    show (s.Update dt).2.Reset = s.Reset
    unfold SineSensor.Update
    dsimp only
    split_ifs <;> rfl
  | reset => rfl

theorem sine_reset_run {F : Type} [Float64Arith F] (s : SineSensor F)
    (cs : List SineSensor.Call) : (s.run cs).Reset = s.Reset :=
  foldl_preserves (fun x => x.Reset = s.Reset) SineSensor.call
    (fun x c hx => (sine_reset_call x c).trans hx) cs s rfl

theorem relay_reset_call {F : Type} [Float64Arith F] (r : RelayActuator F)
    (c : RelayActuator.Call) : (r.call c).Reset = r.Reset := by
  cases c with
  | update dt =>
    show (r.Update dt).2.Reset = r.Reset
    unfold RelayActuator.Update
    dsimp only
    split_ifs <;> rfl
  | setState state => rfl
  | reset => rfl

theorem relay_reset_run {F : Type} [Float64Arith F] (r : RelayActuator F)
    (cs : List RelayActuator.Call) : (r.run cs).Reset = r.Reset :=
  foldl_preserves (fun x => x.Reset = r.Reset) RelayActuator.call
    (fun x c hx => (relay_reset_call x c).trans hx) cs r rfl

theorem integer_reset_call {F : Type} [Float64Arith F] (i : IntegerActuator F)
    (c : IntegerActuator.Call) : (i.call c).Reset = i.Reset := by
  cases c with
  | update dt =>
    show (i.Update dt).2.Reset = i.Reset
    unfold IntegerActuator.Update
    dsimp only
    split_ifs <;> rfl
  | setValue value => rfl
  | reset => rfl

theorem integer_reset_run {F : Type} [Float64Arith F] (i : IntegerActuator F)
    (cs : List IntegerActuator.Call) : (i.run cs).Reset = i.Reset :=
  foldl_preserves (fun x => x.Reset = i.Reset) IntegerActuator.call
    (fun x c hx => (integer_reset_call x c).trans hx) cs i rfl

end sensors

namespace sensors

/-- The step motor never reads its own field `Enabled`: each block of `Update` carries it
along. -/
theorem StepMotor.updateVelocity_enabled {F : Type} [Float64Arith F] (s : StepMotor F)
    (b : Bool) (dt : F) :
    ({ s with Enabled := b }).updateVelocity dt = { s.updateVelocity dt with Enabled := b } := by
  unfold StepMotor.updateVelocity
  have hd : ({ s with Enabled := b }).desiredVelocity = s.desiredVelocity := rfl
  rw [hd]
  dsimp only
  split_ifs <;> rfl

theorem StepMotor.clampVelocity_enabled {F : Type} [Float64Arith F] (s : StepMotor F)
    (b : Bool) : ({ s with Enabled := b }).clampVelocity = { s.clampVelocity with Enabled := b } := by
  unfold StepMotor.clampVelocity
  dsimp only
  split_ifs <;> rfl

theorem StepMotor.updatePosition_enabled {F : Type} [Float64Arith F] (s : StepMotor F)
    (b : Bool) (dt : F) :
    ({ s with Enabled := b }).updatePosition dt = { s.updatePosition dt with Enabled := b } := by
  unfold StepMotor.updatePosition
  dsimp only
  split_ifs <;> rfl

theorem StepMotor.move_enabled {F : Type} [Float64Arith F] (s : StepMotor F) (b : Bool)
    (dt : F) : ({ s with Enabled := b }).move dt = { s.move dt with Enabled := b } := by
  unfold StepMotor.move
  rw [StepMotor.updateVelocity_enabled, StepMotor.clampVelocity_enabled,
    StepMotor.updatePosition_enabled]

/-- The method `Reset` undoes each block of `Update` on a step motor. -/
theorem StepMotor.reset_updateVelocity {F : Type} [Float64Arith F] (s : StepMotor F)
    (dt : F) : (s.updateVelocity dt).Reset = s.Reset := by
  unfold StepMotor.updateVelocity
  dsimp only
  split_ifs <;> rfl

theorem StepMotor.reset_clampVelocity {F : Type} [Float64Arith F] (s : StepMotor F) :
    s.clampVelocity.Reset = s.Reset := by
  unfold StepMotor.clampVelocity
  split_ifs <;> rfl

theorem StepMotor.reset_updatePosition {F : Type} [Float64Arith F] (s : StepMotor F)
    (dt : F) : (s.updatePosition dt).Reset = s.Reset := by
  unfold StepMotor.updatePosition
  dsimp only
  split_ifs <;> rfl

theorem StepMotor.reset_move {F : Type} [Float64Arith F] (s : StepMotor F) (dt : F) :
    (s.move dt).Reset = s.Reset := by
  unfold StepMotor.move
  rw [StepMotor.reset_updatePosition, StepMotor.reset_clampVelocity,
    StepMotor.reset_updateVelocity]

theorem StepMotor.update_enabled_field {F : Type} [Float64Arith F] (s : StepMotor F)
    (b : Bool) (dt : Duration) :
    ({ s with Enabled := b }).Update dt
      = (s.Update dt).map (fun r => (r.1, { r.2 with Enabled := b })) := by
  unfold StepMotor.Update
  dsimp only
  have ha : ∀ (x : StepMotor F) (e : F), ({ x with Enabled := b }).autoTarget e
      = x.autoTarget e := by
    intro x e
    rfl
  split_ifs with h
  · rfl
  · have h1 := ha ({ s with BaseSensor := s.BaseSensor.AddElapsedTime dt })
      (s.BaseSensor.AddElapsedTime dt).GetElapsedTime
    cases hx : ({ s with BaseSensor := s.BaseSensor.AddElapsedTime dt }).autoTarget
        (s.BaseSensor.AddElapsedTime dt).GetElapsedTime with
    | none =>
      rw [hx] at h1
      simp only [h1, hx, Option.map_none']
    | some target =>
      rw [hx] at h1
      simp only [h1, hx, Option.map_some']
      have hm := StepMotor.move_enabled
        ({ s with BaseSensor := s.BaseSensor.AddElapsedTime dt, TargetPosition := target })
        b (Duration.Seconds dt)
      have hp := congrArg StepMotor.CurrentPosition hm
      simp only [Option.some.injEq, Prod.mk.injEq]
      exact ⟨hp, hm⟩

theorem StepMotor.outputs_enabled_field {F : Type} [Float64Arith F] (b : Bool)
    (dts : List Duration) :
    ∀ s : StepMotor F, ({ s with Enabled := b }).outputs dts = s.outputs dts := by
  induction dts with
  | nil => intro s; rfl
  | cons dt rest ih =>
    intro s
    unfold StepMotor.outputs
    rw [StepMotor.update_enabled_field]
    cases hx : s.Update dt with
    | none => rfl
    | some r =>
      simp only [Option.map_some']
      rw [ih r.2]

/-- The method `Reset` undoes every call on a step motor, up to the field `Enabled` of the
motor. -/
theorem stepMotor_reset_call {F : Type} [Float64Arith F] (s s1 : StepMotor F)
    (c : StepMotor.Call F) (h : s.call c = some s1) :
    { s1.Reset with Enabled := false } = { s.Reset with Enabled := false } := by
  cases c with
  | update dt =>
    simp only [StepMotor.call] at h
    cases hx : s.Update dt with
    | none => rw [hx] at h; simp at h
    | some r =>
      rw [hx] at h
      simp only [Option.map_some', Option.some.injEq] at h
      subst h
      unfold StepMotor.Update at hx
      dsimp only at hx
      split_ifs at hx with h1
      · simp only [Option.some.injEq] at hx
        subst hx
        rfl
      · cases ht : ({ s with BaseSensor := s.BaseSensor.AddElapsedTime dt }).autoTarget
            (s.BaseSensor.AddElapsedTime dt).GetElapsedTime with
        | none => rw [ht] at hx; simp at hx
        | some target =>
          rw [ht] at hx
          simp only [Option.some.injEq] at hx
          subst hx
          dsimp only
          rw [StepMotor.reset_move]
          rfl
  | setTargetPosition position =>
    simp only [StepMotor.call, Option.some.injEq] at h
    subst h
    rfl
  | setEnabled enabled =>
    simp only [StepMotor.call, Option.some.injEq] at h
    subst h
    rfl
  | reset =>
    simp only [StepMotor.call, Option.some.injEq] at h
    subst h
    rfl

theorem stepMotor_reset_run {F : Type} [Float64Arith F] (cs : List (StepMotor.Call F)) :
    ∀ s s1 : StepMotor F, s.run cs = some s1 →
      { s1.Reset with Enabled := false } = { s.Reset with Enabled := false } := by
  induction cs with
  | nil =>
    intro s s1 h
    simp only [StepMotor.run, Option.some.injEq] at h
    subst h
    rfl
  | cons c cs ih =>
    intro s s1 h
    unfold StepMotor.run at h
    cases hc : s.call c with
    | none => rw [hc] at h; simp at h
    | some s2 =>
      rw [hc] at h
      exact (ih s2 s1 h).trans (stepMotor_reset_call s s2 c hc)

end sensors

namespace sensors

/-- C18. For the sine sensor, the relay, the integer actuator and the step motor, after any
history of `Update`, setter and `Reset` calls on a model fresh from its constructor, `Reset`
sets the elapsed time to 0, and every sequence of `Update` calls then returns the values it
returns on a model fresh from the constructor with the same parameters.  (The first three
models are then equal to the fresh one; the step motor is equal to it up to its own field
`Enabled`, which no method reads.) -/
theorem reset_reproduces_fresh {F : Type} [Float64Arith F] (name address description : String)
    (enabled : Bool) (updateIntervalMs : GoInt) (dts : List Duration) :
    (∀ (offset amplitude frequency phase : F) (cs : List SineSensor.Call),
      ((NewSineSensor name address enabled updateIntervalMs offset amplitude frequency phase
        description).run cs).Reset.BaseSensor.ElapsedTime = 0 ∧
      ((NewSineSensor name address enabled updateIntervalMs offset amplitude frequency phase
        description).run cs).Reset.outputs dts
        = (NewSineSensor name address enabled updateIntervalMs offset amplitude frequency phase
            description).outputs dts) ∧
    (∀ (defaultState autoToggle : Bool) (togglePeriod : F) (cs : List RelayActuator.Call),
      ((NewRelayActuator name address enabled updateIntervalMs defaultState autoToggle
        togglePeriod description).run cs).Reset.BaseSensor.ElapsedTime = 0 ∧
      ((NewRelayActuator name address enabled updateIntervalMs defaultState autoToggle
        togglePeriod description).run cs).Reset.outputs dts
        = (NewRelayActuator name address enabled updateIntervalMs defaultState autoToggle
            togglePeriod description).outputs dts) ∧
    (∀ (minValue maxValue defaultValue : Int) (autoMode : Bool) (autoPattern : String)
        (rampRate stepPeriod : F) (cs : List IntegerActuator.Call),
      ((NewIntegerActuator name address enabled updateIntervalMs minValue maxValue defaultValue
        autoMode autoPattern rampRate stepPeriod description).run cs).Reset.BaseSensor.ElapsedTime
        = 0 ∧
      ((NewIntegerActuator name address enabled updateIntervalMs minValue maxValue defaultValue
        autoMode autoPattern rampRate stepPeriod description).run cs).Reset.outputs dts
        = (NewIntegerActuator name address enabled updateIntervalMs minValue maxValue
            defaultValue autoMode autoPattern rampRate stepPeriod description).outputs dts) ∧
    (∀ (maxSpeed acceleration : F) (stepsPerRev : Int) (autoMode : Bool)
        (autoPattern : String) (autoPeriod : F) (cs : List (StepMotor.Call F))
        (s : StepMotor F),
      (NewStepMotor name address enabled updateIntervalMs maxSpeed acceleration stepsPerRev
        autoMode autoPattern autoPeriod description).run cs = some s →
      s.Reset.BaseSensor.ElapsedTime = 0 ∧
      s.Reset.outputs dts
        = (NewStepMotor name address enabled updateIntervalMs maxSpeed acceleration stepsPerRev
            autoMode autoPattern autoPeriod description).outputs dts) := by
  refine ⟨?_, ?_, ?_, ?_⟩
  · intro offset amplitude frequency phase cs
    rw [sine_reset_run]
    exact ⟨rfl, rfl⟩
  · intro defaultState autoToggle togglePeriod cs
    rw [relay_reset_run]
    exact ⟨rfl, rfl⟩
  · intro minValue maxValue defaultValue autoMode autoPattern rampRate stepPeriod cs
    rw [integer_reset_run]
    exact ⟨rfl, rfl⟩
  · intro maxSpeed acceleration stepsPerRev autoMode autoPattern autoPeriod cs s h
    refine ⟨rfl, ?_⟩
    have hr := stepMotor_reset_run cs _ s h
    rw [← StepMotor.outputs_enabled_field false dts s.Reset, hr]
    rfl

/-- Instance of C18: a step motor whose target position and field `Enabled` were set, then
reset, on one `Update` of a second. -/
theorem reset_reproduces_fresh_witness :
    @StepMotor.outputs ℚ Float64Arith.sample
        (@StepMotor.Reset ℚ Float64Arith.sample
          (((StepMotor.sample true).SetTargetPosition 100).SetEnabled true)) [1000000000]
      = @StepMotor.outputs ℚ Float64Arith.sample (StepMotor.sample true) [1000000000] :=
  ((@reset_reproduces_fresh ℚ Float64Arith.sample "M1" "%DF40" "" true (GoInt.wrap 100)
    [1000000000]).2.2.2 1000 500 200 false "oscillate" 10
    [StepMotor.Call.setTargetPosition 100, StepMotor.Call.setEnabled true] _ rfl).2

end sensors

/-! ## Reset of the servo motor and of the random-walk sensor -/

namespace sensors

/-- C19. `Reset` leaves the load torque of a servo motor as it is, while the constructor
sets it to 0.  On the sample motor, enabled, the first `Update` of one second returns
velocity 0 on the fresh motor and -3390/71 after `SetLoadTorque(5)` and `Reset` (`pi` is
355/113 in the sample arithmetic). -/
theorem ServoMotor.reset_keeps_loadTorque :
    (ServoMotor.sample true).LoadTorque = 0 ∧
    (@ServoMotor.Reset ℚ Float64Arith.sample ((ServoMotor.sample true).SetLoadTorque 5)).LoadTorque
      = 5 ∧
    (@ServoMotor.Update ℚ Float64Arith.sample (ServoMotor.sample true) 1000000000).map
        (fun r => r.1) = some 0 ∧
    (@ServoMotor.Update ℚ Float64Arith.sample
        (@ServoMotor.Reset ℚ Float64Arith.sample ((ServoMotor.sample true).SetLoadTorque 5))
        1000000000).map (fun r => r.1) = some (-3390 / 71) := by
  have hc : ⌈(-(113 / 142) : ℚ)⌉ = 0 := by
    rw [Int.ceil_eq_iff]
    norm_num
  refine ⟨?_, ?_, ?_, ?_⟩
  · norm_num [ServoMotor.sample, NewServoMotor]
  · norm_num [ServoMotor.sample, NewServoMotor, ServoMotor.SetLoadTorque, ServoMotor.Reset]
  · norm_num [ServoMotor.Update, ServoMotor.sample, NewServoMotor, BaseSensor.IsEnabled,
      BaseSensor.AddElapsedTime, BaseSensor.GetElapsedTime, ServoMotor.autoTarget,
      ServoMotor.control, ServoMotor.ApplyDynamics, Duration.Seconds, ServoMotor.output,
      MathFns.sample, truncToInt, Float64Arith.sample, Float64Arith.exact]
  · norm_num [hc, ServoMotor.Update, ServoMotor.sample, NewServoMotor, BaseSensor.IsEnabled,
      BaseSensor.AddElapsedTime, BaseSensor.GetElapsedTime, ServoMotor.autoTarget,
      ServoMotor.control, ServoMotor.ApplyDynamics, Duration.Seconds, ServoMotor.output,
      ServoMotor.SetLoadTorque, ServoMotor.Reset, BaseSensor.Reset,
      MathFns.sample, truncToInt, Float64Arith.sample, Float64Arith.exact]
    decide

/-- C20. `Reset` of a random-walk sensor draws the new current value from the generator
the sensor has and only then installs the new generator, while the constructor draws the
initial value from the new generator.  With the sample generator of seed 3 in both: the
fresh sensor has current value 3 and its first `Update` of one second returns 14/5; the
same sensor after `Reset` has current value 4 and its first `Update` returns 18/5. -/
theorem RandomSensor.reset_differs_from_fresh :
    (RandomSensor.sample 3).CurrentValue = 3 ∧
    (@RandomSensor.Reset ℚ Float64Arith.sample GoRand.sample 3
      (RandomSensor.sample 3)).CurrentValue = 4 ∧
    (@RandomSensor.Update ℚ Float64Arith.sample (RandomSensor.sample 3) 1000000000).1 = 14 / 5 ∧
    (@RandomSensor.Update ℚ Float64Arith.sample
      (@RandomSensor.Reset ℚ Float64Arith.sample GoRand.sample 3 (RandomSensor.sample 3))
      1000000000).1 = 18 / 5 := by
  have h3 : Int.toNat 3 = 3 := rfl
  refine ⟨?_, ?_, ?_, ?_⟩
  · norm_num [h3, RandomSensor.sample, NewRandomSensor, GoRand.sample, GoRand.Float64]
  · norm_num [h3, RandomSensor.sample, NewRandomSensor, GoRand.sample, GoRand.Float64,
      RandomSensor.Reset]
  · norm_num [h3, RandomSensor.sample, NewRandomSensor, GoRand.sample, GoRand.Float64,
      RandomSensor.Update, BaseSensor.IsEnabled, BaseSensor.AddElapsedTime, Duration.Seconds,
      Float64Arith.sample, Float64Arith.exact]
  · norm_num [h3, RandomSensor.sample, NewRandomSensor, GoRand.sample, GoRand.Float64,
      RandomSensor.Update, RandomSensor.Reset, BaseSensor.Reset, BaseSensor.IsEnabled,
      BaseSensor.AddElapsedTime, Duration.Seconds, Float64Arith.sample, Float64Arith.exact]

end sensors

namespace sensors

/-- The enabled random-walk sensor, for every reading of the arithmetic: `Update` returns
the current value plus the change, after the two clamping steps, and stores it. -/
theorem random_update_enabled {F : Type} [Float64Arith F] (r : RandomSensor F)
    (dt : Duration) (he : r.BaseSensor.IsEnabled = true) :
    (r.Update dt).1 =
      (if (if r.CurrentValue + (r.rng.Float64.1 * 2.0 - 1.0) *
                (r.ChangeRate * Duration.Seconds dt) < r.MinValue then r.MinValue
           else r.CurrentValue + (r.rng.Float64.1 * 2.0 - 1.0) *
                (r.ChangeRate * Duration.Seconds dt)) > r.MaxValue then r.MaxValue
       else (if r.CurrentValue + (r.rng.Float64.1 * 2.0 - 1.0) *
                (r.ChangeRate * Duration.Seconds dt) < r.MinValue then r.MinValue
           else r.CurrentValue + (r.rng.Float64.1 * 2.0 - 1.0) *
                (r.ChangeRate * Duration.Seconds dt))) ∧
    (r.Update dt).2.CurrentValue = (r.Update dt).1 := by
  constructor
  · unfold RandomSensor.Update
    simp only [he, Bool.not_true, Bool.false_eq_true, if_false]
    split_ifs <;> rfl
  · unfold RandomSensor.Update
    simp only [he, Bool.not_true, Bool.false_eq_true, if_false]

end sensors

namespace sensors

end sensors

namespace sensors

end sensors

/-! ## The toggle edge rule: models that do not toggle -/

namespace sensors

/-- A relay that is disabled or not in auto-toggle mode keeps its state, its flags and its
period over an `Update`, for every reading of the arithmetic. -/
theorem relay_update_idle {F : Type} [Float64Arith F] (r : RelayActuator F) (dt : Duration)
    (h : ¬ (r.BaseSensor.IsEnabled = true ∧ r.AutoToggle = true)) :
    (r.Update dt).2.CurrentState = r.CurrentState ∧
    (r.Update dt).2.BaseSensor.IsEnabled = r.BaseSensor.IsEnabled ∧
    (r.Update dt).2.AutoToggle = r.AutoToggle := by
  unfold RelayActuator.Update
  by_cases he : r.BaseSensor.IsEnabled = true
  · have ha : r.AutoToggle = false := by
      cases hh : r.AutoToggle
      · rfl
      · exact absurd ⟨he, hh⟩ h
    simp only [he, ha, Bool.not_true, Bool.false_eq_true, if_false, false_and,
      BaseSensor.AddElapsedTime, BaseSensor.IsEnabled]
    split_ifs <;> simp_all [BaseSensor.IsEnabled]
  · have he2 : r.BaseSensor.IsEnabled = false := by
      cases hh : r.BaseSensor.IsEnabled
      · rfl
      · exact absurd hh he
    simp only [he2, Bool.not_false, if_true, and_self]

/-- A relay that is disabled or not in auto-toggle mode never flips. -/
theorem relay_flipGaps_idle {F : Type} [Float64Arith F] (dts : List Duration) :
    ∀ (r : RelayActuator F) (lastFlip : Option F),
      ¬ (r.BaseSensor.IsEnabled = true ∧ r.AutoToggle = true) →
      RelayActuator.flipGaps r lastFlip dts = [] := by
  induction dts with
  | nil => intro r lastFlip _; rfl
  | cons dt rest ih =>
    intro r lastFlip h
    obtain ⟨h1, h2, h3⟩ := relay_update_idle r dt h
    unfold RelayActuator.flipGaps
    simp only [h1, ne_eq, not_true_eq_false, if_false]
    apply ih
    rw [h2, h3]
    exact h

/-- A disabled digital sensor keeps its state and its flag over an `Update`. -/
theorem digital_update_idle {F : Type} [Float64Arith F] (d : DigitalSensor F) (dt : Duration)
    (h : d.BaseSensor.IsEnabled = false) :
    (d.Update dt).2 = d := by
  unfold DigitalSensor.Update
  simp only [h, Bool.not_false, if_true]

/-- A disabled digital sensor never flips. -/
theorem digital_flipGaps_idle {F : Type} [Float64Arith F] (dts : List Duration) :
    ∀ (d : DigitalSensor F) (lastFlip : Option F),
      d.BaseSensor.IsEnabled = false →
      DigitalSensor.flipGaps d lastFlip dts = [] := by
  induction dts with
  | nil => intro d lastFlip _; rfl
  | cons dt rest ih =>
    intro d lastFlip h
    have h1 := digital_update_idle d dt h
    unfold DigitalSensor.flipGaps
    simp only [h1, ne_eq, not_true_eq_false, if_false]
    exact ih d lastFlip h

end sensors

/-! ## validateConfig: the accepted configurations -/

namespace config

/-- The loop of `validateConfig` ends without an error exactly when every remaining sensor
has a non-empty name, a non-empty type, a positive update interval and an address of at
least 4 bytes starting with `%`, the names are pairwise distinct and none is in the name map
the loop starts from, and the same for the addresses. -/
theorem validateSensors_eq_none_iff (sensors : List SensorDefinition) :
    ∀ (i : Nat) (addressMap nameMap : StrMap Bool),
    validateSensors sensors i addressMap nameMap = none ↔
      (∀ s ∈ sensors, s.Name ≠ "" ∧ s.Typ ≠ "" ∧ 0 < s.UpdateIntervalMs.val ∧
        4 ≤ s.Address.utf8ByteSize ∧ s.Address.toList.head? = some '%') ∧
      (sensors.Pairwise (fun a b => a.Name ≠ b.Name) ∧
        ∀ s ∈ sensors, boolAt nameMap s.Name = false) ∧
      (sensors.Pairwise (fun a b => a.Address ≠ b.Address) ∧
        ∀ s ∈ sensors, boolAt addressMap s.Address = false) := by
  induction sensors with
  | nil => intro i addressMap nameMap; simp [validateSensors]
  | cons sensor rest ih =>
    intro i addressMap nameMap
    constructor
    · intro hok
      have hd := validateSensors_distinct (sensor :: rest) i addressMap nameMap hok
      refine ⟨?_, hd.1, hd.2⟩
      unfold validateSensors at hok
      split_ifs at hok with h1 h2 h3 h4 h5 h6 h7
      have hrest := (ih (i + 1) (addressMap.put sensor.Address true)
        (nameMap.put sensor.Name true)).mp hok
      intro s hs
      rcases List.mem_cons.mp hs with rfl | hs
      · push_neg at h7
        exact ⟨h1, h2, lt_of_not_le h4, h7.1, h7.2⟩
      · exact hrest.1 s hs
    · rintro ⟨hwf, ⟨hn1, hn2⟩, ⟨ha1, ha2⟩⟩
      obtain ⟨w1, w2, w3, w4, w5⟩ := hwf sensor (List.mem_cons_self _ _)
      have w6 : sensor.Address ≠ "" := by
        intro e
        rw [e] at w4
        exact absurd w4 (by decide)
      have hn3 := hn2 sensor (List.mem_cons_self _ _)
      have ha3 := ha2 sensor (List.mem_cons_self _ _)
      obtain ⟨hn4, hn5⟩ := List.pairwise_cons.mp hn1
      obtain ⟨ha4, ha5⟩ := List.pairwise_cons.mp ha1
      unfold validateSensors
      rw [if_neg w1, if_neg w2, if_neg w6, if_neg (not_le_of_lt w3),
        if_neg (by rw [hn3]; exact Bool.false_ne_true),
        if_neg (by rw [ha3]; exact Bool.false_ne_true),
        if_neg (by push_neg; exact ⟨w4, w5⟩)]
      refine (ih (i + 1) (addressMap.put sensor.Address true)
        (nameMap.put sensor.Name true)).mpr ⟨?_, ⟨hn5, ?_⟩, ⟨ha5, ?_⟩⟩
      · intro s hs
        exact hwf s (List.mem_cons_of_mem _ hs)
      · intro s hs
        rw [boolAt_put_other nameMap sensor.Name s.Name (fun e => hn4 s hs e.symm)]
        exact hn2 s (List.mem_cons_of_mem _ hs)
      · intro s hs
        rw [boolAt_put_other addressMap sensor.Address s.Address (fun e => ha4 s hs e.symm)]
        exact ha2 s (List.mem_cons_of_mem _ hs)

/-- The maps `validateConfig` starts from hold no key. -/
theorem boolAt_empty (k : String) : boolAt StrMap.empty k = false := by
  simp [boolAt, StrMap.empty, StrMap.get?, lookupEntries]

/-- C26. `validateConfig` returns no error if and only if the sensor list is non-empty,
every sensor has a non-empty name, a non-empty type, a positive update interval and an
address of at least 4 bytes whose first byte is `%`, no sensor has the name of an earlier
one and no sensor has the address of an earlier one; in every other case it returns an
error. -/
theorem validateConfig_accepts_iff (cfg : SensorConfig) :
    (validateConfig cfg = none ↔
      cfg.Sensors ≠ [] ∧
      (∀ s ∈ cfg.Sensors, s.Name ≠ "" ∧ s.Typ ≠ "" ∧ 0 < s.UpdateIntervalMs.val ∧
        4 ≤ s.Address.utf8ByteSize ∧ s.Address.toList.head? = some '%') ∧
      cfg.Sensors.Pairwise (fun earlier s => s.Name ≠ earlier.Name) ∧
      cfg.Sensors.Pairwise (fun earlier s => s.Address ≠ earlier.Address)) ∧
    (¬ (cfg.Sensors ≠ [] ∧
      (∀ s ∈ cfg.Sensors, s.Name ≠ "" ∧ s.Typ ≠ "" ∧ 0 < s.UpdateIntervalMs.val ∧
        4 ≤ s.Address.utf8ByteSize ∧ s.Address.toList.head? = some '%') ∧
      cfg.Sensors.Pairwise (fun earlier s => s.Name ≠ earlier.Name) ∧
      cfg.Sensors.Pairwise (fun earlier s => s.Address ≠ earlier.Address)) →
      ∃ e, validateConfig cfg = some e) := by
  have hiff : validateConfig cfg = none ↔
      cfg.Sensors ≠ [] ∧
      (∀ s ∈ cfg.Sensors, s.Name ≠ "" ∧ s.Typ ≠ "" ∧ 0 < s.UpdateIntervalMs.val ∧
        4 ≤ s.Address.utf8ByteSize ∧ s.Address.toList.head? = some '%') ∧
      cfg.Sensors.Pairwise (fun earlier s => s.Name ≠ earlier.Name) ∧
      cfg.Sensors.Pairwise (fun earlier s => s.Address ≠ earlier.Address) := by
    have hswapN : cfg.Sensors.Pairwise (fun earlier s => s.Name ≠ earlier.Name) ↔
        cfg.Sensors.Pairwise (fun a b => a.Name ≠ b.Name) := by
      constructor <;> intro h <;> exact h.imp (fun hab e => hab e.symm)
    have hswapA : cfg.Sensors.Pairwise (fun earlier s => s.Address ≠ earlier.Address) ↔
        cfg.Sensors.Pairwise (fun a b => a.Address ≠ b.Address) := by
      constructor <;> intro h <;> exact h.imp (fun hab e => hab e.symm)
    rw [hswapN, hswapA]
    unfold validateConfig
    by_cases hl : cfg.Sensors.length = 0
    · rw [if_pos hl]
      have : cfg.Sensors = [] := List.length_eq_zero.mp hl
      simp [this]
    · rw [if_neg hl]
      have hne : cfg.Sensors ≠ [] := fun e => hl (by rw [e]; rfl)
      rw [validateSensors_eq_none_iff cfg.Sensors 0 StrMap.empty StrMap.empty]
      constructor
      · rintro ⟨h1, ⟨h2, _⟩, ⟨h3, _⟩⟩
        exact ⟨hne, h1, h2, h3⟩
      · rintro ⟨_, h1, h2, h3⟩
        exact ⟨h1, ⟨h2, fun s _ => boolAt_empty _⟩, ⟨h3, fun s _ => boolAt_empty _⟩⟩
  refine ⟨hiff, ?_⟩
  intro hnot
  cases hv : validateConfig cfg with
  | none => exact absurd (hiff.mp hv) hnot
  | some e => exact ⟨e, rfl⟩

end config

/-! ## The device models keep their name -/

namespace sensors

/-- The base of a sensor after `AddElapsedTime` has the name it had. -/
theorem addElapsedTime_name {F : Type} [Float64Arith F] (b : BaseSensor F) (dt : Duration) :
    (b.AddElapsedTime dt).Name = b.Name := rfl

/-- The temperature sensor has the same name after `Update`. -/
theorem temperature_update_name {F : Type} [Float64Arith F] (t : TemperatureSensor F)
    (dt : Duration) : (t.Update dt).2.BaseSensor.Name = t.BaseSensor.Name := by
  unfold TemperatureSensor.Update
  dsimp only
  split_ifs <;> rfl

/-- The pressure sensor has the same name after `Update`. -/
theorem pressure_update_name {F : Type} [Float64Arith F] (p : PressureSensor F)
    (dt : Duration) : (p.Update dt).2.BaseSensor.Name = p.BaseSensor.Name := by
  unfold PressureSensor.Update
  dsimp only
  split_ifs <;> rfl

/-- The sine sensor has the same name after `Update`. -/
theorem sine_update_name {F : Type} [Float64Arith F] (s : SineSensor F)
    (dt : Duration) : (s.Update dt).2.BaseSensor.Name = s.BaseSensor.Name := by
  unfold SineSensor.Update
  dsimp only
  split_ifs <;> rfl

/-- The random-walk sensor has the same name after `Update`. -/
theorem random_update_name {F : Type} [Float64Arith F] (r : RandomSensor F)
    (dt : Duration) : (r.Update dt).2.BaseSensor.Name = r.BaseSensor.Name := by
  unfold RandomSensor.Update
  dsimp only
  split_ifs <;> rfl

/-- The digital sensor has the same name after `Update`. -/
theorem digital_update_name {F : Type} [Float64Arith F] (d : DigitalSensor F)
    (dt : Duration) : (d.Update dt).2.BaseSensor.Name = d.BaseSensor.Name := by
  unfold DigitalSensor.Update
  dsimp only
  split_ifs <;> rfl

/-- The vibration sensor has the same name after `Update`. -/
theorem vibration_update_name {F : Type} [Float64Arith F] (v : VibrationSensor F)
    (dt : Duration) (g : GoRand F) :
    (v.Update dt g).2.1.BaseSensor.Name = v.BaseSensor.Name := by
  unfold VibrationSensor.Update
  by_cases he : v.BaseSensor.IsEnabled = true
  · simp only [he, Bool.not_true, Bool.false_eq_true, if_false,
      apply_ite VibrationSensor.BaseSensor, ite_self]
    rfl
  · simp only [Bool.not_eq_true] at he
    simp only [he, Bool.not_false, if_true]

/-- The noise sensor has the same name after `Update`. -/
theorem noise_update_name {F : Type} [Float64Arith F] (n : NoiseSensor F)
    (dt : Duration) (g : GoRand F) :
    (n.Update dt g).2.1.BaseSensor.Name = n.BaseSensor.Name := by
  unfold NoiseSensor.Update
  by_cases he : n.BaseSensor.IsEnabled = true
  · simp only [he, Bool.not_true, Bool.false_eq_true, if_false,
      apply_ite NoiseSensor.BaseSensor, ite_self]
    rfl
  · simp only [Bool.not_eq_true] at he
    simp only [he, Bool.not_false, if_true]

/-- The relay has the same name after `Update`. -/
theorem relay_update_name {F : Type} [Float64Arith F] (r : RelayActuator F)
    (dt : Duration) : (r.Update dt).2.BaseSensor.Name = r.BaseSensor.Name := by
  unfold RelayActuator.Update
  dsimp only
  split_ifs <;> rfl

/-- The integer actuator has the same name after `Update`. -/
theorem integer_update_name {F : Type} [Float64Arith F] (i : IntegerActuator F)
    (dt : Duration) : (i.Update dt).2.BaseSensor.Name = i.BaseSensor.Name := by
  unfold IntegerActuator.Update
  dsimp only
  split_ifs <;> rfl

/-- The velocity and position step of the step motor leaves the base of the sensor as it
is. -/
theorem stepMotor_move_base {F : Type} [Float64Arith F] (s : StepMotor F) (dt : F) :
    (s.move dt).BaseSensor = s.BaseSensor := by
  have h1 : ∀ x : StepMotor F, (x.updateVelocity dt).BaseSensor = x.BaseSensor := by
    intro x
    unfold StepMotor.updateVelocity
    simp only [apply_ite StepMotor.BaseSensor, ite_self]
  have h2 : ∀ x : StepMotor F, x.clampVelocity.BaseSensor = x.BaseSensor := by
    intro x
    unfold StepMotor.clampVelocity
    simp only [apply_ite StepMotor.BaseSensor, ite_self]
  have h3 : ∀ x : StepMotor F, (x.updatePosition dt).BaseSensor = x.BaseSensor := by
    intro x
    unfold StepMotor.updatePosition
    simp only [apply_ite StepMotor.BaseSensor, ite_self]
  unfold StepMotor.move
  rw [h3, h2, h1]

/-- The step motor has the same name after `Update`. -/
theorem stepMotor_update_name {F : Type} [Float64Arith F] (s : StepMotor F)
    (dt : Duration) (r : F × StepMotor F) (h : s.Update dt = some r) :
    r.2.BaseSensor.Name = s.BaseSensor.Name := by
  unfold StepMotor.Update at h
  by_cases he : s.BaseSensor.IsEnabled = true
  · simp only [he, Bool.not_true, Bool.false_eq_true, if_false] at h
    split at h
    · exact Option.noConfusion h
    · have h2 := Option.some.inj h
      rw [← h2]
      show (StepMotor.move _ _).BaseSensor.Name = _
      rw [stepMotor_move_base]
      rfl
  · simp only [Bool.not_eq_true] at he
    simp only [he, Bool.not_false, if_true] at h
    have h2 := Option.some.inj h
    rw [← h2]

/-- The motor dynamics of the servo motor leave the base of the sensor as it is. -/
theorem servoMotor_applyDynamics_base {F : Type} [Float64Arith F] (s : ServoMotor F) (dt : F) :
    (s.ApplyDynamics dt).BaseSensor = s.BaseSensor := by
  unfold ServoMotor.ApplyDynamics
  simp only [apply_ite ServoMotor.BaseSensor, ite_self]

/-- The PID step of the servo motor leaves the base of the sensor as it is. -/
theorem servoMotor_control_base {F : Type} [Float64Arith F] (s : ServoMotor F) (dt : F) :
    (s.control dt).BaseSensor = s.BaseSensor := by
  unfold ServoMotor.control
  simp only [apply_ite ServoMotor.BaseSensor, ite_self]

/-- The servo motor has the same name after `Update`. -/
theorem servoMotor_update_name {F : Type} [Float64Arith F] (s : ServoMotor F)
    (dt : Duration) (r : F × ServoMotor F) (h : s.Update dt = some r) :
    r.2.BaseSensor.Name = s.BaseSensor.Name := by
  unfold ServoMotor.Update at h
  by_cases he : s.BaseSensor.IsEnabled = true
  · simp only [he, Bool.not_true, Bool.false_eq_true, if_false] at h
    split at h
    · exact Option.noConfusion h
    · have h2 := Option.some.inj h
      rw [← h2]
      show (ServoMotor.ApplyDynamics _ _).BaseSensor.Name = _
      rw [servoMotor_applyDynamics_base, servoMotor_control_base]
      rfl
  · simp only [Bool.not_eq_true] at he
    simp only [he, Bool.not_false, if_true] at h
    have h2 := Option.some.inj h
    rw [← h2]
    show (ServoMotor.ApplyDynamics _ _).BaseSensor.Name = _
    rw [servoMotor_applyDynamics_base]

/-- A sensor has the same name after `Update`. -/
theorem sensor_update_name {F : Type} [Float64Arith F] (s : Sensor F) (dt : Duration)
    (g : GoRand F) (r : F × Sensor F × GoRand F) (h : s.Update dt g = some r) :
    r.2.1.GetName = s.GetName := by
  cases s with
  | temperature x =>
    have h2 := Option.some.inj h
    rw [← h2]; exact temperature_update_name x dt
  | pressure x =>
    have h2 := Option.some.inj h
    rw [← h2]; exact pressure_update_name x dt
  | sine x =>
    have h2 := Option.some.inj h
    rw [← h2]; exact sine_update_name x dt
  | random x =>
    have h2 := Option.some.inj h
    rw [← h2]; exact random_update_name x dt
  | digital x =>
    have h2 := Option.some.inj h
    rw [← h2]; exact digital_update_name x dt
  | vibration x =>
    have h2 := Option.some.inj h
    rw [← h2]; exact vibration_update_name x dt g
  | noise x =>
    have h2 := Option.some.inj h
    rw [← h2]; exact noise_update_name x dt g
  | relay x =>
    have h2 := Option.some.inj h
    rw [← h2]; exact relay_update_name x dt
  | integer x =>
    have h2 := Option.some.inj h
    rw [← h2]; exact integer_update_name x dt
  | stepMotor x =>
    simp only [Sensor.Update] at h
    cases hx : x.Update dt with
    | none => rw [hx] at h; exact Option.noConfusion h
    | some y =>
      rw [hx] at h
      have h2 := Option.some.inj h
      rw [← h2]; exact stepMotor_update_name x dt y hx
  | servoMotor x =>
    simp only [Sensor.Update] at h
    cases hx : x.Update dt with
    | none => rw [hx] at h; exact Option.noConfusion h
    | some y =>
      rw [hx] at h
      have h2 := Option.some.inj h
      rw [← h2]; exact servoMotor_update_name x dt y hx

end sensors

/-! ## The update tick of the sensor manager -/

namespace plc

/-- A write under a name leaves the tags under the other names as they are. -/
theorem setTagValue_get_other (env : GoEnv) (tm : TagManager) (name name2 : String)
    (v : GoValue) (now : Time) (hne : name2 ≠ name) :
    (tm.SetTagValue env name v now).1.tags.get? name2 = tm.tags.get? name2 := by
  unfold TagManager.SetTagValue TagManager.GetTag
  cases hget : tm.tags.get? name with
  | none => rfl
  | some tag => exact StrMap.get_put_other tm.tags name name2 _ hne

/-- A write under a name that holds a tag leaves there the tag after `SetValue`. -/
theorem setTagValue_get_same (env : GoEnv) (tm : TagManager) (name : String) (tag : Tag)
    (v : GoValue) (now : Time) (hget : tm.tags.get? name = some tag) :
    (tm.SetTagValue env name v now).1.tags.get? name = some (tag.SetValue env v now).1 := by
  unfold TagManager.SetTagValue TagManager.GetTag
  rw [hget]
  exact StrMap.get_put_same tm.tags name _

/-- The tag `GetTag` returns is the one the map holds. -/
theorem getTag_eq_ok_iff (tm : TagManager) (name : String) (tag : Tag) :
    tm.GetTag name = Except.ok tag ↔ tm.tags.get? name = some tag := by
  unfold TagManager.GetTag
  cases hget : tm.tags.get? name with
  | none => simp
  | some t =>
    constructor
    · intro h; rw [Except.ok.inj h]
    · intro h; rw [Option.some.inj h]

end plc

namespace sim

open sensors

/-- The goroutine of `update` leaves the sensor its name. -/
theorem updateSensor_name {F : Type} [Float64Arith F] (dt : Duration) (g : GoRand F)
    (s : Sensor F) (r : Sensor F × Option F) (h : updateSensor dt g s = some r) :
    r.1.GetName = s.GetName := by
  unfold updateSensor at h
  by_cases he : s.IsEnabled = true
  · simp only [he, Bool.not_true, Bool.false_eq_true, if_false] at h
    cases hu : s.Update dt g with
    | none => rw [hu] at h; exact Option.noConfusion h
    | some x =>
      rw [hu] at h
      rw [← Option.some.inj h]
      exact sensor_update_name s dt g x hu
  · simp only [Bool.not_eq_true] at he
    simp only [he, Bool.not_false, if_true] at h
    rw [← Option.some.inj h]

/-- The results of the goroutines of `update`: one for each sensor, at its index. -/
theorem updateSensors_spec {F : Type} [Float64Arith F] (dt : Duration)
    (rand : Nat → GoRand F) (l : List (Sensor F)) :
    ∀ (k : Nat) (results : List (Sensor F × Option F)),
      updateSensors dt rand l k = some results →
      results.length = l.length ∧
      ∀ (j : Nat) (s : Sensor F), l[j]? = some s →
        ∃ r, results[j]? = some r ∧ updateSensor dt (rand (k + j)) s = some r := by
  induction l with
  | nil =>
    intro k results h
    simp only [updateSensors] at h
    rw [← Option.some.inj h]
    exact ⟨rfl, fun j s hj => by simp at hj⟩
  | cons a rest ih =>
    intro k results h
    simp only [updateSensors] at h
    cases h1 : updateSensor dt (rand k) a with
    | none => rw [h1] at h; exact Option.noConfusion h
    | some r1 =>
      cases h2 : updateSensors dt rand rest (k + 1) with
      | none => rw [h1, h2] at h; exact Option.noConfusion h
      | some rs =>
        rw [h1, h2] at h
        rw [← Option.some.inj h]
        obtain ⟨hlen, hall⟩ := ih (k + 1) rs h2
        refine ⟨by simp [hlen], ?_⟩
        intro j s hj
        cases j with
        | zero =>
          simp only [List.getElem?_cons_zero, Option.some.injEq] at hj
          rw [← hj]
          exact ⟨r1, by simp, h1⟩
        | succ n =>
          simp only [List.getElem?_cons_succ] at hj
          obtain ⟨r, hr1, hr2⟩ := hall n s hj
          refine ⟨r, by simpa using hr1, ?_⟩
          rw [show k + (n + 1) = k + 1 + n by omega]
          exact hr2

/-- The goroutines of `update` all return when no `Update` panics. -/
theorem updateSensors_total {F : Type} [Float64Arith F] (dt : Duration)
    (rand : Nat → GoRand F) (l : List (Sensor F)) :
    ∀ (k : Nat),
      (∀ (j : Nat) (s : Sensor F), l[j]? = some s → (updateSensor dt (rand (k + j)) s).isSome = true) →
      ∃ results, updateSensors dt rand l k = some results := by
  induction l with
  | nil => intro k _; exact ⟨[], rfl⟩
  | cons a rest ih =>
    intro k hall
    have h0 := hall 0 a (by simp)
    obtain ⟨r1, h1⟩ := Option.isSome_iff_exists.mp h0
    obtain ⟨rs, h2⟩ := ih (k + 1) (by
      intro j s hj
      have := hall (j + 1) s (by simpa using hj)
      rw [show k + (j + 1) = k + 1 + j by omega] at this
      exact this)
    refine ⟨r1 :: rs, ?_⟩
    simp only [updateSensors]
    rw [Nat.add_zero] at h1
    rw [h1, h2]

/-- The writes of the goroutines leave a tag as it is when no sensor with a value to write
has its name. -/
theorem writeTags_get_other {F : Type} [Float64Arith F] (env : GoEnv) (stamp : Nat → plc.Time)
    (results : List (Sensor F × Option F)) (name : String) (order : List Nat) :
    ∀ (tm : plc.TagManager) (log : List (String × plc.TagError)),
      (∀ i ∈ order, ∀ s v, results[i]? = some (s, some v) → s.GetName ≠ name) →
      (writeTags env stamp results order tm log).1.tags.get? name = tm.tags.get? name := by
  induction order with
  | nil => intro tm log _; rfl
  | cons i rest ih =>
    intro tm log hall
    have hrest : ∀ j ∈ rest, ∀ s v, results[j]? = some (s, some v) → s.GetName ≠ name :=
      fun j hj => hall j (List.mem_cons_of_mem _ hj)
    unfold writeTags
    cases hr : results[i]? with
    | none => exact ih tm log hrest
    | some p =>
      obtain ⟨s, ov⟩ := p
      cases ov with
      | none => exact ih tm log hrest
      | some v =>
        have hne := hall i (List.mem_cons_self _ _) s v hr
        dsimp only
        split
        · rw [ih _ _ hrest]
          exact plc.setTagValue_get_other env tm s.GetName name _ _ (fun e => hne e.symm)
        · rw [ih _ _ hrest]
          exact plc.setTagValue_get_other env tm s.GetName name _ _ (fun e => hne e.symm)

/-- The writes of the goroutines leave under a name the tag after the `SetValue` of the one
sensor that has this name and a value to write. -/
theorem writeTags_get_once {F : Type} [Float64Arith F] (env : GoEnv) (stamp : Nat → plc.Time)
    (results : List (Sensor F × Option F)) (name : String) (i0 : Nat) (s0 : Sensor F) (v0 : F)
    (tag : plc.Tag) (hr0 : results[i0]? = some (s0, some v0)) (hn0 : s0.GetName = name)
    (order : List Nat) :
    ∀ (tm : plc.TagManager) (log : List (String × plc.TagError)),
      order.Nodup → i0 ∈ order →
      (∀ i ∈ order, i ≠ i0 → ∀ s v, results[i]? = some (s, some v) → s.GetName ≠ name) →
      tm.tags.get? name = some tag →
      (writeTags env stamp results order tm log).1.tags.get? name =
        some (tag.SetValue env (GoValue.float64 (Float64Arith.toGo v0)) (stamp i0)).1 := by
  induction order with
  | nil => intro tm log _ hmem; exact absurd hmem (List.not_mem_nil _)
  | cons i rest ih =>
    intro tm log hnd hmem hall hget
    obtain ⟨hnotin, hndrest⟩ := List.nodup_cons.mp hnd
    by_cases hi : i = i0
    · subst hi
      have hrest : ∀ j ∈ rest, ∀ s v, results[j]? = some (s, some v) → s.GetName ≠ name := by
        intro j hj
        exact hall j (List.mem_cons_of_mem _ hj) (fun e => hnotin (e ▸ hj))
      unfold writeTags
      rw [hr0]
      dsimp only
      split
      · rw [writeTags_get_other env stamp results name rest _ _ hrest, hn0]
        exact plc.setTagValue_get_same env tm name tag _ _ hget
      · rw [writeTags_get_other env stamp results name rest _ _ hrest, hn0]
        exact plc.setTagValue_get_same env tm name tag _ _ hget
    · have hmem2 : i0 ∈ rest := by
        rcases List.mem_cons.mp hmem with h | h
        · exact absurd h.symm hi
        · exact h
      have hrest : ∀ j ∈ rest, j ≠ i0 → ∀ s v, results[j]? = some (s, some v) →
          s.GetName ≠ name := fun j hj => hall j (List.mem_cons_of_mem _ hj)
      unfold writeTags
      cases hr : results[i]? with
      | none => exact ih tm log hndrest hmem2 hrest hget
      | some p =>
        obtain ⟨s, ov⟩ := p
        cases ov with
        | none => exact ih tm log hndrest hmem2 hrest hget
        | some v =>
          have hne := hall i (List.mem_cons_self _ _) hi s v hr
          have hget2 : (tm.SetTagValue env s.GetName
              (GoValue.float64 (Float64Arith.toGo v)) (stamp i)).1.tags.get? name = some tag := by
            rw [plc.setTagValue_get_other env tm s.GetName name _ _ (fun e => hne e.symm)]
            exact hget
          dsimp only
          split
          · exact ih _ _ hndrest hmem2 hrest hget2
          · exact ih _ _ hndrest hmem2 hrest hget2

end sim

namespace sim

open sensors

/-- A value is written for an enabled sensor and none for a disabled one. -/
theorem updateSensor_value {F : Type} [Float64Arith F] (dt : Duration) (g : GoRand F)
    (s : Sensor F) (r : Sensor F × Option F) (h : updateSensor dt g s = some r) :
    (s.IsEnabled = false → r = (s, none)) ∧
    (s.IsEnabled = true → ∃ x, s.Update dt g = some x ∧ r = (x.2.1, some x.1)) := by
  unfold updateSensor at h
  constructor
  · intro he
    simp only [he, Bool.not_false, if_true] at h
    exact (Option.some.inj h).symm
  · intro he
    simp only [he, Bool.not_true, Bool.false_eq_true, if_false] at h
    cases hu : s.Update dt g with
    | none => rw [hu] at h; exact Option.noConfusion h
    | some x =>
      rw [hu] at h
      exact ⟨x, rfl, (Option.some.inj h).symm⟩

/-- Sensors at different indices of a list with pairwise distinct names have different
names. -/
theorem names_ne_of_pairwise {F : Type} (l : List (Sensor F))
    (hnames : l.Pairwise (fun a b => a.GetName ≠ b.GetName)) (i j : Nat) (a b : Sensor F)
    (hi : l[i]? = some a) (hj : l[j]? = some b) (hne : i ≠ j) : a.GetName ≠ b.GetName := by
  obtain ⟨hi1, hi2⟩ := List.getElem?_eq_some.mp hi
  obtain ⟨hj1, hj2⟩ := List.getElem?_eq_some.mp hj
  rw [List.pairwise_iff_getElem] at hnames
  rcases Nat.lt_or_gt_of_ne hne with h | h
  · have := hnames i j hi1 hj1 h
    rw [hi2, hj2] at this
    exact this
  · have := hnames j i hj1 hi1 h
    rw [hi2, hj2] at this
    exact fun e => this e.symm

/-- The tick returns when no `Update` of an enabled sensor panics, and its results are
those of the goroutines. -/
theorem update_returns {F : Type} [Float64Arith F] (env : GoEnv) (sm : SensorManager F)
    (tick : Tick F)
    (hok : ∀ (i : Nat) (s : Sensor F), sm.sensors[i]? = some s → s.IsEnabled = true →
      (s.Update (Time.Sub tick.now sm.lastUpdate) (tick.rand i)).isSome = true) :
    ∃ results, updateSensors (Time.Sub tick.now sm.lastUpdate) tick.rand sm.sensors 0 =
        some results ∧
      sm.update env tick =
        some ({ sm with sensors := results.map Prod.fst,
                        tagManager := (writeTags env tick.stamp results tick.order
                          sm.tagManager []).1,
                        lastUpdate := tick.now,
                        updateCount := (sm.updateCount + 1) % 18446744073709551616 },
              (writeTags env tick.stamp results tick.order sm.tagManager []).2) := by
  obtain ⟨results, hres⟩ := updateSensors_total (Time.Sub tick.now sm.lastUpdate) tick.rand
    sm.sensors 0 (by
      intro j s hj
      rw [Nat.zero_add]
      unfold updateSensor
      by_cases he : s.IsEnabled = true
      · have := hok j s hj he
        obtain ⟨x, hx⟩ := Option.isSome_iff_exists.mp this
        simp [he, hx]
      · simp only [Bool.not_eq_true] at he
        simp [he])
  refine ⟨results, hres, ?_⟩
  unfold SensorManager.update
  simp only [hres]

/-- In the results of the goroutines, a value to write under a name comes from the sensor
of that index, which has this name. -/
theorem results_name {F : Type} [Float64Arith F] (dt : Duration) (rand : Nat → GoRand F)
    (l : List (Sensor F)) (results : List (Sensor F × Option F))
    (hres : updateSensors dt rand l 0 = some results) (j : Nat) (s1 : Sensor F) (ov : Option F)
    (hj : results[j]? = some (s1, ov)) :
    ∃ s, l[j]? = some s ∧ s.GetName = s1.GetName ∧ (s.IsEnabled = false → ov = none) := by
  obtain ⟨hlen, hall⟩ := updateSensors_spec dt rand l 0 results hres
  obtain ⟨hj1, _⟩ := List.getElem?_eq_some.mp hj
  have hj2 : j < l.length := hlen ▸ hj1
  have hs : l[j]? = some l[j] := List.getElem?_eq_getElem hj2
  obtain ⟨r, hr1, hr2⟩ := hall j l[j] hs
  rw [hj] at hr1
  have hr3 := Option.some.inj hr1
  rw [Nat.zero_add] at hr2
  refine ⟨l[j], hs, ?_, ?_⟩
  · have := updateSensor_name dt (rand j) l[j] r hr2
    rw [← hr3] at this
    exact this.symm
  · intro he
    have := (updateSensor_value dt (rand j) l[j] r hr2).1 he
    rw [← hr3] at this
    exact (Prod.mk.inj this).2

/-- C21. One tick of the scheduler commits every enabled model.  For a manager whose
sensors have pairwise distinct names, a tick whose goroutines write in any order, and no
`Update` of an enabled sensor panicking: `update` returns, and for every enabled sensor
whose name has a tag, the tag under that name is afterwards the tag `SetValue` leaves when
given the result of that sensor's `Update` on the tick duration; that `SetValue` returns no
error, and on a tag of one of the four kinds the value is the one the coercion table gives.
Nothing is asked of the other sensors: their names need not have a tag. -/
theorem SensorManager.update_commits_enabled {F : Type} [Float64Arith F] (env : GoEnv)
    (sm : SensorManager F) (tick : Tick F)
    (horder : tick.order.Perm (List.range sm.sensors.length))
    (hnames : sm.sensors.Pairwise (fun a b => a.GetName ≠ b.GetName))
    (hok : ∀ (i : Nat) (s : Sensor F), sm.sensors[i]? = some s → s.IsEnabled = true →
      (s.Update (Time.Sub tick.now sm.lastUpdate) (tick.rand i)).isSome = true) :
    ∃ sm1 log, sm.update env tick = some (sm1, log) ∧
      ∀ (i : Nat) (s : Sensor F) (tag : plc.Tag), sm.sensors[i]? = some s → s.IsEnabled = true →
        sm.tagManager.GetTag s.GetName = Except.ok tag →
        ∃ r, s.Update (Time.Sub tick.now sm.lastUpdate) (tick.rand i) = some r ∧
          sm1.tagManager.GetTag s.GetName =
            Except.ok (tag.SetValue env (GoValue.float64 (Float64Arith.toGo r.1))
              (tick.stamp i)).1 ∧
          (tag.SetValue env (GoValue.float64 (Float64Arith.toGo r.1)) (tick.stamp i)).2 =
            none ∧
          (plc.validKind tag.Typ →
            plc.coercedAsBuilt env tag.Typ (GoValue.float64 (Float64Arith.toGo r.1))
              (tag.SetValue env (GoValue.float64 (Float64Arith.toGo r.1))
                (tick.stamp i)).1.Value = true) := by
  obtain ⟨results, hres, hupd⟩ := update_returns env sm tick hok
  refine ⟨_, _, hupd, ?_⟩
  intro i s tag hi he htag
  obtain ⟨hlen, hall⟩ := updateSensors_spec _ _ _ 0 results hres
  obtain ⟨r, hr1, hr2⟩ := hall i s hi
  rw [Nat.zero_add] at hr2
  obtain ⟨x, hx1, hx2⟩ := (updateSensor_value _ _ s r hr2).2 he
  have hnx : x.2.1.GetName = s.GetName := sensor_update_name s _ _ x hx1
  refine ⟨x, hx1, ?_, ?_, ?_⟩
  · rw [plc.getTag_eq_ok_iff]
    have hil : i < sm.sensors.length := (List.getElem?_eq_some.mp hi).1
    refine writeTags_get_once env tick.stamp results s.GetName i x.2.1 x.1 tag
      (by rw [hr1, hx2]) hnx tick.order sm.tagManager [] (horder.nodup_iff.mpr
        (List.nodup_range _)) (horder.mem_iff.mpr (List.mem_range.mpr hil)) ?_
      ((plc.getTag_eq_ok_iff _ _ _).mp htag)
    intro j _ hji s1 v hj
    obtain ⟨sj, hsj1, hsj2, _⟩ := results_name _ _ _ results hres j s1 (some v) hj
    rw [← hsj2]
    exact names_ne_of_pairwise sm.sensors hnames j i sj s hsj1 hi hji
  · unfold plc.Tag.SetValue
    dsimp only
    split_ifs <;> rfl
  · intro hk
    exact (plc.setValue_coerced env tag _ _ hk (by
      rcases hk with h | h | h | h <;>
        simp [plc.accepts, h, plc.TagTypeFloat64, plc.TagTypeInt32, plc.TagTypeBool,
          plc.TagTypeString])).2

/-- C22, as the code has it. In a tick of the scheduler the disabled models are skipped.
For a manager whose sensors have pairwise distinct names, a tick whose goroutines write in
any order, and no `Update` of an enabled sensor panicking: `update` returns, and every
disabled sensor is afterwards as it was, and so is the tag under its name. -/
theorem SensorManager.update_skips_disabled {F : Type} [Float64Arith F] (env : GoEnv)
    (sm : SensorManager F) (tick : Tick F)
    (hnames : sm.sensors.Pairwise (fun a b => a.GetName ≠ b.GetName))
    (hok : ∀ (i : Nat) (s : Sensor F), sm.sensors[i]? = some s → s.IsEnabled = true →
      (s.Update (Time.Sub tick.now sm.lastUpdate) (tick.rand i)).isSome = true) :
    ∃ sm1 log, sm.update env tick = some (sm1, log) ∧
      ∀ (i : Nat) (s : Sensor F), sm.sensors[i]? = some s → s.IsEnabled = false →
        sm1.sensors[i]? = some s ∧
        sm1.tagManager.tags.get? s.GetName = sm.tagManager.tags.get? s.GetName := by
  obtain ⟨results, hres, hupd⟩ := update_returns env sm tick hok
  refine ⟨_, _, hupd, ?_⟩
  intro i s hi he
  obtain ⟨hlen, hall⟩ := updateSensors_spec _ _ _ 0 results hres
  obtain ⟨r, hr1, hr2⟩ := hall i s hi
  rw [Nat.zero_add] at hr2
  have hr3 := (updateSensor_value _ _ s r hr2).1 he
  constructor
  · show (results.map Prod.fst)[i]? = some s
    rw [List.getElem?_map, hr1, hr3]
    rfl
  · refine writeTags_get_other env tick.stamp results s.GetName tick.order sm.tagManager [] ?_
    intro j _ s1 v hj
    obtain ⟨sj, hsj1, hsj2, hsj3⟩ := results_name _ _ _ results hres j s1 (some v) hj
    rw [← hsj2]
    by_cases hji : j = i
    · subst hji
      rw [hi] at hsj1
      rw [← Option.some.inj hsj1] at hsj3
      exact absurd (hsj3 he) (by simp)
    · exact names_ne_of_pairwise sm.sensors hnames j i sj s hsj1 hi hji

end sim

namespace sim

open sensors

/-- Instance of C21: the sample manager (an enabled sine sensor, a disabled temperature
sensor, and an enabled relay whose name has no tag) on the sample tick. -/
theorem SensorManager.update_commits_enabled_witness :
    Tick.sample.order.Perm (List.range SensorManager.sample.sensors.length) ∧
    SensorManager.sample.sensors.Pairwise (fun a b => a.GetName ≠ b.GetName) ∧
    ∃ sm1 log, @SensorManager.update ℚ Float64Arith.sample GoEnv.sample SensorManager.sample
        Tick.sample = some (sm1, log) ∧
      ∀ (i : Nat) (s : Sensor ℚ) (tag : plc.Tag),
        SensorManager.sample.sensors[i]? = some s → s.IsEnabled = true →
        SensorManager.sample.tagManager.GetTag s.GetName = Except.ok tag →
        ∃ r, @Sensor.Update ℚ Float64Arith.sample s
            (Time.Sub Tick.sample.now SensorManager.sample.lastUpdate)
            (Tick.sample.rand i) = some r ∧
          sm1.tagManager.GetTag s.GetName =
            Except.ok (tag.SetValue GoEnv.sample
              (GoValue.float64 (@Float64Arith.toGo ℚ Float64Arith.sample r.1))
              (Tick.sample.stamp i)).1 ∧
          (tag.SetValue GoEnv.sample
            (GoValue.float64 (@Float64Arith.toGo ℚ Float64Arith.sample r.1))
            (Tick.sample.stamp i)).2 = none ∧
          (plc.validKind tag.Typ →
            plc.coercedAsBuilt GoEnv.sample tag.Typ
              (GoValue.float64 (@Float64Arith.toGo ℚ Float64Arith.sample r.1))
              (tag.SetValue GoEnv.sample
                (GoValue.float64 (@Float64Arith.toGo ℚ Float64Arith.sample r.1))
                (Tick.sample.stamp i)).1.Value = true) :=
  ⟨by decide, by
      simp [SensorManager.sample, Sensor.GetName, Sensor.base, BaseSensor.GetName,
        SineSensor.sample, TemperatureSensor.sample, RelayActuator.sample, NewSineSensor,
        NewTemperatureSensor, NewRelayActuator],
    @SensorManager.update_commits_enabled ℚ Float64Arith.sample GoEnv.sample
      SensorManager.sample Tick.sample (by decide)
      (by
        simp [SensorManager.sample, Sensor.GetName, Sensor.base, BaseSensor.GetName,
          SineSensor.sample, TemperatureSensor.sample, RelayActuator.sample, NewSineSensor,
          NewTemperatureSensor, NewRelayActuator])
      (by
        intro i s hi _
        rcases i with _ | _ | _ | i
        · simp only [SensorManager.sample, List.getElem?_cons_zero, Option.some.injEq] at hi
          rw [← hi]; rfl
        · simp only [SensorManager.sample, List.getElem?_cons_succ, List.getElem?_cons_zero,
            Option.some.injEq] at hi
          rw [← hi]; rfl
        · simp only [SensorManager.sample, List.getElem?_cons_succ, List.getElem?_cons_zero,
            Option.some.injEq] at hi
          rw [← hi]; rfl
        · simp [SensorManager.sample] at hi)⟩

end sim

namespace sim

open sensors

/-- Instance of C22 as the code has it: the sample manager on the sample tick; its
disabled temperature sensor and the tag "T1" are afterwards as they were. -/
theorem SensorManager.update_skips_disabled_witness :
    SensorManager.sample.sensors.Pairwise (fun a b => a.GetName ≠ b.GetName) ∧
    ∃ sm1 log, @SensorManager.update ℚ Float64Arith.sample GoEnv.sample SensorManager.sample
        Tick.sample = some (sm1, log) ∧
      ∀ (i : Nat) (s : Sensor ℚ), SensorManager.sample.sensors[i]? = some s →
        s.IsEnabled = false →
        sm1.sensors[i]? = some s ∧
        sm1.tagManager.tags.get? s.GetName =
          SensorManager.sample.tagManager.tags.get? s.GetName :=
  ⟨by
      simp [SensorManager.sample, Sensor.GetName, Sensor.base, BaseSensor.GetName,
        SineSensor.sample, TemperatureSensor.sample, RelayActuator.sample, NewSineSensor,
        NewTemperatureSensor, NewRelayActuator],
    @SensorManager.update_skips_disabled ℚ Float64Arith.sample GoEnv.sample
      SensorManager.sample Tick.sample
      (by
        simp [SensorManager.sample, Sensor.GetName, Sensor.base, BaseSensor.GetName,
          SineSensor.sample, TemperatureSensor.sample, RelayActuator.sample, NewSineSensor,
          NewTemperatureSensor, NewRelayActuator])
      (by
        intro i s hi _
        rcases i with _ | _ | _ | i
        · simp only [SensorManager.sample, List.getElem?_cons_zero, Option.some.injEq] at hi
          rw [← hi]; rfl
        · simp only [SensorManager.sample, List.getElem?_cons_succ, List.getElem?_cons_zero,
            Option.some.injEq] at hi
          rw [← hi]; rfl
        · simp only [SensorManager.sample, List.getElem?_cons_succ, List.getElem?_cons_zero,
            Option.some.injEq] at hi
          rw [← hi]; rfl
        · simp [SensorManager.sample] at hi)⟩

/-- Counterexample to C22 as stated: the manager with the disabled temperature sensor "T1"
(base temperature 25) alone, on the sample store. `Update` of the disabled sensor returns
25, the tick returns, and the tag "T1" holds afterwards the `0.0` it held before, which is
not the float of 25. -/
theorem SensorManager.update_disabled_not_written :
    (@TemperatureSensor.Update ℚ Float64Arith.sample (TemperatureSensor.sample false)
      (Time.Sub Tick.sample.now SensorManager.sampleDisabled.lastUpdate)).1 = 25 ∧
    (SensorManager.sampleDisabled.tagManager.GetTagValue "T1" =
      Except.ok (GoValue.float64 GoFloat64.zero)) ∧
    (@SensorManager.update ℚ Float64Arith.sample GoEnv.sample SensorManager.sampleDisabled
      { Tick.sample with order := [0] }).map
        (fun r => r.1.tagManager.GetTagValue "T1") =
      some (Except.ok (GoValue.float64 GoFloat64.zero)) ∧
    GoValue.float64 (@Float64Arith.toGo ℚ Float64Arith.sample 25) ≠
      GoValue.float64 GoFloat64.zero := by
  refine ⟨?_, ?_, ?_, ?_⟩
  · rfl
  · decide
  · decide
  · decide

end sim

/-! ## Start and Stop of the sensor manager -/

namespace sim

/-- C23, as the code has it. `Start` and `Stop` of the sensor manager have no guard for the
state they find. A `Stop` that follows a `Stop` panics, whatever the state before: the stop
channel is closed a second time. A `Start` that follows a `Start` (on a positive interval)
starts a second update loop next to the first: with the stop channel open, two more loops
run than before; with a non-positive interval the call panics. -/
theorem Scheduler.start_stop_no_guard {F : Type} (s : Scheduler F) (interval : Duration)
    (now now2 : plc.Time) :
    s.Stop.bind Scheduler.Stop = none ∧
    ((s.Start interval now).bind (fun s1 => s1.Stop)).bind Scheduler.Stop = none ∧
    ((s.Start interval now).bind (fun s1 => s1.Start interval now2)).map Scheduler.started =
      (if interval ≤ 0 then none else some (s.started + 2)) ∧
    ((s.Start interval now).bind (fun s1 => s1.Start interval now2)).map Scheduler.loops =
      (if interval ≤ 0 then none
       else some (if s.manager.stopChanClosed = true then 0 else s.started + 2)) ∧
    (s.Start interval now).map Scheduler.loops =
      (if interval ≤ 0 then none
       else some (if s.manager.stopChanClosed = true then 0 else s.started + 1)) := by
  refine ⟨?_, ?_, ?_, ?_, ?_⟩
  · unfold Scheduler.Stop SensorManager.Stop
    cases h : s.manager.stopChanClosed <;> simp [h]
  · unfold Scheduler.Start Scheduler.Stop SensorManager.Start SensorManager.Stop
    by_cases hi : interval ≤ 0
    · simp [hi]
    · cases h : s.manager.stopChanClosed <;> simp [hi, h]
  · unfold Scheduler.Start SensorManager.Start
    by_cases hi : interval ≤ 0
    · simp [hi]
    · simp [hi]
  · unfold Scheduler.Start SensorManager.Start Scheduler.loops
    by_cases hi : interval ≤ 0
    · simp [hi]
    · simp [hi]
  · unfold Scheduler.Start SensorManager.Start Scheduler.loops
    by_cases hi : interval ≤ 0
    · simp [hi]
    · simp [hi]

end sim

/-! ## The script engine: a failing scan, and the write-back -/

/-- The value under a key after `mapValues`. -/
theorem StrMap.get_mapValues {V : Type} (m : StrMap V) (f : String → V → V) (k : String) :
    (m.mapValues f).get? k = (m.get? k).map (f k) := by
  unfold StrMap.mapValues StrMap.get?
  dsimp only
  induction m.entries with
  | nil => rfl
  | cons p rest ih =>
    obtain ⟨k1, v1⟩ := p
    by_cases h : k1 = k
    · subst h; simp [lookupEntries]
    · simp [lookupEntries, h, ih]

namespace plc

/-- A `SetValue` that returns an error leaves the tag as it is. -/
theorem setValue_failed_unchanged (env : GoEnv) (t : Tag) (v : GoValue) (now : Time)
    (h : (t.SetValue env v now).2 ≠ none) : (t.SetValue env v now).1 = t := by
  unfold Tag.SetValue at h ⊢
  dsimp only at h ⊢
  split_ifs at h ⊢ <;> cases v <;> simp_all

/-- A call that makes no `set_tag` call leaves the store as it is. -/
theorem run_no_sets (env : GoEnv) (clock : Nat → Time) (script : Script) :
    ∀ (tm : TagManager) (n : Nat), (script.run env clock tm n).sets = [] →
      (script.run env clock tm n).tagManager = tm := by
  induction script with
  | ret data => intro tm n _; rfl
  | err message data => intro tm n _; rfl
  | getTag name k ih =>
    intro tm n h
    exact ih _ _ tm n h
  | setTag name value k ih =>
    intro tm n h
    simp only [Script.run] at h
    exact absurd h (List.cons_ne_nil _ _)

/-- The refresh of the Data table leaves the store, the flag `initialized` and the global
`run_logic` as they are. -/
theorem updateDataTable_frame (le le1 : LuaEngine) (h : le.UpdateDataTable = some le1) :
    le1.tagManager = le.tagManager ∧ le1.initialized = le.initialized ∧
    le1.L.map LState.run_logic = le.L.map LState.run_logic := by
  unfold LuaEngine.UpdateDataTable LuaEngine.createDataTable at h
  cases hL : le.L with
  | none => rw [hL] at h; exact Option.noConfusion h
  | some st =>
    rw [hL] at h
    cases hD : st.Data with
    | none =>
      simp only [hD] at h
      rw [← Option.some.inj h]
      exact ⟨rfl, rfl, rfl⟩
    | some table =>
      simp only [hD] at h
      rw [← Option.some.inj h]
      exact ⟨rfl, rfl, rfl⟩

/-- C24. A scan whose `run_logic` raises a runtime error is a no-op on the Tag Store.  For
an initialized engine, with `le1` the engine after the refresh of the Data table: when the
call of `run_logic` raises a runtime error and has made no `set_tag` call, `RunLogic`
returns the error "run_logic execution error", and the store after the scan is the store
before it, whatever the call leaves in the Data table. -/
theorem LuaEngine.runLogic_error_keeps_store (env : GoEnv) (le le1 : LuaEngine)
    (clock : Nat → Time) (syncClock : String → Time) (st : LState)
    (runLogic : Option LTable → Script) (message : String)
    (hinit : le.initialized = true)
    (hupd : le.UpdateDataTable = some le1) (hL : le1.L = some st)
    (hfn : st.run_logic = some runLogic)
    (herr : ((runLogic st.Data).run env clock le1.tagManager 0).error = some message)
    (hsets : ((runLogic st.Data).run env clock le1.tagManager 0).sets = []) :
    ∃ le2, le.RunLogic env clock syncClock =
        some (le2, some (LuaError.runLogicExecution message)) ∧
      le2.tagManager = le.tagManager ∧
      ∀ name, le2.tagManager.GetTagValue name = le.tagManager.GetTagValue name := by
  have hframe := (updateDataTable_frame le le1 hupd).1
  have hrun := run_no_sets env clock (runLogic st.Data) le1.tagManager 0 hsets
  unfold LuaEngine.RunLogic
  simp only [hinit, Bool.not_true, Bool.false_eq_true, if_false, hupd, hL, hfn, herr]
  refine ⟨_, rfl, ?_, ?_⟩
  · show ((runLogic st.Data).run env clock le1.tagManager 0).tagManager = le.tagManager
    rw [hrun, hframe]
  · intro name
    show TagManager.GetTagValue
      ((runLogic st.Data).run env clock le1.tagManager 0).tagManager name = _
    rw [hrun, hframe]

/-- C25. The write-back isolates the failures of single tags.  On an engine whose global
`Data` is a table, `SyncDataTableToTags` returns no error, and for every tag of the store:
when the entry of the table under the name of the tag is nil (or of another type than
number, boolean and string) the tag is as it was; when it is a number, a boolean or a
string, the tag is the one `SetValue` leaves on that value, which is the tag as it was when
`SetValue` returns an error.  No tag is added. -/
theorem LuaEngine.sync_isolates_failures (env : GoEnv) (le : LuaEngine)
    (syncClock : String → Time) (st : LState) (table : LTable)
    (hL : le.L = some st) (hD : st.Data = some table) :
    ∃ le1, le.SyncDataTableToTags env syncClock = some (le1, none) ∧
      (∀ (key : String) (tag : Tag), le.tagManager.tags.get? key = some tag →
        (toGoValue (table.RawGetString tag.Name) = none →
          le1.tagManager.tags.get? key = some tag) ∧
        (∀ v, toGoValue (table.RawGetString tag.Name) = some v →
          le1.tagManager.tags.get? key = some (tag.SetValue env v (syncClock key)).1 ∧
          ((tag.SetValue env v (syncClock key)).2 ≠ none →
            le1.tagManager.tags.get? key = some tag))) ∧
      (∀ key : String, le.tagManager.tags.get? key = none →
        le1.tagManager.tags.get? key = none) := by
  unfold LuaEngine.SyncDataTableToTags
  simp only [hL, hD]
  refine ⟨_, rfl, ?_, ?_⟩
  · intro key tag hget
    constructor
    · intro hnil
      show (le.tagManager.tags.mapValues _).get? key = _
      rw [StrMap.get_mapValues, hget]
      simp only [Option.map_some', syncTag, hnil]
    · intro v hv
      have h1 : (le.tagManager.tags.mapValues
          (fun key tag => (syncTag env table (syncClock key) tag).1)).get? key =
          some (tag.SetValue env v (syncClock key)).1 := by
        rw [StrMap.get_mapValues, hget]
        simp only [Option.map_some', syncTag, hv]
      refine ⟨h1, ?_⟩
      intro hfail
      rw [← setValue_failed_unchanged env tag v (syncClock key) hfail]
      exact h1
  · intro key hget
    show (le.tagManager.tags.mapValues _).get? key = _
    rw [StrMap.get_mapValues, hget]
    rfl

end plc

namespace plc

/-- Instance of C24: the sample engine, whose `run_logic` reads a tag, assigns to the Data
table and raises a runtime error. -/
theorem LuaEngine.runLogic_error_keeps_store_witness :
    (LuaEngine.sample sampleTable).initialized = true ∧
    (LuaEngine.sample sampleTable).UpdateDataTable =
      some (LuaEngine.sample (setDataEntries sampleTable sampleTags.GetAllTags)) ∧
    ((sampleRunLogic (some (setDataEntries sampleTable sampleTags.GetAllTags))).run
      GoEnv.sample (fun n => n) sampleTags 0).error = some "attempt to index a nil value" ∧
    ((sampleRunLogic (some (setDataEntries sampleTable sampleTags.GetAllTags))).run
      GoEnv.sample (fun n => n) sampleTags 0).sets = [] ∧
    ∃ le2, (LuaEngine.sample sampleTable).RunLogic GoEnv.sample (fun n => n) (fun _ => 7) =
        some (le2, some (LuaError.runLogicExecution "attempt to index a nil value")) ∧
      le2.tagManager = (LuaEngine.sample sampleTable).tagManager ∧
      ∀ name, le2.tagManager.GetTagValue name =
        (LuaEngine.sample sampleTable).tagManager.GetTagValue name :=
  ⟨rfl, rfl, rfl, rfl,
    LuaEngine.runLogic_error_keeps_store GoEnv.sample (LuaEngine.sample sampleTable)
      (LuaEngine.sample (setDataEntries sampleTable sampleTags.GetAllTags))
      (fun n => n) (fun _ => 7)
      { Data := some (setDataEntries sampleTable sampleTags.GetAllTags),
        run_logic := some sampleRunLogic }
      sampleRunLogic "attempt to index a nil value" rfl rfl rfl rfl rfl rfl⟩

/-- Instance of C25: the sample engine with the string "fast" under "speed" and `true`
under "alarm" in the Data table. The write-back returns no error; the Float tag "speed",
which rejects the string, holds its `0.0` as before, and the Boolean tag "alarm" holds
`true`. -/
theorem LuaEngine.sync_isolates_failures_witness :
    ((LuaEngine.sample sampleTable).SyncDataTableToTags GoEnv.sample (fun _ => 7)).map
        (fun r => (r.1.tagManager.GetTagValue "speed", r.1.tagManager.GetTagValue "alarm",
          r.2)) =
      some (Except.ok (GoValue.float64 GoFloat64.zero), Except.ok (GoValue.bool true), none) ∧
    ∃ le1, (LuaEngine.sample sampleTable).SyncDataTableToTags GoEnv.sample (fun _ => 7) =
        some (le1, none) ∧
      (∀ (key : String) (tag : Tag),
        (LuaEngine.sample sampleTable).tagManager.tags.get? key = some tag →
        (toGoValue (sampleTable.RawGetString tag.Name) = none →
          le1.tagManager.tags.get? key = some tag) ∧
        (∀ v, toGoValue (sampleTable.RawGetString tag.Name) = some v →
          le1.tagManager.tags.get? key = some (tag.SetValue GoEnv.sample v 7).1 ∧
          ((tag.SetValue GoEnv.sample v 7).2 ≠ none →
            le1.tagManager.tags.get? key = some tag))) ∧
      (∀ key : String, (LuaEngine.sample sampleTable).tagManager.tags.get? key = none →
        le1.tagManager.tags.get? key = none) :=
  ⟨by decide,
    LuaEngine.sync_isolates_failures GoEnv.sample (LuaEngine.sample sampleTable) (fun _ => 7)
      { Data := some sampleTable, run_logic := some sampleRunLogic } sampleTable rfl rfl⟩

end plc

/-! ## The names of the sensors of a manager -/

namespace sim

open sensors

/-- Every factory registered by `init` gives the sensor the name of its definition. -/
theorem registered_factory_name {F : Type} [Float64Arith F] (newRand : Int → GoRand F)
    (d : config.SensorDefinition) (now : Int) (f : SensorFactory F)
    (hget : (sensorRegistry newRand).get? d.Typ = some f) (s : Sensor F)
    (hs : f d now = Except.ok s) : s.GetName = d.Name := by
  rw [sensorRegistry_get] at hget
  by_cases h1 : d.Typ = "servomotor"
  · rw [if_pos h1] at hget; cases hget; rw [← Except.ok.inj hs]; rfl
  rw [if_neg h1] at hget
  by_cases h2 : d.Typ = "stepmotor"
  · rw [if_pos h2] at hget; cases hget; rw [← Except.ok.inj hs]; rfl
  rw [if_neg h2] at hget
  by_cases h3 : d.Typ = "integer"
  · rw [if_pos h3] at hget; cases hget; rw [← Except.ok.inj hs]; rfl
  rw [if_neg h3] at hget
  by_cases h4 : d.Typ = "relay"
  · rw [if_pos h4] at hget; cases hget; rw [← Except.ok.inj hs]; rfl
  rw [if_neg h4] at hget
  by_cases h5 : d.Typ = "noise"
  · rw [if_pos h5] at hget; cases hget; rw [← Except.ok.inj hs]; rfl
  rw [if_neg h5] at hget
  by_cases h6 : d.Typ = "vibration"
  · rw [if_pos h6] at hget; cases hget; rw [← Except.ok.inj hs]; rfl
  rw [if_neg h6] at hget
  by_cases h7 : d.Typ = "digital"
  · rw [if_pos h7] at hget; cases hget; rw [← Except.ok.inj hs]; rfl
  rw [if_neg h7] at hget
  by_cases h8 : d.Typ = "random"
  · rw [if_pos h8] at hget; cases hget; rw [← Except.ok.inj hs]; rfl
  rw [if_neg h8] at hget
  by_cases h9 : d.Typ = "sine"
  · rw [if_pos h9] at hget; cases hget; rw [← Except.ok.inj hs]; rfl
  rw [if_neg h9] at hget
  by_cases h10 : d.Typ = "pressure"
  · rw [if_pos h10] at hget; cases hget; rw [← Except.ok.inj hs]; rfl
  rw [if_neg h10] at hget
  by_cases h11 : d.Typ = "temperature"
  · rw [if_pos h11] at hget; cases hget; rw [← Except.ok.inj hs]; rfl
  rw [if_neg h11] at hget
  exact Option.noConfusion hget

/-- On the registry after `init`, `CreateSensor` gives the sensor the name of its
definition. -/
theorem createSensor_name {F : Type} [Float64Arith F] (newRand : Int → GoRand F)
    (d : config.SensorDefinition) (now : Int) (s : Sensor F)
    (h : CreateSensor (sensorRegistry newRand) d now = Except.ok s) : s.GetName = d.Name := by
  unfold CreateSensor at h
  cases hget : (sensorRegistry newRand).get? d.Typ with
  | none => rw [hget] at h; exact Except.noConfusion h
  | some f =>
    rw [hget] at h
    cases hf : f d now with
    | error e => simp only [hf] at h; exact Except.noConfusion h
    | ok s1 =>
      simp only [hf] at h
      rw [← Except.ok.inj h]
      exact registered_factory_name newRand d now f hget s1 hf

/-- The loop of `NewSensorManager` appends, to the sensors it starts from, one sensor for
each definition, with the name of the definition. -/
theorem createSensors_names {F : Type} [Float64Arith F] (newRand : Int → GoRand F)
    (clock : Nat → Int) (defs : List config.SensorDefinition) :
    ∀ (i : Nat) (acc l : List (Sensor F)),
      createSensors (sensorRegistry newRand) clock defs i acc = Except.ok l →
      l.map Sensor.GetName = acc.map Sensor.GetName ++ defs.map (fun d => d.Name) := by
  induction defs with
  | nil =>
    intro i acc l h
    simp only [createSensors] at h
    rw [← Except.ok.inj h]
    simp
  | cons d rest ih =>
    intro i acc l h
    simp only [createSensors] at h
    cases hc : CreateSensor (sensorRegistry newRand) d (clock i) with
    | error e => simp only [hc] at h; exact Except.noConfusion h
    | ok s =>
      simp only [hc] at h
      rw [ih (i + 1) (acc ++ [s]) l h]
      simp [createSensor_name newRand d (clock i) s hc]

/-- A manager built by `NewSensorManager` from a configuration `validateConfig` accepts has
sensors with pairwise distinct names. -/
theorem newSensorManager_distinct {F : Type} [Float64Arith F] (newRand : Int → GoRand F)
    (now : plc.Time) (clock : Nat → Int) (tagManager : plc.TagManager)
    (cfg : config.SensorConfig) (sm : SensorManager F)
    (hvalid : config.validateConfig cfg = none)
    (hnew : NewSensorManager (sensorRegistry newRand) now clock tagManager cfg = Except.ok sm) :
    sm.sensors.Pairwise (fun a b => a.GetName ≠ b.GetName) := by
  unfold config.validateConfig at hvalid
  split_ifs at hvalid
  have hd := (config.validateSensors_distinct cfg.Sensors 0 StrMap.empty StrMap.empty
    hvalid).1.1
  unfold NewSensorManager at hnew
  cases hc : createSensors (sensorRegistry newRand) clock cfg.Sensors 0 [] with
  | error e => simp only [hc] at hnew; exact Except.noConfusion hnew
  | ok l =>
    simp only [hc] at hnew
    split_ifs at hnew
    rw [← Except.ok.inj hnew]
    have hn := createSensors_names newRand clock cfg.Sensors 0 [] l hc
    simp only [List.map_nil, List.nil_append] at hn
    have h1 : (l.map Sensor.GetName).Pairwise (fun a b => a ≠ b) := by
      rw [hn]
      exact List.pairwise_map.mpr hd
    exact List.pairwise_map.mp h1

/-- The sensors of a manager have after a tick the names they had. -/
theorem update_names {F : Type} [Float64Arith F] (env : GoEnv) (sm sm1 : SensorManager F)
    (tick : Tick F) (log : List (String × plc.TagError))
    (h : sm.update env tick = some (sm1, log)) :
    sm1.sensors.map Sensor.GetName = sm.sensors.map Sensor.GetName := by
  unfold SensorManager.update at h
  cases hres : updateSensors (Time.Sub tick.now sm.lastUpdate) tick.rand sm.sensors 0 with
  | none => simp only [hres] at h; exact Option.noConfusion h
  | some results =>
    simp only [hres] at h
    have h2 := (Prod.mk.inj (Option.some.inj h)).1
    rw [← h2]
    show (results.map Prod.fst).map Sensor.GetName = _
    obtain ⟨hlen, hall⟩ := updateSensors_spec _ _ _ 0 results hres
    apply List.ext_getElem?
    intro j
    rw [List.map_map, List.getElem?_map, List.getElem?_map]
    cases hj : sm.sensors[j]? with
    | none =>
      have : results[j]? = none := by
        rw [List.getElem?_eq_none_iff] at hj ⊢
        omega
      rw [this]
      rfl
    | some s =>
      obtain ⟨r, hr1, hr2⟩ := hall j s hj
      rw [hr1]
      rw [Nat.zero_add] at hr2
      simp only [Option.map_some', Function.comp]
      rw [updateSensor_name _ _ s r hr2]

end sim

/-! ## The step motor: the steps of `Update` -/

namespace sensors

/-- The velocity and position step of the step motor leaves the parameters of the motor
as they are. -/
theorem stepMotor_move_frame {F : Type} [Float64Arith F] (s : StepMotor F) (dt : F) :
    (s.move dt).MaxSpeed = s.MaxSpeed ∧ (s.move dt).Acceleration = s.Acceleration ∧
    (s.move dt).StepsPerRev = s.StepsPerRev ∧ (s.move dt).AutoMode = s.AutoMode ∧
    (s.move dt).AutoPattern = s.AutoPattern ∧ (s.move dt).AutoPeriod = s.AutoPeriod ∧
    (s.move dt).TargetPosition = s.TargetPosition := by
  have h1 : ∀ x : StepMotor F, (x.updateVelocity dt).MaxSpeed = x.MaxSpeed ∧
      (x.updateVelocity dt).Acceleration = x.Acceleration ∧
      (x.updateVelocity dt).StepsPerRev = x.StepsPerRev ∧
      (x.updateVelocity dt).AutoMode = x.AutoMode ∧
      (x.updateVelocity dt).AutoPattern = x.AutoPattern ∧
      (x.updateVelocity dt).AutoPeriod = x.AutoPeriod ∧
      (x.updateVelocity dt).TargetPosition = x.TargetPosition := by
    intro x
    unfold StepMotor.updateVelocity
    simp only [apply_ite StepMotor.MaxSpeed, apply_ite StepMotor.Acceleration,
      apply_ite StepMotor.StepsPerRev, apply_ite StepMotor.AutoMode,
      apply_ite StepMotor.AutoPattern, apply_ite StepMotor.AutoPeriod,
      apply_ite StepMotor.TargetPosition, ite_self, and_self]
  have h2 : ∀ x : StepMotor F, x.clampVelocity.MaxSpeed = x.MaxSpeed ∧
      x.clampVelocity.Acceleration = x.Acceleration ∧
      x.clampVelocity.StepsPerRev = x.StepsPerRev ∧
      x.clampVelocity.AutoMode = x.AutoMode ∧
      x.clampVelocity.AutoPattern = x.AutoPattern ∧
      x.clampVelocity.AutoPeriod = x.AutoPeriod ∧
      x.clampVelocity.TargetPosition = x.TargetPosition := by
    intro x
    unfold StepMotor.clampVelocity
    simp only [apply_ite StepMotor.MaxSpeed, apply_ite StepMotor.Acceleration,
      apply_ite StepMotor.StepsPerRev, apply_ite StepMotor.AutoMode,
      apply_ite StepMotor.AutoPattern, apply_ite StepMotor.AutoPeriod,
      apply_ite StepMotor.TargetPosition, ite_self, and_self]
  have h3 : ∀ x : StepMotor F, (x.updatePosition dt).MaxSpeed = x.MaxSpeed ∧
      (x.updatePosition dt).Acceleration = x.Acceleration ∧
      (x.updatePosition dt).StepsPerRev = x.StepsPerRev ∧
      (x.updatePosition dt).AutoMode = x.AutoMode ∧
      (x.updatePosition dt).AutoPattern = x.AutoPattern ∧
      (x.updatePosition dt).AutoPeriod = x.AutoPeriod ∧
      (x.updatePosition dt).TargetPosition = x.TargetPosition := by
    intro x
    unfold StepMotor.updatePosition
    simp only [apply_ite StepMotor.MaxSpeed, apply_ite StepMotor.Acceleration,
      apply_ite StepMotor.StepsPerRev, apply_ite StepMotor.AutoMode,
      apply_ite StepMotor.AutoPattern, apply_ite StepMotor.AutoPeriod,
      apply_ite StepMotor.TargetPosition, ite_self, and_self]
  unfold StepMotor.move
  obtain ⟨a1, a2, a3, a4, a5, a6, a7⟩ := h1 s
  obtain ⟨b1, b2, b3, b4, b5, b6, b7⟩ := h2 (s.updateVelocity dt)
  obtain ⟨c1, c2, c3, c4, c5, c6, c7⟩ := h3 (s.updateVelocity dt).clampVelocity
  exact ⟨by rw [c1, b1, a1], by rw [c2, b2, a2], by rw [c3, b3, a3], by rw [c4, b4, a4],
    by rw [c5, b5, a5], by rw [c6, b6, a6], by rw [c7, b7, a7]⟩

/-- The enabled step motor, for every reading of the arithmetic: `Update` adds the tick to
the elapsed time, sets the target of the auto pattern, and makes the velocity and position
step; it panics exactly when the lookup of the auto pattern does. -/
theorem stepMotor_update_enabled {F : Type} [Float64Arith F] (s : StepMotor F)
    (dt : Duration) (he : s.BaseSensor.IsEnabled = true) :
    s.Update dt =
      (({ s with BaseSensor := s.BaseSensor.AddElapsedTime dt }).autoTarget
          (s.BaseSensor.AddElapsedTime dt).ElapsedTime).map
        (fun target =>
          ((({ s with BaseSensor := s.BaseSensor.AddElapsedTime dt,
                      TargetPosition := target }).move (Duration.Seconds dt)).CurrentPosition,
           ({ s with BaseSensor := s.BaseSensor.AddElapsedTime dt,
                     TargetPosition := target }).move (Duration.Seconds dt))) := by
  unfold StepMotor.Update
  simp only [he, Bool.not_true, Bool.false_eq_true, if_false, BaseSensor.GetElapsedTime]
  cases ({ s with BaseSensor := s.BaseSensor.AddElapsedTime dt }).autoTarget
      (s.BaseSensor.AddElapsedTime dt).ElapsedTime <;> rfl

/-- The auto pattern of the step motor gives a target, without a table lookup, when the
motor is in manual mode or its pattern is not "step". -/
theorem stepMotor_autoTarget_isSome {F : Type} [Float64Arith F] (s : StepMotor F)
    (elapsed : F) (h : s.AutoMode = true → s.AutoPattern ≠ "step") :
    (s.autoTarget elapsed).isSome = true := by
  unfold StepMotor.autoTarget
  by_cases ha : s.AutoMode = true
  · have := h ha
    simp only [ha, if_true, this, if_false]
    split_ifs <;> rfl
  · simp only [ha, Bool.false_eq_true, if_false]
    rfl

end sensors

/-! ## The table lookups of the "step" patterns -/

namespace sensors

/-- The auto pattern of the servo motor gives a target for every pattern but "step". -/
theorem servoMotor_autoTarget_isSome {F : Type} [Float64Arith F] (s : ServoMotor F)
    (elapsed : F) (h : s.AutoMode = true → s.AutoPattern ≠ "step") :
    (s.autoTarget elapsed).isSome = true := by
  unfold ServoMotor.autoTarget
  by_cases ha : s.AutoMode = true
  · have := h ha
    simp only [ha, if_true, this, if_false]
    split_ifs <;> rfl
  · simp only [ha, Bool.false_eq_true, if_false]
    rfl

end sensors

namespace sensors

/-- The PID step and the dynamics of the servo motor leave the base of the sensor and the
parameters of the auto pattern as they are. -/
theorem servoMotor_steps_frame {F : Type} [Float64Arith F] (s : ServoMotor F) (dt : F) :
    ((s.control dt).BaseSensor = s.BaseSensor ∧ (s.control dt).AutoMode = s.AutoMode ∧
      (s.control dt).AutoPattern = s.AutoPattern ∧ (s.control dt).AutoPeriod = s.AutoPeriod) ∧
    ((s.ApplyDynamics dt).BaseSensor = s.BaseSensor ∧
      (s.ApplyDynamics dt).AutoMode = s.AutoMode ∧
      (s.ApplyDynamics dt).AutoPattern = s.AutoPattern ∧
      (s.ApplyDynamics dt).AutoPeriod = s.AutoPeriod) := by
  constructor
  · unfold ServoMotor.control
    simp only [apply_ite ServoMotor.BaseSensor, apply_ite ServoMotor.AutoMode,
      apply_ite ServoMotor.AutoPattern, apply_ite ServoMotor.AutoPeriod, ite_self, and_self]
  · unfold ServoMotor.ApplyDynamics
    simp only [apply_ite ServoMotor.BaseSensor, apply_ite ServoMotor.AutoMode,
      apply_ite ServoMotor.AutoPattern, apply_ite ServoMotor.AutoPeriod, ite_self, and_self]

/-- The enabled servo motor, for every reading of the arithmetic: `Update` adds the tick to
the elapsed time, sets the target of the auto pattern, and makes the PID step and the
dynamics; it panics exactly when the lookup of the auto pattern does. -/
theorem servoMotor_update_enabled {F : Type} [Float64Arith F] (s : ServoMotor F)
    (dt : Duration) (he : s.BaseSensor.IsEnabled = true) :
    s.Update dt =
      (({ s with BaseSensor := s.BaseSensor.AddElapsedTime dt }).autoTarget
          (s.BaseSensor.AddElapsedTime dt).ElapsedTime).map
        (fun target =>
          (((({ s with BaseSensor := s.BaseSensor.AddElapsedTime dt,
                       TargetVelocity := target }).control (Duration.Seconds dt)).ApplyDynamics
              (Duration.Seconds dt)).output,
           (({ s with BaseSensor := s.BaseSensor.AddElapsedTime dt,
                      TargetVelocity := target }).control (Duration.Seconds dt)).ApplyDynamics
              (Duration.Seconds dt))) := by
  unfold ServoMotor.Update
  simp only [he, Bool.not_true, Bool.false_eq_true, if_false, BaseSensor.GetElapsedTime]
  cases ({ s with BaseSensor := s.BaseSensor.AddElapsedTime dt }).autoTarget
      (s.BaseSensor.AddElapsedTime dt).ElapsedTime <;> rfl

end sensors

namespace sensors

/-- The servo motor never reads its own field `Enabled`: the PID step and the dynamics
carry it along. -/
theorem servoMotor_steps_enabled {F : Type} [Float64Arith F] (s : ServoMotor F) (b : Bool)
    (dt : F) :
    ({ s with Enabled := b }).control dt = { s.control dt with Enabled := b } ∧
    ({ s with Enabled := b }).ApplyDynamics dt = { s.ApplyDynamics dt with Enabled := b } := by
  constructor
  · unfold ServoMotor.control
    dsimp only
    split_ifs <;> rfl
  · unfold ServoMotor.ApplyDynamics
    dsimp only
    split_ifs <;> rfl

/-- The method `Update` of the servo motor carries the field `Enabled` of the motor
along. -/
theorem servoMotor_update_enabled_field {F : Type} [Float64Arith F] (s : ServoMotor F)
    (b : Bool) (dt : Duration) :
    ({ s with Enabled := b }).Update dt
      = (s.Update dt).map (fun r => (r.1, { r.2 with Enabled := b })) := by
  unfold ServoMotor.Update
  dsimp only
  have ha : ∀ (x : ServoMotor F) (e : F), ({ x with Enabled := b }).autoTarget e
      = x.autoTarget e := by
    intro x e
    rfl
  split_ifs with h
  · have hd := (servoMotor_steps_enabled ({ s with CurrentTorque := 0 }) b
      (Duration.Seconds dt)).2
    simp only [Option.map_some', Option.some.injEq, Prod.mk.injEq]
    exact ⟨(congrArg ServoMotor.output hd).trans rfl, hd⟩
  · have h1 := ha ({ s with BaseSensor := s.BaseSensor.AddElapsedTime dt })
      (s.BaseSensor.AddElapsedTime dt).GetElapsedTime
    cases hx : ({ s with BaseSensor := s.BaseSensor.AddElapsedTime dt }).autoTarget
        (s.BaseSensor.AddElapsedTime dt).GetElapsedTime with
    | none =>
      rw [hx] at h1
      simp only [h1, hx, Option.map_none']
    | some target =>
      rw [hx] at h1
      simp only [h1, hx, Option.map_some']
      have hc := (servoMotor_steps_enabled
        ({ s with BaseSensor := s.BaseSensor.AddElapsedTime dt, TargetVelocity := target })
        b (Duration.Seconds dt)).1
      have hd := (servoMotor_steps_enabled
        (({ s with BaseSensor := s.BaseSensor.AddElapsedTime dt,
                   TargetVelocity := target }).control (Duration.Seconds dt))
        b (Duration.Seconds dt)).2
      have hm := (congrArg (fun x => ServoMotor.ApplyDynamics x (Duration.Seconds dt)) hc).trans
        hd
      simp only [Option.some.injEq, Prod.mk.injEq]
      exact ⟨(congrArg ServoMotor.output hm).trans rfl, hm⟩

/-- The elapsed time of the sample motors, enabled, after `SetEnabled(false)` and an
`Update` of 1 s. -/
theorem motors_elapsed_after_setEnabled :
    (@StepMotor.Update ℚ Float64Arith.sample ((StepMotor.sample true).SetEnabled false)
      1000000000).map (fun r => r.2.BaseSensor.ElapsedTime) = some 1 ∧
    (@ServoMotor.Update ℚ Float64Arith.sample ((ServoMotor.sample true).SetEnabled false)
      1000000000).map (fun r => r.2.BaseSensor.ElapsedTime) = some 1 := by
  have h1 : (@BaseSensor.AddElapsedTime ℚ Float64Arith.sample
      (StepMotor.sample true).BaseSensor 1000000000).ElapsedTime = 1 := by
    unfold BaseSensor.AddElapsedTime
    show (StepMotor.sample true).BaseSensor.ElapsedTime +
      @Duration.Seconds ℚ (Float64Arith.exact MathFns.sample) 1000000000 = 1
    rw [Duration.seconds_exact]
    norm_num [StepMotor.sample, NewStepMotor]
  have h2 : (@BaseSensor.AddElapsedTime ℚ Float64Arith.sample
      (ServoMotor.sample true).BaseSensor 1000000000).ElapsedTime = 1 := by
    unfold BaseSensor.AddElapsedTime
    show (ServoMotor.sample true).BaseSensor.ElapsedTime +
      @Duration.Seconds ℚ (Float64Arith.exact MathFns.sample) 1000000000 = 1
    rw [Duration.seconds_exact]
    norm_num [ServoMotor.sample, NewServoMotor]
  constructor
  · rw [@stepMotor_update_enabled ℚ Float64Arith.sample
      ((StepMotor.sample true).SetEnabled false) 1000000000 rfl]
    have ht := @stepMotor_autoTarget_isSome ℚ Float64Arith.sample
      { (StepMotor.sample true).SetEnabled false with
        BaseSensor := @BaseSensor.AddElapsedTime ℚ Float64Arith.sample
          ((StepMotor.sample true).SetEnabled false).BaseSensor 1000000000 }
      (@BaseSensor.AddElapsedTime ℚ Float64Arith.sample
          ((StepMotor.sample true).SetEnabled false).BaseSensor 1000000000).ElapsedTime
      (fun h => Bool.noConfusion h)
    obtain ⟨target, htt⟩ := Option.isSome_iff_exists.mp ht
    rw [htt, Option.map_some', Option.map_some']
    show some (@StepMotor.move ℚ Float64Arith.sample _ _).BaseSensor.ElapsedTime = some 1
    rw [@stepMotor_move_base ℚ Float64Arith.sample]
    exact congrArg some h1
  · rw [@servoMotor_update_enabled ℚ Float64Arith.sample
      ((ServoMotor.sample true).SetEnabled false) 1000000000 rfl]
    have ht := @servoMotor_autoTarget_isSome ℚ Float64Arith.sample
      { (ServoMotor.sample true).SetEnabled false with
        BaseSensor := @BaseSensor.AddElapsedTime ℚ Float64Arith.sample
          ((ServoMotor.sample true).SetEnabled false).BaseSensor 1000000000 }
      (@BaseSensor.AddElapsedTime ℚ Float64Arith.sample
          ((ServoMotor.sample true).SetEnabled false).BaseSensor 1000000000).ElapsedTime
      (fun h => Bool.noConfusion h)
    obtain ⟨target, htt⟩ := Option.isSome_iff_exists.mp ht
    rw [htt, Option.map_some', Option.map_some']
    show some (@ServoMotor.ApplyDynamics ℚ Float64Arith.sample _ _).BaseSensor.ElapsedTime
      = some 1
    rw [(@servoMotor_steps_frame ℚ Float64Arith.sample _ _).2.1,
      (@servoMotor_steps_frame ℚ Float64Arith.sample _ _).1.1]
    exact congrArg some h2

/-- C35, as stated, fails in the code. For the step motor and the servo motor, for every
reading of the arithmetic: `SetEnabled(e)` writes the field `Enabled` of the motor, which
neither `IsEnabled` nor `Update` reads, so `IsEnabled()` returns after it what it returned
before it, and `Update` does after it what it did before it.  On the sample motors,
enabled by their constructor: after `SetEnabled(false)` the method `IsEnabled` still returns
true, and an `Update` of 1 s takes the enabled branch and advances the elapsed time from 0
to 1. -/
theorem motor_setEnabled_not_read {F : Type} [Float64Arith F] (e : Bool) (dt : Duration) :
    (∀ s : StepMotor F,
      (Sensor.stepMotor (s.SetEnabled e)).IsEnabled = (Sensor.stepMotor s).IsEnabled ∧
      (s.SetEnabled e).Update dt = (s.Update dt).map (fun r => (r.1, r.2.SetEnabled e))) ∧
    (∀ s : ServoMotor F,
      (Sensor.servoMotor (s.SetEnabled e)).IsEnabled = (Sensor.servoMotor s).IsEnabled ∧
      (s.SetEnabled e).Update dt = (s.Update dt).map (fun r => (r.1, r.2.SetEnabled e))) ∧
    (Sensor.stepMotor (StepMotor.sample true)).IsEnabled = true ∧
    (Sensor.stepMotor ((StepMotor.sample true).SetEnabled false)).IsEnabled = true ∧
    (StepMotor.sample true).BaseSensor.ElapsedTime = 0 ∧
    (@StepMotor.Update ℚ Float64Arith.sample ((StepMotor.sample true).SetEnabled false)
      1000000000).map (fun r => r.2.BaseSensor.ElapsedTime) = some 1 ∧
    (Sensor.servoMotor ((ServoMotor.sample true).SetEnabled false)).IsEnabled = true ∧
    (ServoMotor.sample true).BaseSensor.ElapsedTime = 0 ∧
    (@ServoMotor.Update ℚ Float64Arith.sample ((ServoMotor.sample true).SetEnabled false)
      1000000000).map (fun r => r.2.BaseSensor.ElapsedTime) = some 1 :=
  ⟨fun s => ⟨rfl, StepMotor.update_enabled_field s e dt⟩,
    fun s => ⟨rfl, servoMotor_update_enabled_field s e dt⟩,
    rfl, rfl, rfl, motors_elapsed_after_setEnabled.1, rfl, rfl,
    motors_elapsed_after_setEnabled.2⟩

end sensors

/-! ## Writes of a float64: the only failure is a missing tag -/

namespace plc

/-- A `SetValue` of a float64 returns no error, whatever the kind of the tag. -/
theorem setValue_float64_ok (env : GoEnv) (t : Tag) (v : GoFloat64) (now : Time) :
    (t.SetValue env (GoValue.float64 v) now).2 = none := by
  unfold Tag.SetValue
  dsimp only
  split_ifs <;> rfl

/-- A `SetTagValue` of a float64 fails exactly when the store holds no tag under the name,
with the not-found error. -/
theorem setTagValue_float64_error (env : GoEnv) (tm : TagManager) (name : String)
    (v : GoFloat64) (now : Time) :
    (tm.SetTagValue env name (GoValue.float64 v) now).2 =
      if tm.TagExists name = true then none else some (TagError.notFound name) := by
  unfold TagManager.SetTagValue TagManager.GetTag TagManager.TagExists
  cases hget : tm.tags.get? name with
  | none => rfl
  | some tag => exact setValue_float64_ok env tag v now

/-- A `SetTagValue` leaves the set of the names of the store as it is. -/
theorem setTagValue_tagExists (env : GoEnv) (tm : TagManager) (name k : String)
    (value : GoValue) (now : Time) :
    (tm.SetTagValue env name value now).1.TagExists k = tm.TagExists k := by
  unfold TagManager.SetTagValue TagManager.GetTag TagManager.TagExists
  cases hget : tm.tags.get? name with
  | none => rfl
  | some tag =>
    show ((tm.tags.put name _).get? k).isSome = _
    rw [StrMap.isSome_get_put]
    by_cases h : k = name
    · subst h
      simp [hget]
    · simp [h]

end plc

namespace sim

open sensors

/-- The errors the writes of the goroutines log are not-found errors, each for a name the
store holds no tag under. -/
theorem writeTags_log_notFound {F : Type} [Float64Arith F] (env : GoEnv)
    (stamp : Nat → plc.Time) (results : List (Sensor F × Option F)) (tm0 : plc.TagManager)
    (Q : String → Prop)
    (hQ : ∀ (i : Nat) (s : Sensor F) (v : F), results[i]? = some (s, some v) → Q s.GetName)
    (order : List Nat) :
    ∀ (tm : plc.TagManager) (log : List (String × plc.TagError)),
      (∀ k, tm.TagExists k = tm0.TagExists k) →
      (∀ e ∈ log, e.2 = plc.TagError.notFound e.1 ∧ tm0.TagExists e.1 = false ∧ Q e.1) →
      ∀ e ∈ (writeTags env stamp results order tm log).2,
        e.2 = plc.TagError.notFound e.1 ∧ tm0.TagExists e.1 = false ∧ Q e.1 := by
  induction order with
  | nil => intro tm log _ hlog; exact hlog
  | cons i rest ih =>
    intro tm log hk hlog
    unfold writeTags
    cases hr : results[i]? with
    | none => exact ih tm log hk hlog
    | some p =>
      obtain ⟨s, ov⟩ := p
      cases ov with
      | none => exact ih tm log hk hlog
      | some value =>
        dsimp only
        have hk2 : ∀ k, (tm.SetTagValue env s.GetName
            (GoValue.float64 (Float64Arith.toGo value)) (stamp i)).1.TagExists k
              = tm0.TagExists k :=
          fun k => (plc.setTagValue_tagExists env tm s.GetName k _ _).trans (hk k)
        have herr := plc.setTagValue_float64_error env tm s.GetName
          (Float64Arith.toGo value) (stamp i)
        cases hx : (tm.SetTagValue env s.GetName
            (GoValue.float64 (Float64Arith.toGo value)) (stamp i)).2 with
        | none => exact ih _ log hk2 hlog
        | some err =>
          refine ih _ _ hk2 ?_
          intro e he
          rcases List.mem_append.mp he with h | h
          · exact hlog e h
          · rw [List.mem_singleton.mp h]
            rw [hx] at herr
            by_cases hex : tm.TagExists s.GetName = true
            · rw [if_pos hex] at herr
              exact Option.noConfusion herr
            · rw [if_neg hex] at herr
              refine ⟨Option.some.inj herr, ?_, hQ i s value hr⟩
              rw [← hk s.GetName]
              cases hh : tm.TagExists s.GetName
              · rfl
              · exact absurd hh hex

/-- C37. A write of a float64 never fails with a type mismatch: `SetValue` of a float64
returns no error on every tag, whatever its kind; `SetTagValue` of a float64 returns an
error exactly when the store holds no tag under the name, the not-found error; and every
error a tick of the scheduler logs for the commit of a sensor is the not-found error for
the name of the sensor, a name the store holds no tag under. -/
theorem float64_write_fails_only_not_found {F : Type} [Float64Arith F] (env : GoEnv) :
    (∀ (t : plc.Tag) (v : GoFloat64) (now : plc.Time),
      (t.SetValue env (GoValue.float64 v) now).2 = none) ∧
    (∀ (tm : plc.TagManager) (name : String) (v : GoFloat64) (now : plc.Time),
      (tm.SetTagValue env name (GoValue.float64 v) now).2 =
        if tm.TagExists name = true then none else some (plc.TagError.notFound name)) ∧
    (∀ (sm sm1 : SensorManager F) (tick : Tick F) (log : List (String × plc.TagError)),
      sm.update env tick = some (sm1, log) →
      ∀ e ∈ log, e.2 = plc.TagError.notFound e.1 ∧ sm.tagManager.TagExists e.1 = false ∧
        e.1 ∈ sm.sensors.map Sensor.GetName) := by
  refine ⟨plc.setValue_float64_ok env, plc.setTagValue_float64_error env, ?_⟩
  intro sm sm1 tick log h
  unfold SensorManager.update at h
  cases hres : updateSensors (Time.Sub tick.now sm.lastUpdate) tick.rand sm.sensors 0 with
  | none => simp only [hres] at h; exact Option.noConfusion h
  | some results =>
    simp only [hres] at h
    have h2 := (Prod.mk.inj (Option.some.inj h)).2
    rw [← h2]
    refine writeTags_log_notFound env tick.stamp results sm.tagManager
      (fun name => name ∈ sm.sensors.map Sensor.GetName) ?_ tick.order sm.tagManager []
      (fun _ => rfl) (fun e he => absurd he (List.not_mem_nil _))
    intro i s v hr
    obtain ⟨s0, hs0, hn, _⟩ := results_name _ _ _ results hres i s (some v) hr
    rw [← hn]
    obtain ⟨hlt, hget⟩ := List.getElem?_eq_some.mp hs0
    exact List.mem_map.mpr ⟨s0, hget ▸ List.getElem_mem hlt, rfl⟩

end sim

/-! ## The script engine: refresh and write-back of an unmodified snapshot -/

/-- A value found under a key of a Go map is an entry of the map. -/
theorem lookupEntries_mem {V : Type} (k : String) (v : V) (l : List (String × V))
    (h : lookupEntries k l = some v) : (k, v) ∈ l := by
  induction l with
  | nil => exact Option.noConfusion h
  | cons p rest ih =>
    obtain ⟨k1, v1⟩ := p
    by_cases hk : k1 = k
    · simp only [lookupEntries, hk, if_true, Option.some.injEq] at h
      rw [hk, h]
      exact List.mem_cons_self _ _
    · simp only [lookupEntries, hk, if_false] at h
      exact List.mem_cons_of_mem _ (ih h)

/-- An entry of a Go map is found under its key. -/
theorem lookupEntries_of_mem {V : Type} (k : String) (v : V) (l : List (String × V))
    (hnd : (l.map Prod.fst).Nodup) (h : (k, v) ∈ l) : lookupEntries k l = some v := by
  induction l with
  | nil => exact absurd h (List.not_mem_nil _)
  | cons p rest ih =>
    obtain ⟨k1, v1⟩ := p
    rw [List.map_cons, List.nodup_cons] at hnd
    rcases List.mem_cons.mp h with heq | hmem
    · have h1 := (Prod.mk.inj heq).1
      have h2 := (Prod.mk.inj heq).2
      simp only [lookupEntries, h1, h2, if_true]
    · have hne : k1 ≠ k := by
        intro e
        apply hnd.1
        rw [e]
        exact List.mem_map.mpr ⟨(k, v), hmem, rfl⟩
      simp only [lookupEntries, hne, if_false]
      exact ih hnd.2 hmem

namespace plc

/-- Go: `int32(float64(n))` of an `int32` is `n`. -/
theorem toInt32_ofInt_int32 (cvt : GoFloat64 → GoInt32) (n : GoInt32) :
    GoFloat64.toInt32 cvt (GoFloat64.ofInt n.val) = n := by
  have hlo := n.lo
  have hhi := n.hi
  have hsmall : n.val.natAbs ≤ 2 ^ 53 := by
    have : (2 : Nat) ^ 53 = 9007199254740992 := by norm_num
    omega
  have heq := GoFloat64.ofInt_equalsInt n.val hsmall
  have htr := GoFloat64.trunc_of_equalsInt _ _ heq
  have hfit : (GoFloat64.ofInt n.val).fitsInt32 := ⟨heq.1, by rw [htr]; exact hlo,
    by rw [htr]; exact hhi⟩
  unfold GoFloat64.toInt32
  rw [dif_pos hfit]
  cases n with
  | mk val lo hi =>
    simp only [GoInt32.mk.injEq]
    exact htr

/-- The refresh loop leaves the entry of the table under a name as it is when no tag of
the list has this name. -/
theorem setDataEntries_get_absent (tags : List Tag) :
    ∀ (table : LTable) (name : String), name ∉ tags.map Tag.Name →
      (setDataEntries table tags).get name = table.get name := by
  induction tags with
  | nil => intro table name _; rfl
  | cons tag rest ih =>
    intro table name hn
    rw [List.map_cons, List.mem_cons, not_or] at hn
    unfold setDataEntries
    cases hv : toLValue tag.GetValue with
    | none => exact ih table name hn.2
    | some v =>
      show (setDataEntries (table.RawSetString tag.Name v) rest).get name = _
      rw [ih _ name hn.2]
      show (if name = tag.Name then v else table.get name) = _
      rw [if_neg hn.1]

/-- The refresh loop leaves under the name of a tag of the list the Lua value of its value,
when the tags of the list have pairwise distinct names. -/
theorem setDataEntries_get_present (tags : List Tag) :
    ∀ (table : LTable), (tags.map Tag.Name).Nodup → ∀ tag ∈ tags, ∀ v,
      toLValue tag.GetValue = some v → (setDataEntries table tags).get tag.Name = v := by
  induction tags with
  | nil => intro _ _ tag h; exact absurd h (List.not_mem_nil _)
  | cons t rest ih =>
    intro table hnd tag hmem v hv
    rw [List.map_cons, List.nodup_cons] at hnd
    unfold setDataEntries
    rcases List.mem_cons.mp hmem with heq | hrest
    · subst heq
      rw [hv]
      show (setDataEntries (table.RawSetString tag.Name v) rest).get tag.Name = v
      rw [setDataEntries_get_absent rest _ _ hnd.1]
      show (if tag.Name = tag.Name then v else table.get tag.Name) = v
      rw [if_pos rfl]
    · cases ht : toLValue t.GetValue with
      | none => exact ih table hnd.2 tag hrest v hv
      | some w => exact ih _ hnd.2 tag hrest v hv

/-- In a store that keeps each tag under its name, the tags have pairwise distinct names,
and each tag found under a key is among them. -/
theorem getAllTags_keyed (tm : TagManager)
    (hkey : ∀ (key : String) (tag : Tag), tm.tags.get? key = some tag → tag.Name = key) :
    (tm.GetAllTags.map Tag.Name).Nodup ∧
    ∀ (key : String) (tag : Tag), tm.tags.get? key = some tag → tag ∈ tm.GetAllTags := by
  constructor
  · have h : tm.GetAllTags.map Tag.Name = tm.tags.entries.map Prod.fst := by
      unfold TagManager.GetAllTags
      rw [List.map_map]
      apply List.map_congr_left
      intro p hp
      exact hkey p.1 p.2 (lookupEntries_of_mem p.1 p.2 _ tm.tags.nodup hp)
    rw [h]
    exact tm.tags.nodup
  · intro key tag hget
    exact List.mem_map.mpr ⟨(key, tag), lookupEntries_mem key tag _ hget, rfl⟩

/-- The write-back of the Lua value of the value of a tag whose value has the runtime type
of its kind leaves the tag as it is, but for the timestamp. -/
theorem syncTag_own_value (env : GoEnv) (table : LTable) (now : Time) (tag : Tag)
    (v : LValue) (hstr : ∀ s : String, env.sprintfV (GoValue.string s) = s)
    (hkind : kindMatches tag.Typ tag.Value = true) (hv : toLValue tag.GetValue = some v)
    (hget : table.get tag.Name = v) :
    syncTag env table now tag = ({ tag with Timestamp := now }, none) := by
  obtain ⟨name, typ, value, address, description, quality, timestamp⟩ := tag
  unfold syncTag LTable.RawGetString
  simp only [hget]
  simp only [Tag.GetValue] at hv
  cases value with
  | float64 f =>
    simp only [kindMatches, decide_eq_true_eq] at hkind
    simp only [toLValue, Option.some.injEq] at hv
    subst hv hkind
    simp [toGoValue, Tag.SetValue]
  | int32 n =>
    simp only [kindMatches, decide_eq_true_eq] at hkind
    simp only [toLValue, Option.some.injEq] at hv
    subst hv hkind
    simp [toGoValue, Tag.SetValue, TagTypeInt32, TagTypeFloat64, toInt32_ofInt_int32]
  | bool b =>
    simp only [kindMatches, decide_eq_true_eq] at hkind
    simp only [toLValue, Option.some.injEq] at hv
    subst hv hkind
    simp [toGoValue, Tag.SetValue, TagTypeInt32, TagTypeFloat64, TagTypeBool]
  | string s =>
    simp only [kindMatches, decide_eq_true_eq] at hkind
    simp only [toLValue, Option.some.injEq] at hv
    subst hv hkind
    simp [toGoValue, Tag.SetValue, TagTypeInt32, TagTypeFloat64, TagTypeBool, TagTypeString,
      hstr]
  | nil => simp [kindMatches] at hkind
  | int n => simp [kindMatches] at hkind
  | int64 n => simp [kindMatches] at hkind
  | other typ2 dat => simp [kindMatches] at hkind

end plc

namespace plc

/-- The sample store `sampleKinds` keeps each tag under its name, with a value of the
runtime type of its kind. -/
theorem sampleKinds_invariant (key : String) (tag : Tag)
    (h : sampleKinds.tags.get? key = some tag) :
    tag.Name = key ∧ kindMatches tag.Typ tag.Value = true := by
  have hall : ∀ p ∈ sampleKinds.tags.entries,
      p.2.Name = p.1 ∧ kindMatches p.2.Typ p.2.Value = true := by decide
  exact hall (key, tag) (lookupEntries_mem key tag _ h)

/-- C36. A refresh of the Data table followed by the write-back, with no change to the
table in between, is the identity on the values of the store.  On an engine with a Lua
state, over a store that keeps each tag under its name and in which the value of each tag
has the runtime type of its kind (float64 for Float, int32 for Integer, bool for Boolean,
string for Text), with `%v` printing a string as it is: `UpdateDataTable` returns,
`SyncDataTableToTags` on its result returns no error, and every tag of the store is after
them as it was, but for its timestamp; no tag is added, and `GetTagValue` returns for
every name what it returned before. -/
theorem LuaEngine.refresh_sync_identity (env : GoEnv) (le : LuaEngine) (st : LState)
    (clock : String → Time) (hL : le.L = some st)
    (hstr : ∀ s : String, env.sprintfV (GoValue.string s) = s)
    (hkey : ∀ (key : String) (tag : Tag), le.tagManager.tags.get? key = some tag →
      tag.Name = key)
    (hkind : ∀ (key : String) (tag : Tag), le.tagManager.tags.get? key = some tag →
      kindMatches tag.Typ tag.Value = true) :
    ∃ le1 le2, le.UpdateDataTable = some le1 ∧
      le1.SyncDataTableToTags env clock = some (le2, none) ∧
      (∀ (key : String) (tag : Tag), le.tagManager.tags.get? key = some tag →
        le2.tagManager.tags.get? key = some { tag with Timestamp := clock key }) ∧
      (∀ key : String, le.tagManager.tags.get? key = none →
        le2.tagManager.tags.get? key = none) ∧
      (∀ name : String, le2.tagManager.GetTagValue name = le.tagManager.GetTagValue name) := by
  obtain ⟨hnd, hmem⟩ := getAllTags_keyed le.tagManager hkey
  have hval : ∀ (key : String) (tag : Tag), le.tagManager.tags.get? key = some tag →
      ∃ v, toLValue tag.GetValue = some v := by
    intro key tag hget
    have hk := hkind key tag hget
    unfold Tag.GetValue
    cases hv : tag.Value with
    | float64 f => exact ⟨_, rfl⟩
    | int32 n => exact ⟨_, rfl⟩
    | bool b => exact ⟨_, rfl⟩
    | string s => exact ⟨_, rfl⟩
    | nil => rw [hv] at hk; simp [kindMatches] at hk
    | int n => rw [hv] at hk; simp [kindMatches] at hk
    | int64 n => rw [hv] at hk; simp [kindMatches] at hk
    | other typ2 dat => rw [hv] at hk; simp [kindMatches] at hk
  have hmain : ∀ (table0 : LTable) (le1 : LuaEngine) (st1 : LState), le1.L = some st1 →
      st1.Data = some (setDataEntries table0 le.tagManager.GetAllTags) →
      le1.tagManager = le.tagManager →
      ∃ le2, le1.SyncDataTableToTags env clock = some (le2, none) ∧
        (∀ (key : String) (tag : Tag), le.tagManager.tags.get? key = some tag →
          le2.tagManager.tags.get? key = some { tag with Timestamp := clock key }) ∧
        (∀ key : String, le.tagManager.tags.get? key = none →
          le2.tagManager.tags.get? key = none) := by
    intro table0 le1 st1 h1 h2 h3
    unfold LuaEngine.SyncDataTableToTags
    simp only [h1, h2, h3]
    refine ⟨_, rfl, ?_, ?_⟩
    · intro key tag hget
      show (le.tagManager.tags.mapValues _).get? key = _
      rw [StrMap.get_mapValues, hget, Option.map_some']
      obtain ⟨v, hv⟩ := hval key tag hget
      have hg := setDataEntries_get_present le.tagManager.GetAllTags table0 hnd tag
        (hmem key tag hget) v hv
      rw [syncTag_own_value env _ (clock key) tag v hstr (hkind key tag hget) hv hg]
    · intro key hget
      show (le.tagManager.tags.mapValues _).get? key = _
      rw [StrMap.get_mapValues, hget]
      rfl
  have hfinal : ∀ le1 : LuaEngine,
      (∃ le2, le1.SyncDataTableToTags env clock = some (le2, none) ∧
        (∀ (key : String) (tag : Tag), le.tagManager.tags.get? key = some tag →
          le2.tagManager.tags.get? key = some { tag with Timestamp := clock key }) ∧
        (∀ key : String, le.tagManager.tags.get? key = none →
          le2.tagManager.tags.get? key = none)) →
      ∃ le2, le1.SyncDataTableToTags env clock = some (le2, none) ∧
        (∀ (key : String) (tag : Tag), le.tagManager.tags.get? key = some tag →
          le2.tagManager.tags.get? key = some { tag with Timestamp := clock key }) ∧
        (∀ key : String, le.tagManager.tags.get? key = none →
          le2.tagManager.tags.get? key = none) ∧
        (∀ name : String,
          le2.tagManager.GetTagValue name = le.tagManager.GetTagValue name) := by
    intro le1 h
    obtain ⟨le2, h1, h2, h3⟩ := h
    refine ⟨le2, h1, h2, h3, ?_⟩
    intro name
    unfold TagManager.GetTagValue TagManager.GetTag
    cases hget : le.tagManager.tags.get? name with
    | none => rw [h3 name hget]
    | some tag => rw [h2 name tag hget]; rfl
  have hU : ∃ (table0 : LTable) (le1 : LuaEngine) (st1 : LState),
      le.UpdateDataTable = some le1 ∧ le1.L = some st1 ∧
      st1.Data = some (setDataEntries table0 le.tagManager.GetAllTags) ∧
      le1.tagManager = le.tagManager := by
    unfold LuaEngine.UpdateDataTable LuaEngine.createDataTable
    simp only [hL]
    cases hD : st.Data with
    | none => exact ⟨LTable.empty, _, _, rfl, rfl, rfl, rfl⟩
    | some table => exact ⟨table, _, _, rfl, rfl, rfl, rfl⟩
  obtain ⟨table0, le1, st1, hu, h1, h2, h3⟩ := hU
  obtain ⟨le2, h⟩ := hfinal le1 (hmain table0 le1 st1 h1 h2 h3)
  exact ⟨le1, le2, hu, h⟩

/-- Instance of C36: the sample engine on the store with a tag of each kind; after the
refresh and the write-back with the clock at 5, the Integer tag "count" holds -7 and the
Text tag "mode" holds "auto", as before. -/
theorem LuaEngine.refresh_sync_identity_witness :
    (∀ s : String, GoEnv.sample.sprintfV (GoValue.string s) = s) ∧
    LuaEngine.sampleKinds.tagManager.GetTagValue "count"
      = Except.ok (GoValue.int32 (GoInt32.wrap (-7))) ∧
    LuaEngine.sampleKinds.tagManager.GetTagValue "mode" = Except.ok (GoValue.string "auto") ∧
    ∃ le1 le2, LuaEngine.sampleKinds.UpdateDataTable = some le1 ∧
      le1.SyncDataTableToTags GoEnv.sample (fun _ => 5) = some (le2, none) ∧
      (∀ (key : String) (tag : Tag),
        LuaEngine.sampleKinds.tagManager.tags.get? key = some tag →
        le2.tagManager.tags.get? key = some { tag with Timestamp := 5 }) ∧
      (∀ key : String, LuaEngine.sampleKinds.tagManager.tags.get? key = none →
        le2.tagManager.tags.get? key = none) ∧
      (∀ name : String, le2.tagManager.GetTagValue name =
        LuaEngine.sampleKinds.tagManager.GetTagValue name) :=
  ⟨fun _ => rfl, by decide, by decide,
    LuaEngine.refresh_sync_identity GoEnv.sample LuaEngine.sampleKinds
      { Data := none, run_logic := some sampleRunLogic } (fun _ => 5) rfl (fun _ => rfl)
      (fun key tag h => (sampleKinds_invariant key tag h).1)
      (fun key tag h => (sampleKinds_invariant key tag h).2)⟩

end plc

/-! ## The comparisons of `float64` -/

namespace GoFloat64

/-- Negation keeps a NaN a NaN and a number a number. -/
theorem isNaN_neg (f : GoFloat64) : f.neg.isNaN = f.isNaN := by
  have h := f.isLt
  unfold neg isNaN expField frac ofBits
  simp only
  have p63 : (2 : Nat) ^ 63 = 9223372036854775808 := by norm_num
  have p52 : (2 : Nat) ^ 52 = 4503599627370496 := by norm_num
  have p11 : (2 : Nat) ^ 11 = 2048 := by norm_num
  rw [p63, p52, p11]
  have e1 : (f.bits + 9223372036854775808) % 18446744073709551616 / 4503599627370496 % 2048
      = f.bits / 4503599627370496 % 2048 := by
    omega
  have e2 : (f.bits + 9223372036854775808) % 18446744073709551616 % 4503599627370496
      = f.bits % 4503599627370496 := by
    omega
  rw [e1, e2]

/-- Negation takes the place of a float in the order to its opposite. -/
theorem key_neg (f : GoFloat64) : f.neg.key = -f.key := by
  have h := f.isLt
  unfold neg key sign mag ofBits
  simp only
  have p63 : (2 : Nat) ^ 63 = 9223372036854775808 := by norm_num
  rw [p63]
  have hs : f.bits / 9223372036854775808 = 0 ∨ f.bits / 9223372036854775808 = 1 := by
    omega
  rcases hs with hs | hs
  · have e1 : (f.bits + 9223372036854775808) % 18446744073709551616 / 9223372036854775808
        = 1 := by
      omega
    have e2 : (f.bits + 9223372036854775808) % 18446744073709551616 % 9223372036854775808
        = f.bits % 9223372036854775808 := by
      omega
    rw [e1, e2, hs]
    simp
  · have e1 : (f.bits + 9223372036854775808) % 18446744073709551616 / 9223372036854775808
        = 0 := by
      omega
    have e2 : (f.bits + 9223372036854775808) % 18446744073709551616 % 9223372036854775808
        = f.bits % 9223372036854775808 := by
      omega
    rw [e1, e2, hs]
    simp

/-- The value of the literal 0 on bit patterns is the float `+0`. -/
theorem ofRat_zero : ofRat 0 = ofBits 0 := by
  decide!

end GoFloat64

/-- The comparisons of IEEE 754 satisfy the laws of `Float64Arith.OrderLaws`. -/
theorem Float64Arith.ieee_orderLaws (m : MathFns GoFloat64) (cvt : GoFloat64 → Int) :
    @Float64Arith.OrderLaws GoFloat64 (Float64Arith.ieee m cvt)
      (fun x => x.isNaN = true) := by
  letI := Float64Arith.ieee m cvt
  have hb : ∀ x : GoFloat64, ¬ x.isNaN = true → x.isNaN = false := by
    intro x h
    cases hx : x.isNaN
    · rfl
    · exact absurd hx h
  refine ⟨?_, ?_, ?_, ?_, ?_, ?_, ?_, ?_, ?_, ?_, ?_⟩
  · intro a b h
    have h2 : GoFloat64.lt a b := h
    exact ⟨by rw [h2.1]; decide, by rw [h2.2.1]; decide⟩
  · intro a b h
    have h2 : GoFloat64.le a b := h
    exact ⟨by rw [h2.1]; decide, by rw [h2.2.1]; decide⟩
  · intro a b ha hb2 h
    show GoFloat64.le b a
    have h2 : ¬ GoFloat64.lt a b := h
    unfold GoFloat64.lt at h2
    refine ⟨hb b hb2, hb a ha, ?_⟩
    by_contra hc
    exact h2 ⟨hb a ha, hb b hb2, not_le.mp hc⟩
  · intro a b h h3
    have h2 : GoFloat64.le a b := h
    have h4 : GoFloat64.lt b a := h3
    exact absurd h4.2.2 (not_lt.mpr h2.2.2)
  · intro a ha
    exact ⟨hb a ha, hb a ha, le_refl _⟩
  · intro a b c h1 h2
    have h3 : GoFloat64.le a b := h1
    have h4 : GoFloat64.le b c := h2
    exact ⟨h3.1, h4.2.1, le_trans h3.2.2 h4.2.2⟩
  · intro a b h
    have h2 : GoFloat64.lt a b := h
    exact ⟨h2.1, h2.2.1, le_of_lt h2.2.2⟩
  · intro a b c h1 h2
    have h3 : GoFloat64.le a b := h1
    have h4 : GoFloat64.lt b c := h2
    exact ⟨h3.1, h4.2.1, lt_of_le_of_lt h3.2.2 h4.2.2⟩
  · intro a b c h1 h2
    have h3 : GoFloat64.lt a b := h1
    have h4 : GoFloat64.le b c := h2
    exact ⟨h3.1, h4.2.1, lt_of_lt_of_le h3.2.2 h4.2.2⟩
  · intro a h
    have h2 : GoFloat64.le (GoFloat64.ofRat ((0 : Nat) : ℚ)) a := h
    show GoFloat64.le a.neg a
    have hz : GoFloat64.ofRat ((0 : Nat) : ℚ) = GoFloat64.ofBits 0 := by
      decide!
    rw [hz] at h2
    have hk : (GoFloat64.ofBits 0).key = 0 := by decide
    refine ⟨by rw [GoFloat64.isNaN_neg]; exact h2.2.1, h2.2.1, ?_⟩
    rw [GoFloat64.key_neg]
    have := h2.2.2
    rw [hk] at this
    omega
  · intro a h
    have h2 : GoFloat64.le (GoFloat64.ofRat ((0 : Nat) : ℚ)) a := h
    show GoFloat64.le a.neg (GoFloat64.ofRat ((0 : Nat) : ℚ))
    have hz : GoFloat64.ofRat ((0 : Nat) : ℚ) = GoFloat64.ofBits 0 := by
      decide!
    rw [hz] at h2 ⊢
    have hk : (GoFloat64.ofBits 0).key = 0 := by decide
    refine ⟨by rw [GoFloat64.isNaN_neg]; exact h2.2.1, h2.1, ?_⟩
    rw [GoFloat64.key_neg, hk]
    have := h2.2.2
    rw [hk] at this
    omega

/-- The comparisons of exact arithmetic satisfy the laws of `Float64Arith.OrderLaws`, with
no NaN. -/
theorem Float64Arith.exact_orderLaws {α : Type} [LinearOrderedField α] [FloorRing α]
    (m : MathFns α) :
    @Float64Arith.OrderLaws α (Float64Arith.exact m) (fun _ => False) := by
  refine @Float64Arith.OrderLaws.mk α (Float64Arith.exact m) _ ?_ ?_ ?_ ?_ ?_ ?_ ?_ ?_ ?_ ?_ ?_
  · intro a b _; exact ⟨id, id⟩
  · intro a b _; exact ⟨id, id⟩
  · intro a b _ _ h; exact not_lt.mp h
  · intro a b h; exact not_lt.mpr h
  · intro a _; exact le_refl a
  · intro a b c h1 h2; exact le_trans h1 h2
  · intro a b h; exact le_of_lt h
  · intro a b c h1 h2; exact lt_of_le_of_lt h1 h2
  · intro a b c h1 h2; exact lt_of_lt_of_le h1 h2
  · intro a h
    rw [Float64Arith.exact_zero] at h
    have h0 : (0 : α) ≤ a := h
    show -a ≤ a
    linarith
  · intro a h
    rw [Float64Arith.exact_zero] at h ⊢
    have h0 : (0 : α) ≤ a := h
    show -a ≤ 0
    linarith

/-! ## IEEE 754 binary64: magnitudes, scaled values and rounding -/

namespace GoFloat64

theorem mag_lt (f : GoFloat64) : f.mag < 9223372036854775808 := by
  unfold mag
  have h : (2 : Nat) ^ 63 = 9223372036854775808 := by norm_num
  rw [h]
  exact Nat.mod_lt _ (by norm_num)

theorem bits_eq (f : GoFloat64) : f.bits = f.sign * 9223372036854775808 + f.mag := by
  unfold sign mag
  have h : (2 : Nat) ^ 63 = 9223372036854775808 := by norm_num
  rw [h]
  omega

theorem expField_eq (f : GoFloat64) : f.expField = f.mag / 4503599627370496 := by
  unfold expField mag
  have h63 : (2 : Nat) ^ 63 = 9223372036854775808 := by norm_num
  have h52 : (2 : Nat) ^ 52 = 4503599627370496 := by norm_num
  have h11 : (2 : Nat) ^ 11 = 2048 := by norm_num
  rw [h63, h52, h11]
  omega

theorem frac_eq (f : GoFloat64) : f.frac = f.mag % 4503599627370496 := by
  unfold frac mag
  have h63 : (2 : Nat) ^ 63 = 9223372036854775808 := by norm_num
  have h52 : (2 : Nat) ^ 52 = 4503599627370496 := by norm_num
  rw [h63, h52]
  omega

theorem isFinite_iff (f : GoFloat64) :
    f.isFinite = true ↔ f.mag < 2047 * 4503599627370496 := by
  unfold isFinite
  rw [expField_eq]
  have := f.mag_lt
  simp only [bne_iff_ne, ne_eq]
  omega

theorem isNaN_iff (f : GoFloat64) :
    f.isNaN = true ↔ 2047 * 4503599627370496 < f.mag := by
  unfold isNaN
  rw [expField_eq, frac_eq]
  have := f.mag_lt
  simp only [Bool.and_eq_true, beq_iff_eq, bne_iff_ne, ne_eq]
  omega

theorem isInf_iff (f : GoFloat64) :
    f.isInf = true ↔ f.mag = 2047 * 4503599627370496 := by
  unfold isInf
  rw [expField_eq, frac_eq]
  have := f.mag_lt
  simp only [Bool.and_eq_true, beq_iff_eq]
  omega

theorem mag_ofBits (n : Nat) (h : n < 9223372036854775808) (s : Nat) :
    (ofBits (s * 9223372036854775808 + n)).mag = n := by
  unfold mag ofBits
  have h63 : (2 : Nat) ^ 63 = 9223372036854775808 := by norm_num
  rw [h63]
  show (s * 9223372036854775808 + n) % 18446744073709551616 % 9223372036854775808 = n
  omega

theorem sign_ofBits (n : Nat) (h : n < 9223372036854775808) (s : Nat) (hs : s ≤ 1) :
    (ofBits (s * 9223372036854775808 + n)).sign = s := by
  unfold sign ofBits
  have h63 : (2 : Nat) ^ 63 = 9223372036854775808 := by norm_num
  rw [h63]
  show (s * 9223372036854775808 + n) % 18446744073709551616 / 9223372036854775808 = s
  omega

/-- The scaled value of a finite float, from its magnitude. -/
theorem scaled_eq (f : GoFloat64) :
    f.scaled = if f.mag < 4503599627370496 then f.mag
      else (4503599627370496 + f.mag % 4503599627370496) *
        2 ^ (f.mag / 4503599627370496 - 1) := by
  unfold scaled significand exponent
  rw [expField_eq, frac_eq]
  have h52 : (2 : Nat) ^ 52 = 4503599627370496 := by norm_num
  rw [h52]
  by_cases h : f.mag < 4503599627370496
  · have h0 : f.mag / 4503599627370496 = 0 := Nat.div_eq_of_lt h
    rw [if_pos h0, if_pos h0, if_pos h, Nat.mod_eq_of_lt h]
    simp
  · have h0 : ¬ f.mag / 4503599627370496 = 0 := by
      intro hh
      have := (Nat.div_eq_zero_iff (by norm_num : 0 < 4503599627370496)).mp hh
      exact h this
    rw [if_neg h0, if_neg h0, if_neg h]

end GoFloat64

namespace GoFloat64

theorem bitLog2Step_inv (n k kk : Nat) (hkk : kk = k + k) (p : Nat × Nat)
    (h1 : p.1 = n / 2 ^ p.2) (h2 : p.1 < 2 ^ kk) (h3 : 0 < n → 0 < p.1) :
    (bitLog2Step p k).1 = n / 2 ^ (bitLog2Step p k).2 ∧ (bitLog2Step p k).1 < 2 ^ k ∧
      (0 < n → 0 < (bitLog2Step p k).1) := by
  unfold bitLog2Step
  by_cases h : p.1 / 2 ^ k = 0
  · rw [if_pos h]
    refine ⟨h1, ?_, h3⟩
    exact (Nat.div_eq_zero_iff (Nat.two_pow_pos _)).mp h
  · rw [if_neg h]
    refine ⟨?_, ?_, fun _ => Nat.pos_of_ne_zero h⟩
    · show p.1 / 2 ^ k = n / 2 ^ (p.2 + k)
      rw [h1, Nat.div_div_eq_div_mul, pow_add]
    · show p.1 / 2 ^ k < 2 ^ k
      rw [Nat.div_lt_iff_lt_mul (Nat.two_pow_pos _)]
      rw [hkk, pow_add] at h2
      exact h2

/-- The position of the highest set bit: `2 ^ bitLog2 n ≤ n < 2 ^ (bitLog2 n + 1)` for a
positive `n` below `2 ^ 8192`. -/
theorem bitLog2_spec (n : Nat) (h0 : 0 < n) (hn : n < 2 ^ 8192) :
    2 ^ bitLog2 n ≤ n ∧ n < 2 ^ (bitLog2 n + 1) := by
  have s0 := bitLog2Step_inv n 4096 8192 (by norm_num) (n, 0) (by simp) hn (fun h => h)
  have s1 := bitLog2Step_inv n 2048 4096 (by norm_num) _ s0.1 s0.2.1 s0.2.2
  have s2 := bitLog2Step_inv n 1024 2048 (by norm_num) _ s1.1 s1.2.1 s1.2.2
  have s3 := bitLog2Step_inv n 512 1024 (by norm_num) _ s2.1 s2.2.1 s2.2.2
  have s4 := bitLog2Step_inv n 256 512 (by norm_num) _ s3.1 s3.2.1 s3.2.2
  have s5 := bitLog2Step_inv n 128 256 (by norm_num) _ s4.1 s4.2.1 s4.2.2
  have s6 := bitLog2Step_inv n 64 128 (by norm_num) _ s5.1 s5.2.1 s5.2.2
  have s7 := bitLog2Step_inv n 32 64 (by norm_num) _ s6.1 s6.2.1 s6.2.2
  have s8 := bitLog2Step_inv n 16 32 (by norm_num) _ s7.1 s7.2.1 s7.2.2
  have s9 := bitLog2Step_inv n 8 16 (by norm_num) _ s8.1 s8.2.1 s8.2.2
  have s10 := bitLog2Step_inv n 4 8 (by norm_num) _ s9.1 s9.2.1 s9.2.2
  have s11 := bitLog2Step_inv n 2 4 (by norm_num) _ s10.1 s10.2.1 s10.2.2
  have s12 := bitLog2Step_inv n 1 2 (by norm_num) _ s11.1 s11.2.1 s11.2.2
  unfold bitLog2
  simp only [List.foldl_cons, List.foldl_nil]
  obtain ⟨e1, e2, e3⟩ := s12
  have hq : n / 2 ^ (bitLog2Step (bitLog2Step (bitLog2Step (bitLog2Step (bitLog2Step
      (bitLog2Step (bitLog2Step (bitLog2Step (bitLog2Step (bitLog2Step (bitLog2Step
      (bitLog2Step (bitLog2Step (n, 0) 4096) 2048) 1024) 512) 256) 128) 64) 32) 16) 8) 4) 2)
      1).2 = 1 := by
    have := e3 h0
    rw [pow_one] at e2
    omega
  generalize (bitLog2Step (bitLog2Step (bitLog2Step (bitLog2Step (bitLog2Step
      (bitLog2Step (bitLog2Step (bitLog2Step (bitLog2Step (bitLog2Step (bitLog2Step
      (bitLog2Step (bitLog2Step (n, 0) 4096) 2048) 1024) 512) 256) 128) 64) 32) 16) 8) 4) 2)
      1).2 = b at hq
  have hpos : 0 < 2 ^ b := Nat.two_pow_pos _
  constructor
  · by_contra hlt
    have : n / 2 ^ b = 0 := Nat.div_eq_of_lt (not_le.mp hlt)
    omega
  · rw [pow_succ]
    have := Nat.lt_mul_div_succ n hpos
    rw [hq] at this
    omega

theorem bitLog2_zero : bitLog2 0 = 0 := by decide!

end GoFloat64

namespace GoFloat64

theorem bitLog2_eq (n b : Nat) (h1 : 2 ^ b ≤ n) (h2 : n < 2 ^ (b + 1)) (hn : n < 2 ^ 8192) :
    bitLog2 n = b := by
  have h0 : 0 < n := lt_of_lt_of_le (Nat.two_pow_pos b) h1
  obtain ⟨s1, s2⟩ := bitLog2_spec n h0 hn
  have a1 : bitLog2 n < b + 1 :=
    (Nat.pow_lt_pow_iff_right (by norm_num : 1 < 2)).mp (lt_of_le_of_lt s1 h2)
  have a2 : b < bitLog2 n + 1 :=
    (Nat.pow_lt_pow_iff_right (by norm_num : 1 < 2)).mp (lt_of_le_of_lt h1 s2)
  omega

theorem bitLog2_mono (n n' : Nat) (h0 : 0 < n) (h : n ≤ n') (hn : n' < 2 ^ 8192) :
    bitLog2 n ≤ bitLog2 n' := by
  obtain ⟨s1, _⟩ := bitLog2_spec n h0 (lt_of_le_of_lt h hn)
  obtain ⟨_, s4⟩ := bitLog2_spec n' (lt_of_lt_of_le h0 h) hn
  have a1 : bitLog2 n < bitLog2 n' + 1 :=
    (Nat.pow_lt_pow_iff_right (by norm_num : 1 < 2)).mp
      (lt_of_le_of_lt s1 (lt_of_le_of_lt h s4))
  omega

theorem roundShift_div_le (n t : Nat) : n / 2 ^ t ≤ roundShift n t := by
  unfold roundShift
  by_cases ht : t = 0
  · rw [if_pos ht, ht]
    simp
  · rw [if_neg ht]
    dsimp only
    split_ifs <;> omega

theorem roundShift_le_succ (n t : Nat) : roundShift n t ≤ n / 2 ^ t + 1 := by
  unfold roundShift
  by_cases ht : t = 0
  · rw [if_pos ht, ht]
    simp
  · rw [if_neg ht]
    dsimp only
    split_ifs <;> omega

theorem roundShift_mul (q t : Nat) : roundShift (q * 2 ^ t) t = q := by
  unfold roundShift
  by_cases ht : t = 0
  · rw [if_pos ht, ht]
    simp
  · rw [if_neg ht]
    dsimp only
    have hp : 0 < 2 ^ t := Nat.two_pow_pos t
    have hh : 0 < 2 ^ (t - 1) := Nat.two_pow_pos _
    have hr : q * 2 ^ t % 2 ^ t = 0 := Nat.mul_mod_left q (2 ^ t)
    rw [hr]
    rw [if_neg]
    · exact Nat.mul_div_cancel q hp
    · intro h
      rcases h with h | ⟨h, _⟩
      · omega
      · omega

/-- Rounding to the nearest integer, ties to even, is monotone. -/
theorem roundShift_mono (t n n' : Nat) (h : n ≤ n') : roundShift n t ≤ roundShift n' t := by
  by_cases ht : t = 0
  · unfold roundShift
    rw [if_pos ht, if_pos ht]
    exact h
  · have hp : 0 < 2 ^ t := Nat.two_pow_pos t
    have hq : n / 2 ^ t ≤ n' / 2 ^ t := Nat.div_le_div_right h
    rcases Nat.lt_or_eq_of_le hq with hlt | heq
    · exact le_trans (roundShift_le_succ n t) (le_trans hlt (roundShift_div_le n' t))
    · have e1 := Nat.div_add_mod n (2 ^ t)
      have e2 := Nat.div_add_mod n' (2 ^ t)
      have hr : n % 2 ^ t ≤ n' % 2 ^ t := by
        rw [heq] at e1
        omega
      unfold roundShift
      rw [if_neg ht, if_neg ht]
      dsimp only
      rw [heq]
      split_ifs with c1 c2 c2
      · exact le_refl _
      · exfalso
        apply c2
        rcases c1 with c1 | ⟨c1, c3⟩
        · exact Or.inl (lt_of_lt_of_le c1 hr)
        · rcases Nat.lt_or_eq_of_le hr with g | g
          · exact Or.inl (by omega)
          · exact Or.inr ⟨by omega, c3⟩
      · omega
      · exact le_refl _

theorem roundMag_zero (k : Nat) : roundMag 0 k = 0 := by
  unfold roundMag
  rw [bitLog2_zero]
  have h : max (0 - 52) k = k := by simp
  dsimp only
  rw [h]
  have h2 : roundShift 0 k = 0 := by
    have := roundShift_mul 0 k
    rw [Nat.zero_mul] at this
    exact this
  rw [h2]
  simp

theorem roundMag_le (n k : Nat) : roundMag n k ≤ 2047 * 2 ^ 52 := by
  unfold roundMag
  exact min_le_right _ _

/-- Rounding to the nearest float is monotone. -/
theorem roundMag_mono (n n' k : Nat) (h : n ≤ n') (hn : n' < 2 ^ 8192) :
    roundMag n k ≤ roundMag n' k := by
  rcases Nat.eq_zero_or_pos n with h0 | h0
  · rw [h0, roundMag_zero]
    exact Nat.zero_le _
  · have hb := bitLog2_mono n n' h0 h hn
    obtain ⟨s1, s2⟩ := bitLog2_spec n h0 (lt_of_le_of_lt h hn)
    obtain ⟨s3, s4⟩ := bitLog2_spec n' (lt_of_lt_of_le h0 h) hn
    unfold roundMag
    dsimp only
    apply min_le_min _ (le_refl _)
    have ht : max (bitLog2 n - 52) k ≤ max (bitLog2 n' - 52) k :=
      max_le_max (Nat.sub_le_sub_right hb 52) (le_refl k)
    rcases Nat.lt_or_eq_of_le ht with hlt | heq
    · have hk : k ≤ max (bitLog2 n - 52) k := le_max_right _ _
      have ht' : max (bitLog2 n' - 52) k = bitLog2 n' - 52 := by
        rcases max_choice (bitLog2 n' - 52) k with c | c
        · exact c
        · rw [c] at hlt
          omega
      have hbt : bitLog2 n - 52 ≤ max (bitLog2 n - 52) k := le_max_left _ _
      have u1 : roundShift n (max (bitLog2 n - 52) k) ≤ 2 ^ 53 := by
        refine le_trans (roundShift_le_succ _ _) ?_
        have : n / 2 ^ max (bitLog2 n - 52) k < 2 ^ 53 := by
          rw [Nat.div_lt_iff_lt_mul (Nat.two_pow_pos _), ← pow_add]
          refine lt_of_lt_of_le s2 (Nat.pow_le_pow_right (by norm_num) ?_)
          omega
        omega
      have u2 : 2 ^ 52 ≤ roundShift n' (max (bitLog2 n' - 52) k) := by
        refine le_trans ?_ (roundShift_div_le _ _)
        rw [Nat.le_div_iff_mul_le (Nat.two_pow_pos _), ← pow_add]
        refine le_trans (Nat.pow_le_pow_right (by norm_num) ?_) s3
        rw [ht']
        rw [ht'] at hlt
        omega
      have e53 : (2 : Nat) ^ 53 = 2 * 2 ^ 52 := by norm_num
      rw [e53] at u1
      generalize max (bitLog2 n - 52) k = t at *
      generalize max (bitLog2 n' - 52) k = t' at *
      generalize roundShift n t = a at *
      generalize roundShift n' t' = b at *
      generalize (2 : Nat) ^ 52 = P at *
      have h1 : (t - k) * P + a ≤ (t - k) * P + 2 * P := Nat.add_le_add_left u1 _
      have h2 : (t' - k) * P + P ≤ (t' - k) * P + b := Nat.add_le_add_left u2 _
      have h3 : (t - k) * P + 2 * P ≤ (t' - k) * P + P := by
        have : t' - k = (t - k) + 1 + (t' - t - 1) := by omega
        rw [this]
        nlinarith [Nat.zero_le ((t' - t - 1) * P)]
      omega
    · rw [← heq]
      exact Nat.add_le_add_left (roundShift_mono _ _ _ h) _

end GoFloat64

namespace GoFloat64

theorem scaled_lt (f : GoFloat64) (hf : f.mag < 2047 * 4503599627370496) :
    f.scaled < 2 ^ 2100 := by
  rw [scaled_eq]
  by_cases h : f.mag < 4503599627370496
  · rw [if_pos h]
    have h52 : (4503599627370496 : Nat) = 2 ^ 52 := by norm_num
    rw [h52] at h
    exact lt_of_lt_of_le h (Nat.pow_le_pow_right (by norm_num) (by norm_num))
  · rw [if_neg h]
    have h1 : 4503599627370496 + f.mag % 4503599627370496 < 2 ^ 53 := by
      have e53 : (2 : Nat) ^ 53 = 9007199254740992 := by norm_num
      rw [e53]
      omega
    have h2 : f.mag / 4503599627370496 - 1 ≤ 2046 := by omega
    have h3 : 2 ^ (f.mag / 4503599627370496 - 1) ≤ 2 ^ 2046 :=
      Nat.pow_le_pow_right (by norm_num) h2
    calc (4503599627370496 + f.mag % 4503599627370496) * 2 ^ (f.mag / 4503599627370496 - 1)
        ≤ (4503599627370496 + f.mag % 4503599627370496) * 2 ^ 2046 :=
          Nat.mul_le_mul_left _ h3
      _ < 2 ^ 53 * 2 ^ 2046 := Nat.mul_lt_mul_of_pos_right h1 (Nat.two_pow_pos _)
      _ = 2 ^ 2099 := by rw [← pow_add]
      _ ≤ 2 ^ 2100 := Nat.pow_le_pow_right (by norm_num) (by norm_num)

/-- Rounding the scaled value of a finite float gives the float back. -/
theorem roundMag_scaled (f : GoFloat64) (hf : f.mag < 2047 * 4503599627370496) :
    roundMag f.scaled 0 = f.mag := by
  have hlt := scaled_lt f hf
  have hlt2 : f.scaled < 2 ^ 8192 :=
    lt_of_lt_of_le hlt (Nat.pow_le_pow_right (by norm_num) (by norm_num))
  have e52 : (2 : Nat) ^ 52 = 4503599627370496 := by norm_num
  rw [scaled_eq] at hlt2 ⊢
  by_cases h : f.mag < 4503599627370496
  · rw [if_pos h] at hlt2 ⊢
    have hb : bitLog2 f.mag - 52 = 0 := by
      rcases Nat.eq_zero_or_pos f.mag with h0 | h0
      · rw [h0, bitLog2_zero]
      · obtain ⟨s1, _⟩ := bitLog2_spec f.mag h0 hlt2
        rw [← e52] at h
        have := (Nat.pow_lt_pow_iff_right (by norm_num : 1 < 2)).mp (lt_of_le_of_lt s1 h)
        omega
    unfold roundMag
    dsimp only
    rw [hb]
    have hm : max 0 0 = 0 := rfl
    rw [hm]
    have hr : roundShift f.mag 0 = f.mag := by
      unfold roundShift
      rw [if_pos rfl]
    rw [hr, e52]
    rw [Nat.sub_self, Nat.zero_mul, Nat.zero_add]
    exact min_eq_left (by omega)
  · rw [if_neg h] at hlt2 ⊢
    have he1 : 1 ≤ f.mag / 4503599627370496 := by omega
    generalize hE : f.mag / 4503599627370496 = e at *
    generalize hR : f.mag % 4503599627370496 = r at *
    have hmag : f.mag = e * 4503599627370496 + r := by
      have := Nat.div_add_mod f.mag 4503599627370496
      rw [hE, hR] at this
      rw [← this, Nat.mul_comm]
    have hr : r < 4503599627370496 := by
      rw [← hR]
      exact Nat.mod_lt _ (by norm_num)
    have hb : bitLog2 ((4503599627370496 + r) * 2 ^ (e - 1)) = 52 + (e - 1) := by
      apply bitLog2_eq _ _ _ _ hlt2
      · rw [pow_add, e52]
        exact Nat.mul_le_mul_right _ (by omega)
      · have : (2 : Nat) ^ (52 + (e - 1) + 1) = 9007199254740992 * 2 ^ (e - 1) := by
          have e53 : (2 : Nat) ^ 53 = 9007199254740992 := by norm_num
          rw [← e53, ← pow_add]
          congr 1
          omega
        rw [this]
        exact Nat.mul_lt_mul_of_pos_right (by omega) (Nat.two_pow_pos _)
    unfold roundMag
    dsimp only
    rw [hb]
    have hm : max (52 + (e - 1) - 52) 0 = e - 1 := by
      rw [Nat.add_sub_cancel_left]
      exact max_eq_left (Nat.zero_le _)
    rw [hm, roundShift_mul, e52, hmag, Nat.sub_zero]
    have : (e - 1) * 4503599627370496 + (4503599627370496 + r)
        = e * 4503599627370496 + r := by
      have : e = (e - 1) + 1 := by omega
      nth_rewrite 2 [this]
      rw [Nat.add_mul]
      omega
    rw [this]
    apply min_eq_left
    rw [← hmag]
    exact le_of_lt hf

theorem scaled_eq_zero_iff (f : GoFloat64) : f.scaled = 0 ↔ f.mag = 0 := by
  rw [scaled_eq]
  by_cases h : f.mag < 4503599627370496
  · rw [if_pos h]
  · rw [if_neg h]
    constructor
    · intro hh
      rcases Nat.mul_eq_zero.mp hh with h1 | h1
      · omega
      · exact absurd h1 (Nat.pos_iff_ne_zero.mp (Nat.two_pow_pos _))
    · intro hh
      omega

theorem mag_le_of_scaled_le (a b : GoFloat64) (ha : a.mag < 2047 * 4503599627370496)
    (hb : b.mag < 2047 * 4503599627370496) (h : a.scaled ≤ b.scaled) : a.mag ≤ b.mag := by
  rw [← roundMag_scaled a ha, ← roundMag_scaled b hb]
  exact roundMag_mono _ _ 0 h
    (lt_of_lt_of_le (scaled_lt b hb) (Nat.pow_le_pow_right (by norm_num) (by norm_num)))

theorem scaled_le_of_mag_le (a b : GoFloat64) (ha : a.mag < 2047 * 4503599627370496)
    (hb : b.mag < 2047 * 4503599627370496) (h : a.mag ≤ b.mag) : a.scaled ≤ b.scaled := by
  by_contra hc
  have h2 := mag_le_of_scaled_le b a hb ha (le_of_lt (not_le.mp hc))
  have h3 : a.mag = b.mag := le_antisymm h h2
  apply hc
  rw [scaled_eq a, scaled_eq b, h3]

/-- For finite floats, the order of the keys is the order of the values. -/
theorem key_le_iff (a b : GoFloat64) (ha : a.mag < 2047 * 4503599627370496)
    (hb : b.mag < 2047 * 4503599627370496) :
    a.key ≤ b.key ↔ a.signedScaled ≤ b.signedScaled := by
  have z1 := scaled_eq_zero_iff a
  have z2 := scaled_eq_zero_iff b
  have m1 : a.mag ≤ b.mag ↔ a.scaled ≤ b.scaled :=
    ⟨scaled_le_of_mag_le a b ha hb, mag_le_of_scaled_le a b ha hb⟩
  have m2 : b.mag ≤ a.mag ↔ b.scaled ≤ a.scaled :=
    ⟨scaled_le_of_mag_le b a hb ha, mag_le_of_scaled_le b a hb ha⟩
  unfold key signedScaled
  split_ifs <;> omega

theorem key_lt_iff (a b : GoFloat64) (ha : a.mag < 2047 * 4503599627370496)
    (hb : b.mag < 2047 * 4503599627370496) :
    a.key < b.key ↔ a.signedScaled < b.signedScaled := by
  have h := key_le_iff b a hb ha
  constructor
  · intro h1
    by_contra h2
    have := h.mpr (not_lt.mp h2)
    omega
  · intro h1
    by_contra h2
    have := h.mp (not_lt.mp h2)
    omega

end GoFloat64

namespace GoFloat64

theorem isNaN_eq_false (f : GoFloat64) (h : f.mag ≤ 2047 * 4503599627370496) :
    f.isNaN = false := by
  cases hn : f.isNaN
  · rfl
  · have := (isNaN_iff f).mp hn
    omega

theorem isInf_eq_false (f : GoFloat64) (h : f.mag ≠ 2047 * 4503599627370496) :
    f.isInf = false := by
  cases hn : f.isInf
  · rfl
  · exact absurd ((isInf_iff f).mp hn) h

theorem mag_le_of_not_nan (f : GoFloat64) (h : f.isNaN = false) :
    f.mag ≤ 2047 * 4503599627370496 := by
  by_contra hc
  have := (isNaN_iff f).mpr (not_le.mp hc)
  rw [h] at this
  exact Bool.false_ne_true this

theorem mag_lt_of_finite (f : GoFloat64) (h1 : f.isNaN = false) (h2 : f.isInf = false) :
    f.mag < 2047 * 4503599627370496 := by
  have a := mag_le_of_not_nan f h1
  rcases Nat.lt_or_eq_of_le a with c | c
  · exact c
  · have := (isInf_iff f).mpr c
    rw [h2] at this
    exact absurd this Bool.false_ne_true

theorem roundMag_lt (n k : Nat) : roundMag n k < 9223372036854775808 := by
  have h := roundMag_le n k
  have e52 : (2 : Nat) ^ 52 = 4503599627370496 := by norm_num
  rw [e52] at h
  omega

theorem mag_ofScaled (negative : Bool) (n k : Nat) :
    (ofScaled negative n k).mag = roundMag n k := by
  unfold ofScaled
  have h := roundMag_lt n k
  have h63 : (2 : Nat) ^ 63 = 9223372036854775808 := by norm_num
  rw [h63]
  cases negative
  · have := mag_ofBits (roundMag n k) h 0
    simpa using this
  · have := mag_ofBits (roundMag n k) h 1
    simpa using this

theorem sign_ofScaled (negative : Bool) (n k : Nat) :
    (ofScaled negative n k).sign = if negative = true then 1 else 0 := by
  unfold ofScaled
  have h := roundMag_lt n k
  have h63 : (2 : Nat) ^ 63 = 9223372036854775808 := by norm_num
  rw [h63]
  cases negative
  · have := sign_ofBits (roundMag n k) h 0 (by norm_num)
    simpa using this
  · have := sign_ofBits (roundMag n k) h 1 (by norm_num)
    simpa using this

theorem isNaN_ofScaled (negative : Bool) (n k : Nat) :
    (ofScaled negative n k).isNaN = false := by
  apply isNaN_eq_false
  rw [mag_ofScaled]
  have h := roundMag_le n k
  have e52 : (2 : Nat) ^ 52 = 4503599627370496 := by norm_num
  rw [e52] at h
  exact h

theorem key_ofScaled (negative : Bool) (n k : Nat) :
    (ofScaled negative n k).key
      = if negative = true then -((roundMag n k : Nat) : Int) else ((roundMag n k : Nat) : Int) := by
  unfold key
  rw [mag_ofScaled, sign_ofScaled]
  cases negative <;> simp

theorem key_signedZero (negative : Bool) : (signedZero negative).key = 0 := by
  cases negative <;> decide

theorem isNaN_signedZero (negative : Bool) : (signedZero negative).isNaN = false := by
  cases negative <;> decide

theorem mag_signedZero (negative : Bool) : (signedZero negative).mag = 0 := by
  cases negative <;> decide

theorem roundKey_zero : roundKey 0 = 0 := by
  unfold roundKey
  simp [roundMag_zero]

theorem roundKey_mono (s s' : Int) (h : s ≤ s') (h1 : s.natAbs < 2 ^ 8192)
    (h2 : s'.natAbs < 2 ^ 8192) : roundKey s ≤ roundKey s' := by
  unfold roundKey
  by_cases c : s < 0
  · rw [if_pos c]
    by_cases c' : s' < 0
    · rw [if_pos c']
      have : s'.natAbs ≤ s.natAbs := by omega
      have := roundMag_mono _ _ 0 this h1
      omega
    · rw [if_neg c']
      omega
  · rw [if_neg c]
    have c' : ¬ s' < 0 := by omega
    rw [if_neg c']
    have : s.natAbs ≤ s'.natAbs := by omega
    have := roundMag_mono _ _ 0 this h2
    omega

theorem roundKey_signedScaled (f : GoFloat64) (hf : f.mag < 2047 * 4503599627370496) :
    roundKey f.signedScaled = f.key := by
  have hr := roundMag_scaled f hf
  have hz := scaled_eq_zero_iff f
  unfold roundKey signedScaled key
  by_cases hs : f.sign = 1
  · rw [if_pos hs, if_pos hs]
    by_cases h0 : f.scaled = 0
    · rw [h0]
      have := hz.mp h0
      rw [this]
      simp [roundMag_zero]
    · have hneg : -(f.scaled : Int) < 0 := by omega
      rw [if_pos hneg]
      have : (-(f.scaled : Int)).natAbs = f.scaled := by omega
      rw [this, hr]
  · rw [if_neg hs, if_neg hs]
    have hneg : ¬ ((f.scaled : Int) < 0) := by omega
    rw [if_neg hneg]
    have : ((f.scaled : Int)).natAbs = f.scaled := by omega
    rw [this, hr]

theorem signedScaled_natAbs_lt (f : GoFloat64) (hf : f.mag < 2047 * 4503599627370496) :
    f.signedScaled.natAbs < 2 ^ 2100 := by
  have h := scaled_lt f hf
  unfold signedScaled
  split_ifs
  · simpa using h
  · simpa using h

theorem two_pow_2100_add : (2 : Nat) ^ 2100 + 2 ^ 2100 ≤ 2 ^ 8192 := by
  have : (2 : Nat) ^ 2100 + 2 ^ 2100 = 2 ^ 2101 := by
    rw [pow_succ]
    omega
  rw [this]
  exact Nat.pow_le_pow_right (by norm_num) (by norm_num)

/-- The sum of two finite floats: the float nearest to the sum of the values. -/
theorem add_finite (a b : GoFloat64) (ha : a.mag < 2047 * 4503599627370496)
    (hb : b.mag < 2047 * 4503599627370496) :
    (add a b).isNaN = false ∧ (add a b).key = roundKey (a.signedScaled + b.signedScaled) := by
  have n1 := isNaN_eq_false a (le_of_lt ha)
  have n2 := isNaN_eq_false b (le_of_lt hb)
  have i1 := isInf_eq_false a (ne_of_lt ha)
  have i2 := isInf_eq_false b (ne_of_lt hb)
  unfold add
  simp only [n1, n2, i1, i2, Bool.or_self, Bool.false_eq_true, if_false]
  by_cases hs : a.signedScaled + b.signedScaled = 0
  · rw [if_pos hs, hs, roundKey_zero]
    exact ⟨isNaN_signedZero _, key_signedZero _⟩
  · rw [if_neg hs]
    refine ⟨isNaN_ofScaled _ _ _, ?_⟩
    rw [key_ofScaled]
    unfold roundKey
    by_cases c : a.signedScaled + b.signedScaled < 0
    · simp [c]
    · simp [c]

end GoFloat64

namespace GoFloat64

theorem mag_neg (f : GoFloat64) : f.neg.mag = f.mag := by
  have h := f.isLt
  unfold neg mag ofBits
  have p63 : (2 : Nat) ^ 63 = 9223372036854775808 := by norm_num
  rw [p63]
  show (f.bits + 9223372036854775808) % 18446744073709551616 % 9223372036854775808
    = f.bits % 9223372036854775808
  omega

theorem sign_neg (f : GoFloat64) : f.neg.sign = 1 - f.sign := by
  have h := f.isLt
  unfold neg sign ofBits
  have p63 : (2 : Nat) ^ 63 = 9223372036854775808 := by norm_num
  rw [p63]
  show (f.bits + 9223372036854775808) % 18446744073709551616 / 9223372036854775808
    = 1 - f.bits / 9223372036854775808
  omega

theorem scaled_neg (f : GoFloat64) : f.neg.scaled = f.scaled := by
  rw [scaled_eq, scaled_eq, mag_neg]

theorem signedScaled_neg (f : GoFloat64) : f.neg.signedScaled = -f.signedScaled := by
  have h := f.sign_le_one
  unfold signedScaled
  rw [scaled_neg, sign_neg]
  split_ifs <;> omega

theorem isInf_neg (f : GoFloat64) : f.neg.isInf = f.isInf := by
  cases h : f.isInf
  · apply isInf_eq_false
    rw [mag_neg]
    intro hc
    have := (isInf_iff f).mpr hc
    rw [h] at this
    exact Bool.false_ne_true this
  · apply (isInf_iff _).mpr
    rw [mag_neg]
    exact (isInf_iff f).mp h

theorem key_eq_zero_iff (f : GoFloat64) : f.key = 0 ↔ f.mag = 0 := by
  unfold key
  split_ifs <;> omega

theorem key_abs_le (f : GoFloat64) : -(f.mag : Int) ≤ f.key ∧ f.key ≤ (f.mag : Int) := by
  unfold key
  split_ifs <;> omega

theorem key_pos (f : GoFloat64) (h : 0 < f.key) : f.sign ≠ 1 ∧ f.key = f.mag ∧ 0 < f.mag := by
  unfold key at h ⊢
  split_ifs at h ⊢ with c
  · omega
  · exact ⟨c, rfl, by omega⟩

theorem key_neg_of (f : GoFloat64) (h : f.key < 0) :
    f.sign = 1 ∧ f.key = -(f.mag : Int) ∧ 0 < f.mag := by
  unfold key at h ⊢
  split_ifs at h ⊢ with c
  · exact ⟨c, rfl, by omega⟩
  · omega

theorem key_zero : (ofBits 0).key = 0 := by decide

theorem isNaN_zero : (ofBits 0).isNaN = false := by decide

theorem isNaN_nan : nan.isNaN = true := by decide

theorem roundMag_one : roundMag 1 0 = 1 := by decide!

/-- The remainder of two finite floats is not above the divisor in magnitude. -/
theorem roundMag_mod_le (x y : GoFloat64) (hy : y.mag < 2047 * 4503599627370496)
    (hy0 : y.mag ≠ 0) : roundMag (x.scaled % y.scaled) 0 ≤ y.mag := by
  have hpos : 0 < y.scaled := by
    rcases Nat.eq_zero_or_pos y.scaled with c | c
    · exact absurd ((scaled_eq_zero_iff y).mp c) hy0
    · exact c
  have h1 : x.scaled % y.scaled ≤ y.scaled := le_of_lt (Nat.mod_lt _ hpos)
  have h2 := roundMag_mono _ _ 0 h1
    (lt_of_lt_of_le (scaled_lt y hy) (Nat.pow_le_pow_right (by norm_num) (by norm_num)))
  rw [roundMag_scaled y hy] at h2
  exact h2

end GoFloat64

namespace GoFloat64

theorem mod_le_law (x y : GoFloat64) (h0 : lt (ofBits 0) y) (hn : (mod x y).isNaN = false) :
    le (mod x y) y := by
  obtain ⟨_, hy, hk⟩ := h0
  rw [key_zero] at hk
  obtain ⟨hys, hyk, hym⟩ := key_pos y hk
  have hyle := mag_le_of_not_nan y hy
  unfold mod at hn ⊢
  by_cases c : (x.isNaN || y.isNaN || x.isInf || y.mag == 0) = true
  · rw [if_pos c] at hn
    rw [isNaN_nan] at hn
    exact absurd hn (by decide)
  · rw [if_neg c] at hn ⊢
    have c2 : (x.isNaN || y.isNaN || x.isInf || y.mag == 0) = false := by
      cases hh : (x.isNaN || y.isNaN || x.isInf || y.mag == 0)
      · rfl
      · exact absurd hh c
    simp only [Bool.or_eq_false_iff] at c2
    obtain ⟨⟨⟨x1, _⟩, x2⟩, _⟩ := c2
    have hx := mag_lt_of_finite x x1 x2
    by_cases ci : y.isInf = true
    · rw [if_pos ci]
      refine ⟨x1, hy, ?_⟩
      have := (isInf_iff y).mp ci
      have := key_abs_le x
      omega
    · rw [if_neg ci]
      have ci2 : y.isInf = false := by
        cases hh : y.isInf
        · rfl
        · exact absurd hh ci
      have hyf := mag_lt_of_finite y hy ci2
      refine ⟨isNaN_ofScaled _ _ _, hy, ?_⟩
      rw [key_ofScaled]
      have := roundMag_mod_le x y hyf (by omega)
      split_ifs <;> omega

theorem mod_wrap_law (x y : GoFloat64) (h0 : lt (ofBits 0) y) (hr : lt (mod x y) (ofBits 0)) :
    le (ofBits 0) (add (mod x y) y) ∧ le (add (mod x y) y) y := by
  obtain ⟨_, hy, hk⟩ := h0
  rw [key_zero] at hk
  obtain ⟨hys, hyk, hym⟩ := key_pos y hk
  obtain ⟨hrn, _, hrk⟩ := hr
  rw [key_zero] at hrk
  unfold mod at hrn hrk ⊢
  by_cases c : (x.isNaN || y.isNaN || x.isInf || y.mag == 0) = true
  · rw [if_pos c] at hrn
    rw [isNaN_nan] at hrn
    exact absurd hrn (by decide)
  · rw [if_neg c] at hrn hrk ⊢
    have c2 : (x.isNaN || y.isNaN || x.isInf || y.mag == 0) = false := by
      cases hh : (x.isNaN || y.isNaN || x.isInf || y.mag == 0)
      · rfl
      · exact absurd hh c
    simp only [Bool.or_eq_false_iff] at c2
    obtain ⟨⟨⟨x1, _⟩, x2⟩, _⟩ := c2
    have hx := mag_lt_of_finite x x1 x2
    by_cases ci : y.isInf = true
    · rw [if_pos ci] at hrk ⊢
      have hadd : add x y = y := by
        unfold add
        simp only [x1, hy, x2, ci, Bool.or_self, Bool.false_eq_true, if_false, if_true]
      rw [hadd]
      have hM := (isInf_iff y).mp ci
      exact ⟨⟨isNaN_zero, hy, by rw [key_zero]; omega⟩, ⟨hy, hy, le_refl _⟩⟩
    · rw [if_neg ci] at hrk hrn ⊢
      have ci2 : y.isInf = false := by
        cases hh : y.isInf
        · rfl
        · exact absurd hh ci
      have hyf := mag_lt_of_finite y hy ci2
      have hle := roundMag_mod_le x y hyf (by omega)
      generalize hR : ofScaled (x.sign == 1) (x.scaled % y.scaled) 0 = r at *
      have hrm : r.mag = roundMag (x.scaled % y.scaled) 0 := by
        rw [← hR, mag_ofScaled]
      obtain ⟨rs, rk, rpos⟩ := key_neg_of r hrk
      have hrf : r.mag < 2047 * 4503599627370496 := by omega
      have hsc : r.scaled ≤ y.scaled := scaled_le_of_mag_le r y hrf hyf (by omega)
      have hsp : 0 < r.scaled := by
        rcases Nat.eq_zero_or_pos r.scaled with c0 | c0
        · have := (scaled_eq_zero_iff r).mp c0
          omega
        · exact c0
      obtain ⟨an, ak⟩ := add_finite r y hrf hyf
      have e1 : r.signedScaled = -(r.scaled : Int) := by
        unfold signedScaled
        rw [if_pos rs]
      have e2 : y.signedScaled = (y.scaled : Int) := by
        unfold signedScaled
        rw [if_neg hys]
      have hyb := scaled_lt y hyf
      have hbig : (2 : Nat) ^ 2100 ≤ 2 ^ 8192 := Nat.pow_le_pow_right (by norm_num) (by norm_num)
      have b1 : (r.signedScaled + y.signedScaled).natAbs < 2 ^ 8192 := by
        rw [e1, e2]
        omega
      have b2 : y.signedScaled.natAbs < 2 ^ 8192 := by
        rw [e2]
        omega
      have m1 := roundKey_mono 0 (r.signedScaled + y.signedScaled) (by rw [e1, e2]; omega)
        (by simp) b1
      have m2 := roundKey_mono (r.signedScaled + y.signedScaled) y.signedScaled
        (by rw [e1, e2]; omega) b1 b2
      rw [roundKey_zero] at m1
      rw [roundKey_signedScaled y hyf] at m2
      refine ⟨⟨isNaN_zero, an, ?_⟩, ⟨an, hy, ?_⟩⟩
      · rw [key_zero, ak]
        exact m1
      · rw [ak]
        exact m2

end GoFloat64

namespace GoFloat64

theorem sub_pos_law (a b : GoFloat64) (h : lt a b) : lt (ofBits 0) (sub b a) := by
  obtain ⟨ha, hb, hk⟩ := h
  have han : a.neg.isNaN = false := by rw [isNaN_neg]; exact ha
  have hal := mag_le_of_not_nan a ha
  have hbl := mag_le_of_not_nan b hb
  have ka := key_abs_le a
  have kb := key_abs_le b
  have sa := a.sign_le_one
  have sb := b.sign_le_one
  unfold sub add
  simp only [hb, han, Bool.or_self, Bool.false_eq_true, if_false]
  by_cases cb : b.isInf = true
  · rw [if_pos cb]
    have hM := (isInf_iff b).mp cb
    have hbs : b.sign ≠ 1 := by
      intro hs
      unfold key at hk kb
      rw [if_pos hs] at hk
      split_ifs at hk <;> omega
    have hbk : b.key = (b.mag : Int) := by
      unfold key
      rw [if_neg hbs]
    have hcond : (a.neg.isInf && b.sign != a.neg.sign) = false := by
      cases hh : (a.neg.isInf && b.sign != a.neg.sign)
      · rfl
      · exfalso
        simp only [Bool.and_eq_true, bne_iff_ne, ne_eq] at hh
        obtain ⟨h1, h2⟩ := hh
        rw [isInf_neg] at h1
        have hMa := (isInf_iff a).mp h1
        rw [sign_neg] at h2
        have has : a.sign ≠ 1 := by omega
        have hak : a.key = (a.mag : Int) := by
          unfold key
          rw [if_neg has]
        omega
    rw [hcond]
    simp only [Bool.false_eq_true, if_false]
    exact ⟨isNaN_zero, hb, by rw [key_zero]; omega⟩
  · rw [if_neg cb]
    have cb2 : b.isInf = false := by
      cases hh : b.isInf
      · rfl
      · exact absurd hh cb
    have hbf := mag_lt_of_finite b hb cb2
    by_cases ca : a.neg.isInf = true
    · rw [if_pos ca]
      have ca1 : a.isInf = true := by rw [← isInf_neg]; exact ca
      have hMa := (isInf_iff a).mp ca1
      have has : a.sign = 1 := by
        by_contra hs
        have hak : a.key = (a.mag : Int) := by
          unfold key
          rw [if_neg hs]
        omega
      refine ⟨isNaN_zero, han, ?_⟩
      rw [key_zero, key_neg]
      unfold key
      rw [if_pos has]
      omega
    · rw [if_neg ca]
      have ca2 : a.isInf = false := by
        cases hh : a.isInf
        · rfl
        · rw [← isInf_neg] at hh
          exact absurd hh ca
      have haf := mag_lt_of_finite a ha ca2
      have hanf : a.neg.mag < 2047 * 4503599627370496 := by rw [mag_neg]; exact haf
      have hss := (key_lt_iff a b haf hbf).mp hk
      have hadd := add_finite b a.neg hbf hanf
      unfold add at hadd
      simp only [hb, han, cb2, Bool.or_self, Bool.false_eq_true, if_false] at hadd
      have ca3 : a.neg.isInf = false := by
        cases hh : a.neg.isInf
        · rfl
        · exact absurd hh ca
      simp only [ca3, Bool.false_eq_true, if_false] at hadd
      obtain ⟨an, ak⟩ := hadd
      refine ⟨isNaN_zero, an, ?_⟩
      rw [key_zero, ak, signedScaled_neg]
      have b1 := signedScaled_natAbs_lt a haf
      have b2 := signedScaled_natAbs_lt b hbf
      have hbig := two_pow_2100_add
      have m := roundKey_mono 1 (b.signedScaled + -a.signedScaled) (by omega)
        (by
          have : (1 : Int).natAbs = 1 := rfl
          rw [this]
          exact Nat.one_lt_two_pow (by norm_num))
        (by omega)
      have r1 : roundKey 1 = 1 := by
        unfold roundKey
        simp [roundMag_one]
      omega

theorem sub_self_law (x p : GoFloat64) (hp : lt (ofBits 0) p) : ¬ le p (sub x x) := by
  obtain ⟨_, hpn, hpk⟩ := hp
  rw [key_zero] at hpk
  intro hle
  obtain ⟨_, hn, hk⟩ := hle
  have hxn : x.neg.isNaN = x.isNaN := isNaN_neg x
  unfold sub add at hn hk
  by_cases c1 : (x.isNaN || x.neg.isNaN) = true
  · rw [if_pos c1] at hn
    rw [isNaN_nan] at hn
    exact absurd hn (by decide)
  · rw [if_neg c1] at hn hk
    have hx : x.isNaN = false := by
      cases hh : x.isNaN
      · rfl
      · rw [hh] at c1
        exact absurd rfl c1
    by_cases c2 : x.isInf = true
    · rw [if_pos c2] at hn hk
      have c3 : x.neg.isInf = true := by rw [isInf_neg]; exact c2
      have hs : (x.sign != x.neg.sign) = true := by
        rw [sign_neg]
        have := x.sign_le_one
        simp only [bne_iff_ne, ne_eq]
        omega
      simp only [c3, hs, Bool.and_self, if_true] at hn
      rw [isNaN_nan] at hn
      exact absurd hn (by decide)
    · rw [if_neg c2] at hn hk
      have c3 : x.neg.isInf = false := by
        rw [isInf_neg]
        cases hh : x.isInf
        · rfl
        · exact absurd hh c2
      simp only [c3, Bool.false_eq_true, if_false] at hk
      rw [signedScaled_neg] at hk
      have h0 : x.signedScaled + -x.signedScaled = 0 := by omega
      rw [if_pos h0, key_signedZero] at hk
      omega

theorem toInt_nonneg_law (cvt : GoFloat64 → Int) (q : GoFloat64) (h0 : le (ofBits 0) q)
    (h1 : lt q (ofBits 4890909195324358656)) : 0 ≤ toInt cvt q := by
  obtain ⟨_, hn, hk0⟩ := h0
  obtain ⟨_, _, hk1⟩ := h1
  rw [key_zero] at hk0
  have hL : (ofBits 4890909195324358656).key = 4890909195324358656 := by decide
  rw [hL] at hk1
  have hkb := key_abs_le q
  have hs := q.sign_le_one
  have hmag : q.mag < 1086 * 4503599627370496 := by
    unfold key at hk0 hk1
    split_ifs at hk0 hk1 <;> omega
  have hfin : q.isFinite = true := (isFinite_iff q).mpr (by omega)
  have e52 : (2 : Nat) ^ 52 = 4503599627370496 := by norm_num
  have hsig : q.significand < 9007199254740992 := by
    unfold significand
    rw [frac_eq, e52]
    split_ifs <;> omega
  have hexp : q.exponent ≤ 1085 := by
    unfold exponent
    rw [expField_eq]
    split_ifs <;> omega
  have htm : q.truncMag < 9223372036854775808 := by
    unfold truncMag
    split_ifs with c
    · have hp : 2 ^ (q.exponent - 1075) ≤ 2 ^ 10 :=
        Nat.pow_le_pow_right (by norm_num) (by omega)
      have h10 : (2 : Nat) ^ 10 = 1024 := by norm_num
      rw [h10] at hp
      calc q.significand * 2 ^ (q.exponent - 1075)
          ≤ q.significand * 1024 := Nat.mul_le_mul_left _ hp
        _ < 9223372036854775808 := by omega
    · exact lt_of_le_of_lt (Nat.div_le_self _ _) (by omega)
  have htr : 0 ≤ q.trunc ∧ q.trunc < 9223372036854775808 := by
    unfold trunc
    split_ifs with c
    · have hm0 : q.mag = 0 := by
        unfold key at hk0
        rw [if_pos c] at hk0
        omega
      have hz : q.truncMag = 0 := by
        unfold truncMag significand
        rw [expField_eq, frac_eq, hm0]
        simp
      rw [hz]
      simp
    · omega
  unfold toInt
  rw [if_pos ⟨hfin, by omega, htr.2⟩]
  exact htr.1

theorem div_nonneg_law (a b : GoFloat64) (ha : le (ofBits 0) a) (hb : lt (ofBits 0) b) :
    (div a b).isNaN = true ∨ le (ofBits 0) (div a b) := by
  obtain ⟨_, han, hak⟩ := ha
  obtain ⟨_, hbn, hbk⟩ := hb
  rw [key_zero] at hak hbk
  obtain ⟨hbs, _, hbm⟩ := key_pos b hbk
  have sa := a.sign_le_one
  have sb := b.sign_le_one
  have hbs0 : b.sign = 0 := by omega
  unfold div
  simp only [han, hbn, Bool.or_self, Bool.false_eq_true, if_false]
  by_cases ca : a.isInf = true
  · rw [if_pos ca]
    by_cases cb : b.isInf = true
    · rw [if_pos cb]
      exact Or.inl isNaN_nan
    · rw [if_neg cb]
      right
      have hM := (isInf_iff a).mp ca
      have has : a.sign = 0 := by
        by_contra hs
        have h1 : a.sign = 1 := by omega
        unfold key at hak
        rw [if_pos h1] at hak
        omega
      rw [has, hbs0]
      decide
  · rw [if_neg ca]
    by_cases cb : b.isInf = true
    · rw [if_pos cb]
      right
      exact ⟨isNaN_zero, isNaN_signedZero _, by rw [key_zero, key_signedZero]⟩
    · rw [if_neg cb]
      have hb0 : ¬ b.mag = 0 := by omega
      rw [if_neg hb0]
      right
      unfold ofRatio
      refine ⟨isNaN_zero, isNaN_ofScaled _ _ _, ?_⟩
      rw [key_zero, key_ofScaled]
      by_cases hs : (a.sign != b.sign) = true
      · rw [if_pos hs]
        have has : a.sign = 1 := by
          simp only [bne_iff_ne, ne_eq] at hs
          omega
        have ham : a.mag = 0 := by
          unfold key at hak
          rw [if_pos has] at hak
          omega
        have hsc := (scaled_eq_zero_iff a).mpr ham
        rw [hsc]
        simp [roundMag_zero]
      · rw [if_neg hs]
        omega

theorem mul_zero_law (c z : GoFloat64) (h1 : le (ofBits 0) z) (h2 : le z (ofBits 0))
    (hn : (mul c z).isNaN = false) :
    le (ofBits 0) (mul c z) ∧ le (mul c z) (ofBits 0) := by
  obtain ⟨_, hzn, hk1⟩ := h1
  obtain ⟨_, _, hk2⟩ := h2
  rw [key_zero] at hk1 hk2
  have hzk : z.key = 0 := by omega
  have hzm := (key_eq_zero_iff z).mp hzk
  have hzi : z.isInf = false := isInf_eq_false z (by omega)
  have hzs := (scaled_eq_zero_iff z).mpr hzm
  unfold mul at hn ⊢
  by_cases cn : (c.isNaN || z.isNaN) = true
  · rw [if_pos cn] at hn
    rw [isNaN_nan] at hn
    exact absurd hn (by decide)
  · rw [if_neg cn] at hn ⊢
    by_cases ci : (c.isInf || z.isInf) = true
    · rw [if_pos ci] at hn
      rw [if_pos (Or.inr hzm)] at hn
      rw [isNaN_nan] at hn
      exact absurd hn (by decide)
    · rw [if_neg ci]
      rw [hzs, Nat.mul_zero]
      have hk : (ofScaled (c.sign != z.sign) 0 1074).key = 0 := by
        rw [key_ofScaled, roundMag_zero]
        split_ifs <;> rfl
      exact ⟨⟨isNaN_zero, isNaN_ofScaled _ _ _, by rw [key_zero, hk]⟩,
        ⟨isNaN_ofScaled _ _ _, isNaN_zero, by rw [key_zero, hk]⟩⟩

theorem add_zero_law (x z : GoFloat64) (hx : x.isNaN = false) (h1 : le (ofBits 0) z)
    (h2 : le z (ofBits 0)) : le x (add x z) ∧ le (add x z) x := by
  obtain ⟨_, hzn, hk1⟩ := h1
  obtain ⟨_, _, hk2⟩ := h2
  rw [key_zero] at hk1 hk2
  have hzk : z.key = 0 := by omega
  have hzm := (key_eq_zero_iff z).mp hzk
  have hzi : z.isInf = false := isInf_eq_false z (by omega)
  have hzs := (scaled_eq_zero_iff z).mpr hzm
  have hzf : z.mag < 2047 * 4503599627370496 := by omega
  by_cases ci : x.isInf = true
  · have hadd : add x z = x := by
      unfold add
      simp only [hx, hzn, ci, hzi, Bool.or_self, Bool.false_eq_true, if_false, if_true,
        Bool.false_and]
    rw [hadd]
    exact ⟨⟨hx, hx, le_refl _⟩, ⟨hx, hx, le_refl _⟩⟩
  · have ci2 : x.isInf = false := by
      cases hh : x.isInf
      · rfl
      · exact absurd hh ci
    have hxf := mag_lt_of_finite x hx ci2
    obtain ⟨an, ak⟩ := add_finite x z hxf hzf
    have hzss : z.signedScaled = 0 := by
      unfold signedScaled
      rw [hzs]
      split_ifs <;> rfl
    rw [hzss, add_zero, roundKey_signedScaled x hxf] at ak
    exact ⟨⟨hx, an, by rw [ak]⟩, ⟨an, hx, by rw [ak]⟩⟩

end GoFloat64


/-! ## IEEE 754 binary64: the remainder, the position in a cycle, monotone operations -/

namespace GoFloat64

/-- The magnitude in units of `2^-1074` of the finite float of bits `M`. -/
theorem scaled_ofBits (M : Nat) (h : M < 9223372036854775808) :
    (ofBits M).scaled = if M < 4503599627370496 then M
      else (4503599627370496 + M % 4503599627370496) * 2 ^ (M / 4503599627370496 - 1) := by
  have hm : (ofBits M).mag = M := by
    have := mag_ofBits M h 0
    simpa using this
  rw [scaled_eq, hm]

/-- A finite float that is not zero and the float just below it in magnitude: the ratio of
their magnitudes is at most `1 - 2^-53`. -/
theorem scaled_pred (b : GoFloat64) (hb : b.mag < 2047 * 4503599627370496) (h0 : 0 < b.mag) :
    (ofBits (b.mag - 1)).scaled * 9007199254740992
      ≤ b.scaled * 9007199254740991 := by
  rw [scaled_ofBits (b.mag - 1) (by omega), scaled_eq b]
  generalize b.mag = M at *
  by_cases c1 : M < 4503599627370496
  · rw [if_pos c1, if_pos (by omega)]
    omega
  · rw [if_neg c1]
    have hE : 1 ≤ M / 4503599627370496 := by omega
    by_cases c2 : M % 4503599627370496 = 0
    · by_cases c3 : M / 4503599627370496 = 1
      · have hM : M = 4503599627370496 := by omega
        subst hM
        norm_num
      · have hlt : ¬ (M - 1 < 4503599627370496) := by omega
        rw [if_neg hlt]
        have e1 : (M - 1) % 4503599627370496 = 4503599627370495 := by omega
        have e2 : (M - 1) / 4503599627370496 = M / 4503599627370496 - 1 := by omega
        rw [e1, e2, c2]
        have e3 : M / 4503599627370496 - 1 = (M / 4503599627370496 - 1 - 1) + 1 := by omega
        generalize M / 4503599627370496 - 1 - 1 = k at e3
        rw [e3, pow_succ]
        generalize 2 ^ k = P
        omega
    · have hlt : ¬ (M - 1 < 4503599627370496) := by omega
      rw [if_neg hlt]
      have e1 : (M - 1) % 4503599627370496 = M % 4503599627370496 - 1 := by omega
      have e2 : (M - 1) / 4503599627370496 = M / 4503599627370496 := by omega
      rw [e1, e2]
      have hf : M % 4503599627370496 < 4503599627370496 := Nat.mod_lt _ (by norm_num)
      generalize M % 4503599627370496 = f at *
      generalize 2 ^ (M / 4503599627370496 - 1) = P
      have h1 : (4503599627370496 + (f - 1)) * 9007199254740992
          ≤ (4503599627370496 + f) * 9007199254740991 := by omega
      calc (4503599627370496 + (f - 1)) * P * 9007199254740992
          = (4503599627370496 + (f - 1)) * 9007199254740992 * P := by ring
        _ ≤ (4503599627370496 + f) * 9007199254740991 * P := Nat.mul_le_mul_right _ h1
        _ = (4503599627370496 + f) * P * 9007199254740991 := by ring

/-- Two finite floats, the first smaller in magnitude: the ratio of their magnitudes is at
most `1 - 2^-53`. -/
theorem scaled_mul_le_of_mag_lt (a b : GoFloat64) (hb : b.mag < 2047 * 4503599627370496)
    (h : a.mag < b.mag) :
    a.scaled * 9007199254740992 ≤ b.scaled * 9007199254740991 := by
  have hc : (ofBits (b.mag - 1)).mag = b.mag - 1 := by
    have := mag_ofBits (b.mag - 1) (by omega) 0
    simpa using this
  have h1 : a.scaled ≤ (ofBits (b.mag - 1)).scaled :=
    scaled_le_of_mag_le a _ (by omega) (by rw [hc]; omega) (by rw [hc]; omega)
  have h2 := scaled_pred b hb (by omega)
  calc a.scaled * 9007199254740992 ≤ (ofBits (b.mag - 1)).scaled * 9007199254740992 :=
        Nat.mul_le_mul_right _ h1
    _ ≤ b.scaled * 9007199254740991 := h2

end GoFloat64

namespace GoFloat64

/-- The quotient of two magnitudes whose ratio is at most `1 - 2^-53` rounds to a float
below 1. -/
theorem roundMag_ratio_lt_one (A D : Nat)
    (h : A * 9007199254740992 ≤ D * 9007199254740991) :
    roundMag (2 * (A * 2 ^ 1075 / D) + (if A * 2 ^ 1075 % D = 0 then 0 else 1)) 2
      < 4607182418800017408 := by
  have h1 : A * 2 ^ 1075 ≤ D * (9007199254740991 * 2 ^ 1022) := by
    have h2 : A * 9007199254740992 * 2 ^ 1022 ≤ D * 9007199254740991 * 2 ^ 1022 :=
      Nat.mul_le_mul_right _ h
    have e : (2 : Nat) ^ 1075 = 9007199254740992 * 2 ^ 1022 := by
      rw [show (9007199254740992 : Nat) = 2 ^ 53 by norm_num, ← pow_add]
    calc A * 2 ^ 1075 = A * 9007199254740992 * 2 ^ 1022 := by rw [e]; ring
      _ ≤ D * 9007199254740991 * 2 ^ 1022 := h2
      _ = D * (9007199254740991 * 2 ^ 1022) := by ring
  have hq : A * 2 ^ 1075 / D ≤ 9007199254740991 * 2 ^ 1022 := by
    apply Nat.div_le_of_le_mul
    exact h1
  have hn : 2 * (A * 2 ^ 1075 / D) + (if A * 2 ^ 1075 % D = 0 then 0 else 1)
      ≤ 2 * (9007199254740991 * 2 ^ 1022) := by
    by_cases c : A * 2 ^ 1075 % D = 0
    · rw [if_pos c]
      omega
    · rw [if_neg c]
      have hne : A * 2 ^ 1075 / D ≠ 9007199254740991 * 2 ^ 1022 := by
        intro he
        have hdm := Nat.div_add_mod (A * 2 ^ 1075) D
        rw [he] at hdm
        have hpos : 0 < A * 2 ^ 1075 % D := Nat.pos_of_ne_zero c
        omega
      omega
  have hbig : 2 * (9007199254740991 * 2 ^ 1022) < 2 ^ 8192 := by
    calc 2 * (9007199254740991 * 2 ^ 1022) < 2 * (2 ^ 53 * 2 ^ 1022) := by
          apply Nat.mul_lt_mul_of_pos_left _ (by norm_num)
          exact Nat.mul_lt_mul_of_pos_right (by norm_num) (Nat.two_pow_pos _)
      _ = 2 ^ 1076 := by rw [← pow_add, ← pow_succ']
      _ ≤ 2 ^ 8192 := Nat.pow_le_pow_right (by norm_num) (by norm_num)
  have hm := roundMag_mono _ _ 2 hn hbig
  have hv : roundMag (2 * (9007199254740991 * 2 ^ 1022)) 2 = 4607182418800017407 := by
    decide!
  omega

end GoFloat64

namespace GoFloat64

/-- The unit in the last place of a finite float divides its magnitude, and the magnitude
of every finite float that is not smaller. -/
theorem ulp_dvd_scaled (x y : GoFloat64) (hx : x.mag < 2047 * 4503599627370496)
    (h : y.mag ≤ x.mag) :
    2 ^ (y.mag / 4503599627370496 - 1) ∣ y.scaled ∧
    2 ^ (y.mag / 4503599627370496 - 1) ∣ x.scaled := by
  rw [scaled_eq x, scaled_eq y]
  constructor
  · by_cases c : y.mag < 4503599627370496
    · rw [if_pos c]
      have : y.mag / 4503599627370496 = 0 := by omega
      rw [this]
      simp
    · rw [if_neg c]
      exact Dvd.intro_left _ rfl
  · by_cases c : x.mag < 4503599627370496
    · rw [if_pos c]
      have : y.mag / 4503599627370496 = 0 := by omega
      rw [this]
      simp
    · rw [if_neg c]
      apply Dvd.dvd.mul_left
      apply pow_dvd_pow
      have : y.mag / 4503599627370496 ≤ x.mag / 4503599627370496 :=
        Nat.div_le_div_right h
      omega

/-- A finite float that is not zero and the float just below it in magnitude differ by at
most one unit in the last place. -/
theorem scaled_pred_ge (b : GoFloat64) (hb : b.mag < 2047 * 4503599627370496)
    (h0 : 0 < b.mag) :
    b.scaled ≤ (ofBits (b.mag - 1)).scaled + 2 ^ (b.mag / 4503599627370496 - 1) := by
  rw [scaled_ofBits (b.mag - 1) (by omega), scaled_eq b]
  generalize b.mag = M at *
  by_cases c1 : M < 4503599627370496
  · rw [if_pos c1, if_pos (by omega)]
    have : M / 4503599627370496 = 0 := by omega
    rw [this]
    simp
    omega
  · rw [if_neg c1]
    have hE : 1 ≤ M / 4503599627370496 := by omega
    by_cases c2 : M % 4503599627370496 = 0
    · by_cases c3 : M / 4503599627370496 = 1
      · have hM : M = 4503599627370496 := by omega
        subst hM
        norm_num
      · have hlt : ¬ (M - 1 < 4503599627370496) := by omega
        rw [if_neg hlt]
        have e1 : (M - 1) % 4503599627370496 = 4503599627370495 := by omega
        have e2 : (M - 1) / 4503599627370496 = M / 4503599627370496 - 1 := by omega
        rw [e1, e2, c2]
        have e3 : M / 4503599627370496 - 1 = (M / 4503599627370496 - 1 - 1) + 1 := by omega
        generalize M / 4503599627370496 - 1 - 1 = k at e3
        rw [e3, pow_succ]
        generalize 2 ^ k = P
        omega
    · have hlt : ¬ (M - 1 < 4503599627370496) := by omega
      rw [if_neg hlt]
      have e1 : (M - 1) % 4503599627370496 = M % 4503599627370496 - 1 := by omega
      have e2 : (M - 1) / 4503599627370496 = M / 4503599627370496 := by omega
      rw [e1, e2]
      have hf : 0 < M % 4503599627370496 := Nat.pos_of_ne_zero c2
      generalize M % 4503599627370496 = f at *
      generalize 2 ^ (M / 4503599627370496 - 1) = P
      have : 4503599627370496 + f = (4503599627370496 + (f - 1)) + 1 := by omega
      rw [this, Nat.add_mul, one_mul]

/-- `math.Mod(x, y)` of finite floats is smaller in magnitude than `y`: the remainder is a
multiple of the unit in the last place of `y`, or `x` itself. -/
theorem roundMag_mod_lt (x y : GoFloat64) (hx : x.mag < 2047 * 4503599627370496)
    (hy : y.mag < 2047 * 4503599627370496) (hy0 : y.mag ≠ 0) :
    roundMag (x.scaled % y.scaled) 0 < y.mag := by
  have hpos : 0 < y.scaled := by
    rcases Nat.eq_zero_or_pos y.scaled with c | c
    · exact absurd ((scaled_eq_zero_iff y).mp c) hy0
    · exact c
  by_cases c : x.scaled < y.scaled
  · rw [Nat.mod_eq_of_lt c, roundMag_scaled x hx]
    by_contra hc
    have := scaled_le_of_mag_le y x hy hx (by omega)
    omega
  · have hxy : y.mag ≤ x.mag := mag_le_of_scaled_le y x hy hx (by omega)
    obtain ⟨d1, d2⟩ := ulp_dvd_scaled x y hx hxy
    have d3 : 2 ^ (y.mag / 4503599627370496 - 1) ∣ x.scaled % y.scaled :=
      (Nat.dvd_mod_iff d1).mpr d2
    have hr : x.scaled % y.scaled < y.scaled := Nat.mod_lt _ hpos
    have hstep : x.scaled % y.scaled + 2 ^ (y.mag / 4503599627370496 - 1) ≤ y.scaled := by
      obtain ⟨k1, e1⟩ := d3
      obtain ⟨k2, e2⟩ := d1
      rw [e1, e2] at hr ⊢
      have hk : k1 < k2 := lt_of_mul_lt_mul_left hr (Nat.zero_le _)
      calc 2 ^ (y.mag / 4503599627370496 - 1) * k1 + 2 ^ (y.mag / 4503599627370496 - 1)
          = 2 ^ (y.mag / 4503599627370496 - 1) * (k1 + 1) := by ring
        _ ≤ 2 ^ (y.mag / 4503599627370496 - 1) * k2 := Nat.mul_le_mul_left _ hk
    have hp := scaled_pred_ge y hy (by omega)
    have hle : x.scaled % y.scaled ≤ (ofBits (y.mag - 1)).scaled := by omega
    have hc : (ofBits (y.mag - 1)).mag = y.mag - 1 := by
      have := mag_ofBits (y.mag - 1) (by omega) 0
      simpa using this
    have hm := roundMag_mono _ _ 0 hle
      (lt_of_lt_of_le (scaled_lt _ (by rw [hc]; omega))
        (Nat.pow_le_pow_right (by norm_num) (by norm_num)))
    rw [roundMag_scaled _ (by rw [hc]; omega), hc] at hm
    omega

end GoFloat64

namespace GoFloat64

/-- The position in a cycle: for `x` not below zero and `y` above zero,
`math.Mod(x, y) / y`, when the remainder is a number, is not below zero and is below 1. -/
theorem mod_div_range_law (x y : GoFloat64) (hx0 : le (ofBits 0) x) (h0 : lt (ofBits 0) y)
    (hn : (mod x y).isNaN = false) :
    le (ofBits 0) (div (mod x y) y) ∧ lt (div (mod x y) y) (ofBits 4607182418800017408) := by
  obtain ⟨_, hy, hk⟩ := h0
  obtain ⟨_, _, hxk⟩ := hx0
  rw [key_zero] at hk hxk
  obtain ⟨hys, hyk, hym⟩ := key_pos y hk
  have sy := y.sign_le_one
  have hys0 : y.sign = 0 := by omega
  have hone : (ofBits 4607182418800017408).isNaN = false := by decide
  have honek : (ofBits 4607182418800017408).key = 4607182418800017408 := by decide
  unfold mod at hn ⊢
  by_cases c : (x.isNaN || y.isNaN || x.isInf || y.mag == 0) = true
  · rw [if_pos c] at hn
    rw [isNaN_nan] at hn
    exact absurd hn (by decide)
  · rw [if_neg c] at hn ⊢
    have c2 : (x.isNaN || y.isNaN || x.isInf || y.mag == 0) = false := by
      cases hh : (x.isNaN || y.isNaN || x.isInf || y.mag == 0)
      · rfl
      · exact absurd hh c
    simp only [Bool.or_eq_false_iff] at c2
    obtain ⟨⟨⟨x1, _⟩, x2⟩, _⟩ := c2
    have hx := mag_lt_of_finite x x1 x2
    by_cases ci : y.isInf = true
    · rw [if_pos ci]
      unfold div
      simp only [x1, hy, x2, ci, Bool.or_self, Bool.false_eq_true, if_false, if_true]
      refine ⟨⟨isNaN_zero, isNaN_signedZero _, ?_⟩, ⟨isNaN_signedZero _, hone, ?_⟩⟩
      · rw [key_zero, key_signedZero]
      · rw [key_signedZero, honek]
        decide
    · rw [if_neg ci]
      have ci2 : y.isInf = false := by
        cases hh : y.isInf
        · rfl
        · exact absurd hh ci
      have hyf := mag_lt_of_finite y hy ci2
      have hlt := roundMag_mod_lt x y hx hyf (by omega)
      have hmm : (ofScaled (x.sign == 1) (x.scaled % y.scaled) 0).mag
          = roundMag (x.scaled % y.scaled) 0 := mag_ofScaled _ _ _
      have hmf : (ofScaled (x.sign == 1) (x.scaled % y.scaled) 0).mag
          < 2047 * 4503599627370496 := by omega
      have hmi : (ofScaled (x.sign == 1) (x.scaled % y.scaled) 0).isInf = false :=
        isInf_eq_false _ (by omega)
      have hratio := scaled_mul_le_of_mag_lt
        (ofScaled (x.sign == 1) (x.scaled % y.scaled) 0) y hyf (by omega)
      have hb := roundMag_ratio_lt_one _ _ hratio
      unfold div
      simp only [isNaN_ofScaled, hy, hmi, ci2, Bool.or_self, Bool.false_eq_true, if_false]
      have hy0 : ¬ y.mag = 0 := by omega
      rw [if_neg hy0]
      unfold ofRatio
      refine ⟨⟨isNaN_zero, isNaN_ofScaled _ _ _, ?_⟩, ⟨isNaN_ofScaled _ _ _, hone, ?_⟩⟩
      · rw [key_zero, key_ofScaled]
        by_cases hs : ((ofScaled (x.sign == 1) (x.scaled % y.scaled) 0).sign != y.sign) = true
        · rw [if_pos hs]
          have hsx : x.sign = 1 := by
            rw [sign_ofScaled, hys0] at hs
            by_contra hne
            have : (x.sign == 1) = false := by simpa using hne
            rw [this] at hs
            simp at hs
          have hxm : x.mag = 0 := by
            unfold key at hxk
            rw [if_pos hsx] at hxk
            omega
          have hsc := (scaled_eq_zero_iff x).mpr hxm
          have hr0 : x.scaled % y.scaled = 0 := by rw [hsc]; simp
          have hm0 : (ofScaled (x.sign == 1) (x.scaled % y.scaled) 0).mag = 0 := by
            rw [hmm, hr0, roundMag_zero]
          have hs0 := (scaled_eq_zero_iff _).mpr hm0
          rw [hs0]
          simp [roundMag_zero]
        · rw [if_neg hs]
          omega
      · rw [key_ofScaled, honek]
        revert hb
        generalize roundMag _ 2 = R
        intro hb
        by_cases hs : ((ofScaled (x.sign == 1) (x.scaled % y.scaled) 0).sign != y.sign) = true
        · rw [if_pos hs]
          omega
        · rw [if_neg hs]
          omega

end GoFloat64

namespace GoFloat64

/-- Go `float64(n)` of a positive `int` is above zero. -/
theorem ofInt_pos_law (n : Int) (h0 : 0 < n) (h1 : n < 9223372036854775808) :
    lt (ofBits 0) (ofInt n) := by
  obtain ⟨he, hr⟩ := ofInt_rounds n (by norm_num; omega)
  have ht : 0 < (ofInt n).trunc := by
    by_contra hc
    have h2 : ((ofInt n).trunc - n).natAbs = (n - (ofInt n).trunc).toNat := by omega
    have h3 : n.natAbs ≤ ((ofInt n).trunc - n).natAbs := by omega
    have h4 : 0 < n.natAbs := by omega
    have : n.natAbs * 2 ^ 53 ≤ ((ofInt n).trunc - n).natAbs * 2 ^ 53 :=
      Nat.mul_le_mul_right _ h3
    have h5 : n.natAbs * 2 ^ 53 ≤ n.natAbs := le_trans this hr
    have h6 : n.natAbs * 2 ≤ n.natAbs * 2 ^ 53 :=
      Nat.mul_le_mul_left _ (by norm_num)
    omega
  generalize (ofInt n).trunc = t at he ht
  generalize ofInt n = f at he
  obtain ⟨hfin, hval⟩ := he
  have hfm := (isFinite_iff f).mp hfin
  have hs : f.sign ≠ 1 := by
    intro hs
    rw [hs] at hval
    simp only [if_true] at hval
    split_ifs at hval with c
    · have : (0 : Int) ≤ ((f.significand * 2 ^ (f.exponent - 1075) : Nat) : Int) :=
        Int.natCast_nonneg _
      omega
    · have h7 : (0 : Int) ≤ (f.significand : Int) := Int.natCast_nonneg _
      have h8 : 0 < t * ((2 ^ (1075 - f.exponent) : Nat) : Int) :=
        mul_pos ht (by exact_mod_cast Nat.two_pow_pos _)
      omega
  have hm : 0 < f.mag := by
    by_contra hc
    have hm0 : f.mag = 0 := by omega
    have hsc := (scaled_eq_zero_iff f).mpr hm0
    have hsig : f.significand = 0 := by
      unfold scaled at hsc
      rcases Nat.mul_eq_zero.mp hsc with c | c
      · exact c
      · exact absurd c (Nat.pos_iff_ne_zero.mp (Nat.two_pow_pos _))
    rw [hsig] at hval
    simp only [Nat.zero_mul, Nat.cast_zero, neg_zero, ite_self] at hval
    split_ifs at hval with c
    · omega
    · have h8 : 0 < t * ((2 ^ (1075 - f.exponent) : Nat) : Int) :=
        mul_pos ht (by exact_mod_cast Nat.two_pow_pos _)
      omega
  refine ⟨isNaN_zero, isNaN_eq_false f (by omega), ?_⟩
  rw [key_zero]
  unfold key
  rw [if_neg hs]
  exact_mod_cast hm

end GoFloat64

namespace GoFloat64

/-- Addition on `float64` is monotone in its second argument, where it gives numbers. -/
theorem add_le_add_law (x a b : GoFloat64) (hab : le a b) (h1 : (add x a).isNaN = false)
    (h2 : (add x b).isNaN = false) : le (add x a) (add x b) := by
  obtain ⟨han, hbn, hk⟩ := hab
  refine ⟨h1, h2, ?_⟩
  have hxn : x.isNaN = false := by
    cases hx : x.isNaN
    · rfl
    · unfold add at h1
      simp only [hx, Bool.true_or, if_true] at h1
      rw [isNaN_nan] at h1
      exact absurd h1 (by decide)
  have ha_le := mag_le_of_not_nan a han
  have hb_le := mag_le_of_not_nan b hbn
  have ka := key_abs_le a
  have kb := key_abs_le b
  by_cases cx : x.isInf = true
  · have e1 : add x a = x := by
      unfold add at h1 ⊢
      simp only [hxn, han, Bool.or_self, Bool.false_eq_true, if_false, cx, if_true] at h1 ⊢
      by_cases c : (a.isInf && x.sign != a.sign) = true
      · rw [if_pos c] at h1
        rw [isNaN_nan] at h1
        exact absurd h1 (by decide)
      · rw [if_neg c]
    have e2 : add x b = x := by
      unfold add at h2 ⊢
      simp only [hxn, hbn, Bool.or_self, Bool.false_eq_true, if_false, cx, if_true] at h2 ⊢
      by_cases c : (b.isInf && x.sign != b.sign) = true
      · rw [if_pos c] at h2
        rw [isNaN_nan] at h2
        exact absurd h2 (by decide)
      · rw [if_neg c]
    rw [e1, e2]
  · have cx2 : x.isInf = false := by
      cases hh : x.isInf
      · rfl
      · exact absurd hh cx
    have hxf := mag_lt_of_finite x hxn cx2
    by_cases ca : a.isInf = true
    · have e1 : add x a = a := by
        unfold add
        simp only [hxn, han, Bool.or_self, Bool.false_eq_true, if_false, cx2, ca, if_true]
      rw [e1]
      by_cases cb : b.isInf = true
      · have e2 : add x b = b := by
          unfold add
          simp only [hxn, hbn, Bool.or_self, Bool.false_eq_true, if_false, cx2, cb, if_true]
        rw [e2]
        exact hk
      · have cb2 : b.isInf = false := by
          cases hh : b.isInf
          · rfl
          · exact absurd hh cb
        have hbf := mag_lt_of_finite b hbn cb2
        have hM := (isInf_iff a).mp ca
        have hkk := key_abs_le (add x b)
        have hmm := mag_le_of_not_nan _ h2
        have hak : a.key = -(a.mag : Int) := by
          unfold key at hk ⊢
          by_cases hs : a.sign = 1
          · rw [if_pos hs]
          · rw [if_neg hs] at hk
            omega
        omega
    · have ca2 : a.isInf = false := by
        cases hh : a.isInf
        · rfl
        · exact absurd hh ca
      have haf := mag_lt_of_finite a han ca2
      by_cases cb : b.isInf = true
      · have e2 : add x b = b := by
          unfold add
          simp only [hxn, hbn, Bool.or_self, Bool.false_eq_true, if_false, cx2, cb, if_true]
        rw [e2]
        have hM := (isInf_iff b).mp cb
        have hkk := key_abs_le (add x a)
        have hmm := mag_le_of_not_nan _ h1
        have hbk : b.key = (b.mag : Int) := by
          unfold key at hk ⊢
          by_cases hs : b.sign = 1
          · rw [if_pos hs] at hk
            omega
          · rw [if_neg hs]
        omega
      · have cb2 : b.isInf = false := by
          cases hh : b.isInf
          · rfl
          · exact absurd hh cb
        have hbf := mag_lt_of_finite b hbn cb2
        rw [(add_finite x a hxf haf).2, (add_finite x b hxf hbf).2]
        have hss := (key_le_iff a b haf hbf).mp hk
        have n1 := signedScaled_natAbs_lt x hxf
        have n2 := signedScaled_natAbs_lt a haf
        have n3 := signedScaled_natAbs_lt b hbf
        have hbig := two_pow_2100_add
        apply roundKey_mono _ _ (by omega)
        · have := Int.natAbs_add_le x.signedScaled a.signedScaled
          omega
        · have := Int.natAbs_add_le x.signedScaled b.signedScaled
          omega

/-- Go `x - y` is `x + (-y)`. -/
theorem sub_eq_add_neg_law (x y : GoFloat64) : sub x y = add x y.neg := rfl

end GoFloat64

namespace GoFloat64

/-- Rounding `n * 2^k / 2^(t + k)` is rounding `n / 2^t`. -/
theorem roundShift_shift (n t k : Nat) : roundShift (n * 2 ^ k) (t + k) = roundShift n t := by
  by_cases ht : t = 0
  · rw [ht, Nat.zero_add, roundShift_mul]
    unfold roundShift
    rw [if_pos rfl]
  · unfold roundShift
    rw [if_neg ht, if_neg (by omega)]
    dsimp only
    have hP : 0 < 2 ^ k := Nat.two_pow_pos k
    have e1 : n * 2 ^ k / 2 ^ (t + k) = n / 2 ^ t := by
      rw [pow_add]
      exact Nat.mul_div_mul_right _ _ hP
    have e2 : n * 2 ^ k % 2 ^ (t + k) = n % 2 ^ t * 2 ^ k := by
      rw [pow_add]
      exact Nat.mul_mod_mul_right _ _ _
    have e3 : 2 ^ (t + k - 1) = 2 ^ (t - 1) * 2 ^ k := by
      rw [← pow_add]
      congr 1
      omega
    rw [e1, e2, e3]
    have c1 : 2 ^ (t - 1) * 2 ^ k < n % 2 ^ t * 2 ^ k ↔ 2 ^ (t - 1) < n % 2 ^ t :=
      Nat.mul_lt_mul_right hP
    have c2 : n % 2 ^ t * 2 ^ k = 2 ^ (t - 1) * 2 ^ k ↔ n % 2 ^ t = 2 ^ (t - 1) :=
      Nat.mul_left_inj (by omega)
    simp only [c1, c2]

/-- The float nearest to `n * 2^k * 2^(-1074-k)` is the float nearest to `n * 2^-1074`. -/
theorem roundMag_shift (n k : Nat) (hn : n * 2 ^ k < 2 ^ 8192) :
    roundMag (n * 2 ^ k) k = roundMag n 0 := by
  rcases Nat.eq_zero_or_pos n with h0 | h0
  · rw [h0, Nat.zero_mul, roundMag_zero, roundMag_zero]
  · have hP : 0 < 2 ^ k := Nat.two_pow_pos k
    have hn2 : n < 2 ^ 8192 := lt_of_le_of_lt (Nat.le_mul_of_pos_right n hP) hn
    obtain ⟨s1, s2⟩ := bitLog2_spec n h0 hn2
    have hb : bitLog2 (n * 2 ^ k) = bitLog2 n + k := by
      apply bitLog2_eq _ _ _ _ hn
      · rw [pow_add]
        exact Nat.mul_le_mul_right _ s1
      · rw [show bitLog2 n + k + 1 = (bitLog2 n + 1) + k by omega, pow_add]
        exact Nat.mul_lt_mul_of_pos_right s2 hP
    unfold roundMag
    dsimp only
    rw [hb]
    have et : max (bitLog2 n + k - 52) k = max (bitLog2 n - 52) 0 + k := by omega
    rw [et, roundShift_shift]
    have e2 : max (bitLog2 n - 52) 0 + k - k = max (bitLog2 n - 52) 0 - 0 := by omega
    rw [e2]

end GoFloat64

namespace GoFloat64

/-- A float whose place in the order is not negative is at the place of its magnitude; it
has the sign bit set only when it is the negative zero. -/
theorem key_nonneg_eq (f : GoFloat64) (h : 0 ≤ f.key) :
    f.key = (f.mag : Int) ∧ (f.sign = 1 → f.mag = 0) := by
  unfold key at h ⊢
  by_cases hs : f.sign = 1
  · rw [if_pos hs] at h ⊢
    constructor
    · omega
    · intro _
      omega
  · rw [if_neg hs]
    exact ⟨rfl, fun c => absurd c hs⟩

/-- The magnitude of a float is the distance of its place in the order from zero. -/
theorem mag_le_of_key (f : GoFloat64) (M : Nat) (h1 : -(M : Int) ≤ f.key)
    (h2 : f.key ≤ (M : Int)) : f.mag ≤ M := by
  unfold key at h1 h2
  by_cases hs : f.sign = 1
  · rw [if_pos hs] at h1
    omega
  · rw [if_neg hs] at h2
    omega

/-- The place of an infinity in the order. -/
theorem key_inf (negative : Bool) :
    (inf negative).isNaN = false ∧
    (inf negative).key = if negative = true then -9218868437227405312 else 9218868437227405312 := by
  cases negative <;> decide

/-- The magnitude of 1.0 in units of `2^-1074`. -/
theorem scaled_one : (ofBits 4607182418800017408).scaled = 2 ^ 1074 := by decide!

/-- The magnitude of 2.0 in units of `2^-1074`. -/
theorem scaled_two : (ofBits 4611686018427387904).scaled = 2 ^ 1075 := by decide!

/-- The product of a float by a number between -1 and 1 is no larger in magnitude than the
float. -/
theorem roundMag_mul_unit (a b : GoFloat64) (ha : a.mag ≤ 4607182418800017408)
    (hb : b.mag < 2047 * 4503599627370496) :
    roundMag (a.scaled * b.scaled) 1074 ≤ b.mag := by
  have h1 : (ofBits 4607182418800017408).mag = 4607182418800017408 := by decide
  have hs : a.scaled ≤ 2 ^ 1074 := by
    rw [← scaled_one]
    exact scaled_le_of_mag_le a _ (by omega) (by rw [h1]; norm_num) (by rw [h1]; exact ha)
  have hbl := scaled_lt b hb
  have hle : a.scaled * b.scaled ≤ b.scaled * 2 ^ 1074 := by
    rw [Nat.mul_comm]
    exact Nat.mul_le_mul_left _ hs
  have hbig : b.scaled * 2 ^ 1074 < 2 ^ 8192 := by
    calc b.scaled * 2 ^ 1074 < 2 ^ 2100 * 2 ^ 1074 :=
          Nat.mul_lt_mul_of_pos_right hbl (Nat.two_pow_pos _)
      _ = 2 ^ 3174 := by rw [← pow_add]
      _ ≤ 2 ^ 8192 := Nat.pow_le_pow_right (by norm_num) (by norm_num)
  have hm := roundMag_mono _ _ 1074 hle hbig
  rw [roundMag_shift _ _ hbig, roundMag_scaled b hb] at hm
  exact hm

/-- The product of a number that is not negative by a factor between -1 and 1, when it is
a number, lies between the number and its opposite. -/
theorem mul_unit_law (a b : GoFloat64) (h1 : le (ofBits 4607182418800017408).neg a)
    (h2 : le a (ofBits 4607182418800017408)) (hb : le (ofBits 0) b)
    (hn : (mul a b).isNaN = false) :
    le b.neg (mul a b) ∧ le (mul a b) b := by
  obtain ⟨_, han, hk1⟩ := h1
  obtain ⟨_, _, hk2⟩ := h2
  obtain ⟨_, hbn, hbk⟩ := hb
  rw [key_zero] at hbk
  rw [key_neg] at hk1
  have honek : (ofBits 4607182418800017408).key = 4607182418800017408 := by decide
  rw [honek] at hk1 hk2
  have ham : a.mag ≤ 4607182418800017408 := mag_le_of_key a 4607182418800017408 hk1 hk2
  obtain ⟨hbkm, _⟩ := key_nonneg_eq b hbk
  have hai : a.isInf = false := isInf_eq_false a (by omega)
  have hbnn : b.neg.isNaN = false := by rw [isNaN_neg]; exact hbn
  have hble := mag_le_of_not_nan b hbn
  refine ⟨⟨hbnn, hn, ?_⟩, ⟨hn, hbn, ?_⟩⟩
  · rw [key_neg, hbkm]
    unfold mul at hn ⊢
    simp only [han, hbn, hai, Bool.or_self, Bool.false_eq_true, if_false, Bool.false_or]
      at hn ⊢
    by_cases cb : b.isInf = true
    · rw [if_pos cb] at hn ⊢
      by_cases cz : a.mag = 0 ∨ b.mag = 0
      · rw [if_pos cz, isNaN_nan] at hn
        exact absurd hn (by decide)
      · rw [if_neg cz, (key_inf _).2]
        have := (isInf_iff b).mp cb
        split_ifs <;> omega
    · rw [if_neg cb]
      have cb2 : b.isInf = false := by
        cases hh : b.isInf
        · rfl
        · exact absurd hh cb
      have hbf := mag_lt_of_finite b hbn cb2
      have hr := roundMag_mul_unit a b ham hbf
      rw [key_ofScaled]
      split_ifs <;> omega
  · rw [hbkm]
    unfold mul at hn ⊢
    simp only [han, hbn, hai, Bool.or_self, Bool.false_eq_true, if_false, Bool.false_or]
      at hn ⊢
    by_cases cb : b.isInf = true
    · rw [if_pos cb] at hn ⊢
      by_cases cz : a.mag = 0 ∨ b.mag = 0
      · rw [if_pos cz, isNaN_nan] at hn
        exact absurd hn (by decide)
      · rw [if_neg cz, (key_inf _).2]
        have := (isInf_iff b).mp cb
        split_ifs <;> omega
    · rw [if_neg cb]
      have cb2 : b.isInf = false := by
        cases hh : b.isInf
        · rfl
        · exact absurd hh cb
      have hbf := mag_lt_of_finite b hbn cb2
      have hr := roundMag_mul_unit a b ham hbf
      rw [key_ofScaled]
      split_ifs <;> omega

end GoFloat64

namespace GoFloat64

/-- The product of two numbers that are not negative, when it is a number, is not
negative. -/
theorem mul_nonneg_law (a b : GoFloat64) (ha : le (ofBits 0) a) (hb : le (ofBits 0) b)
    (hn : (mul a b).isNaN = false) : le (ofBits 0) (mul a b) := by
  obtain ⟨_, han, hak⟩ := ha
  obtain ⟨_, hbn, hbk⟩ := hb
  rw [key_zero] at hak hbk
  obtain ⟨_, has⟩ := key_nonneg_eq a hak
  obtain ⟨_, hbs⟩ := key_nonneg_eq b hbk
  have sa := a.sign_le_one
  have sb := b.sign_le_one
  refine ⟨isNaN_zero, hn, ?_⟩
  rw [key_zero]
  unfold mul at hn ⊢
  simp only [han, hbn, Bool.or_self, Bool.false_eq_true, if_false] at hn ⊢
  by_cases ci : (a.isInf || b.isInf) = true
  · rw [if_pos ci] at hn ⊢
    by_cases cz : a.mag = 0 ∨ b.mag = 0
    · rw [if_pos cz, isNaN_nan] at hn
      exact absurd hn (by decide)
    · rw [if_neg cz, (key_inf _).2]
      push_neg at cz
      have h1 : a.sign = 0 := by
        by_contra hc
        exact cz.1 (has (by omega))
      have h2 : b.sign = 0 := by
        by_contra hc
        exact cz.2 (hbs (by omega))
      rw [h1, h2]
      decide
  · rw [if_neg ci, key_ofScaled]
    by_cases hs : (a.sign != b.sign) = true
    · rw [if_pos hs]
      have hz : a.scaled * b.scaled = 0 := by
        simp only [bne_iff_ne, ne_eq] at hs
        by_cases h1 : a.sign = 1
        · rw [(scaled_eq_zero_iff a).mpr (has h1), Nat.zero_mul]
        · have h2 : b.sign = 1 := by omega
          rw [(scaled_eq_zero_iff b).mpr (hbs h2), Nat.mul_zero]
      rw [hz, roundMag_zero]
      simp
    · rw [if_neg hs]
      omega

/-- A draw `u` of the generator, not below 0 and below 1: `u * 2.0 - 1.0` lies between -1
and 1. -/
theorem draw_unit_law (u : GoFloat64) (h0 : le (ofBits 0) u)
    (h1 : lt u (ofBits 4607182418800017408)) :
    le (ofBits 4607182418800017408).neg
      (sub (mul u (ofBits 4611686018427387904)) (ofBits 4607182418800017408)) ∧
    le (sub (mul u (ofBits 4611686018427387904)) (ofBits 4607182418800017408))
      (ofBits 4607182418800017408) := by
  obtain ⟨_, hun, huk⟩ := h0
  obtain ⟨_, _, huk1⟩ := h1
  rw [key_zero] at huk
  have honek : (ofBits 4607182418800017408).key = 4607182418800017408 := by decide
  have honem : (ofBits 4607182418800017408).mag = 4607182418800017408 := by decide
  have hones : (ofBits 4607182418800017408).sign = 0 := by decide
  have htwom : (ofBits 4611686018427387904).mag = 4611686018427387904 := by decide
  have htwos : (ofBits 4611686018427387904).sign = 0 := by decide
  have htwon : (ofBits 4611686018427387904).isNaN = false := by decide
  have htwoi : (ofBits 4611686018427387904).isInf = false := by decide
  rw [honek] at huk1
  obtain ⟨hukm, hus⟩ := key_nonneg_eq u huk
  have hum : u.mag < 4607182418800017408 := by omega
  have hui : u.isInf = false := isInf_eq_false u (by omega)
  have su := u.sign_le_one
  -- the product `u * 2.0`
  have hm : mul u (ofBits 4611686018427387904)
      = ofScaled (u.sign != 0) (u.scaled * 2 ^ 1075) 1074 := by
    unfold mul
    simp only [hun, htwon, hui, htwoi, Bool.or_self, Bool.false_eq_true, if_false, htwos,
      scaled_two]
  have hus1 : u.scaled ≤ 2 ^ 1074 := by
    rw [← scaled_one]
    exact scaled_le_of_mag_le u _ (by omega) (by rw [honem]; norm_num) (by rw [honem]; omega)
  have hmm : (ofScaled (u.sign != 0) (u.scaled * 2 ^ 1075) 1074).mag
      ≤ 4611686018427387904 := by
    rw [mag_ofScaled]
    have e : u.scaled * 2 ^ 1075 = (u.scaled * 2) * 2 ^ 1074 := by
      rw [show (2 : Nat) ^ 1075 = 2 * 2 ^ 1074 by rw [← pow_succ']]
      ring
    have hbig : (2 ^ 1074 * 2) * 2 ^ 1074 < 2 ^ 8192 := by
      calc (2 ^ 1074 * 2) * 2 ^ 1074 = 2 ^ 2149 := by
            rw [← pow_succ, ← pow_add]
        _ < 2 ^ 8192 := Nat.pow_lt_pow_right (by norm_num) (by norm_num)
    have hle : (u.scaled * 2) * 2 ^ 1074 ≤ (2 ^ 1074 * 2) * 2 ^ 1074 :=
      Nat.mul_le_mul_right _ (Nat.mul_le_mul_right _ hus1)
    rw [e]
    have h3 := roundMag_mono _ _ 1074 hle hbig
    rw [roundMag_shift _ _ hbig] at h3
    have h4 : roundMag (2 ^ 1074 * 2) 0 = 4611686018427387904 := by decide!
    omega
  generalize hM : ofScaled (u.sign != 0) (u.scaled * 2 ^ 1075) 1074 = m at hm hmm
  have hmf : m.mag < 2047 * 4503599627370496 := by omega
  have hms : m.scaled ≤ 2 ^ 1075 := by
    rw [← scaled_two]
    exact scaled_le_of_mag_le m _ hmf (by rw [htwom]; norm_num) (by rw [htwom]; exact hmm)
  have hmss : 0 ≤ m.signedScaled ∧ m.signedScaled ≤ (2 : Int) ^ 1075 := by
    unfold signedScaled
    by_cases hs : m.sign = 1
    · rw [if_pos hs]
      have hu1 : u.sign = 1 := by
        rw [← hM, sign_ofScaled] at hs
        by_contra hc
        have : (u.sign != 0) = false := by
          simp only [bne_eq_false_iff_eq]
          omega
        rw [this] at hs
        simp at hs
      have hu0 := (scaled_eq_zero_iff u).mpr (hus hu1)
      have hm0 : m.mag = 0 := by
        rw [← hM, mag_ofScaled, hu0, Nat.zero_mul, roundMag_zero]
      have := (scaled_eq_zero_iff m).mpr hm0
      rw [this]
      constructor
      · simp
      · simp
    · rw [if_neg hs]
      constructor
      · exact Int.natCast_nonneg _
      · exact_mod_cast hms
  have honef : (ofBits 4607182418800017408).mag < 2047 * 4503599627370496 := by
    rw [honem]; norm_num
  have hnegf : (ofBits 4607182418800017408).neg.mag < 2047 * 4503599627370496 := by
    rw [mag_neg]; exact honef
  have hss1 : (ofBits 4607182418800017408).signedScaled = (2 : Int) ^ 1074 := by
    unfold signedScaled
    rw [hones, scaled_one]
    simp
  rw [hm]
  unfold sub
  obtain ⟨hsn, hsk⟩ := add_finite m (ofBits 4607182418800017408).neg hmf hnegf
  rw [signedScaled_neg, hss1] at hsk
  have hb1 : ((m.signedScaled + -(2 : Int) ^ 1074).natAbs : Nat) < 2 ^ 8192 := by
    have h5 : (m.signedScaled + -(2 : Int) ^ 1074).natAbs ≤ 2 ^ 1074 := by
      have e : (2 : Int) ^ 1075 = 2 * 2 ^ 1074 := by rw [← pow_succ']
      have p : (0 : Int) < 2 ^ 1074 := by positivity
      have c : (((2 : Nat) ^ 1074 : Nat) : Int) = (2 : Int) ^ 1074 := by push_cast; rfl
      omega
    exact lt_of_le_of_lt h5 (Nat.pow_lt_pow_right (by norm_num) (by norm_num))
  have hb2 : (((2 : Int) ^ 1074).natAbs : Nat) < 2 ^ 8192 := by
    have : ((2 : Int) ^ 1074).natAbs = 2 ^ 1074 := by
      rw [Int.natAbs_pow]
      rfl
    rw [this]
    exact Nat.pow_lt_pow_right (by norm_num) (by norm_num)
  have hb3 : ((-(2 : Int) ^ 1074).natAbs : Nat) < 2 ^ 8192 := by
    rw [Int.natAbs_neg]
    exact hb2
  have hup := roundKey_mono (m.signedScaled + -(2 : Int) ^ 1074) ((2 : Int) ^ 1074)
    (by
      have e : (2 : Int) ^ 1075 = 2 * 2 ^ 1074 := by rw [← pow_succ']
      omega) hb1 hb2
  have hlo := roundKey_mono (-(2 : Int) ^ 1074) (m.signedScaled + -(2 : Int) ^ 1074)
    (by omega) hb3 hb1
  have hk1 := roundKey_signedScaled (ofBits 4607182418800017408) honef
  rw [hss1] at hk1
  have hk2 := roundKey_signedScaled (ofBits 4607182418800017408).neg hnegf
  rw [signedScaled_neg, hss1] at hk2
  have hnn : (ofBits 4607182418800017408).neg.isNaN = false := by decide
  have hon : (ofBits 4607182418800017408).isNaN = false := by decide
  refine ⟨⟨hnn, hsn, ?_⟩, ⟨hsn, hon, ?_⟩⟩
  · rw [hsk, ← hk2]
    exact hlo
  · rw [hsk, ← hk1]
    exact hup

end GoFloat64

/-- The rounded operations of IEEE 754 satisfy the laws of `Float64Arith.RoundingLaws`. -/
theorem Float64Arith.ieee_roundingLaws (m : MathFns GoFloat64) (cvt : GoFloat64 → Int) :
    @Float64Arith.RoundingLaws GoFloat64 (Float64Arith.ieee m cvt)
      (fun x => x.isNaN = true) := by
  letI := Float64Arith.ieee m cvt
  have hb : ∀ x : GoFloat64, ¬ x.isNaN = true → x.isNaN = false := by
    intro x h
    cases hx : x.isNaN
    · rfl
    · exact absurd hx h
  have hz : GoFloat64.ofRat ((0 : Nat) : ℚ) = GoFloat64.ofBits 0 := by
    decide!
  have h1e : GoFloat64.ofRat 1.0 = GoFloat64.ofBits 4607182418800017408 := by
    decide!
  have h2e : GoFloat64.ofRat 2.0 = GoFloat64.ofBits 4611686018427387904 := by
    decide!
  refine ⟨?_, ?_, ?_, ?_, ?_, ?_, ?_, ?_, ?_, ?_, ?_, ?_, ?_, ?_, ?_, ?_, ?_⟩
  · intro x y h0 hn
    have h1 : GoFloat64.lt (GoFloat64.ofRat ((0 : Nat) : ℚ)) y := h0
    rw [hz] at h1
    exact GoFloat64.mod_le_law x y h1 (hb _ hn)
  · intro x y h0 hr
    have h1 : GoFloat64.lt (GoFloat64.ofRat ((0 : Nat) : ℚ)) y := h0
    have h2 : GoFloat64.lt (GoFloat64.mod x y) (GoFloat64.ofRat ((0 : Nat) : ℚ)) := hr
    rw [hz] at h1 h2
    have := GoFloat64.mod_wrap_law x y h1 h2
    rw [← hz] at this
    exact this
  · intro a b h
    have h1 : GoFloat64.lt a b := h
    have := GoFloat64.sub_pos_law a b h1
    rw [← hz] at this
    exact this
  · intro x p hp
    have h1 : GoFloat64.lt (GoFloat64.ofRat ((0 : Nat) : ℚ)) p := hp
    rw [hz] at h1
    exact GoFloat64.sub_self_law x p h1
  · intro a b h1 h2
    have h3 : GoFloat64.le (GoFloat64.ofRat ((0 : Nat) : ℚ)) a := h1
    have h4 : GoFloat64.lt (GoFloat64.ofRat ((0 : Nat) : ℚ)) b := h2
    rw [hz] at h3 h4
    have := GoFloat64.div_nonneg_law a b h3 h4
    rw [← hz] at this
    exact this
  · intro c z h1 h2 hn
    have h3 : GoFloat64.le (GoFloat64.ofRat ((0 : Nat) : ℚ)) z := h1
    have h4 : GoFloat64.le z (GoFloat64.ofRat ((0 : Nat) : ℚ)) := h2
    rw [hz] at h3 h4
    have := GoFloat64.mul_zero_law c z h3 h4 (hb _ hn)
    rw [← hz] at this
    exact this
  · intro x z hx h1 h2
    have h3 : GoFloat64.le (GoFloat64.ofRat ((0 : Nat) : ℚ)) z := h1
    have h4 : GoFloat64.le z (GoFloat64.ofRat ((0 : Nat) : ℚ)) := h2
    rw [hz] at h3 h4
    exact GoFloat64.add_zero_law x z (hb _ hx) h3 h4
  · intro q h0 h1
    have hL : GoFloat64.ofRat ((9223372036854775808 : Nat) : ℚ)
        = GoFloat64.ofBits 4890909195324358656 := by
      decide!
    have h3 : GoFloat64.le (GoFloat64.ofRat ((0 : Nat) : ℚ)) q := h0
    have h4 : GoFloat64.lt q (GoFloat64.ofRat ((9223372036854775808 : Nat) : ℚ)) := h1
    rw [hz] at h3
    rw [hL] at h4
    exact GoFloat64.toInt_nonneg_law cvt q h3 h4
  · have h1 : GoFloat64.le (GoFloat64.ofRat ((0 : Nat) : ℚ))
        (GoFloat64.add (GoFloat64.ofInt (Int.tdiv 0 1000000000))
          (GoFloat64.div (GoFloat64.ofInt (Int.tmod 0 1000000000)) (GoFloat64.ofRat 1e9))) := by
      decide!
    have h2 : GoFloat64.le
        (GoFloat64.add (GoFloat64.ofInt (Int.tdiv 0 1000000000))
          (GoFloat64.div (GoFloat64.ofInt (Int.tmod 0 1000000000)) (GoFloat64.ofRat 1e9)))
        (GoFloat64.ofRat ((0 : Nat) : ℚ)) := by
      decide!
    exact ⟨h1, h2⟩
  · have h1 : GoFloat64.lt (GoFloat64.ofRat ((0 : Nat) : ℚ)) (GoFloat64.ofRat 360.0) := by
      decide!
    exact h1
  · intro x y h0 h1 hn
    have h3 : GoFloat64.le (GoFloat64.ofRat ((0 : Nat) : ℚ)) x := h0
    have h4 : GoFloat64.lt (GoFloat64.ofRat ((0 : Nat) : ℚ)) y := h1
    rw [hz] at h3 h4
    have := GoFloat64.mod_div_range_law x y h3 h4 (hb _ hn)
    rw [← hz, ← h1e] at this
    exact this
  · intro n h0 h1
    have := GoFloat64.ofInt_pos_law n h0 h1
    rw [← hz] at this
    exact this
  · intro x y
    exact GoFloat64.sub_eq_add_neg_law x y
  · intro x a b h hn1 hn2
    have h3 : GoFloat64.le a b := h
    exact GoFloat64.add_le_add_law x a b h3 (hb _ hn1) (hb _ hn2)
  · intro a b h0 h1 hn
    have h3 : GoFloat64.le (GoFloat64.ofRat ((0 : Nat) : ℚ)) a := h0
    have h4 : GoFloat64.le (GoFloat64.ofRat ((0 : Nat) : ℚ)) b := h1
    rw [hz] at h3 h4
    have := GoFloat64.mul_nonneg_law a b h3 h4 (hb _ hn)
    rw [← hz] at this
    exact this
  · intro a b h0 h1 h2 hn
    have h3 : GoFloat64.le (GoFloat64.ofRat 1.0).neg a := h0
    have h4 : GoFloat64.le a (GoFloat64.ofRat 1.0) := h1
    have h5 : GoFloat64.le (GoFloat64.ofRat ((0 : Nat) : ℚ)) b := h2
    rw [h1e] at h3 h4
    rw [hz] at h5
    exact GoFloat64.mul_unit_law a b h3 h4 h5 (hb _ hn)
  · intro u h0 h1
    have h3 : GoFloat64.le (GoFloat64.ofRat ((0 : Nat) : ℚ)) u := h0
    have h4 : GoFloat64.lt u (GoFloat64.ofRat 1.0) := h1
    rw [hz] at h3
    rw [h1e] at h4
    have := GoFloat64.draw_unit_law u h3 h4
    rw [← h1e, ← h2e] at this
    exact this

/-! ## The clamped models in every arithmetic with ordered comparisons -/

/-- The two clamping steps `if x < lo { x = lo }; if x > hi { x = hi }`, for comparisons
that satisfy the laws of `float64`: with `lo ≤ hi`, a NaN is left as it is, and every other
value ends between `lo` and `hi`. -/
theorem clamp_range_or_nan {F : Type} [Float64Arith F] (nan : F → Prop)
    (laws : Float64Arith.OrderLaws F nan) (lo hi x : F) (h : lo ≤ hi) :
    (nan x ∧
      (if (if x < lo then lo else x) > hi then hi else (if x < lo then lo else x)) = x) ∨
    (lo ≤ (if (if x < lo then lo else x) > hi then hi else (if x < lo then lo else x)) ∧
      (if (if x < lo then lo else x) > hi then hi else (if x < lo then lo else x)) ≤ hi) := by
  obtain ⟨hlo, hhi⟩ := laws.le_not_nan lo hi h
  by_cases hx : nan x
  · left
    have h1 : ¬ x < lo := fun hh => (laws.lt_not_nan x lo hh).1 hx
    have h2 : ¬ x > hi := fun hh => (laws.lt_not_nan hi x hh).2 hx
    exact ⟨hx, by rw [if_neg h1, if_neg h2]⟩
  · right
    by_cases h1 : x < lo
    · rw [if_pos h1]
      have h2 : ¬ lo > hi := laws.not_lt_of_le lo hi h
      rw [if_neg h2]
      exact ⟨laws.le_refl lo hlo, h⟩
    · rw [if_neg h1]
      by_cases h2 : x > hi
      · rw [if_pos h2]
        exact ⟨h, laws.le_refl hi hhi⟩
      · rw [if_neg h2]
        exact ⟨laws.le_of_not_lt x lo hx hlo h1, laws.le_of_not_lt hi x hhi hx h2⟩

namespace sensors

/-- The value an enabled sensor of one of the six clamped models returns, and the value a
pressure sensor returns, enabled or not, for every reading of the arithmetic whose
comparisons satisfy the laws of `float64`: with min at most max, it is a NaN or lies between
min and max (for the integer actuator: it is the `float64` of an integer between min and
max). -/
theorem sensor_update_inRangeOrNaN {F : Type} [Float64Arith F] (nan : F → Prop)
    (laws : Float64Arith.OrderLaws F nan) (s : Sensor F) (dt : Duration) (g : GoRand F)
    (h : s.rangeOrdered) (he : s.IsEnabled = true ∨ ∃ p, s = Sensor.pressure p) :
    ∃ v s1 g1, s.Update dt g = some (v, s1, g1) ∧ s.inRangeOrNaN nan v := by
  have key : ∀ (lo hi x : F), lo ≤ hi →
      nan (if (if x < lo then lo else x) > hi then hi else (if x < lo then lo else x)) ∨
      (lo ≤ (if (if x < lo then lo else x) > hi then hi else (if x < lo then lo else x)) ∧
        (if (if x < lo then lo else x) > hi then hi else (if x < lo then lo else x)) ≤ hi) := by
    intro lo hi x hh
    rcases clamp_range_or_nan nan laws lo hi x hh with h1 | h1
    · left
      rw [h1.2]
      exact h1.1
    · right
      exact h1
  cases s with
  | temperature t =>
    have he2 : t.BaseSensor.IsEnabled = true := by
      rcases he with he | ⟨p, hp⟩
      · exact he
      · cases hp
    refine ⟨_, _, _, rfl, ?_⟩
    show nan (t.Update dt).1 ∨ (t.MinValue ≤ (t.Update dt).1 ∧ (t.Update dt).1 ≤ t.MaxValue)
    unfold TemperatureSensor.Update
    simp only [he2, Bool.not_true, Bool.false_eq_true, if_false]
    exact key _ _ _ h
  | pressure p =>
    refine ⟨_, _, _, rfl, ?_⟩
    show nan (p.Update dt).1 ∨
      (p.MinPressure ≤ (p.Update dt).1 ∧ (p.Update dt).1 ≤ p.MaxPressure)
    have hh : p.MinPressure ≤ p.MaxPressure := h
    unfold PressureSensor.Update
    cases he3 : p.BaseSensor.IsEnabled
    · simp only [Bool.not_false, if_true]
      exact Or.inr ⟨laws.le_refl _ (laws.le_not_nan _ _ hh).1, hh⟩
    · simp only [Bool.not_true, Bool.false_eq_true, if_false]
      exact key _ _ _ hh
  | random t =>
    have he2 : t.BaseSensor.IsEnabled = true := by
      rcases he with he | ⟨p, hp⟩
      · exact he
      · cases hp
    refine ⟨_, _, _, rfl, ?_⟩
    show nan (t.Update dt).1 ∨ (t.MinValue ≤ (t.Update dt).1 ∧ (t.Update dt).1 ≤ t.MaxValue)
    rw [(random_update_enabled t dt he2).1]
    exact key _ _ _ h
  | vibration t =>
    have he2 : t.BaseSensor.IsEnabled = true := by
      rcases he with he | ⟨p, hp⟩
      · exact he
      · cases hp
    refine ⟨_, _, _, rfl, ?_⟩
    show nan (t.Update dt g).1 ∨
      (t.MinValue ≤ (t.Update dt g).1 ∧ (t.Update dt g).1 ≤ t.MaxValue)
    unfold VibrationSensor.Update
    simp only [he2, Bool.not_true, Bool.false_eq_true, if_false,
      apply_ite VibrationSensor.MinValue, apply_ite VibrationSensor.MaxValue, ite_self]
    exact key _ _ _ h
  | noise t =>
    have he2 : t.BaseSensor.IsEnabled = true := by
      rcases he with he | ⟨p, hp⟩
      · exact he
      · cases hp
    refine ⟨_, _, _, rfl, ?_⟩
    show nan (t.Update dt g).1 ∨
      (t.MinValue ≤ (t.Update dt g).1 ∧ (t.Update dt g).1 ≤ t.MaxValue)
    unfold NoiseSensor.Update
    simp only [he2, Bool.not_true, Bool.false_eq_true, if_false,
      apply_ite NoiseSensor.MinValue, apply_ite NoiseSensor.MaxValue, ite_self]
    exact key _ _ _ h
  | integer t =>
    have he2 : t.BaseSensor.IsEnabled = true := by
      rcases he with he | ⟨p, hp⟩
      · exact he
      · cases hp
    have hh : t.MinValue ≤ t.MaxValue := h
    refine ⟨_, _, _, rfl, ?_⟩
    show ∃ n : Int, (t.Update dt).1 = Float64Arith.ofInt n ∧ t.MinValue ≤ n ∧ n ≤ t.MaxValue
    refine ⟨_, (integer_update_enabled t dt he2).2, ?_⟩
    rw [clampInt_eq _ _ _ hh]
    exact ⟨le_max_left _ _, max_le hh (min_le_left _ _)⟩
  | sine t => exact absurd h id
  | digital t => exact absurd h id
  | relay t => exact absurd h id
  | stepMotor t => exact absurd h id
  | servoMotor t => exact absurd h id

end sensors

namespace sensors

/-- C14, amended. For every reading of the arithmetic whose comparisons satisfy the laws
of `float64`, the six models that clamp their value and every state of them with
min ≤ max: `Update` on an enabled model, and on a pressure sensor enabled or not, returns a
NaN or a value between min and max (the integer actuator: the `float64` of an integer
between min and max). -/
theorem update_in_range_or_nan {F : Type} [Float64Arith F] (nan : F → Prop)
    (laws : Float64Arith.OrderLaws F nan) (s : Sensor F) (dt : Duration) (g : GoRand F)
    (h : s.rangeOrdered) (he : s.IsEnabled = true ∨ ∃ p, s = Sensor.pressure p) :
    ∃ v s1 g1, s.Update dt g = some (v, s1, g1) ∧ s.inRangeOrNaN nan v :=
  sensor_update_inRangeOrNaN nan laws s dt g h he

/-- Instance of C14, amended, in `float64` arithmetic: the sample pressure sensor, 5 s into
its ramp of 20 s from 0 to 10. -/
theorem update_in_range_or_nan_witness :
    ∃ v s1 g1, @Sensor.Update GoFloat64 Float64Arith.amd64
        (Sensor.pressure (PressureSensor.sample64 true (GoFloat64.ofInt 20) (GoFloat64.ofInt 10)
          (GoFloat64.ofInt 15))) 5000000000 (GoRand.sample64 1) = some (v, s1, g1) ∧
      @Sensor.inRangeOrNaN GoFloat64 Float64Arith.amd64 (fun x => x.isNaN = true)
        (Sensor.pressure (PressureSensor.sample64 true (GoFloat64.ofInt 20) (GoFloat64.ofInt 10)
          (GoFloat64.ofInt 15))) v :=
  @update_in_range_or_nan GoFloat64 Float64Arith.amd64 (fun x => x.isNaN = true)
    (Float64Arith.ieee_orderLaws _ _)
    (Sensor.pressure (PressureSensor.sample64 true (GoFloat64.ofInt 20) (GoFloat64.ofInt 10)
      (GoFloat64.ofInt 15))) 5000000000 (GoRand.sample64 1)
    (by decide! : GoFloat64.le (GoFloat64.ofInt 0) (GoFloat64.ofInt 10)) (Or.inl rfl)

/-- C14, as stated, fails, in `float64` arithmetic.  A disabled temperature sensor of base
temperature 25 and range [30, 40] returns 25, below its minimum: the disabled branch
returns before the clamp.  An enabled pressure sensor of range [0, 10] whose three phases
have length 0 returns a NaN, `math.Mod(elapsed, 0)` being one: a NaN passes both
comparisons of the clamp and is not between 0 and 10. -/
theorem update_outside_range :
    ((TemperatureSensor.sample64 false (GoFloat64.ofInt 60)).BaseSensor.IsEnabled = false ∧
      GoFloat64.le (TemperatureSensor.sample64 false (GoFloat64.ofInt 60)).MinValue
        (TemperatureSensor.sample64 false (GoFloat64.ofInt 60)).MaxValue ∧
      (@TemperatureSensor.Update GoFloat64 Float64Arith.amd64
        (TemperatureSensor.sample64 false (GoFloat64.ofInt 60)) 1000000000).1
          = GoFloat64.ofInt 25 ∧
      GoFloat64.lt (GoFloat64.ofInt 25)
        (TemperatureSensor.sample64 false (GoFloat64.ofInt 60)).MinValue) ∧
    ((PressureSensor.sample64 true (GoFloat64.ofInt 0) (GoFloat64.ofInt 0)
        (GoFloat64.ofInt 0)).BaseSensor.IsEnabled = true ∧
      GoFloat64.le (PressureSensor.sample64 true (GoFloat64.ofInt 0) (GoFloat64.ofInt 0)
          (GoFloat64.ofInt 0)).MinPressure
        (PressureSensor.sample64 true (GoFloat64.ofInt 0) (GoFloat64.ofInt 0)
          (GoFloat64.ofInt 0)).MaxPressure ∧
      (@PressureSensor.Update GoFloat64 Float64Arith.amd64
        (PressureSensor.sample64 true (GoFloat64.ofInt 0) (GoFloat64.ofInt 0)
          (GoFloat64.ofInt 0)) 1000000000).1.isNaN = true ∧
      ¬ GoFloat64.le (PressureSensor.sample64 true (GoFloat64.ofInt 0) (GoFloat64.ofInt 0)
          (GoFloat64.ofInt 0)).MinPressure
        (@PressureSensor.Update GoFloat64 Float64Arith.amd64
          (PressureSensor.sample64 true (GoFloat64.ofInt 0) (GoFloat64.ofInt 0)
            (GoFloat64.ofInt 0)) 1000000000).1) := by
  decide!

/-- C27, amended. For every reading of the arithmetic whose comparisons satisfy the laws
of `float64`, an enabled temperature, pressure, random-walk, vibration, noise or
integer-actuator model and every state of it with min ≤ max, every tick and every state of
the generators: `Update` returns a NaN or a value in [min, max], and for the random walk the
current value it stores is the value it returns. -/
theorem enabled_update_in_range_or_nan {F : Type} [Float64Arith F] (nan : F → Prop)
    (laws : Float64Arith.OrderLaws F nan) (s : Sensor F) (dt : Duration) (g : GoRand F)
    (h : s.rangeOrdered) (he : s.IsEnabled = true) :
    ∃ v s1 g1, s.Update dt g = some (v, s1, g1) ∧ s.inRangeOrNaN nan v ∧
      (∀ r, s1 = Sensor.random r → r.CurrentValue = v) := by
  obtain ⟨v, s1, g1, hu, hr⟩ := sensor_update_inRangeOrNaN nan laws s dt g h (Or.inl he)
  refine ⟨v, s1, g1, hu, hr, ?_⟩
  intro r hs1
  cases s with
  | random t =>
    simp only [Sensor.Update, Option.some.injEq, Prod.mk.injEq] at hu
    obtain ⟨hv, hs, _⟩ := hu
    rw [hs1] at hs
    have hs2 : (t.Update dt).2 = r := Sensor.random.inj hs
    rw [← hs2, ← hv]
    exact (random_update_enabled t dt he).2
  | temperature t =>
    simp only [Sensor.Update, Option.some.injEq, Prod.mk.injEq] at hu
    rw [hs1] at hu
    exact absurd hu.2.1 (by simp)
  | pressure t =>
    simp only [Sensor.Update, Option.some.injEq, Prod.mk.injEq] at hu
    rw [hs1] at hu
    exact absurd hu.2.1 (by simp)
  | vibration t =>
    simp only [Sensor.Update, Option.some.injEq, Prod.mk.injEq] at hu
    rw [hs1] at hu
    exact absurd hu.2.1 (by simp)
  | noise t =>
    simp only [Sensor.Update, Option.some.injEq, Prod.mk.injEq] at hu
    rw [hs1] at hu
    exact absurd hu.2.1 (by simp)
  | integer t =>
    simp only [Sensor.Update, Option.some.injEq, Prod.mk.injEq] at hu
    rw [hs1] at hu
    exact absurd hu.2.1 (by simp)
  | sine t => exact absurd h id
  | digital t => exact absurd h id
  | relay t => exact absurd h id
  | stepMotor t => exact absurd h id
  | servoMotor t => exact absurd h id

/-- Instance of C27, amended, in `float64` arithmetic: the sample random-walk sensor of
seed 3, on a tick of 1 s. -/
theorem enabled_update_in_range_or_nan_witness :
    ∃ v s1 g1, @Sensor.Update GoFloat64 Float64Arith.amd64
        (Sensor.random (RandomSensor.sample64 3)) 1000000000 (GoRand.sample64 1)
          = some (v, s1, g1) ∧
      @Sensor.inRangeOrNaN GoFloat64 Float64Arith.amd64 (fun x => x.isNaN = true)
        (Sensor.random (RandomSensor.sample64 3)) v ∧
      (∀ r, s1 = Sensor.random r → r.CurrentValue = v) :=
  @enabled_update_in_range_or_nan GoFloat64 Float64Arith.amd64 (fun x => x.isNaN = true)
    (Float64Arith.ieee_orderLaws _ _) (Sensor.random (RandomSensor.sample64 3)) 1000000000
    (GoRand.sample64 1)
    (by decide! : GoFloat64.le (GoFloat64.ofInt 0) (GoFloat64.ofInt 10)) rfl

/-- C27, as stated, fails, in `float64` arithmetic.  An enabled temperature sensor of range
[30, 40] with period 0: the angular frequency `2.0 * math.Pi / 0` is +Inf, its sine is a
NaN, and `Update` returns a NaN, which both comparisons of the clamp let pass and which is
not in [30, 40]. -/
theorem enabled_update_nan :
    (TemperatureSensor.sample64 true (GoFloat64.ofInt 0)).BaseSensor.IsEnabled = true ∧
    GoFloat64.le (TemperatureSensor.sample64 true (GoFloat64.ofInt 0)).MinValue
      (TemperatureSensor.sample64 true (GoFloat64.ofInt 0)).MaxValue ∧
    (@TemperatureSensor.Update GoFloat64 Float64Arith.amd64
      (TemperatureSensor.sample64 true (GoFloat64.ofInt 0)) 1000000000).1.isNaN = true ∧
    ¬ GoFloat64.le (TemperatureSensor.sample64 true (GoFloat64.ofInt 0)).MinValue
      (@TemperatureSensor.Update GoFloat64 Float64Arith.amd64
        (TemperatureSensor.sample64 true (GoFloat64.ofInt 0)) 1000000000).1 := by
  decide!

end sensors

/-! ## The toggle rule in every arithmetic and in `float64` -/

namespace sensors

/-- One `Update` of an enabled relay in auto-toggle mode, for every reading of the
arithmetic: the relay stays enabled and in that mode with its period, the elapsed time
grows by the tick, and the state flips, the last toggle becoming the elapsed time, exactly
when the period is positive and `elapsed - lastToggle >= togglePeriod` holds in that
arithmetic. -/
theorem relay_toggle_step {F : Type} [Float64Arith F] (r : RelayActuator F) (dt : Duration)
    (he : r.BaseSensor.IsEnabled = true) (ha : r.AutoToggle = true) :
    (r.Update dt).2.BaseSensor.IsEnabled = true ∧ (r.Update dt).2.AutoToggle = true ∧
    (r.Update dt).2.TogglePeriod = r.TogglePeriod ∧
    (r.Update dt).2.BaseSensor.ElapsedTime = r.BaseSensor.ElapsedTime + Duration.Seconds dt ∧
    ((r.TogglePeriod > 0 ∧
        r.BaseSensor.ElapsedTime + Duration.Seconds dt - r.LastToggle ≥ r.TogglePeriod) →
      (r.Update dt).2.CurrentState = (!r.CurrentState) ∧
      (r.Update dt).2.LastToggle = r.BaseSensor.ElapsedTime + Duration.Seconds dt) ∧
    (¬ (r.TogglePeriod > 0 ∧
        r.BaseSensor.ElapsedTime + Duration.Seconds dt - r.LastToggle ≥ r.TogglePeriod) →
      (r.Update dt).2.CurrentState = r.CurrentState ∧
      (r.Update dt).2.LastToggle = r.LastToggle) := by
  have he2 : r.BaseSensor.Enabled = true := he
  unfold RelayActuator.Update
  simp only [he, ha, Bool.not_true, Bool.false_eq_true, if_false,
    BaseSensor.GetElapsedTime, BaseSensor.AddElapsedTime, true_and]
  by_cases h1 : r.TogglePeriod > 0
  · by_cases h2 : r.BaseSensor.ElapsedTime + Duration.Seconds dt - r.LastToggle
        ≥ r.TogglePeriod
    · simp only [h1, h2, if_true, and_self, true_implies, not_true_eq_false, false_implies,
        and_true]
      split_ifs <;> simp [BaseSensor.IsEnabled, he2]
    · simp only [h1, h2, if_true, if_false, and_false, false_implies, not_false_eq_true,
        true_implies, true_and]
      split_ifs <;> simp [BaseSensor.IsEnabled, he2]
  · simp only [h1, if_false, false_and, false_implies, not_false_eq_true,
      true_implies, true_and]
    split_ifs <;> simp [BaseSensor.IsEnabled, he2]

/-- Over a sequence of `Update` calls of an enabled relay in auto-toggle mode, for every
reading of the arithmetic: at every flip after the first, the difference of the elapsed
time and the elapsed time of the flip before it, as that arithmetic computes it, has
reached the toggle period. -/
theorem relay_flipGaps_ge {F : Type} [Float64Arith F] (dts : List Duration) :
    ∀ (r : RelayActuator F) (lastFlip : Option F),
      r.BaseSensor.IsEnabled = true → r.AutoToggle = true →
      (∀ e, lastFlip = some e → e = r.LastToggle) →
      ∀ p ∈ RelayActuator.flipGaps r lastFlip dts, r.TogglePeriod ≤ p.1 := by
  induction dts with
  | nil =>
    intro r lastFlip _ _ _ p hp
    simp [RelayActuator.flipGaps] at hp
  | cons dt rest ih =>
    intro r lastFlip he ha hinv p hp
    obtain ⟨s1, s2, s3, s4, s5, s6⟩ := relay_toggle_step r dt he ha
    unfold RelayActuator.flipGaps at hp
    by_cases hc : r.TogglePeriod > 0 ∧
        r.BaseSensor.ElapsedTime + Duration.Seconds dt - r.LastToggle ≥ r.TogglePeriod
    · obtain ⟨f1, f2⟩ := s5 hc
      have hne : (r.Update dt).2.CurrentState ≠ r.CurrentState := by
        rw [f1]
        cases r.CurrentState <;> decide
      have hinv2 : ∀ e, some (r.Update dt).2.BaseSensor.ElapsedTime = some e →
          e = (r.Update dt).2.LastToggle := by
        intro e h
        rw [f2, ← s4]
        exact (Option.some.inj h).symm
      simp only [hne, ne_eq, not_false_eq_true, if_true] at hp
      cases hl : lastFlip with
      | none =>
        rw [hl] at hp
        have := ih (r.Update dt).2 _ s1 s2 hinv2 p hp
        rw [s3] at this
        exact this
      | some e =>
        rw [hl] at hp
        rcases List.mem_cons.mp hp with h | h
        · rw [h]
          show r.TogglePeriod ≤ (r.Update dt).2.BaseSensor.ElapsedTime - e
          rw [hinv e hl, s4]
          exact hc.2
        · have := ih (r.Update dt).2 _ s1 s2 hinv2 p h
          rw [s3] at this
          exact this
    · obtain ⟨f1, f2⟩ := s6 hc
      simp only [f1, ne_eq, not_true_eq_false, if_false] at hp
      have hinv2 : ∀ e, lastFlip = some e → e = (r.Update dt).2.LastToggle := by
        intro e h
        rw [f2]
        exact hinv e h
      have := ih (r.Update dt).2 lastFlip s1 s2 hinv2 p hp
      rw [s3] at this
      exact this

/-- After every `Update` of an enabled relay in auto-toggle mode with a positive period, the
difference of the elapsed time and the last toggle, as `float64` computes it, has not
reached the period. -/
theorem relay_update_not_due {F : Type} [Float64Arith F] (nan : F → Prop)
    (rl : Float64Arith.RoundingLaws F nan) (r : RelayActuator F) (dt : Duration)
    (he : r.BaseSensor.IsEnabled = true) (ha : r.AutoToggle = true)
    (hp : r.TogglePeriod > 0) :
    ¬ (r.Update dt).2.TogglePeriod
        ≤ (r.Update dt).2.BaseSensor.ElapsedTime - (r.Update dt).2.LastToggle := by
  obtain ⟨_, _, s3, s4, s5, s6⟩ := relay_toggle_step r dt he ha
  by_cases hc : r.TogglePeriod > 0 ∧
      r.BaseSensor.ElapsedTime + Duration.Seconds dt - r.LastToggle ≥ r.TogglePeriod
  · obtain ⟨_, f2⟩ := s5 hc
    rw [s3, s4, f2]
    exact rl.sub_self_lt _ _ hp
  · obtain ⟨_, f2⟩ := s6 hc
    rw [s3, s4, f2]
    intro h
    exact hc ⟨hp, h⟩

/-- One `Update` of an enabled digital sensor with the pattern "toggle", for every reading
of the arithmetic: as `relay_toggle_step`, without the test of the period. -/
theorem digital_toggle_step {F : Type} [Float64Arith F] (d : DigitalSensor F) (dt : Duration)
    (he : d.BaseSensor.IsEnabled = true) (ha : d.Pattern = "toggle") :
    (d.Update dt).2.BaseSensor.IsEnabled = true ∧ (d.Update dt).2.Pattern = "toggle" ∧
    (d.Update dt).2.TogglePeriod = d.TogglePeriod ∧
    (d.Update dt).2.BaseSensor.ElapsedTime = d.BaseSensor.ElapsedTime + Duration.Seconds dt ∧
    (d.BaseSensor.ElapsedTime + Duration.Seconds dt - d.LastToggle ≥ d.TogglePeriod →
      (d.Update dt).2.CurrentState = (!d.CurrentState) ∧
      (d.Update dt).2.LastToggle = d.BaseSensor.ElapsedTime + Duration.Seconds dt) ∧
    (¬ (d.BaseSensor.ElapsedTime + Duration.Seconds dt - d.LastToggle ≥ d.TogglePeriod) →
      (d.Update dt).2.CurrentState = d.CurrentState ∧
      (d.Update dt).2.LastToggle = d.LastToggle) := by
  have he2 : d.BaseSensor.Enabled = true := he
  unfold DigitalSensor.Update
  simp only [he, ha, Bool.not_true, Bool.false_eq_true, if_false, if_true,
    BaseSensor.GetElapsedTime, BaseSensor.AddElapsedTime]
  by_cases h2 : d.BaseSensor.ElapsedTime + Duration.Seconds dt - d.LastToggle
      ≥ d.TogglePeriod
  · simp only [h2, if_true, true_implies, not_true_eq_false, false_implies, and_true]
    split_ifs <;> simp [BaseSensor.IsEnabled, he2, ha]
  · simp only [h2, if_false, false_implies, not_false_eq_true, true_implies, true_and]
    split_ifs <;> simp [BaseSensor.IsEnabled, he2, ha]

/-- Over a sequence of `Update` calls of an enabled digital sensor with the pattern
"toggle": as `relay_flipGaps_ge`. -/
theorem digital_flipGaps_ge {F : Type} [Float64Arith F] (dts : List Duration) :
    ∀ (d : DigitalSensor F) (lastFlip : Option F),
      d.BaseSensor.IsEnabled = true → d.Pattern = "toggle" →
      (∀ e, lastFlip = some e → e = d.LastToggle) →
      ∀ p ∈ DigitalSensor.flipGaps d lastFlip dts, d.TogglePeriod ≤ p.1 := by
  induction dts with
  | nil =>
    intro d lastFlip _ _ _ p hp
    simp [DigitalSensor.flipGaps] at hp
  | cons dt rest ih =>
    intro d lastFlip he ha hinv p hp
    obtain ⟨s1, s2, s3, s4, s5, s6⟩ := digital_toggle_step d dt he ha
    unfold DigitalSensor.flipGaps at hp
    by_cases hc : d.BaseSensor.ElapsedTime + Duration.Seconds dt - d.LastToggle
        ≥ d.TogglePeriod
    · obtain ⟨f1, f2⟩ := s5 hc
      have hne : (d.Update dt).2.CurrentState ≠ d.CurrentState := by
        rw [f1]
        cases d.CurrentState <;> decide
      have hinv2 : ∀ e, some (d.Update dt).2.BaseSensor.ElapsedTime = some e →
          e = (d.Update dt).2.LastToggle := by
        intro e h
        rw [f2, ← s4]
        exact (Option.some.inj h).symm
      simp only [hne, ne_eq, not_false_eq_true, if_true] at hp
      cases hl : lastFlip with
      | none =>
        rw [hl] at hp
        have := ih (d.Update dt).2 _ s1 s2 hinv2 p hp
        rw [s3] at this
        exact this
      | some e =>
        rw [hl] at hp
        rcases List.mem_cons.mp hp with h | h
        · rw [h]
          show d.TogglePeriod ≤ (d.Update dt).2.BaseSensor.ElapsedTime - e
          rw [hinv e hl, s4]
          exact hc
        · have := ih (d.Update dt).2 _ s1 s2 hinv2 p h
          rw [s3] at this
          exact this
    · obtain ⟨f1, f2⟩ := s6 hc
      simp only [f1, ne_eq, not_true_eq_false, if_false] at hp
      have hinv2 : ∀ e, lastFlip = some e → e = (d.Update dt).2.LastToggle := by
        intro e h
        rw [f2]
        exact hinv e h
      have := ih (d.Update dt).2 lastFlip s1 s2 hinv2 p hp
      rw [s3] at this
      exact this

/-- After every `Update` of an enabled digital sensor with the pattern "toggle" and a
positive period, the difference of the elapsed time and the last toggle, as `float64`
computes it, has not reached the period. -/
theorem digital_update_not_due {F : Type} [Float64Arith F] (nan : F → Prop)
    (rl : Float64Arith.RoundingLaws F nan) (d : DigitalSensor F) (dt : Duration)
    (he : d.BaseSensor.IsEnabled = true) (ha : d.Pattern = "toggle")
    (hp : d.TogglePeriod > 0) :
    ¬ (d.Update dt).2.TogglePeriod
        ≤ (d.Update dt).2.BaseSensor.ElapsedTime - (d.Update dt).2.LastToggle := by
  obtain ⟨_, _, s3, s4, s5, s6⟩ := digital_toggle_step d dt he ha
  by_cases hc : d.BaseSensor.ElapsedTime + Duration.Seconds dt - d.LastToggle
      ≥ d.TogglePeriod
  · obtain ⟨_, f2⟩ := s5 hc
    rw [s3, s4, f2]
    exact rl.sub_self_lt _ _ hp
  · obtain ⟨_, f2⟩ := s6 hc
    rw [s3, s4, f2]
    exact hc

end sensors

namespace sensors

/-- C17, amended. For an enabled relay with auto-toggle on and a positive toggle period, in
every reading of the arithmetic: `Update` adds the tick to the elapsed time, flips the state
exactly when the elapsed time minus the last toggle, as that arithmetic computes it, has
reached the period, setting the last toggle to the elapsed time, keeps both otherwise, and
returns 1.0 for a closed relay and 0.0 for an open one.  In `float64` arithmetic, from the
fresh state of a relay with default state off and period 2 s: `Update(0)` returns 0.0,
`Update(2.001 s)` returns 1.0, and a next `Update(2.001 s)` returns 0.0. -/
theorem RelayActuator.update_toggle_float64 :
    (∀ (F : Type) [Float64Arith F] (r : RelayActuator F) (dt : Duration),
      r.BaseSensor.IsEnabled = true → r.AutoToggle = true → r.TogglePeriod > 0 →
      (r.Update dt).2.BaseSensor.ElapsedTime
        = r.BaseSensor.ElapsedTime + Duration.Seconds dt ∧
      (r.BaseSensor.ElapsedTime + Duration.Seconds dt - r.LastToggle ≥ r.TogglePeriod →
        (r.Update dt).2.CurrentState = (!r.CurrentState) ∧
        (r.Update dt).2.LastToggle = r.BaseSensor.ElapsedTime + Duration.Seconds dt) ∧
      (¬ (r.BaseSensor.ElapsedTime + Duration.Seconds dt - r.LastToggle ≥ r.TogglePeriod) →
        (r.Update dt).2.CurrentState = r.CurrentState ∧
        (r.Update dt).2.LastToggle = r.LastToggle) ∧
      (r.Update dt).1 = (if (r.Update dt).2.CurrentState = true then 1.0 else 0.0)) ∧
    @RelayActuator.outputs GoFloat64 Float64Arith.amd64
        (RelayActuator.sample64 (GoFloat64.ofInt 2)) [0, 2001000000, 2001000000]
      = [GoFloat64.ofInt 0, GoFloat64.ofInt 1, GoFloat64.ofInt 0] := by
  constructor
  · intro F _ r dt he ha hp
    obtain ⟨_, _, _, s4, s5, s6⟩ := relay_toggle_step r dt he ha
    refine ⟨s4, fun h => s5 ⟨hp, h⟩, fun h => s6 (fun hh => h hh.2), ?_⟩
    unfold RelayActuator.Update
    simp only [he, Bool.not_true, Bool.false_eq_true, if_false]
    split_ifs <;> simp_all
  · decide!

/-- C17, as stated, fails, in `float64` arithmetic.  The relay of the scenario (default
state off, period 2 s), fresh from its constructor, on the ticks 0, 2.001 s and 2 s: the
three calls return 0.0, 1.0 and 1.0.  After the third call the elapsed time is the sum
2.001 + 2 rounded to 4.0009999999999994, the last toggle is 2.001, and their difference
1.9999999999999996 is below the period. -/
theorem RelayActuator.update_scenario_float64 :
    @RelayActuator.outputs GoFloat64 Float64Arith.amd64
        (RelayActuator.sample64 (GoFloat64.ofInt 2)) [0, 2001000000, 2000000000]
      = [GoFloat64.ofInt 0, GoFloat64.ofInt 1, GoFloat64.ofInt 1] ∧
    (@RelayActuator.after GoFloat64 Float64Arith.amd64
        (RelayActuator.sample64 (GoFloat64.ofInt 2))
        [0, 2001000000, 2000000000]).BaseSensor.ElapsedTime
      = GoFloat64.ofBits 4616190743954665242 ∧
    (@RelayActuator.after GoFloat64 Float64Arith.amd64
        (RelayActuator.sample64 (GoFloat64.ofInt 2))
        [0, 2001000000, 2000000000]).LastToggle
      = GoFloat64.ofBits 4611688270227201589 ∧
    GoFloat64.sub (GoFloat64.ofBits 4616190743954665242) (GoFloat64.ofBits 4611688270227201589)
      = GoFloat64.ofBits 4611686018427387902 ∧
    GoFloat64.lt (GoFloat64.ofBits 4611686018427387902) (GoFloat64.ofInt 2) := by
  decide!

/-- C29, amended. The toggle edge rule for every reading of the arithmetic with the laws of
`float64`, for the relay in auto-toggle mode and the digital sensor with the pattern
"toggle": one `Update` flips the state once when the model is enabled (the relay: with a
positive period) and the elapsed time minus the last toggle, as the arithmetic computes it,
has reached the period, and leaves it otherwise; with a positive period, over every
sequence of `Update` calls, at every flip after the first the difference of the elapsed
times of the flip and of the flip before it, as the arithmetic computes it, has reached the
period, and after every `Update` of an enabled model the difference of the elapsed time and
the last toggle has not. -/
theorem toggle_edge_rule {F : Type} [Float64Arith F] (nan : F → Prop)
    (rl : Float64Arith.RoundingLaws F nan) (dts : List Duration) :
    (∀ r : RelayActuator F, r.AutoToggle = true →
      (∀ dt : Duration,
        (r.Update dt).2.CurrentState =
          if r.BaseSensor.IsEnabled = true ∧ r.TogglePeriod > 0 ∧
              r.BaseSensor.ElapsedTime + Duration.Seconds dt - r.LastToggle ≥ r.TogglePeriod
          then !r.CurrentState else r.CurrentState) ∧
      (r.TogglePeriod > 0 →
        (∀ p ∈ RelayActuator.flipGaps r none dts, r.TogglePeriod ≤ p.1) ∧
        (∀ dt : Duration, r.BaseSensor.IsEnabled = true →
          ¬ (r.Update dt).2.TogglePeriod
            ≤ (r.Update dt).2.BaseSensor.ElapsedTime - (r.Update dt).2.LastToggle))) ∧
    (∀ d : DigitalSensor F, d.Pattern = "toggle" →
      (∀ dt : Duration,
        (d.Update dt).2.CurrentState =
          if d.BaseSensor.IsEnabled = true ∧
              d.BaseSensor.ElapsedTime + Duration.Seconds dt - d.LastToggle ≥ d.TogglePeriod
          then !d.CurrentState else d.CurrentState) ∧
      (d.TogglePeriod > 0 →
        (∀ p ∈ DigitalSensor.flipGaps d none dts, d.TogglePeriod ≤ p.1) ∧
        (∀ dt : Duration, d.BaseSensor.IsEnabled = true →
          ¬ (d.Update dt).2.TogglePeriod
            ≤ (d.Update dt).2.BaseSensor.ElapsedTime - (d.Update dt).2.LastToggle))) := by
  constructor
  · intro r ha
    constructor
    · intro dt
      by_cases he : r.BaseSensor.IsEnabled = true
      · obtain ⟨_, _, _, _, s5, s6⟩ := relay_toggle_step r dt he ha
        by_cases hc : r.TogglePeriod > 0 ∧
            r.BaseSensor.ElapsedTime + Duration.Seconds dt - r.LastToggle ≥ r.TogglePeriod
        · rw [if_pos ⟨he, hc⟩]
          exact (s5 hc).1
        · rw [if_neg (fun h => hc h.2)]
          exact (s6 hc).1
      · rw [if_neg (fun h => he h.1)]
        exact (relay_update_idle r dt (fun h => he h.1)).1
    · intro hp
      constructor
      · intro p hmem
        by_cases he : r.BaseSensor.IsEnabled = true
        · exact relay_flipGaps_ge dts r none he ha (fun e h => Option.noConfusion h) p hmem
        · rw [relay_flipGaps_idle dts r none (fun hh => he hh.1)] at hmem
          exact absurd hmem (List.not_mem_nil _)
      · intro dt he
        exact relay_update_not_due nan rl r dt he ha hp
  · intro d ha
    constructor
    · intro dt
      by_cases he : d.BaseSensor.IsEnabled = true
      · obtain ⟨_, _, _, _, s5, s6⟩ := digital_toggle_step d dt he ha
        by_cases hc : d.BaseSensor.ElapsedTime + Duration.Seconds dt - d.LastToggle
            ≥ d.TogglePeriod
        · rw [if_pos ⟨he, hc⟩]
          exact (s5 hc).1
        · rw [if_neg (fun h => hc h.2)]
          exact (s6 hc).1
      · rw [if_neg (fun h => he h.1)]
        have he2 : d.BaseSensor.IsEnabled = false := by
          cases hh : d.BaseSensor.IsEnabled
          · rfl
          · exact absurd hh he
        rw [digital_update_idle d dt he2]
    · intro hp
      constructor
      · intro p hmem
        by_cases he : d.BaseSensor.IsEnabled = true
        · exact digital_flipGaps_ge dts d none he ha (fun e h => Option.noConfusion h) p hmem
        · have he2 : d.BaseSensor.IsEnabled = false := by
            cases hh : d.BaseSensor.IsEnabled
            · rfl
            · exact absurd hh he
          rw [digital_flipGaps_idle dts d none he2] at hmem
          exact absurd hmem (List.not_mem_nil _)
      · intro dt he
        exact digital_update_not_due nan rl d dt he ha hp

/-- Instance of C29, amended, in `float64` arithmetic: the sample relay with period 0.3 s
over 162 ticks of 100 ms. -/
theorem toggle_edge_rule_witness :
    (@RelayActuator.flipGaps GoFloat64 Float64Arith.amd64
        (RelayActuator.sample64 (GoFloat64.ofRatio false 3 10)) none
        (List.replicate 162 100000000)).length = 42 ∧
    ∀ p ∈ @RelayActuator.flipGaps GoFloat64 Float64Arith.amd64
        (RelayActuator.sample64 (GoFloat64.ofRatio false 3 10)) none
        (List.replicate 162 100000000),
      GoFloat64.le (GoFloat64.ofRatio false 3 10) p.1 :=
  ⟨by decide!,
    (((@toggle_edge_rule GoFloat64 Float64Arith.amd64 (fun x => x.isNaN = true)
      (Float64Arith.ieee_roundingLaws _ _) (List.replicate 162 100000000)).1
      (RelayActuator.sample64 (GoFloat64.ofRatio false 3 10)) rfl).2
      (by decide! : GoFloat64.lt (GoFloat64.ofRat ((0 : Nat) : ℚ))
        (GoFloat64.ofRatio false 3 10))).1⟩

/-- C29, as stated, fails, in `float64` arithmetic.  The relay with period 0.3 s, fresh from
its constructor, on ticks of 100 ms.  Over seven ticks it returns 0, 0, 1, 1, 1, 1, 0: it
flips at the third and at the seventh call, four ticks apart, the difference
0.6 - 0.30000000000000004 = 0.29999999999999993 of the sixth call being short of the
period.  Over 162 ticks the last two flips are 0.40000000000000036 s of elapsed time
apart, more than 0.3 + 0.1 = 0.4. -/
theorem toggle_spacing_float64 :
    @RelayActuator.outputs GoFloat64 Float64Arith.amd64
        (RelayActuator.sample64 (GoFloat64.ofRatio false 3 10)) (List.replicate 7 100000000)
      = [GoFloat64.ofInt 0, GoFloat64.ofInt 0, GoFloat64.ofInt 1, GoFloat64.ofInt 1,
          GoFloat64.ofInt 1, GoFloat64.ofInt 1, GoFloat64.ofInt 0] ∧
    (@RelayActuator.flipGaps GoFloat64 Float64Arith.amd64
        (RelayActuator.sample64 (GoFloat64.ofRatio false 3 10)) none
        (List.replicate 162 100000000)).getLast?
      = some (GoFloat64.ofBits 4600877379321698720, GoFloat64.ofBits 4591870180066957722) ∧
    GoFloat64.add (GoFloat64.ofRatio false 3 10) (GoFloat64.ofBits 4591870180066957722)
      = GoFloat64.ofBits 4600877379321698714 ∧
    GoFloat64.lt (GoFloat64.ofBits 4600877379321698714)
      (GoFloat64.ofBits 4600877379321698720) := by
  decide!

end sensors

/-! ## The random walk in every arithmetic with the laws of `float64` -/

namespace sensors

/-- A value that is a number and neither below `lo` nor above `hi` passes the two clamping
steps unchanged. -/
theorem clamp_of_between {F : Type} [Float64Arith F] (nan : F → Prop)
    (laws : Float64Arith.OrderLaws F nan) (lo hi x : F) (h1 : lo ≤ x) (h2 : x ≤ hi) :
    (if (if x < lo then lo else x) > hi then hi else (if x < lo then lo else x)) = x := by
  have a : ¬ x < lo := laws.not_lt_of_le lo x h1
  have b : ¬ x > hi := laws.not_lt_of_le x hi h2
  rw [if_neg a, if_neg b]

/-- A value between `lo` and `hi`, moved by a step that keeps it between two bounds `a`
and `b` that lie on either side of it, and then clamped to `[lo, hi]`, is still between the
two bounds. -/
theorem clamp_between_bounds {F : Type} [Float64Arith F] (nan : F → Prop)
    (ol : Float64Arith.OrderLaws F nan) (lo hi x y a b : F) (h1 : lo ≤ x) (h2 : x ≤ hi)
    (ha : a ≤ x) (hb : x ≤ b) (hay : a ≤ y) (hyb : y ≤ b) :
    a ≤ (if (if y < lo then lo else y) > hi then hi else (if y < lo then lo else y)) ∧
    (if (if y < lo then lo else y) > hi then hi else (if y < lo then lo else y)) ≤ b := by
  by_cases c1 : y < lo
  · rw [if_pos c1]
    have c2 : ¬ lo > hi := ol.not_lt_of_le lo hi (ol.le_trans _ _ _ h1 h2)
    rw [if_neg c2]
    exact ⟨ol.le_of_lt _ _ (ol.lt_of_le_of_lt _ _ _ hay c1), ol.le_trans _ _ _ h1 hb⟩
  · rw [if_neg c1]
    by_cases c2 : y > hi
    · rw [if_pos c2]
      exact ⟨ol.le_trans _ _ _ ha h2, ol.le_of_lt _ _ (ol.lt_of_lt_of_le _ _ _ c2 hyb)⟩
    · rw [if_neg c2]
      exact ⟨hay, hyb⟩

/-- C30, amended. For an enabled random-walk sensor whose current value lies in
[min, max], in every reading of the arithmetic with the laws of `float64`: `Update` returns
the current value plus `(u * 2.0 - 1.0) * (changeRate * dt)`, each operation as the
arithmetic computes it, after the two clamping steps, and stores it; the value is a NaN or
lies in [min, max]; with `changeRate ≥ 0`, `dt ≥ 0` and the draw `u` in [0, 1), unless one
of `changeRate * dt`, the change or the three sums is a NaN, the value returned lies
between `old - changeRate * dt` and `old + changeRate * dt`, as the arithmetic computes
these two; and for `dt = 0`, when neither `changeRate * 0` nor the change is a NaN, the
value returned is equal as a number to the previous one. -/
theorem RandomSensor.update_walk_float64 {F : Type} [Float64Arith F] (nan : F → Prop)
    (ol : Float64Arith.OrderLaws F nan) (rl : Float64Arith.RoundingLaws F nan)
    (r : RandomSensor F) (dt : Duration)
    (he : r.BaseSensor.IsEnabled = true) (hlo : r.MinValue ≤ r.CurrentValue)
    (hhi : r.CurrentValue ≤ r.MaxValue) :
    (r.Update dt).1 =
      (if (if r.CurrentValue + (r.rng.Float64.1 * 2.0 - 1.0) *
                (r.ChangeRate * Duration.Seconds dt) < r.MinValue then r.MinValue
           else r.CurrentValue + (r.rng.Float64.1 * 2.0 - 1.0) *
                (r.ChangeRate * Duration.Seconds dt)) > r.MaxValue then r.MaxValue
       else (if r.CurrentValue + (r.rng.Float64.1 * 2.0 - 1.0) *
                (r.ChangeRate * Duration.Seconds dt) < r.MinValue then r.MinValue
           else r.CurrentValue + (r.rng.Float64.1 * 2.0 - 1.0) *
                (r.ChangeRate * Duration.Seconds dt))) ∧
    (r.Update dt).2.CurrentValue = (r.Update dt).1 ∧
    (nan (r.Update dt).1 ∨ (r.MinValue ≤ (r.Update dt).1 ∧ (r.Update dt).1 ≤ r.MaxValue)) ∧
    ((0 : F) ≤ r.ChangeRate → (0 : F) ≤ Duration.Seconds dt →
      (0 : F) ≤ r.rng.Float64.1 → r.rng.Float64.1 < 1.0 →
      ¬ nan (r.ChangeRate * Duration.Seconds dt) →
      ¬ nan ((r.rng.Float64.1 * 2.0 - 1.0) * (r.ChangeRate * Duration.Seconds dt)) →
      ¬ nan (r.CurrentValue + (r.rng.Float64.1 * 2.0 - 1.0) *
        (r.ChangeRate * Duration.Seconds dt)) →
      ¬ nan (r.CurrentValue - r.ChangeRate * Duration.Seconds dt) →
      ¬ nan (r.CurrentValue + r.ChangeRate * Duration.Seconds dt) →
      r.CurrentValue - r.ChangeRate * Duration.Seconds dt ≤ (r.Update dt).1 ∧
      (r.Update dt).1 ≤ r.CurrentValue + r.ChangeRate * Duration.Seconds dt) ∧
    (¬ nan (r.ChangeRate * Duration.Seconds 0) →
      ¬ nan ((r.rng.Float64.1 * 2.0 - 1.0) * (r.ChangeRate * Duration.Seconds 0)) →
      r.CurrentValue ≤ (r.Update 0).1 ∧ (r.Update 0).1 ≤ r.CurrentValue) := by
  have hmm : r.MinValue ≤ r.MaxValue := ol.le_trans _ _ _ hlo hhi
  have hu := random_update_enabled r dt he
  refine ⟨hu.1, hu.2, ?_, ?_, ?_⟩
  · rw [hu.1]
    rcases clamp_range_or_nan nan ol r.MinValue r.MaxValue _ hmm with h | h
    · left
      rw [h.2]
      exact h.1
    · right
      exact h
  · intro hcr hdt hu0 hu1 hnB hnd hns hnl hnh
    have hB := rl.mul_nonneg _ _ hcr hdt hnB
    have hun := rl.draw_unit _ hu0 hu1
    have hd := rl.mul_unit _ _ hun.1 hun.2 hB hnd
    have hx := (ol.le_not_nan _ _ hlo).2
    have hz : (0 : F) ≤ 0 := ol.le_refl 0 (ol.le_not_nan _ _ hB).1
    have hc := rl.add_zero r.CurrentValue 0 hx hz hz
    have hcn := (ol.le_not_nan _ _ hc.1).2
    rw [rl.sub_eq_add_neg] at hnl ⊢
    have b1 := rl.add_le_add r.CurrentValue _ _ hd.1 hnl hns
    have b2 := rl.add_le_add r.CurrentValue _ _ hd.2 hns hnh
    have b3 := rl.add_le_add r.CurrentValue _ _ (ol.neg_nonpos _ hB) hnl hcn
    have b4 := rl.add_le_add r.CurrentValue _ _ hB hcn hnh
    rw [hu.1]
    exact clamp_between_bounds nan ol r.MinValue r.MaxValue r.CurrentValue _ _ _ hlo hhi
      (ol.le_trans _ _ _ b3 hc.2) (ol.le_trans _ _ _ hc.1 b4) b1 b2
  · intro h1 h2
    have z1 := rl.mul_zero r.ChangeRate (Duration.Seconds 0) rl.seconds_zero.1
      rl.seconds_zero.2 h1
    have z2 := rl.mul_zero (r.rng.Float64.1 * 2.0 - 1.0) _ z1.1 z1.2 h2
    have hx := rl.add_zero r.CurrentValue _ (ol.le_not_nan _ _ hlo).2 z2.1 z2.2
    rw [(random_update_enabled r 0 he).1]
    rw [clamp_of_between nan ol r.MinValue r.MaxValue _ (ol.le_trans _ _ _ hlo hx.1)
      (ol.le_trans _ _ _ hx.2 hhi)]
    exact hx

/-- Instance of C30, amended, in `float64` arithmetic: the sample random-walk sensor of
seed 3 (current value 3 in [0, 10], change rate 1, draw 0.4), on a tick of 1 s, returns
2.8, between 3 - 1 and 3 + 1. -/
theorem RandomSensor.update_walk_float64_witness :
    (RandomSensor.sample64 3).CurrentValue = GoFloat64.ofInt 3 ∧
    (@RandomSensor.Update GoFloat64 Float64Arith.amd64 (RandomSensor.sample64 3)
      1000000000).1 = GoFloat64.ofRatio false 28 10 ∧
    (@RandomSensor.Update GoFloat64 Float64Arith.amd64 (RandomSensor.sample64 3)
      1000000000).2.CurrentValue
      = (@RandomSensor.Update GoFloat64 Float64Arith.amd64 (RandomSensor.sample64 3)
          1000000000).1 ∧
    GoFloat64.le
      (GoFloat64.sub (RandomSensor.sample64 3).CurrentValue
        (GoFloat64.mul (RandomSensor.sample64 3).ChangeRate
          (@Duration.Seconds GoFloat64 Float64Arith.amd64 1000000000)))
      (@RandomSensor.Update GoFloat64 Float64Arith.amd64 (RandomSensor.sample64 3)
        1000000000).1 ∧
    GoFloat64.le
      (@RandomSensor.Update GoFloat64 Float64Arith.amd64 (RandomSensor.sample64 3)
        1000000000).1
      (GoFloat64.add (RandomSensor.sample64 3).CurrentValue
        (GoFloat64.mul (RandomSensor.sample64 3).ChangeRate
          (@Duration.Seconds GoFloat64 Float64Arith.amd64 1000000000))) :=
  have h := @RandomSensor.update_walk_float64 GoFloat64 Float64Arith.amd64
    (fun x => x.isNaN = true) (Float64Arith.ieee_orderLaws _ _)
    (Float64Arith.ieee_roundingLaws _ _) (RandomSensor.sample64 3) 1000000000 rfl
    (by decide!) (by decide!)
  have hb := h.2.2.2.1 (by decide!) (by decide!) (by decide!) (by decide!) (by decide!)
    (by decide!) (by decide!) (by decide!) (by decide!)
  ⟨by decide!, by decide!, h.2.1, hb.1, hb.2⟩

/-- C30, as stated, fails, in `float64` arithmetic.  A random-walk sensor with the current
value 1e15 in the range [0, 2e15] and change rate 2, on a tick of 100 ms with the draw
0.975: the change is 0.19, within `changeRate * dt = 0.2`, but the sum 1e15 + 0.19 rounds to
1e15 + 0.25, so `Update` returns a value 0.25 above the previous one. -/
theorem RandomSensor.update_exceeds_rate :
    RandomSensor.sampleLarge.BaseSensor.IsEnabled = true ∧
    RandomSensor.sampleLarge.CurrentValue = GoFloat64.ofInt 1000000000000000 ∧
    RandomSensor.sampleLarge.rng.Float64.1 = GoFloat64.ofRatio false 975 1000 ∧
    GoFloat64.le RandomSensor.sampleLarge.MinValue RandomSensor.sampleLarge.CurrentValue ∧
    GoFloat64.le RandomSensor.sampleLarge.CurrentValue RandomSensor.sampleLarge.MaxValue ∧
    (@RandomSensor.Update GoFloat64 Float64Arith.amd64 RandomSensor.sampleLarge 100000000).1
      = GoFloat64.ofBits 4831355200913801218 ∧
    GoFloat64.sub (GoFloat64.ofBits 4831355200913801218) (GoFloat64.ofInt 1000000000000000)
      = GoFloat64.ofRatio false 1 4 ∧
    GoFloat64.mul RandomSensor.sampleLarge.ChangeRate
        (@Duration.Seconds GoFloat64 Float64Arith.amd64 100000000)
      = GoFloat64.ofRatio false 2 10 ∧
    GoFloat64.lt (GoFloat64.ofRatio false 2 10) (GoFloat64.ofRatio false 1 4) := by
  decide!

end sensors

/-! ## The motors in every arithmetic with the laws of `float64` -/

/-- The symmetric clamp `if x > m { x = m } else if x < -m { x = -m }`, for comparisons
that satisfy the laws of `float64`: with `0 ≤ m`, the result is a NaN or lies between `-m`
and `m`. -/
theorem clampSym_range_or_nan {F : Type} [Float64Arith F] (nan : F → Prop)
    (laws : Float64Arith.OrderLaws F nan) (m x : F) (h : (0 : F) ≤ m) :
    nan (if x > m then m else if x < -m then -m else x) ∨
    (-m ≤ (if x > m then m else if x < -m then -m else x) ∧
      (if x > m then m else if x < -m then -m else x) ≤ m) := by
  have hneg : -m ≤ m := laws.neg_le_self m h
  obtain ⟨hnm, hm⟩ := laws.le_not_nan _ _ hneg
  by_cases h1 : x > m
  · rw [if_pos h1]
    exact Or.inr ⟨hneg, laws.le_refl m hm⟩
  · rw [if_neg h1]
    by_cases h2 : x < -m
    · rw [if_pos h2]
      exact Or.inr ⟨laws.le_refl _ hnm, hneg⟩
    · rw [if_neg h2]
      by_cases hx : nan x
      · exact Or.inl hx
      · exact Or.inr ⟨laws.le_of_not_lt x (-m) hx hnm h2, laws.le_of_not_lt m x hm hx h1⟩

/-- The wrap `x = math.Mod(x, n); if x < 0 { x += n }` of a position into one turn, for an
arithmetic with the laws of `float64`: with `0 < n`, the result is a NaN or lies between 0
and `n`, both included. -/
theorem wrap_range_or_nan {F : Type} [Float64Arith F] (nan : F → Prop)
    (ol : Float64Arith.OrderLaws F nan) (rl : Float64Arith.RoundingLaws F nan) (x n : F)
    (h : (0 : F) < n) :
    nan (if Float64Arith.mod x n < 0 then Float64Arith.mod x n + n else Float64Arith.mod x n) ∨
    ((0 : F) ≤ (if Float64Arith.mod x n < 0 then Float64Arith.mod x n + n
        else Float64Arith.mod x n) ∧
      (if Float64Arith.mod x n < 0 then Float64Arith.mod x n + n
        else Float64Arith.mod x n) ≤ n) := by
  by_cases h1 : Float64Arith.mod x n < 0
  · rw [if_pos h1]
    exact Or.inr (rl.mod_wrap x n h h1)
  · rw [if_neg h1]
    by_cases hx : nan (Float64Arith.mod x n)
    · exact Or.inl hx
    · exact Or.inr ⟨ol.le_of_not_lt _ _ hx (ol.lt_not_nan _ _ h).1 h1, rl.mod_le x n h hx⟩

namespace sensors

/-- The block "Update velocity with acceleration limit" of the step motor, for every
reading of the arithmetic: the velocity it leaves. -/
theorem stepMotor_updateVelocity_eq {F : Type} [Float64Arith F] (s : StepMotor F) (dt : F) :
    (s.updateVelocity dt).CurrentVelocity =
      (if Float64Arith.abs (s.desiredVelocity - s.CurrentVelocity) ≤ s.Acceleration * dt then
        s.desiredVelocity
       else if s.desiredVelocity - s.CurrentVelocity > 0 then
        s.CurrentVelocity + s.Acceleration * dt
       else s.CurrentVelocity - s.Acceleration * dt) ∧
    (s.updateVelocity dt).MaxSpeed = s.MaxSpeed ∧
    (s.updateVelocity dt).CurrentPosition = s.CurrentPosition := by
  unfold StepMotor.updateVelocity
  dsimp only
  refine ⟨?_, ?_, ?_⟩ <;> split_ifs <;> rfl

/-- The block "Clamp velocity to max speed" of the step motor, for every reading of the
arithmetic: the velocity it leaves. -/
theorem stepMotor_clampVelocity_eq {F : Type} [Float64Arith F] (s : StepMotor F) :
    s.clampVelocity.CurrentVelocity =
      (if s.CurrentVelocity > s.MaxSpeed then s.MaxSpeed
       else if s.CurrentVelocity < -s.MaxSpeed then -s.MaxSpeed else s.CurrentVelocity) ∧
    s.clampVelocity.CurrentPosition = s.CurrentPosition := by
  unfold StepMotor.clampVelocity
  refine ⟨?_, ?_⟩ <;> split_ifs <;> rfl

/-- The blocks "Update position" and "Wrap position" of the step motor, for every reading of
the arithmetic: the velocity stays, and the position becomes the sum of the position and the
velocity times the tick, wrapped into one turn when the pattern is "rotate". -/
theorem stepMotor_updatePosition_eq {F : Type} [Float64Arith F] (s : StepMotor F) (dt : F) :
    (s.updatePosition dt).CurrentVelocity = s.CurrentVelocity ∧
    (s.updatePosition dt).CurrentPosition =
      (if s.AutoPattern = "rotate" then
        (if Float64Arith.mod (s.CurrentPosition + s.CurrentVelocity * dt)
              (Float64Arith.ofInt s.StepsPerRev) < 0 then
          Float64Arith.mod (s.CurrentPosition + s.CurrentVelocity * dt)
              (Float64Arith.ofInt s.StepsPerRev) + Float64Arith.ofInt s.StepsPerRev
         else Float64Arith.mod (s.CurrentPosition + s.CurrentVelocity * dt)
              (Float64Arith.ofInt s.StepsPerRev))
       else s.CurrentPosition + s.CurrentVelocity * dt) := by
  unfold StepMotor.updatePosition
  dsimp only
  refine ⟨?_, ?_⟩ <;> split_ifs <;> rfl

/-- The velocity and position step of the step motor, for every reading of the arithmetic
with the laws of `float64`: the velocity it leaves is the velocity of the acceleration
limit after the clamp, a NaN or within the speed limit when that limit is not negative; the
position it leaves is the position plus that velocity times the tick, wrapped into one turn
by `math.Mod` and the correction of a negative remainder when the pattern is "rotate", and
then a NaN or between 0 and the steps of a revolution. -/
theorem stepMotor_move_eq {F : Type} [Float64Arith F] (nan : F → Prop)
    (ol : Float64Arith.OrderLaws F nan) (rl : Float64Arith.RoundingLaws F nan)
    (s : StepMotor F) (dt : F) :
    (s.move dt).CurrentVelocity =
      (if (s.updateVelocity dt).CurrentVelocity > s.MaxSpeed then s.MaxSpeed
       else if (s.updateVelocity dt).CurrentVelocity < -s.MaxSpeed then -s.MaxSpeed
       else (s.updateVelocity dt).CurrentVelocity) ∧
    ((0 : F) ≤ s.MaxSpeed → nan (s.move dt).CurrentVelocity ∨
      (-s.MaxSpeed ≤ (s.move dt).CurrentVelocity ∧ (s.move dt).CurrentVelocity ≤ s.MaxSpeed)) ∧
    (s.AutoPattern ≠ "rotate" →
      (s.move dt).CurrentPosition = s.CurrentPosition + (s.move dt).CurrentVelocity * dt) ∧
    (s.AutoPattern = "rotate" → (0 : F) < Float64Arith.ofInt s.StepsPerRev →
      nan (s.move dt).CurrentPosition ∨
      ((0 : F) ≤ (s.move dt).CurrentPosition ∧
        (s.move dt).CurrentPosition ≤ Float64Arith.ofInt s.StepsPerRev)) ∧
    (s.AutoPattern = "rotate" →
      (s.move dt).CurrentPosition =
        (if Float64Arith.mod (s.CurrentPosition + (s.move dt).CurrentVelocity * dt)
              (Float64Arith.ofInt s.StepsPerRev) < 0 then
          Float64Arith.mod (s.CurrentPosition + (s.move dt).CurrentVelocity * dt)
              (Float64Arith.ofInt s.StepsPerRev) + Float64Arith.ofInt s.StepsPerRev
         else Float64Arith.mod (s.CurrentPosition + (s.move dt).CurrentVelocity * dt)
              (Float64Arith.ofInt s.StepsPerRev))) := by
  obtain ⟨u1, u2, u3⟩ := stepMotor_updateVelocity_eq s dt
  obtain ⟨c1, c2⟩ := stepMotor_clampVelocity_eq (s.updateVelocity dt)
  obtain ⟨p1, p2⟩ := stepMotor_updatePosition_eq (s.updateVelocity dt).clampVelocity dt
  obtain ⟨_, _, f3, _, f5, _, _⟩ := stepMotor_move_frame s dt
  have hv : (s.move dt).CurrentVelocity = (s.updateVelocity dt).clampVelocity.CurrentVelocity :=
    p1
  have hpat : (s.updateVelocity dt).clampVelocity.AutoPattern = s.AutoPattern := by
    unfold StepMotor.clampVelocity StepMotor.updateVelocity
    dsimp only
    split_ifs <;> rfl
  have hsteps : (s.updateVelocity dt).clampVelocity.StepsPerRev = s.StepsPerRev := by
    unfold StepMotor.clampVelocity StepMotor.updateVelocity
    dsimp only
    split_ifs <;> rfl
  have hvel : (s.move dt).CurrentVelocity =
      (if (s.updateVelocity dt).CurrentVelocity > s.MaxSpeed then s.MaxSpeed
       else if (s.updateVelocity dt).CurrentVelocity < -s.MaxSpeed then -s.MaxSpeed
       else (s.updateVelocity dt).CurrentVelocity) := by
    rw [hv, c1, u2]
  have hpos : (s.move dt).CurrentPosition = _ := p2
  rw [hpat, hsteps, c2, u3, ← hv] at hpos
  refine ⟨hvel, ?_, ?_, ?_, ?_⟩
  · intro h0
    rw [hvel]
    exact clampSym_range_or_nan nan ol _ _ h0
  · intro hne
    rw [hpos, if_neg hne]
  · intro hr hn
    rw [hpos, if_pos hr]
    exact wrap_range_or_nan nan ol rl _ _ hn
  · intro hr
    rw [hpos, if_pos hr]

end sensors

namespace sensors

/-- C31, amended. For an enabled step motor, in every reading of the arithmetic with the
laws of `float64`: `Update` returns unless the table lookup of the pattern "step" panics
(it returns for every other pattern and in manual mode), and when it returns, it returns
the new position; the velocity before the clamp is the desired velocity when
`|desired - velocity| <= acceleration * dt` as the arithmetic computes them, and the
velocity plus or minus `acceleration * dt`, as the arithmetic computes the sum, otherwise;
the new velocity is that value clamped to the speed limit, a NaN or within the limit when
the limit is not negative; and the new position is the sum of the position and the new
velocity times `dt`, as the arithmetic computes it, wrapped by `math.Mod` and the correction
of a negative remainder when the pattern is "rotate". -/
theorem StepMotor.update_velocity_limited {F : Type} [Float64Arith F] (nan : F → Prop)
    (ol : Float64Arith.OrderLaws F nan) (rl : Float64Arith.RoundingLaws F nan)
    (s : StepMotor F) (dt : Duration) (he : s.BaseSensor.IsEnabled = true) :
    (∀ (x : StepMotor F) (t : F), (x.updateVelocity t).CurrentVelocity =
      (if Float64Arith.abs (x.desiredVelocity - x.CurrentVelocity) ≤ x.Acceleration * t then
        x.desiredVelocity
       else if x.desiredVelocity - x.CurrentVelocity > 0 then
        x.CurrentVelocity + x.Acceleration * t
       else x.CurrentVelocity - x.Acceleration * t)) ∧
    ((s.AutoMode = true → s.AutoPattern ≠ "step") → (s.Update dt).isSome = true) ∧
    ∀ (p : F) (s1 : StepMotor F), s.Update dt = some (p, s1) →
      p = s1.CurrentPosition ∧
      ∃ target,
        ({ s with BaseSensor := s.BaseSensor.AddElapsedTime dt }).autoTarget
          (s.BaseSensor.AddElapsedTime dt).ElapsedTime = some target ∧
        s1.CurrentVelocity =
          (if (StepMotor.updateVelocity
                { s with BaseSensor := s.BaseSensor.AddElapsedTime dt,
                         TargetPosition := target }
                (Duration.Seconds dt)).CurrentVelocity > s.MaxSpeed then s.MaxSpeed
           else if (StepMotor.updateVelocity
                { s with BaseSensor := s.BaseSensor.AddElapsedTime dt,
                         TargetPosition := target }
                (Duration.Seconds dt)).CurrentVelocity < -s.MaxSpeed then -s.MaxSpeed
           else (StepMotor.updateVelocity
                { s with BaseSensor := s.BaseSensor.AddElapsedTime dt,
                         TargetPosition := target }
                (Duration.Seconds dt)).CurrentVelocity) ∧
        ((0 : F) ≤ s.MaxSpeed → nan s1.CurrentVelocity ∨
          (-s.MaxSpeed ≤ s1.CurrentVelocity ∧ s1.CurrentVelocity ≤ s.MaxSpeed)) ∧
        (s.AutoPattern ≠ "rotate" →
          s1.CurrentPosition
            = s.CurrentPosition + s1.CurrentVelocity * Duration.Seconds dt) ∧
        (s.AutoPattern = "rotate" →
          s1.CurrentPosition =
            (if Float64Arith.mod
                  (s.CurrentPosition + s1.CurrentVelocity * Duration.Seconds dt)
                  (Float64Arith.ofInt s.StepsPerRev) < 0 then
              Float64Arith.mod
                  (s.CurrentPosition + s1.CurrentVelocity * Duration.Seconds dt)
                  (Float64Arith.ofInt s.StepsPerRev) + Float64Arith.ofInt s.StepsPerRev
             else Float64Arith.mod
                  (s.CurrentPosition + s1.CurrentVelocity * Duration.Seconds dt)
                  (Float64Arith.ofInt s.StepsPerRev))) := by
  have hu := stepMotor_update_enabled s dt he
  refine ⟨fun x t => (stepMotor_updateVelocity_eq x t).1, ?_, ?_⟩
  · intro hm
    rw [hu, Option.isSome_map']
    exact stepMotor_autoTarget_isSome _ _ hm
  · intro p s1 h
    rw [hu] at h
    cases ht : ({ s with BaseSensor := s.BaseSensor.AddElapsedTime dt }).autoTarget
        (s.BaseSensor.AddElapsedTime dt).ElapsedTime with
    | none =>
      rw [ht] at h
      exact absurd h (by simp)
    | some target =>
      rw [ht] at h
      simp only [Option.map_some', Option.some.injEq, Prod.mk.injEq] at h
      obtain ⟨hp, hs1⟩ := h
      obtain ⟨m1, m2, m3, _, m5⟩ := stepMotor_move_eq nan ol rl
        ({ s with BaseSensor := s.BaseSensor.AddElapsedTime dt, TargetPosition := target })
        (Duration.Seconds dt)
      rw [← hs1]
      exact ⟨hp.symm, target, rfl, m1, m2, m3, m5⟩

/-- Instance of C31, amended, in `float64` arithmetic: the sample step motor (speed limit
1000, acceleration 2, manual mode) with the target 100, on a tick of 50 ms. -/
theorem StepMotor.update_velocity_limited_witness :
    (@StepMotor.Update GoFloat64 Float64Arith.amd64
      ((StepMotor.sample64 (GoFloat64.ofInt 1000) (GoFloat64.ofInt 2) false
        "oscillate").SetTargetPosition (GoFloat64.ofInt 100)) 50000000).isSome = true ∧
    ∀ p s1,
      @StepMotor.Update GoFloat64 Float64Arith.amd64
        ((StepMotor.sample64 (GoFloat64.ofInt 1000) (GoFloat64.ofInt 2) false
          "oscillate").SetTargetPosition (GoFloat64.ofInt 100)) 50000000 = some (p, s1) →
      p = s1.CurrentPosition ∧
      (s1.CurrentVelocity.isNaN = true ∨
        (GoFloat64.le (GoFloat64.ofInt 1000).neg s1.CurrentVelocity ∧
          GoFloat64.le s1.CurrentVelocity (GoFloat64.ofInt 1000))) :=
  have h := (@StepMotor.update_velocity_limited GoFloat64 Float64Arith.amd64
    (fun x => x.isNaN = true) (Float64Arith.ieee_orderLaws _ _)
    (Float64Arith.ieee_roundingLaws _ _)
    ((StepMotor.sample64 (GoFloat64.ofInt 1000) (GoFloat64.ofInt 2) false
      "oscillate").SetTargetPosition (GoFloat64.ofInt 100)) 50000000 rfl).2
  ⟨h.1 (fun h => Bool.noConfusion h),
    fun p s1 hh => ⟨(h.2 p s1 hh).1,
      (h.2 p s1 hh).2.elim (fun _ h3 =>
        h3.2.2.1 (by decide! : GoFloat64.le (GoFloat64.ofRat ((0 : Nat) : ℚ))
          (GoFloat64.ofInt 1000)))⟩⟩

/-- C31, as stated, fails, in `float64` arithmetic.  The sample step motor (speed limit
1000, acceleration 2, manual mode) with the target 100: the first `Update`, of 50 ms, leaves
the velocity 0.1 and the position 0.005000000000000001; the second, of 100 ms, leaves the
velocity 0.1 + 0.2 = 0.30000000000000004, which differs from 0.1 by 0.20000000000000004,
more than `acceleration * dt = 0.2`. -/
theorem StepMotor.update_exceeds_acceleration :
    (@StepMotor.after GoFloat64 Float64Arith.amd64
      ((StepMotor.sample64 (GoFloat64.ofInt 1000) (GoFloat64.ofInt 2) false
        "oscillate").SetTargetPosition (GoFloat64.ofInt 100)) [50000000]).map
        (fun s => (s.CurrentVelocity, s.CurrentPosition))
      = some (GoFloat64.ofRatio false 1 10, GoFloat64.ofBits 4572414629676717180) ∧
    (@StepMotor.after GoFloat64 Float64Arith.amd64
      ((StepMotor.sample64 (GoFloat64.ofInt 1000) (GoFloat64.ofInt 2) false
        "oscillate").SetTargetPosition (GoFloat64.ofInt 100)) [50000000, 100000000]).map
        (fun s => s.CurrentVelocity)
      = some (GoFloat64.ofBits 4599075939470750516) ∧
    GoFloat64.sub (GoFloat64.ofBits 4599075939470750516) (GoFloat64.ofRatio false 1 10)
      = GoFloat64.ofBits 4596373779694328219 ∧
    GoFloat64.mul (GoFloat64.ofInt 2) (@Duration.Seconds GoFloat64 Float64Arith.amd64 100000000)
      = GoFloat64.ofBits 4596373779694328218 ∧
    GoFloat64.lt (GoFloat64.ofBits 4596373779694328218)
      (GoFloat64.ofBits 4596373779694328219) := by
  decide!

/-- C32, amended. For an enabled step motor with the pattern "rotate" and
`stepsPerRev > 0` (a value of `int`), in every reading of the arithmetic with the laws of
`float64`: `Update` returns the new position, which is a NaN or satisfies
`0 <= position <= stepsPerRev`, and the motor is still enabled with this pattern and this
number of steps, so that the bound holds after every `Update`. -/
theorem StepMotor.update_rotate_within_turn {F : Type} [Float64Arith F] (nan : F → Prop)
    (ol : Float64Arith.OrderLaws F nan) (rl : Float64Arith.RoundingLaws F nan)
    (s : StepMotor F) (dt : Duration) (he : s.BaseSensor.IsEnabled = true)
    (hr : s.AutoPattern = "rotate") (hn : 0 < s.StepsPerRev)
    (hn2 : s.StepsPerRev < 9223372036854775808) :
    ∃ p s1, s.Update dt = some (p, s1) ∧ p = s1.CurrentPosition ∧
      s1.BaseSensor.IsEnabled = true ∧ s1.AutoPattern = "rotate" ∧
      s1.StepsPerRev = s.StepsPerRev ∧
      (nan p ∨ ((0 : F) ≤ p ∧ p ≤ Float64Arith.ofInt s.StepsPerRev)) := by
  have hm : s.AutoMode = true → s.AutoPattern ≠ "step" := by
    intro _
    rw [hr]
    decide
  have hsome := stepMotor_autoTarget_isSome
    ({ s with BaseSensor := s.BaseSensor.AddElapsedTime dt })
    (s.BaseSensor.AddElapsedTime dt).ElapsedTime hm
  obtain ⟨target, ht⟩ := Option.isSome_iff_exists.mp hsome
  have hu := stepMotor_update_enabled s dt he
  rw [ht] at hu
  obtain ⟨_, _, _, m4, _⟩ := stepMotor_move_eq nan ol rl
    ({ s with BaseSensor := s.BaseSensor.AddElapsedTime dt, TargetPosition := target })
    (Duration.Seconds dt)
  obtain ⟨_, _, f3, _, f5, _, _⟩ := stepMotor_move_frame
    ({ s with BaseSensor := s.BaseSensor.AddElapsedTime dt, TargetPosition := target })
    (Duration.Seconds dt)
  have hb := stepMotor_move_base
    ({ s with BaseSensor := s.BaseSensor.AddElapsedTime dt, TargetPosition := target })
    (Duration.Seconds dt)
  refine ⟨_, _, hu, rfl, ?_, ?_, f3, m4 hr (rl.ofInt_pos _ hn hn2)⟩
  · rw [hb]
    exact he
  · rw [f5]
    exact hr

/-- Instance of C32, amended, in `float64` arithmetic: the sample step motor in auto mode
with the pattern "rotate", on a tick of 1 s. -/
theorem StepMotor.update_rotate_within_turn_witness :
    ∃ p s1, @StepMotor.Update GoFloat64 Float64Arith.amd64
        (StepMotor.sample64 (GoFloat64.ofInt 1000) (GoFloat64.ofInt 500) true "rotate")
        1000000000 = some (p, s1) ∧ p = s1.CurrentPosition ∧
      s1.BaseSensor.IsEnabled = true ∧ s1.AutoPattern = "rotate" ∧
      s1.StepsPerRev = 200 ∧
      (p.isNaN = true ∨ (GoFloat64.le (GoFloat64.ofRat ((0 : Nat) : ℚ)) p ∧
        GoFloat64.le p (GoFloat64.ofInt 200))) :=
  @StepMotor.update_rotate_within_turn GoFloat64 Float64Arith.amd64
    (fun x => x.isNaN = true) (Float64Arith.ieee_orderLaws _ _)
    (Float64Arith.ieee_roundingLaws _ _)
    (StepMotor.sample64 (GoFloat64.ofInt 1000) (GoFloat64.ofInt 500) true "rotate")
    1000000000 rfl rfl (by decide!) (by decide!)

/-- C32, as stated, fails, in `float64` arithmetic.  The sample step motor (200 steps per
revolution, acceleration 500) in manual mode with the pattern "rotate" and the target -100,
on a tick of 1 ns: the velocity becomes -5e-7 and the position -5e-16; `math.Mod` leaves
that remainder, and the sum -5e-16 + 200 rounds to 200, so `Update` returns the position
200, which is not below the steps of a revolution. -/
theorem StepMotor.update_rotate_reaches_turn :
    (@StepMotor.Update GoFloat64 Float64Arith.amd64
      ((StepMotor.sample64 (GoFloat64.ofInt 1000) (GoFloat64.ofInt 500) false
        "rotate").SetTargetPosition (GoFloat64.ofInt 100).neg) 1).map (fun r => r.1)
      = some (GoFloat64.ofInt 200) ∧
    (StepMotor.sample64 (GoFloat64.ofInt 1000) (GoFloat64.ofInt 500) false
        "rotate").BaseSensor.IsEnabled = true ∧
    (StepMotor.sample64 (GoFloat64.ofInt 1000) (GoFloat64.ofInt 500) false
        "rotate").StepsPerRev = 200 ∧
    ¬ GoFloat64.lt (GoFloat64.ofInt 200) (GoFloat64.ofInt 200) := by
  decide!

/-- C33: the overshoot, in `float64` arithmetic.  The sample step motor (speed limit 1000,
acceleration 500, manual mode) at rest at position 0 with the target 3 set by
`SetTargetPosition`: the first `Update`, of 100 ms, finds no braking distance to keep (the
velocity is 0), takes the velocity 50 and returns the position 5, beyond the target. -/
theorem StepMotor.update_overshoots_target_float64 :
    (StepMotor.sample64 (GoFloat64.ofInt 1000) (GoFloat64.ofInt 500) false
        "oscillate").CurrentPosition = GoFloat64.ofBits 0 ∧
    (StepMotor.sample64 (GoFloat64.ofInt 1000) (GoFloat64.ofInt 500) false
        "oscillate").CurrentVelocity = GoFloat64.ofBits 0 ∧
    (@StepMotor.Update GoFloat64 Float64Arith.amd64
      ((StepMotor.sample64 (GoFloat64.ofInt 1000) (GoFloat64.ofInt 500) false
        "oscillate").SetTargetPosition (GoFloat64.ofInt 3)) 100000000).map
        (fun r => (r.1, r.2.CurrentVelocity, r.2.TargetPosition))
      = some (GoFloat64.ofInt 5, GoFloat64.ofInt 50, GoFloat64.ofInt 3) ∧
    GoFloat64.lt (GoFloat64.ofInt 3) (GoFloat64.ofInt 5) := by
  decide!

end sensors

/-! ## The ramp of the integer actuator in every arithmetic and in `float64` -/

namespace sensors

/-- The ramp block of `IntegerActuator.Update`, for every reading of the arithmetic: with
`P = float64(max - min) / rampRate` and `c = math.Mod(elapsed, P * 2)` it leaves
`min + int(float64(max - min) * (c / P))` when `c < P` and
`max - int(float64(max - min) * ((c - P) / P))` otherwise, the operations on `int` reduced
to 64 bits. -/
theorem integer_autoValue_ramp {F : Type} [Float64Arith F] (i : IntegerActuator F)
    (elapsed : F) (ha : i.AutoMode = true) (hp : i.AutoPattern = "ramp") :
    i.autoValue elapsed =
      (if Float64Arith.mod elapsed
            (Float64Arith.ofInt (GoInt.sub i.MaxValue i.MinValue) / i.RampRate * 2)
          < Float64Arith.ofInt (GoInt.sub i.MaxValue i.MinValue) / i.RampRate then
        GoInt.add i.MinValue (Float64Arith.toInt
          (Float64Arith.ofInt (GoInt.sub i.MaxValue i.MinValue) *
            (Float64Arith.mod elapsed
                (Float64Arith.ofInt (GoInt.sub i.MaxValue i.MinValue) / i.RampRate * 2) /
              (Float64Arith.ofInt (GoInt.sub i.MaxValue i.MinValue) / i.RampRate))))
       else
        GoInt.sub i.MaxValue (Float64Arith.toInt
          (Float64Arith.ofInt (GoInt.sub i.MaxValue i.MinValue) *
            ((Float64Arith.mod elapsed
                (Float64Arith.ofInt (GoInt.sub i.MaxValue i.MinValue) / i.RampRate * 2) -
                Float64Arith.ofInt (GoInt.sub i.MaxValue i.MinValue) / i.RampRate) /
              (Float64Arith.ofInt (GoInt.sub i.MaxValue i.MinValue) / i.RampRate))))) := by
  unfold IntegerActuator.autoValue
  simp only [ha, hp, if_true]

/-- C16, amended. For an enabled integer actuator in auto mode with the pattern "ramp", in
every reading of the arithmetic, with `P = float64(max - min) / rampRate` and
`c = math.Mod(elapsed, P * 2)` at the elapsed time after the tick: `Update` returns the
`float64` of `min + int(float64(max - min) * (c / P))` when `c < P` and of
`max - int(float64(max - min) * ((c - P) / P))` otherwise, clamped to [min, max] after the
conversion to `int`.  In `float64` arithmetic, for min 0, max 100 and ramp rate 10, the
calls that reach the elapsed times 5 s, 15 s and 20 s return 50, 50 and 0. -/
theorem IntegerActuator.update_ramp_float64 :
    (∀ (F : Type) [Float64Arith F] (i : IntegerActuator F) (dt : Duration),
      i.BaseSensor.IsEnabled = true → i.AutoMode = true → i.AutoPattern = "ramp" →
      (i.Update dt).1 = Float64Arith.ofInt
        (if (if ({ i with BaseSensor := i.BaseSensor.AddElapsedTime dt }).autoValue
                (i.BaseSensor.AddElapsedTime dt).ElapsedTime < i.MinValue then i.MinValue
             else ({ i with BaseSensor := i.BaseSensor.AddElapsedTime dt }).autoValue
                (i.BaseSensor.AddElapsedTime dt).ElapsedTime) > i.MaxValue then i.MaxValue
         else (if ({ i with BaseSensor := i.BaseSensor.AddElapsedTime dt }).autoValue
                (i.BaseSensor.AddElapsedTime dt).ElapsedTime < i.MinValue then i.MinValue
             else ({ i with BaseSensor := i.BaseSensor.AddElapsedTime dt }).autoValue
                (i.BaseSensor.AddElapsedTime dt).ElapsedTime)) ∧
      (i.BaseSensor.AddElapsedTime dt).ElapsedTime
        = i.BaseSensor.ElapsedTime + Duration.Seconds dt ∧
      ∀ elapsed : F,
        ({ i with BaseSensor := i.BaseSensor.AddElapsedTime dt }).autoValue elapsed =
          (if Float64Arith.mod elapsed
                (Float64Arith.ofInt (GoInt.sub i.MaxValue i.MinValue) / i.RampRate * 2)
              < Float64Arith.ofInt (GoInt.sub i.MaxValue i.MinValue) / i.RampRate then
            GoInt.add i.MinValue (Float64Arith.toInt
              (Float64Arith.ofInt (GoInt.sub i.MaxValue i.MinValue) *
                (Float64Arith.mod elapsed
                    (Float64Arith.ofInt (GoInt.sub i.MaxValue i.MinValue) / i.RampRate * 2) /
                  (Float64Arith.ofInt (GoInt.sub i.MaxValue i.MinValue) / i.RampRate))))
           else
            GoInt.sub i.MaxValue (Float64Arith.toInt
              (Float64Arith.ofInt (GoInt.sub i.MaxValue i.MinValue) *
                ((Float64Arith.mod elapsed
                    (Float64Arith.ofInt (GoInt.sub i.MaxValue i.MinValue) / i.RampRate * 2) -
                    Float64Arith.ofInt (GoInt.sub i.MaxValue i.MinValue) / i.RampRate) /
                  (Float64Arith.ofInt (GoInt.sub i.MaxValue i.MinValue) / i.RampRate)))))) ∧
    @IntegerActuator.outputs GoFloat64 Float64Arith.amd64 IntegerActuator.sample64
        [5000000000, 10000000000, 5000000000]
      = [GoFloat64.ofInt 50, GoFloat64.ofInt 50, GoFloat64.ofInt 0] := by
  constructor
  · intro F _ i dt he ha hp
    refine ⟨(integer_update_enabled i dt he).2, rfl, ?_⟩
    intro elapsed
    exact integer_autoValue_ramp _ elapsed ha hp
  · decide!

/-- C16, as stated, fails, in `float64` arithmetic.  The actuator of the scenario (min 0,
max 100, ramp rate 10), fresh from its constructor.  `Update(700 ms)` returns 6: the
quotient 0.7 / 10 rounds to 0.06999999999999999, the product with 100 to 6.999999999999999,
and the conversion to `int` drops the fraction, where the ramp of the specification at
0.7 s is 7.  `Update(300 ms)` returns 3: the elapsed time is the `float64` 0.3, which is
below 3/10, and the ramp of the specification at that value is 2. -/
theorem IntegerActuator.update_ramp_rounds :
    @IntegerActuator.outputs GoFloat64 Float64Arith.amd64 IntegerActuator.sample64 [700000000]
      = [GoFloat64.ofInt 6] ∧
    IntegerActuator.rampValue 0 100 (10 : ℚ) (7 / 10) = 7 ∧
    @IntegerActuator.outputs GoFloat64 Float64Arith.amd64 IntegerActuator.sample64 [300000000]
      = [GoFloat64.ofInt 3] ∧
    (@IntegerActuator.Update GoFloat64 Float64Arith.amd64 IntegerActuator.sample64
      300000000).2.BaseSensor.ElapsedTime = GoFloat64.ofBits 4599075939470750515 ∧
    IntegerActuator.rampValue 0 100 (10 : ℚ) (GoFloat64.ofBits 4599075939470750515).toRat
      = 2 := by
  decide!

end sensors

/-! ## The servo motor in every arithmetic with the laws of `float64` -/

namespace sensors

end sensors

namespace sensors

end sensors

/-! ## The noise sensor: the duty-cycle interpolation -/

namespace sensors

/-- The method `Update` of an enabled noise sensor, for every reading of the arithmetic,
builds its value on the base level of the cycle at the new elapsed time: with no spike
drawn or active and no noise, it returns that level after the two clamping steps. -/
theorem noiseSensor_update_baseNoise {F : Type} [Float64Arith F] (n : NoiseSensor F)
    (dt : Duration) (g : GoRand F) (he : n.BaseSensor.IsEnabled = true)
    (hs : ¬ g.Float64.1 < n.SpikeProb) (ha : n.spikeActive = false)
    (hn : ¬ n.NoiseStdDev > 0) :
    (n.Update dt g).1 =
      (if (if n.baseNoise (n.BaseSensor.ElapsedTime + Duration.Seconds dt) < n.MinValue
            then n.MinValue
            else n.baseNoise (n.BaseSensor.ElapsedTime + Duration.Seconds dt)) > n.MaxValue
       then n.MaxValue
       else (if n.baseNoise (n.BaseSensor.ElapsedTime + Duration.Seconds dt) < n.MinValue
            then n.MinValue
            else n.baseNoise (n.BaseSensor.ElapsedTime + Duration.Seconds dt))) := by
  unfold NoiseSensor.Update
  simp only [he, Bool.not_true, Bool.false_eq_true, if_false, hs, ha, false_and, hn,
    BaseSensor.GetElapsedTime, BaseSensor.AddElapsedTime]
  rfl

/-- C39, amended. The duty-cycle interpolation of the noise sensor, in every reading of the
arithmetic with the laws of `float64`, for `cyclePeriod > 0`, an elapsed time that is not
negative and whose remainder `math.Mod(elapsed, cyclePeriod)` is a number (the elapsed time
is finite), and every duty cycle that is a number, 0 and 1 included: the cycle position
`math.Mod(elapsed, cyclePeriod) / cyclePeriod` lies in [0, 1); the code takes the branch
that divides by the duty cycle exactly when the cycle position is below the duty cycle, and
the duty cycle is then positive; otherwise it takes the branch that divides by
`1.0 - dutyCycle`, and then the duty cycle is below 1 and that divisor positive; so the
divisor of the branch taken is positive.  The base level is the ambient level plus, or the
peak level minus, `(peak - ambient) * ((1.0 - cos(progress * pi)) / 2.0)`, each operation
as the arithmetic computes it, and `Update`, with no spike and no noise, returns it after
the two clamping steps. -/
theorem NoiseSensor.interpolation_divisor_positive {F : Type} [Float64Arith F]
    (nan : F → Prop) (ol : Float64Arith.OrderLaws F nan)
    (rl : Float64Arith.RoundingLaws F nan) (n : NoiseSensor F) (elapsed : F)
    (hp : (0 : F) < n.CyclePeriod) (he : (0 : F) ≤ elapsed)
    (hf : ¬ nan (Float64Arith.mod elapsed n.CyclePeriod)) (hd : ¬ nan n.DutyCycle) :
    ((0 : F) ≤ n.cyclePosition elapsed ∧ n.cyclePosition elapsed < 1.0) ∧
    (0 : F) < n.progressDivisor elapsed ∧
    (n.cyclePosition elapsed < n.DutyCycle →
      (0 : F) < n.DutyCycle ∧ n.progressDivisor elapsed = n.DutyCycle ∧
      n.baseNoise elapsed = n.AmbientLevel + (n.PeakLevel - n.AmbientLevel) *
        ((1.0 - Float64Arith.cos (n.cyclePosition elapsed / n.DutyCycle * Float64Arith.pi))
          / 2.0)) ∧
    (¬ n.cyclePosition elapsed < n.DutyCycle →
      n.DutyCycle < 1.0 ∧ n.progressDivisor elapsed = 1.0 - n.DutyCycle ∧
      n.baseNoise elapsed = n.PeakLevel - (n.PeakLevel - n.AmbientLevel) *
        ((1.0 - Float64Arith.cos ((n.cyclePosition elapsed - n.DutyCycle) /
          (1.0 - n.DutyCycle) * Float64Arith.pi)) / 2.0)) ∧
    (∀ (dt : Duration) (g : GoRand F), n.BaseSensor.IsEnabled = true →
      elapsed = n.BaseSensor.ElapsedTime + Duration.Seconds dt →
      ¬ g.Float64.1 < n.SpikeProb → n.spikeActive = false → ¬ n.NoiseStdDev > 0 →
      (n.Update dt g).1 =
        (if (if n.baseNoise elapsed < n.MinValue then n.MinValue
              else n.baseNoise elapsed) > n.MaxValue then n.MaxValue
         else (if n.baseNoise elapsed < n.MinValue then n.MinValue
              else n.baseNoise elapsed))) := by
  have hpos : (0 : F) ≤ n.cyclePosition elapsed ∧ n.cyclePosition elapsed < 1.0 :=
    rl.mod_div_range elapsed n.CyclePeriod he hp hf
  obtain ⟨h0, h1⟩ := hpos
  have hb1 : n.cyclePosition elapsed < n.DutyCycle → (0 : F) < n.DutyCycle :=
    fun h => ol.lt_of_le_of_lt _ _ _ h0 h
  have hb2 : ¬ n.cyclePosition elapsed < n.DutyCycle → n.DutyCycle < 1.0 := by
    intro h
    have hle := ol.le_of_not_lt _ _ (ol.le_not_nan _ _ h0).2 hd h
    exact ol.lt_of_le_of_lt _ _ _ hle h1
  refine ⟨⟨h0, h1⟩, ?_, ?_, ?_, ?_⟩
  · unfold NoiseSensor.progressDivisor
    by_cases h : n.cyclePosition elapsed < n.DutyCycle
    · rw [if_pos h]
      exact hb1 h
    · rw [if_neg h]
      exact rl.sub_pos _ _ (hb2 h)
  · intro h
    refine ⟨hb1 h, ?_, ?_⟩
    · unfold NoiseSensor.progressDivisor
      rw [if_pos h]
    · unfold NoiseSensor.baseNoise
      simp only [h, if_true]
  · intro h
    refine ⟨hb2 h, ?_, ?_⟩
    · unfold NoiseSensor.progressDivisor
      rw [if_neg h]
    · unfold NoiseSensor.baseNoise
      simp only [h, if_false]
  · intro dt g hen hel hs ha hn
    rw [hel]
    exact noiseSensor_update_baseNoise n dt g hen hs ha hn

/-- Instance of C39, amended, in `float64` arithmetic: the sample noise sensor at the
elapsed time 2.5 s, a quarter into its cycle, takes the branch that divides by the duty
cycle 0.5. -/
theorem NoiseSensor.interpolation_divisor_positive_witness :
    GoFloat64.lt (GoFloat64.ofRat ((0 : Nat) : ℚ))
      (@NoiseSensor.progressDivisor GoFloat64 Float64Arith.amd64 NoiseSensor.sample64
        (GoFloat64.ofRatio false 5 2)) ∧
    @NoiseSensor.progressDivisor GoFloat64 Float64Arith.amd64 NoiseSensor.sample64
      (GoFloat64.ofRatio false 5 2) = GoFloat64.ofRatio false 1 2 :=
  ⟨(@NoiseSensor.interpolation_divisor_positive GoFloat64 Float64Arith.amd64
      (fun x => x.isNaN = true) (Float64Arith.ieee_orderLaws _ _)
      (Float64Arith.ieee_roundingLaws _ _) NoiseSensor.sample64 (GoFloat64.ofRatio false 5 2)
      (by decide!) (by decide!) (by decide!) (by decide!)).2.1,
    by decide!⟩

/-- C39, as stated, fails, in `float64` arithmetic.  The sample noise sensor (ambient level
0.3, peak level 0.9, cycle 10 s, duty cycle 0.5) on a tick of 4.99999999 s: the cycle
position is 0.49999999900000003, below the duty cycle, the progress times `pi` is within
`2^-27` of `pi`, where the cosine is -1, and the base level
0.3 + (0.9 - 0.3) * 1 = 0.3 + 0.6000000000000001 rounds to 0.9000000000000001, above the
peak level; `Update` returns that value. -/
theorem NoiseSensor.base_level_exceeds_peak :
    (@BaseSensor.AddElapsedTime GoFloat64 Float64Arith.amd64 NoiseSensor.sample64.BaseSensor
      4999999990).ElapsedTime = GoFloat64.ofBits 4617315517950342025 ∧
    GoFloat64.lt
      (@NoiseSensor.cyclePosition GoFloat64 Float64Arith.amd64 NoiseSensor.sample64
        (GoFloat64.ofBits 4617315517950342025)) NoiseSensor.sample64.DutyCycle ∧
    GoFloat64.le NoiseSensor.sample64.AmbientLevel NoiseSensor.sample64.PeakLevel ∧
    @NoiseSensor.baseNoise GoFloat64 Float64Arith.amd64 NoiseSensor.sample64
      (GoFloat64.ofBits 4617315517950342025) = GoFloat64.ofBits 4606281698874543310 ∧
    NoiseSensor.sample64.PeakLevel = GoFloat64.ofBits 4606281698874543309 ∧
    GoFloat64.lt NoiseSensor.sample64.PeakLevel (GoFloat64.ofBits 4606281698874543310) ∧
    (@NoiseSensor.Update GoFloat64 Float64Arith.amd64 NoiseSensor.sample64 4999999990
      (GoRand.sample64 1)).1 = GoFloat64.ofBits 4606281698874543310 := by
  decide!

end sensors

/-! ## The pressure sensor: the phases of the cycle -/

namespace sensors

end sensors

namespace sensors

end sensors

